import Mathlib

/-!
JASP dataset store and worker engine: a shallow embedding of `DatabaseInterface`,
`DataSet`, `Engine` and `Term`.

The definitions below follow `src/CommonData/databaseinterface.cpp`,
`src/CommonData/dataset.cpp`, `src/Engine/engine.cpp`, `src/Engine/enginebase.cpp`
and `src/QMLComponents/models/term.cpp`.  The embedded relational engine is
represented by the tables the C++ code reads and writes; every SQL text that the
embedded functions issue is one constructor of `Stmt`, and `Stmt.step` gives its
effect on those tables.
-/

namespace Jasp

/-! ## Values -/

/-- An IEEE-754 binary64 value as its three bit fields: sign bit, biased exponent
and fraction.  Equality of two `Dbl` is equality of bit patterns. -/
structure Dbl where
  sign : Bool
  expo : Fin 2048
  frac : Fin 4503599627370496
deriving DecidableEq

namespace Dbl

/-- The C library classification `std::isnan`. -/
def isnan (d : Dbl) : Bool := d.expo.val == 2047 && d.frac.val != 0

/-- The C library classification `std::isinf`. -/
def isinf (d : Dbl) : Bool := d.expo.val == 2047 && d.frac.val == 0

/-- Neither NaN nor an infinity. -/
def isFinite (d : Dbl) : Bool := !(d.isnan || d.isinf)

/-- The comparison `dbl < 0`: false for NaN and for both zeros. -/
def ltZero (d : Dbl) : Bool :=
  d.sign && !d.isnan && !(d.expo.val == 0 && d.frac.val == 0)

/-- The value of `std::numeric_limits<double>::infinity()`. -/
def infinity : Dbl := ⟨false, 2047, 0⟩

/-- The value of `-1 * std::numeric_limits<double>::infinity()`. -/
def negInfinity : Dbl := ⟨true, 2047, 0⟩

/-- The value `+0.0`. -/
def zero : Dbl := ⟨false, 0, 0⟩

/-- The value `-0.0`: the sign bit set, exponent and fraction zero. -/
def negZero : Dbl := ⟨true, 0, 0⟩

/-- The value `1.0`. -/
def one : Dbl := ⟨false, 1023, 0⟩

end Dbl

/-- The 32-bit two's complement value a C `int` takes when a 64-bit integer of the
store is narrowed to it: a value in range is kept, any other value wraps around
modulo 2^32. -/
def toInt32 : Int → Int
  | Int.ofNat k =>
    if k < 2147483648 then Int.ofNat k
    else (Int.ofNat k + 2147483648) % 4294967296 - 2147483648
  | Int.negSucc k =>
    if k < 2147483648 then Int.negSucc k
    else (Int.negSucc k + 2147483648) % 4294967296 - 2147483648

/-- A value is representable as a C `int`. -/
def inInt32 (i : Int) : Prop := -2147483648 ≤ i ∧ i < 2147483648

instance (i : Int) : Decidable (inInt32 i) := by unfold inInt32; infer_instance

/-- A dynamically typed value held in one storage slot of the store. -/
inductive SqlValue where
  | null
  | integer (i : Int)
  | real (d : Dbl)
  | text (s : String)
deriving DecidableEq

/-- The conversions the embedded engine applies when a slot is read with a type
other than the one stored.  They belong to the engine, not to this repository, and
are parameters of everything below. -/
structure SqliteConv where
  realToText : Dbl → String
  intToText : Int → String
  realToInt : Dbl → Int
  textToInt : String → Int
  textToReal : String → Dbl
  intToReal : Int → Dbl

/-- The engine's `sqlite3_column_text`: `none` is the NULL pointer returned for a
NULL slot. -/
def sqlite3_column_text (cv : SqliteConv) : SqlValue → Option String
  | .null => none
  | .integer i => some (cv.intToText i)
  | .real d => some (cv.realToText d)
  | .text s => some s

/-- The engine's `sqlite3_column_int`, with its result narrowed to a C `int`. -/
def sqlite3_column_int (cv : SqliteConv) : SqlValue → Int
  | .null => 0
  | .integer i => toInt32 i
  | .real d => toInt32 (cv.realToInt d)
  | .text s => toInt32 (cv.textToInt s)

/-- The engine's `sqlite3_column_double`. -/
def sqlite3_column_double (cv : SqliteConv) : SqlValue → Dbl
  | .null => Dbl.zero
  | .integer i => cv.intToReal i
  | .real d => d
  | .text s => cv.textToReal s

/-- The engine's `sqlite3_bind_double`: a NaN is bound as NULL. -/
def sqlite3_bind_double (d : Dbl) : SqlValue :=
  if d.isnan then .null else .real d

/-- The engine's `sqlite3_bind_int`. -/
def sqlite3_bind_int (i : Int) : SqlValue := .integer i

/-- The engine's `sqlite3_bind_text`. -/
def sqlite3_bind_text (s : String) : SqlValue := .text s

/-- The enumeration `dbDbl` of the three non-finite categories. -/
inductive dbDbl where
  | nan
  | inf
  | neg_inf
deriving DecidableEq

/-- Modelled from the spec: `dbDblToString` is generated by an enumeration macro
that is not part of the sources at hand; it yields the name of the enumerator, one
of the three fixed sentinel strings. -/
def dbDblToString : dbDbl → String
  | .nan => "nan"
  | .inf => "inf"
  | .neg_inf => "neg_inf"

/-- Modelled from the spec: `EmptyValues::missingValueDouble` is defined outside
the sources at hand.  It is the missing-value marker of the NaN category, here the
quiet NaN with an otherwise empty payload. -/
def missingValueDouble : Dbl := ⟨false, 2047, 2251799813685248⟩

/-- Modelled from the spec: `EmptyValues::missingValueInteger` is defined outside
the sources at hand; it is the lowest C `int`. -/
def missingValueInteger : Int := -2147483648

/-- `DatabaseInterface::_wrap_sqlite3_column_text`: the text of a slot, the empty
string for NULL. -/
def _wrap_sqlite3_column_text (cv : SqliteConv) (v : SqlValue) : String :=
  match sqlite3_column_text cv v with
  | none => ""
  | some s => s

/-- `DatabaseInterface::_doubleTroubleBinder`: the value bound to the parameter. -/
def _doubleTroubleBinder (dbl : Dbl) : SqlValue :=
  if dbl.isnan || dbl.isinf then
    sqlite3_bind_text
      (dbDblToString (if dbl.isnan then dbDbl.nan else if dbl.ltZero then dbDbl.neg_inf else dbDbl.inf))
  else
    sqlite3_bind_double dbl

/-- `DatabaseInterface::_doubleTroubleReader` applied to the slot at `colI`. -/
def _doubleTroubleReader (cv : SqliteConv) (slot : SqlValue) : Dbl :=
  let strVal := _wrap_sqlite3_column_text cv slot
  if !strVal.isEmpty then
    if strVal == dbDblToString dbDbl.inf then Dbl.infinity
    else if strVal == dbDblToString dbDbl.neg_inf then Dbl.negInfinity
    else if strVal == dbDblToString dbDbl.nan then missingValueDouble
    else sqlite3_column_double cv slot
  else
    sqlite3_column_double cv slot

/-- The engine renders no finite REAL as one of the three sentinel strings (its
text form of a finite number is a decimal numeral). -/
def RendersNumeric (cv : SqliteConv) : Prop :=
  ∀ d : Dbl, d.isFinite = true →
    cv.realToText d ≠ dbDblToString dbDbl.inf ∧
    cv.realToText d ≠ dbDblToString dbDbl.neg_inf ∧
    cv.realToText d ≠ dbDblToString dbDbl.nan

/-- A concrete set of engine conversions, used to evaluate the definitions. -/
def sampleConv : SqliteConv where
  realToText := fun _ => "0.0"
  intToText := fun _ => "0"
  realToInt := fun _ => 0
  textToInt := fun _ => 0
  textToReal := fun _ => Dbl.zero
  intToReal := fun _ => Dbl.zero

/-! ## The store -/

/-- A storage slot of a dataset's physical table besides the row number:
`Filter_<id>`, `Column_<id>_DBL` or `Column_<id>_INT`. -/
inductive SlotName where
  | filter (id : Int)
  | colDbl (id : Int)
  | colInt (id : Int)
deriving DecidableEq

/-- The declared default of a slot: `INT NOT NULL DEFAULT 1` for a filter mask, NULL
for the two slots of a column. -/
def SlotName.dflt : SlotName → SqlValue
  | .filter _ => .integer 1
  | .colDbl _ => .null
  | .colInt _ => .null

/-- The value a slot declared `REAL` hands back for a value stored in it.  The store
keeps a double that equals an integer as that integer and hands it back as the
double of that integer, so that `-0.0` comes back as `+0.0`; every other double
comes back with its own bits.  NULL and a text that is no numeral (the three
sentinel strings among them) are kept as they are.  A text that is a numeral would
be turned into a number and an integer would come back as a double; the operations
bind neither to these slots. -/
def realAffinity : SqlValue → SqlValue
  | .real d => if d = Dbl.negZero then .real Dbl.zero else .real d
  | v => v

/-- The value a slot holds after `v` was stored in it: `Column_<id>_DBL` is declared
`REAL`, `Column_<id>_INT` and `Filter_<id>` are declared `INT` and keep the integers
bound to them. -/
def SlotName.stored : SlotName → SqlValue → SqlValue
  | .colDbl _, v => realAffinity v
  | _, v => v

/-- The listed values of an `INSERT` as the slots they go to hold them. -/
def storedCells (given : List (SlotName × SqlValue)) : List (SlotName × SqlValue) :=
  given.map (fun p => (p.1, p.1.stored p.2))

/-- One row of a physical table `DataSet_<id>`. -/
structure PhysRow where
  rowNumber : Int
  cells : List (SlotName × SqlValue)
deriving DecidableEq

/-- The value a row holds in a slot. -/
def PhysRow.cell (r : PhysRow) (s : SlotName) : SqlValue :=
  match r.cells.lookup s with
  | some v => v
  | none => .null

/-- Overwrite one slot of a row. -/
def PhysRow.setCell (r : PhysRow) (s : SlotName) (v : SqlValue) : PhysRow :=
  { r with cells := r.cells.map (fun p => if p.1 = s then (s, v) else p) }

/-- A physical table `DataSet_<id>`: its declared slots and its rows, in the order
in which they were inserted. -/
structure PhysTable where
  slots : List SlotName
  rows : List PhysRow
deriving DecidableEq

/-- A row of the registry table `DataSets` (the columns the operations below touch). -/
structure DataSetsRow where
  id : Int
  revision : Int
deriving DecidableEq

/-- A row of the registry table `Columns` (the columns the operations below touch). -/
structure ColumnsRow where
  id : Int
  dataSet : Int
  name : String
  colIdx : Int
  revision : Int
deriving DecidableEq

/-- A row of the registry table `Filters` (the columns the operations below touch). -/
structure FiltersRow where
  id : Int
  dataSet : Int
  rFilter : String
  name : String
  errorMsg : String
  revision : Int
deriving DecidableEq

/-- A row of the table `Labels`. -/
structure LabelsRow where
  id : Int
  columnId : Int
  value : Int
  label : String
  ordering : Int
  filterAllows : Int
  description : String
  originalValueJson : String
deriving DecidableEq

/-- The three registry tables that carry a revision counter. -/
inductive Registry where
  | DataSets
  | Columns
  | Filters
deriving DecidableEq

/-- The SQL texts issued by the embedded functions.  Values spliced into the text
are arguments of the constructor, values bound to `?` are passed at execution. -/
inductive Stmt where
  /-- SQL `BEGIN EXCLUSIVE` -/
  | beginExclusive
  /-- SQL `BEGIN DEFERRED` -/
  | beginDeferred
  /-- SQL `COMMIT` -/
  | commit
  /-- SQL `ROLLBACK` -/
  | rollback
  /-- SQL `UPDATE <registry> SET revision=revision+1 WHERE id=?;` -/
  | incRevision (t : Registry)
  /-- SQL `SELECT revision FROM <registry> WHERE id=?;` -/
  | selectRevision (t : Registry)
  /-- SQL `SELECT COUNT(*) FROM DataSet_<ds>` -/
  | selectRowCount (ds : Int)
  /-- SQL `SELECT COUNT(id) FROM Columns WHERE dataSet=<ds>` -/
  | selectColCount (ds : Int)
  /-- SQL `INSERT INTO DataSet_<ds> DEFAULT VALUES;` -/
  | insertDefaultValues (ds : Int)
  /-- SQL `DELETE FROM DataSet_<ds> WHERE rowNumber > <rowCount>;` -/
  | deleteRowsAbove (ds : Int) (rowCount : Int)
  /-- SQL `DELETE FROM DataSet_<ds>` -/
  | deleteRows (ds : Int)
  /-- SQL `INSERT INTO DataSet_<ds> (<slots>, rowNumber) VALUES (?, ..., ?);` -/
  | insertRow (ds : Int) (slots : List SlotName)
  /-- SQL `SELECT <slots> FROM DataSet_<ds> ORDER BY rowNumber` -/
  | selectSlots (ds : Int) (slots : List SlotName)
  /-- SQL `UPDATE Dataset_<ds> SET Column_<c>_INT=?, Column_<c>_DBL=? WHERE rowNumber=?` -/
  | updateColumn (ds : Int) (c : Int)
  /-- SQL `UPDATE DataSet_<ds> SET Filter_<f>= ? WHERE rowNumber = ?;` -/
  | updateFilter (ds : Int) (f : Int)
  /-- SQL `UPDATE DataSet_<ds> SET Filter_<f> = 1;` -/
  | clearFilter (ds : Int) (f : Int)
  /-- SQL `SELECT dataFilePath, dataFileTimestamp, description, databaseJson,
  emptyValuesJson, revision, dataFileSynch FROM DataSets WHERE id = ?;` -/
  | selectDataSet
  /-- SQL `SELECT id FROM DataSets WHERE id = <ds>;` -/
  | selectDataSetId (ds : Int)
  /-- SQL `SELECT id FROM Filters WHERE dataSet=? LIMIT 1;` -/
  | selectFilterOfDataSet
  /-- SQL `SELECT rFilter, generatedFilter, constructorJson, constructorR, revision, name
  FROM Filters WHERE id = ?;` -/
  | selectFilter
  /-- SQL `SELECT errorMsg FROM Filters WHERE id = ?;` -/
  | selectFilterErrorMsg
  /-- SQL `SELECT dataSet from Filters WHERE id=<f>` -/
  | selectFilterDataSet (f : Int)
  /-- SQL `SELECT dataSet from Columns WHERE id=<c>` -/
  | selectColumnDataSet (c : Int)
  /-- SQL `SELECT MAX(colIdx) from Columns WHERE dataSet=<ds>;` -/
  | selectMaxColIdx (ds : Int)
  /-- SQL `SELECT id FROM Columns WHERE dataSet=? AND colIdx=?` -/
  | selectColumnIdForIndex
  /-- SQL `SELECT colIdx FROM Columns WHERE id=?` -/
  | selectColIdx
  /-- SQL `UPDATE Columns SET colIdx=colIdx+1 WHERE dataSet=<ds> AND colIdx >= <index>;` -/
  | incrementColIdx (ds : Int) (index : Int)
  /-- SQL `UPDATE Columns SET colIdx=colIdx-1 WHERE dataSet=<ds> AND colIdx > <index>;` -/
  | decrementColIdx (ds : Int) (index : Int)
  /-- SQL `INSERT INTO Columns (dataSet, name, columnType, colIdx, analysisId)
  VALUES (?, ?, ?, ?, -1) RETURNING id;` -/
  | insertColumn
  /-- SQL `DELETE FROM Columns WHERE dataSet=? AND id=?;` -/
  | deleteColumn
  /-- SQL `UPDATE Columns SET name=? WHERE id=?;` -/
  | updateColumnName
  /-- SQL `SELECT name, title, description, columnType, revision, emptyValuesJson,
  autoSortByValue FROM Columns WHERE id = ?;` -/
  | selectColumnBasic
  /-- SQL `ALTER TABLE DataSet_<ds> ADD <slot> ...;` -/
  | addSlot (ds : Int) (slot : SlotName)
  /-- SQL `ALTER TABLE Dataset_<ds> DROP COLUMN <slot>;` -/
  | dropSlot (ds : Int) (slot : SlotName)
  /-- SQL `DROP TABLE DataSet_<ds>;` -/
  | dropTable (ds : Int)
  /-- SQL `CREATE TABLE DataSet_<ds> (rowNumber INTEGER PRIMARY KEY, <slots>);` -/
  | createTable (ds : Int) (slots : List SlotName)
  /-- SQL `UPDATE Filters SET errorMsg=? WHERE id = ?;` -/
  | updateFilterErrorMsg
  /-- SQL `UPDATE Filters SET rFilter=?, generatedFilter=?, constructorJson=?,
  constructorR=?, name=? WHERE id = ?;` -/
  | updateFilterFields
  /-- SQL `SELECT id FROM Filters WHERE name = ?` -/
  | selectFilterIdByName
  /-- SQL `SELECT id FROM DataSets LIMIT 1` -/
  | selectAnyDataSetId
  /-- SQL `INSERT INTO DataSets (dataFilePath, dataFileTimestamp, description,
  databaseJson, emptyValuesJson, dataFileSynch) VALUES (?, ?, ?, ?, ?, ?) RETURNING id;` -/
  | insertDataSet
  /-- SQL `DELETE FROM DataSets WHERE id = <ds>;` -/
  | deleteDataSet (ds : Int)
  /-- SQL `INSERT INTO Filters (dataSet, rFilter, generatedFilter, constructorJson,
  constructorR, name) VALUES (?, ?, ?, ?, ?, ?) RETURNING rowid;` -/
  | insertFilter
  /-- SQL `DELETE FROM Filters WHERE id = <f>;` -/
  | deleteFilter (f : Int)
  /-- SQL `SELECT COUNT(id) FROM Labels WHERE columnId = ?;` -/
  | selectLabelCount
  /-- SQL `SELECT id, value, label, ordering, filterAllows, description,
  originalValueJson FROM Labels WHERE columnId = ? ORDER BY ordering;` -/
  | selectLabels
  /-- SQL `UPDATE Labels SET ordering=? WHERE id=?` -/
  | updateLabelOrdering
  /-- SQL `DELETE From Labels WHERE columnId=?` -/
  | deleteLabels
  /-- SQL `INSERT INTO Labels (columnId, value, label, filterAllows, description,
  originalValueJson, ordering) VALUES (?, ?, ?, ?, ?, ?, ?) RETURNING id;` -/
  | insertLabel
  /-- The text `_dbConstructionSql`. -/
  | construction
deriving DecidableEq

/-- Whether a statement changes the content of the store (as opposed to reading
it or delimiting a transaction). -/
def Stmt.mutates : Stmt → Bool
  | .beginExclusive => false
  | .beginDeferred => false
  | .commit => false
  | .rollback => false
  | .selectRevision _ => false
  | .selectRowCount _ => false
  | .selectColCount _ => false
  | .selectSlots _ _ => false
  | .selectDataSet => false
  | .selectDataSetId _ => false
  | .selectFilterOfDataSet => false
  | .selectFilter => false
  | .selectFilterErrorMsg => false
  | .selectFilterDataSet _ => false
  | .selectColumnDataSet _ => false
  | .selectMaxColIdx _ => false
  | .selectColumnIdForIndex => false
  | .selectColIdx => false
  | .selectColumnBasic => false
  | .selectFilterIdByName => false
  | .selectAnyDataSetId => false
  | .selectLabelCount => false
  | .selectLabels => false
  | _ => true

/-- One invocation of a progress callback handed to a `DatabaseInterface`
function: the argument is kept symbolically. -/
inductive ProgressCall where
  /-- SQL `progressCallback(1)` -/
  | one
  /-- SQL `progressCallback(float(row) * rowsInverse)` with `rowsInverse = 1 / rowCount` -/
  | writeRow (row : Nat) (rowCount : Int)
  /-- SQL `progressCallback(float(row) / float(rowCount))` -/
  | loadRow (row : Nat) (rowCount : Nat)
deriving DecidableEq

/-- The state a `DatabaseInterface` works on: the content of the store (three
registry tables, one physical table per dataset and the table of labels), the two
transaction depth counters of the interface, the function-static `prevUpdate` of
`dataSetBatchedValuesUpdate`, and two traces kept for stating properties: the
statements issued and the progress callbacks made. -/
structure Db where
  dataSets : List DataSetsRow
  columns : List ColumnsRow
  filters : List FiltersRow
  tables : List (Int × PhysTable)
  transactionWriteDepth : Nat
  transactionReadDepth : Nat
  prevUpdate : Nat
  log : List Stmt
  progress : List ProgressCall
  labels : List LabelsRow := []
deriving DecidableEq

/-- The physical table `DataSet_<ds>`, when it exists. -/
def Db.table (db : Db) (ds : Int) : Option PhysTable := db.tables.lookup ds

/-- Replace the physical table `DataSet_<ds>`. -/
def Db.setTable (db : Db) (ds : Int) (t : PhysTable) : Db :=
  { db with tables := db.tables.map (fun p => if p.1 = ds then (ds, t) else p) }

/-- The stored revision of a dataset, when its registry row exists. -/
def Db.dataSetRevision (db : Db) (id : Int) : Option Int :=
  (db.dataSets.find? (fun r => r.id = id)).map (fun r => r.revision)

/-- The stored revision of a column, when its registry row exists. -/
def Db.columnRevision (db : Db) (id : Int) : Option Int :=
  (db.columns.find? (fun r => r.id = id)).map (fun r => r.revision)

/-- The stored revision of a filter, when its registry row exists. -/
def Db.filterRevision (db : Db) (id : Int) : Option Int :=
  (db.filters.find? (fun r => r.id = id)).map (fun r => r.revision)

/-- Result codes of the engine that the embedded code distinguishes. -/
inductive Rc where
  | ok
  | error
  | constraint
  | done
deriving DecidableEq

/-- The integer bound to the parameter at a position, if one is. -/
def paramInt (params : List SqlValue) (i : Nat) : Option Int :=
  match params[i]? with
  | some (.integer v) => some v
  | _ => none

/-- The text bound to the parameter at a position, the empty text otherwise. -/
def paramText (params : List SqlValue) (i : Nat) : String :=
  match params[i]? with
  | some (.text s) => s
  | _ => ""

/-- The largest value of a list of integers, if it is not empty. -/
def maxInt? : List Int → Option Int
  | [] => none
  | x :: xs =>
    match maxInt? xs with
    | none => some x
    | some m => some (if x ≤ m then m else x)

/-- The row id the engine gives a new row of a table keyed by an integer primary
key: one more than the largest in use, 1 for an empty table. -/
def nextRowId (ids : List Int) : Int :=
  match maxInt? ids with
  | none => 1
  | some m => m + 1

/-- `sqlite3_prepare_v2`: whether the statement compiles against the current
schema (`true` is `SQLITE_OK`).  A statement on a physical table needs the table
and the slots it names; `CREATE TABLE` needs the table not to exist. -/
def Stmt.prepare (db : Db) : Stmt → Bool
  | .selectRowCount ds => (db.table ds).isSome
  | .insertDefaultValues ds => (db.table ds).isSome
  | .deleteRowsAbove ds _ => (db.table ds).isSome
  | .deleteRows ds => (db.table ds).isSome
  | .insertRow ds slots =>
    match db.table ds with
    | some t => slots.all (fun s => decide (s ∈ t.slots))
    | none => false
  | .selectSlots ds slots =>
    match db.table ds with
    | some t => slots.all (fun s => decide (s ∈ t.slots))
    | none => false
  | .updateColumn ds c =>
    match db.table ds with
    | some t => decide (SlotName.colInt c ∈ t.slots) && decide (SlotName.colDbl c ∈ t.slots)
    | none => false
  | .updateFilter ds f =>
    match db.table ds with
    | some t => decide (SlotName.filter f ∈ t.slots)
    | none => false
  | .clearFilter ds f =>
    match db.table ds with
    | some t => decide (SlotName.filter f ∈ t.slots)
    | none => false
  | .addSlot ds slot =>
    match db.table ds with
    | some t => !decide (slot ∈ t.slots)
    | none => false
  | .dropSlot ds slot =>
    match db.table ds with
    | some t => decide (slot ∈ t.slots)
    | none => false
  | .dropTable ds => (db.table ds).isSome
  | .createTable ds slots => (db.table ds).isNone && decide slots.Nodup
  | _ => true

/-- The rows of a table in the order of `ORDER BY rowNumber`. -/
def orderByRowNumber (rows : List PhysRow) : List PhysRow :=
  rows.insertionSort (fun a b => a.rowNumber ≤ b.rowNumber)

/-- The rows of the table of labels in the order of `ORDER BY ordering`. -/
def orderByOrdering (rows : List LabelsRow) : List LabelsRow :=
  rows.insertionSort (fun a b => a.ordering ≤ b.ordering)

/-- The row an `INSERT` builds: every declared slot takes the value listed for it,
or its default. -/
def newRow (t : PhysTable) (rowNumber : Int) (given : List (SlotName × SqlValue)) : PhysRow :=
  { rowNumber := rowNumber
    cells := t.slots.map (fun s => (s, (given.lookup s).getD s.dflt)) }

/-- The table after `ALTER TABLE ... ADD <slot>`: every row takes the declared
default in the new slot. -/
def PhysTable.addSlot (t : PhysTable) (slot : SlotName) : PhysTable :=
  { slots := t.slots ++ [slot]
    rows := t.rows.map (fun r => { r with cells := r.cells ++ [(slot, slot.dflt)] }) }

/-- The table after `ALTER TABLE ... DROP COLUMN <slot>`. -/
def PhysTable.dropSlot (t : PhysTable) (slot : SlotName) : PhysTable :=
  { slots := t.slots.filter (fun s => !decide (s = slot))
    rows := t.rows.map (fun r =>
      { r with cells := r.cells.filter (fun p => !decide (p.1 = slot)) }) }

/-- Apply a change to the rows of the physical table `DataSet_<ds>`; without the
table the store is left as it is. -/
def Db.mapRows (db : Db) (ds : Int) (f : PhysTable → List PhysRow) : Db :=
  { db with tables := db.tables.map (fun p =>
      if p.1 = ds then (p.1, { p.2 with rows := f p.2 }) else p) }

/-- The rows a `SELECT` on a registry table yields for the entry with a given id. -/
def selectById {ρ : Type} (rows : List ρ) (getId : ρ → Int) (id : Option Int)
    (out : ρ → List SqlValue) : List (List SqlValue) :=
  (rows.filter (fun r => decide (some (getId r) = id))).map out

/-- Running a prepared statement to completion with the given bound parameters:
the final result code (`Rc.done`, or an error code), the result rows in the order
in which `sqlite3_step` delivers them, and the store afterwards. -/
def Stmt.step (params : List SqlValue) (db : Db) : Stmt → Rc × List (List SqlValue) × Db
  | .beginExclusive => (.done, [], db)
  | .beginDeferred => (.done, [], db)
  | .commit => (.done, [], db)
  | .rollback => (.done, [], db)
  | .incRevision .DataSets =>
    (.done, [], { db with dataSets := db.dataSets.map (fun r =>
      if some r.id = paramInt params 0 then { r with revision := r.revision + 1 } else r) })
  | .incRevision .Columns =>
    (.done, [], { db with columns := db.columns.map (fun r =>
      if some r.id = paramInt params 0 then { r with revision := r.revision + 1 } else r) })
  | .incRevision .Filters =>
    (.done, [], { db with filters := db.filters.map (fun r =>
      if some r.id = paramInt params 0 then { r with revision := r.revision + 1 } else r) })
  | .selectRevision .DataSets =>
    (.done, selectById db.dataSets (fun r => r.id) (paramInt params 0)
      (fun r => [.integer r.revision]), db)
  | .selectRevision .Columns =>
    (.done, selectById db.columns (fun r => r.id) (paramInt params 0)
      (fun r => [.integer r.revision]), db)
  | .selectRevision .Filters =>
    (.done, selectById db.filters (fun r => r.id) (paramInt params 0)
      (fun r => [.integer r.revision]), db)
  | .selectRowCount ds =>
    match db.table ds with
    | some t => (.done, [[.integer t.rows.length]], db)
    | none => (.error, [], db)
  | .selectColCount ds =>
    (.done, [[.integer (db.columns.filter (fun r => decide (r.dataSet = ds))).length]], db)
  | .insertDefaultValues ds =>
    (.done, [], db.mapRows ds (fun t =>
      t.rows ++ [newRow t (nextRowId (t.rows.map (fun r => r.rowNumber))) []]))
  | .deleteRowsAbove ds rowCount =>
    (.done, [], db.mapRows ds (fun t => t.rows.filter (fun r => decide (r.rowNumber ≤ rowCount))))
  | .deleteRows ds => (.done, [], db.mapRows ds (fun _ => []))
  | .insertRow ds slots =>
    match db.table ds with
    | some t =>
      let rowNumber := match paramInt params slots.length with
        | some n => n
        | none => nextRowId (t.rows.map (fun r => r.rowNumber))
      if t.rows.any (fun r => decide (r.rowNumber = rowNumber)) then (.constraint, [], db)
      else (.done, [], db.setTable ds
        { t with rows := t.rows ++ [newRow t rowNumber (storedCells (slots.zip params))] })
    | none => (.error, [], db)
  | .selectSlots ds slots =>
    match db.table ds with
    | some t => (.done, (orderByRowNumber t.rows).map (fun r => slots.map r.cell), db)
    | none => (.error, [], db)
  | .updateColumn ds c =>
    (.done, [], db.mapRows ds (fun t => t.rows.map (fun r =>
      if some r.rowNumber = paramInt params 2 then
        (r.setCell (.colInt c) (params.getD 0 .null)).setCell (.colDbl c)
          (realAffinity (params.getD 1 .null))
      else r)))
  | .updateFilter ds f =>
    (.done, [], db.mapRows ds (fun t => t.rows.map (fun r =>
      if some r.rowNumber = paramInt params 1 then r.setCell (.filter f) (params.getD 0 .null)
      else r)))
  | .clearFilter ds f =>
    (.done, [], db.mapRows ds (fun t => t.rows.map (fun r => r.setCell (.filter f) (.integer 1))))
  | .selectDataSet =>
    (.done, selectById db.dataSets (fun r => r.id) (paramInt params 0)
      (fun r => [.text "", .integer 0, .text "", .text "", .text "", .integer r.revision,
        .integer 0]), db)
  | .selectDataSetId ds =>
    (.done, selectById db.dataSets (fun r => r.id) (some ds) (fun r => [.integer r.id]), db)
  | .selectFilterOfDataSet =>
    (.done, ((db.filters.filter (fun r => decide (some r.dataSet = paramInt params 0))).take 1).map
      (fun r => [.integer r.id]), db)
  | .selectFilter =>
    (.done, selectById db.filters (fun r => r.id) (paramInt params 0)
      (fun r => [.text r.rFilter, .text "", .text "", .text "", .integer r.revision,
        .text r.name]), db)
  | .selectFilterErrorMsg =>
    (.done, selectById db.filters (fun r => r.id) (paramInt params 0)
      (fun r => [.text r.errorMsg]), db)
  | .selectFilterDataSet f =>
    (.done, selectById db.filters (fun r => r.id) (some f) (fun r => [.integer r.dataSet]), db)
  | .selectColumnDataSet c =>
    (.done, selectById db.columns (fun r => r.id) (some c) (fun r => [.integer r.dataSet]), db)
  | .selectMaxColIdx ds =>
    (.done, [[match maxInt? ((db.columns.filter (fun r => decide (r.dataSet = ds))).map
        (fun r => r.colIdx)) with
      | some m => .integer m
      | none => .null]], db)
  | .selectColumnIdForIndex =>
    (.done, (db.columns.filter (fun r =>
        decide (some r.dataSet = paramInt params 0) && decide (some r.colIdx = paramInt params 1))).map
      (fun r => [.integer r.id]), db)
  | .selectColIdx =>
    (.done, selectById db.columns (fun r => r.id) (paramInt params 0)
      (fun r => [.integer r.colIdx]), db)
  | .incrementColIdx ds index =>
    (.done, [], { db with columns := db.columns.map (fun r =>
      if r.dataSet = ds ∧ index ≤ r.colIdx then { r with colIdx := r.colIdx + 1 } else r) })
  | .decrementColIdx ds index =>
    (.done, [], { db with columns := db.columns.map (fun r =>
      if r.dataSet = ds ∧ index < r.colIdx then { r with colIdx := r.colIdx - 1 } else r) })
  | .insertColumn =>
    let id := nextRowId (db.columns.map (fun r => r.id))
    (.done, [[.integer id]], { db with columns := db.columns ++
      [{ id := id
         dataSet := (paramInt params 0).getD 0
         name := paramText params 1
         colIdx := (paramInt params 3).getD 0
         revision := 0 }] })
  | .deleteColumn =>
    (.done, [], { db with columns := db.columns.filter (fun r =>
      !(decide (some r.dataSet = paramInt params 0) && decide (some r.id = paramInt params 1))) })
  | .updateColumnName =>
    (.done, [], { db with columns := db.columns.map (fun r =>
      if some r.id = paramInt params 1 then { r with name := paramText params 0 } else r) })
  | .selectColumnBasic =>
    (.done, selectById db.columns (fun r => r.id) (paramInt params 0)
      (fun r => [.text r.name, .text "", .text "", .text "", .integer r.revision, .text "",
        .integer 0]), db)
  | .addSlot ds slot =>
    match db.table ds with
    | some t => (.done, [], db.setTable ds (t.addSlot slot))
    | none => (.error, [], db)
  | .dropSlot ds slot =>
    match db.table ds with
    | some t => (.done, [], db.setTable ds (t.dropSlot slot))
    | none => (.error, [], db)
  | .dropTable ds =>
    (.done, [], { db with tables := db.tables.filter (fun p => !decide (p.1 = ds)) })
  | .createTable ds slots =>
    (.done, [], { db with tables := db.tables ++ [(ds, { slots := slots, rows := [] })] })
  | .updateFilterErrorMsg =>
    (.done, [], { db with filters := db.filters.map (fun r =>
      if some r.id = paramInt params 1 then { r with errorMsg := paramText params 0 } else r) })
  | .updateFilterFields =>
    (.done, [], { db with filters := db.filters.map (fun r =>
      if some r.id = paramInt params 5 then
        { r with rFilter := paramText params 0, name := paramText params 4 }
      else r) })
  | .selectFilterIdByName =>
    (.done, (db.filters.filter (fun r => decide (r.name = paramText params 0))).map
      (fun r => [.integer r.id]), db)
  | .selectAnyDataSetId =>
    (.done, (db.dataSets.take 1).map (fun r => [.integer r.id]), db)
  | .insertDataSet =>
    let id := nextRowId (db.dataSets.map (fun r => r.id))
    (.done, [[.integer id]], { db with dataSets := db.dataSets ++ [{ id := id, revision := 0 }] })
  | .deleteDataSet ds =>
    (.done, [], { db with dataSets := db.dataSets.filter (fun r => !decide (r.id = ds)) })
  | .insertFilter =>
    let id := nextRowId (db.filters.map (fun r => r.id))
    (.done, [[.integer id]], { db with filters := db.filters ++
      [{ id := id
         dataSet := (paramInt params 0).getD 0
         rFilter := paramText params 1
         name := paramText params 5
         errorMsg := ""
         revision := 0 }] })
  | .deleteFilter f =>
    (.done, [], { db with filters := db.filters.filter (fun r => !decide (r.id = f)) })
  | .selectLabelCount =>
    (.done, [[.integer (db.labels.filter (fun r =>
        decide (some r.columnId = paramInt params 0))).length]], db)
  | .selectLabels =>
    (.done, (orderByOrdering (db.labels.filter (fun r =>
        decide (some r.columnId = paramInt params 0)))).map
      (fun r => [.integer r.id, .integer r.value, .text r.label, .integer r.ordering,
        .integer r.filterAllows, .text r.description, .text r.originalValueJson]), db)
  | .updateLabelOrdering =>
    (.done, [], { db with labels := db.labels.map (fun r =>
      if some r.id = paramInt params 1 then { r with ordering := (paramInt params 0).getD 0 }
      else r) })
  | .deleteLabels =>
    (.done, [], { db with labels := db.labels.filter (fun r =>
      !decide (some r.columnId = paramInt params 0)) })
  | .insertLabel =>
    let id := nextRowId (db.labels.map (fun r => r.id))
    (.done, [[.integer id]], { db with labels := db.labels ++
      [{ id := id
         columnId := (paramInt params 0).getD 0
         value := (paramInt params 1).getD 0
         label := paramText params 2
         ordering := (paramInt params 6).getD 0
         filterAllows := (paramInt params 3).getD 0
         description := paramText params 4
         originalValueJson := paramText params 5 }] })
  | .construction =>
    (.done, [], { db with dataSets := [], columns := [], filters := [], labels := [] })

/-! ## Errors and the state monad of the interface -/

/-- The ways a call can end other than by returning. -/
inductive Err where
  /-- A `std::runtime_error` raised because a statement failed. -/
  | sqlError
  /-- A failed `assert`. -/
  | assertion
  /-- An access outside the bounds of a vector (undefined behaviour in the source). -/
  | outOfRange
  /-- The `std::runtime_error("Rollback!")` of `transactionWriteEnd`. -/
  | rollback
  /-- The iteration bound of a modelled loop was used up. -/
  | fuel
  /-- A `std::runtime_error` or other `std::exception` raised outside the statement
  runner, with its message. -/
  | runtimeError (what : String)
  /-- A call through a null pointer (undefined behaviour in the source). -/
  | nullPointer
deriving DecidableEq

/-- Results of computations can be compared when errors and values can. -/
instance {ε α : Type} [DecidableEq ε] [DecidableEq α] : DecidableEq (Except ε α)
  | .ok a, .ok b => if h : a = b then isTrue (by rw [h]) else isFalse (fun h' => h (by cases h'; rfl))
  | .error a, .error b =>
    if h : a = b then isTrue (by rw [h]) else isFalse (fun h' => h (by cases h'; rfl))
  | .ok _, .error _ => isFalse (fun h => by cases h)
  | .error _, .ok _ => isFalse (fun h => by cases h)

/-- A computation on the interface state that returns a value or raises; the state
reached is kept in both cases. -/
def M (α : Type) : Type := Db → Except Err α × Db

/-- Return a value. -/
def M.pure {α : Type} (a : α) : M α := fun db => (.ok a, db)

/-- Sequence two computations; an error of the first ends the sequence. -/
def M.bind {α β : Type} (x : M α) (f : α → M β) : M β := fun db =>
  match x db with
  | (.ok a, db') => f a db'
  | (.error e, db') => (.error e, db')

instance : Monad M where
  pure := M.pure
  bind := M.bind

/-- Raise an error. -/
def M.raise {α : Type} (e : Err) : M α := fun db => (.error e, db)

/-- Read the state. -/
def M.get : M Db := fun db => (.ok db, db)

/-- Change the state. -/
def M.modify (f : Db → Db) : M Unit := fun db => (.ok (), f db)

/-- The C `assert`. -/
def cAssert (c : Bool) : M Unit := if c then pure () else M.raise .assertion

/-! ## Statement runner (`DatabaseInterface`) -/

section Runner

variable (cv : SqliteConv)

/-- Append a statement to the trace of statements issued. -/
def logStmt (s : Stmt) : M Unit := M.modify (fun db => { db with log := db.log ++ [s] })

/-- Record an invocation of a progress callback. -/
def progressCallback (p : ProgressCall) : M Unit :=
  M.modify (fun db => { db with progress := db.progress ++ [p] })

/-- The inner `do ... while` of `_runStatements`: `processRow` is invoked once per
result row, with the row index counting from 0. -/
def processRows {σ : Type} (processRow : Nat → List SqlValue → σ → M σ) :
    Nat → List (List SqlValue) → σ → M σ
  | _, [], s => pure s
  | row, r :: rs, s => do
    let s' ← processRow row r s
    processRows processRow (row + 1) rs s'

/-- `DatabaseInterface::_runStatements` for a text holding one statement.  The
state `σ` stands for the variables the `processRow` closure captures by reference.
A failure to prepare and a failing step both end in a `std::runtime_error`; any
other result code (`SQLITE_DONE`, or a constraint violation) returns normally. -/
def _runStatements {σ : Type} (statements : Stmt) (bindParameters : List SqlValue)
    (processRow : Nat → List SqlValue → σ → M σ) (init : σ) : M σ := do
  logStmt statements
  let db ← M.get
  if statements.prepare db then
    match statements.step bindParameters db with
    | (ret, rows, db') =>
      M.modify (fun _ => db')
      let out ← processRows processRow 0 rows init
      if ret = Rc.error then M.raise Err.sqlError else pure out
  else
    M.raise Err.sqlError

/-- `DatabaseInterface::runStatements(statements)` and
`runStatements(statements, bindParameters)`. -/
def runStatements (statements : Stmt) (bindParameters : List SqlValue) : M Unit :=
  _runStatements statements bindParameters (fun _ _ s => pure s) ()

/-- `DatabaseInterface::runStatementsId`: the first column of the last result row
as a C `int`, `-1` without a result row. -/
def runStatementsId (statements : Stmt) (bindParameters : List SqlValue) : M Int :=
  _runStatements statements bindParameters
    (fun _ r id => pure (if r.length ≠ 0 then sqlite3_column_int cv (r.getD 0 .null) else id))
    (-1)

/-- The `while` loop of `DatabaseInterface::_runStatementsRepeatedly`.  `ret` is the
last result code, `row` the running step counter handed to the factory, `bound` the
parameters currently bound to the statement (they survive `sqlite3_reset`), and `σ`
the variables the factory captures.  The factory yields whether there is more data
and the binder to apply (`none` for a null binder). -/
def repeatedLoop {σ : Type} (statements : Stmt)
    (bindParameterFactory : Nat → σ → M (Bool × Option (List SqlValue) × σ)) :
    Nat → Rc → Nat → List SqlValue → σ → M σ
  | 0, _, _, _, _ => M.raise Err.fuel
  | fuel + 1, ret, row, bound, s =>
    if ret = Rc.ok ∨ ret = Rc.done then do
      let (more, binder, s') ← bindParameterFactory row s
      if more then
        let bound' := match binder with
          | some p => p
          | none => bound
        let db ← M.get
        match statements.step bound' db with
        | (ret', rows, db') =>
          M.modify (fun _ => db')
          if ret' = Rc.error then M.raise Err.sqlError
          else
            repeatedLoop statements bindParameterFactory fuel ret' (row + rows.length + 1) bound' s'
      else pure s'
    else pure s

/-- `DatabaseInterface::_runStatementsRepeatedly` for a text holding one statement
and no `processRow`; `fuel` bounds the number of calls of the factory. -/
def _runStatementsRepeatedly {σ : Type} (fuel : Nat) (statements : Stmt)
    (bindParameterFactory : Nat → σ → M (Bool × Option (List SqlValue) × σ)) (init : σ) :
    M σ := do
  logStmt statements
  let db ← M.get
  if statements.prepare db then
    repeatedLoop statements bindParameterFactory fuel Rc.ok 0 [] init
  else
    M.raise Err.sqlError

/-- `DatabaseInterface::transactionWriteBegin`. -/
def transactionWriteBegin : M Unit := do
  let db ← M.get
  cAssert (db.transactionReadDepth == 0)
  M.modify (fun d => { d with transactionWriteDepth := d.transactionWriteDepth + 1 })
  if db.transactionWriteDepth == 0 then runStatements Stmt.beginExclusive []

/-- `DatabaseInterface::transactionReadBegin`. -/
def transactionReadBegin : M Unit := do
  let db ← M.get
  cAssert (db.transactionWriteDepth == 0)
  M.modify (fun d => { d with transactionReadDepth := d.transactionReadDepth + 1 })
  if db.transactionReadDepth == 0 then runStatements Stmt.beginDeferred []

/-- `DatabaseInterface::transactionWriteEnd(rollback)`. -/
def transactionWriteEnd (rollback : Bool) : M Unit := do
  let db ← M.get
  cAssert (decide (0 < db.transactionWriteDepth))
  if rollback then
    runStatements Stmt.rollback []
    M.modify (fun d => { d with transactionWriteDepth := 0 })
    M.raise Err.rollback
  else
    M.modify (fun d => { d with transactionWriteDepth := d.transactionWriteDepth - 1 })
    if db.transactionWriteDepth - 1 == 0 then runStatements Stmt.commit []

/-- `DatabaseInterface::transactionReadEnd`. -/
def transactionReadEnd : M Unit := do
  let db ← M.get
  cAssert (decide (0 < db.transactionReadDepth))
  M.modify (fun d => { d with transactionReadDepth := d.transactionReadDepth - 1 })
  if db.transactionReadDepth - 1 == 0 then runStatements Stmt.commit []

/-- `DatabaseInterface::dataSetColCount`. -/
def dataSetColCount (dataSetId : Int) : M Int :=
  runStatementsId cv (Stmt.selectColCount dataSetId) []

/-- `DatabaseInterface::dataSetRowCount`. -/
def dataSetRowCount (dataSetId : Int) : M Int :=
  runStatementsId cv (Stmt.selectRowCount dataSetId) []

/-- `DatabaseInterface::dataSetExists`. -/
def dataSetExists (dataSetId : Int) : M Bool := do
  let id ← runStatementsId cv (Stmt.selectDataSetId dataSetId) []
  pure (id != -1)

/-- `DatabaseInterface::dataSetSetRowCount`. -/
def dataSetSetRowCount (dataSetId : Int) (rowCount : Nat) : M Unit := do
  transactionWriteBegin
  let curCount ← dataSetRowCount cv dataSetId
  if (rowCount : Int) ≥ curCount then
    _runStatementsRepeatedly (rowCount + 1) (Stmt.insertDefaultValues dataSetId)
      (fun row (_ : Unit) => pure (decide (curCount + row < rowCount), none, ())) ()
  else
    runStatements (Stmt.deleteRowsAbove dataSetId rowCount) []
  transactionWriteEnd false

/-- `DatabaseInterface::dataSetIncRevision`. -/
def dataSetIncRevision (dataSetId : Int) : M Int := do
  transactionWriteBegin
  runStatements (Stmt.incRevision Registry.DataSets) [sqlite3_bind_int dataSetId]
  let rev ← runStatementsId cv (Stmt.selectRevision Registry.DataSets) [sqlite3_bind_int dataSetId]
  transactionWriteEnd false
  pure rev

/-- `DatabaseInterface::dataSetGetRevision`. -/
def dataSetGetRevision (dataSetId : Int) : M Int :=
  runStatementsId cv (Stmt.selectRevision Registry.DataSets) [sqlite3_bind_int dataSetId]

/-- `DatabaseInterface::dataSetGetFilter`. -/
def dataSetGetFilter (dataSetId : Int) : M Int :=
  runStatementsId cv Stmt.selectFilterOfDataSet [sqlite3_bind_int dataSetId]

/-- `DatabaseInterface::filterGetDataSetId`. -/
def filterGetDataSetId (filterIndex : Int) : M Int :=
  runStatementsId cv (Stmt.selectFilterDataSet filterIndex) []

/-- `DatabaseInterface::filterClear`. -/
def filterClear (id : Int) : M Unit := do
  let dataSet ← filterGetDataSetId cv id
  runStatements (Stmt.clearFilter dataSet id) []

/-- `DatabaseInterface::filterIncRevision`. -/
def filterIncRevision (filterIndex : Int) : M Int := do
  transactionWriteBegin
  runStatements (Stmt.incRevision Registry.Filters) [sqlite3_bind_int filterIndex]
  let rev ← runStatementsId cv (Stmt.selectRevision Registry.Filters) [sqlite3_bind_int filterIndex]
  transactionWriteEnd false
  pure rev

/-- `DatabaseInterface::filterGetRevision`. -/
def filterGetRevision (filterIndex : Int) : M Int :=
  runStatementsId cv (Stmt.selectRevision Registry.Filters) [sqlite3_bind_int filterIndex]

/-- `DatabaseInterface::columnIncRevision`. -/
def columnIncRevision (columnId : Int) : M Int := do
  transactionWriteBegin
  runStatements (Stmt.incRevision Registry.Columns) [sqlite3_bind_int columnId]
  let rev ← runStatementsId cv (Stmt.selectRevision Registry.Columns) [sqlite3_bind_int columnId]
  transactionWriteEnd false
  pure rev

/-- `DatabaseInterface::columnGetRevision`. -/
def columnGetRevision (columnId : Int) : M Int :=
  runStatementsId cv (Stmt.selectRevision Registry.Columns) [sqlite3_bind_int columnId]

/-- `DatabaseInterface::columnGetDataSetId`. -/
def columnGetDataSetId (columnId : Int) : M Int :=
  runStatementsId cv (Stmt.selectColumnDataSet columnId) []

/-- `DatabaseInterface::columnIdForIndex`. -/
def columnIdForIndex (dataSetId index : Int) : M Int :=
  runStatementsId cv Stmt.selectColumnIdForIndex [sqlite3_bind_int dataSetId, sqlite3_bind_int index]

/-- `DatabaseInterface::columnIndexForId`. -/
def columnIndexForId (columnId : Int) : M Int :=
  runStatementsId cv Stmt.selectColIdx [sqlite3_bind_int columnId]

/-- `DatabaseInterface::columnLastFreeIndex`. -/
def columnLastFreeIndex (dataSetId : Int) : M Int := do
  let m ← runStatementsId cv (Stmt.selectMaxColIdx dataSetId) []
  pure (1 + m)

/-- `DatabaseInterface::columnIndexIncrements`. -/
def columnIndexIncrements (dataSetId index : Int) : M Unit := do
  let id ← columnIdForIndex cv dataSetId index
  if id != -1 then runStatements (Stmt.incrementColIdx dataSetId index) []

/-- `DatabaseInterface::columnIndexDecrements`. -/
def columnIndexDecrements (dataSetId index : Int) : M Unit := do
  let id ← columnIdForIndex cv dataSetId index
  if id == -1 then runStatements (Stmt.decrementColIdx dataSetId index) []

/-- `DatabaseInterface::columnInsert`; `colType` is the text of the column type. -/
def columnInsert (dataSetId : Int) (index : Int) (name : String) (colType : String)
    (alterTable : Bool) : M Int := do
  transactionWriteBegin
  let index ←
    if index == -1 then columnLastFreeIndex cv dataSetId
    else do
      columnIndexIncrements cv dataSetId index
      pure index
  let columnId ← runStatementsId cv Stmt.insertColumn
    [sqlite3_bind_int dataSetId, sqlite3_bind_text name, sqlite3_bind_text colType,
      sqlite3_bind_int index]
  if alterTable then
    runStatements (Stmt.addSlot dataSetId (SlotName.colDbl columnId)) []
    runStatements (Stmt.addSlot dataSetId (SlotName.colInt columnId)) []
  transactionWriteEnd false
  pure columnId

/-- `DatabaseInterface::columnDelete`. -/
def columnDelete (columnId : Int) (cleanUpRest : Bool) : M Unit := do
  transactionWriteBegin
  let dataSetId ← columnGetDataSetId cv columnId
  let columnIndex ← columnIndexForId cv columnId
  if cleanUpRest then
    runStatements (Stmt.dropSlot dataSetId (SlotName.colDbl columnId)) []
    runStatements (Stmt.dropSlot dataSetId (SlotName.colInt columnId)) []
  runStatements Stmt.deleteColumn [sqlite3_bind_int dataSetId, sqlite3_bind_int columnId]
  if cleanUpRest then
    columnIndexDecrements cv dataSetId columnIndex
  transactionWriteEnd false

/-- `DatabaseInterface::columnSetName`. -/
def columnSetName (columnId : Int) (name : String) : M Unit :=
  runStatements Stmt.updateColumnName [sqlite3_bind_text name, sqlite3_bind_int columnId]

end Runner

/-! ## Revision counters -/

/-- The stored revision of the entity of a kind with a given id. -/
def Db.revision (db : Db) : Registry → Int → Option Int
  | .DataSets, id => db.dataSetRevision id
  | .Columns, id => db.columnRevision id
  | .Filters, id => db.filterRevision id

/-- The primary keys in use in a registry table. -/
def Db.registryIds (db : Db) : Registry → List Int
  | .DataSets => db.dataSets.map (fun r => r.id)
  | .Columns => db.columns.map (fun r => r.id)
  | .Filters => db.filters.map (fun r => r.id)

/-- The revision increment of each entity kind: `dataSetIncRevision`,
`columnIncRevision` and `filterIncRevision`. -/
def incRevisionOf (cv : SqliteConv) : Registry → Int → M Int
  | .DataSets => dataSetIncRevision cv
  | .Columns => columnIncRevision cv
  | .Filters => filterIncRevision cv

/-- The statements issued when `body` runs between `transactionWriteBegin` and
`transactionWriteEnd()` entered at write depth `depth`: the outermost pair adds
`BEGIN EXCLUSIVE` and `COMMIT`, a nested pair adds nothing. -/
def inWriteTransaction (depth : Nat) (body : List Stmt) : List Stmt :=
  (if depth = 0 then [Stmt.beginExclusive] else []) ++ body ++
    (if depth = 0 then [Stmt.commit] else [])

/-! ## In-memory mirror -/

/-- The members of `Column` the embedded functions use. -/
structure Column where
  _id : Int
  _name : String
  _revision : Int
  _ints : List Int
  _dbls : List Dbl
deriving DecidableEq

/-- The members of `Filter` the embedded functions use. -/
structure Filter where
  _id : Int
  _rFilter : String
  _name : String
  _errorMsg : String
  _revision : Int
  _filtered : List Bool
deriving DecidableEq

/-- The members of `DataSet` the embedded functions use. -/
structure DataSet where
  _dataSetID : Int
  _revision : Int
  _rowCount : Nat
  _columns : List Column
  _filter : Filter
  _writeBatchedToDB : Bool
deriving DecidableEq

/-- The effect of `std::vector::resize(n)`: cut to `n` entries or padded with a
fill value. -/
def resize {α : Type} (l : List α) (n : Nat) (fill : α) : List α :=
  l.take n ++ List.replicate (n - l.length) fill

/-- Modelled from the spec: `Column::setRowCount` is defined outside the sources at
hand; the two value arrays both get length `rowCount`. -/
def Column.setRowCount (col : Column) (rowCount : Nat) : Column :=
  { col with _ints := resize col._ints rowCount 0, _dbls := resize col._dbls rowCount Dbl.zero }

/-- Modelled from the spec: `Column::setValue(row, valueInt, valueDbl, false)` is
defined outside the sources at hand; with `writeToDB = false` it assigns the pair at
`row` in memory only. -/
def Column.setValue (col : Column) (row : Nat) (valueInt : Int) (valueDbl : Dbl) : Column :=
  { col with _ints := col._ints.set row valueInt, _dbls := col._dbls.set row valueDbl }

/-- Modelled from the spec: `Filter::setRowCount` is defined outside the sources at
hand; the mask gets length `rowCount`, new entries allowing the row. -/
def Filter.setRowCount (f : Filter) (rowCount : Nat) : Filter :=
  { f with _filtered := resize f._filtered rowCount true }

/-- Modelled from the spec: `Filter::setFilterValueNoDB` is defined outside the
sources at hand; it assigns one entry of the mask in memory. -/
def Filter.setFilterValueNoDB (f : Filter) (row : Nat) (val : Bool) : Filter :=
  { f with _filtered := f._filtered.set row val }

section Values

variable (cv : SqliteConv)

/-- `DatabaseInterface::columnSetValues`. -/
def columnSetValues (columnId : Int) (ints : List Int) (dbls : List Dbl) : M Unit := do
  transactionWriteBegin
  let dataSetId ← columnGetDataSetId cv columnId
  let _ ← _runStatementsRepeatedly (ints.length + 1) (Stmt.updateColumn dataSetId columnId)
    (fun row (_ : Nat) =>
      if row = ints.length then pure (false, none, row)
      else
        match ints[row]?, dbls[row]? with
        | some i, some d =>
          pure (true,
            some [sqlite3_bind_int i, _doubleTroubleBinder d, sqlite3_bind_int ((row : Int) + 1)],
            row)
        | _, _ => M.raise Err.outOfRange) 0
  transactionWriteEnd false

/-- `DatabaseInterface::columnSetValue`. -/
def columnSetValue (columnId : Int) (row : Nat) (valueInt : Int) (valueDbl : Dbl) : M Unit := do
  let dataSetId ← columnGetDataSetId cv columnId
  runStatements (Stmt.updateColumn dataSetId columnId)
    [sqlite3_bind_int valueInt, _doubleTroubleBinder valueDbl, sqlite3_bind_int ((row : Int) + 1)]

/-- `DatabaseInterface::columnGetValues`: the vectors `ints` and `dbls` afterwards.
Only `ints` is resized; an assignment outside `dbls` is an access out of range. -/
def columnGetValues (columnId : Int) (ints : List Int) (dbls : List Dbl) :
    M (List Int × List Dbl) := do
  transactionReadBegin
  let dataSet ← columnGetDataSetId cv columnId
  let rowCount ← dataSetRowCount cv dataSet
  let ints := resize ints rowCount.toNat 0
  let out ← _runStatements
    (Stmt.selectSlots dataSet [SlotName.colInt columnId, SlotName.colDbl columnId]) []
    (fun row r (p : List Int × List Dbl) => do
      cAssert (r.length == 2)
      if row < p.1.length ∧ row < p.2.length then
        pure (p.1.set row (sqlite3_column_int cv (r.getD 0 .null)),
          p.2.set row (_doubleTroubleReader cv (r.getD 1 .null)))
      else M.raise Err.outOfRange)
    (ints, dbls)
  transactionReadEnd
  pure out

/-- `DatabaseInterface::dataSetCreateTable`. -/
def dataSetCreateTable (dataSet : DataSet) : M Unit := do
  runStatements (Stmt.dropTable dataSet._dataSetID) []
  runStatements (Stmt.createTable dataSet._dataSetID
    (SlotName.filter dataSet._filter._id ::
      dataSet._columns.flatMap (fun column =>
        [SlotName.colDbl column._id, SlotName.colInt column._id]))) []

/-- The closure `bindParamStore` of `dataSetBatchedValuesUpdate`, evaluated with
`rowOutside = row`: the parameters it binds, in order.  `none` stands for a read
outside one of the vectors. -/
def bindParamStore (data : DataSet) : List Column → Nat → Option (List SqlValue)
  | [], row =>
    match data._filter._filtered[row]? with
    | some b => some [sqlite3_bind_int (if b then 1 else 0), sqlite3_bind_int ((row : Int) + 1)]
    | none => none
  | col :: cols, row =>
    match col._dbls[row]?, col._ints[row]?, bindParamStore data cols row with
    | some d, some i, some rest => some (_doubleTroubleBinder d :: sqlite3_bind_int i :: rest)
    | _, _, _ => none

/-- The bind-parameter factory that `dataSetBatchedValuesUpdate` hands to
`_runStatementsRepeatedly`; the captured `rowOutside` is the state. -/
def batchedBindFactory (data : DataSet) (columns : List Column) (updateInterval : Nat)
    (row : Nat) (_ : Nat) : M (Bool × Option (List SqlValue) × Nat) := do
  if row ≥ data._rowCount then
    progressCallback ProgressCall.one
    pure (false, none, row)
  else
    let rowOutside := row
    let db ← M.get
    if db.prevUpdate + updateInterval ≤ rowOutside then
      progressCallback (ProgressCall.writeRow rowOutside data._rowCount)
      M.modify (fun d => { d with prevUpdate := rowOutside })
    match bindParamStore data columns rowOutside with
    | some params => pure (true, some params, rowOutside)
    | none => M.raise Err.outOfRange

/-- `DatabaseInterface::dataSetBatchedValuesUpdate`. -/
def dataSetBatchedValuesUpdate (data : DataSet) (columns : List Column) : M Unit := do
  transactionWriteBegin
  runStatements (Stmt.deleteRows data._dataSetID) []
  let statement := Stmt.insertRow data._dataSetID
    (columns.flatMap (fun col => [SlotName.colDbl col._id, SlotName.colInt col._id])
      ++ [SlotName.filter data._filter._id])
  let updateInterval := max 1 (data._rowCount / 100)
  let _ ← _runStatementsRepeatedly (data._rowCount + 1) statement
    (batchedBindFactory data columns updateInterval) 0
  transactionWriteEnd false

/-- The pairs of slot and value that the store holds after `dataSetBatchedValuesUpdate`
wrote the row with index `row`. -/
def writtenCells (data : DataSet) (cols : List Column) (row : Nat) : List (SlotName × SqlValue) :=
  cols.flatMap (fun col =>
      [(SlotName.colDbl col._id,
          realAffinity (_doubleTroubleBinder (col._dbls.getD row Dbl.zero))),
       (SlotName.colInt col._id, SqlValue.integer (col._ints.getD row 0))])
    ++ [(SlotName.filter data._filter._id,
        SqlValue.integer (if data._filter._filtered.getD row false then 1 else 0))]

/-- The first `n` rows that `dataSetBatchedValuesUpdate` writes into a table, in
the order of insertion: row index `row` gets row number `row + 1`. -/
def writtenRows (t : PhysTable) (data : DataSet) (cols : List Column) (n : Nat) : List PhysRow :=
  (List.range n).map (fun (row : Nat) => newRow t ((row : Int) + 1) (writtenCells data cols row))

/-- The loop over the columns in the `processRow` closure of
`dataSetBatchedValuesLoad`: column `colI` takes its pair from positions `2 * colI`
and `2 * colI + 1` of the result row. -/
def loadRowIntoColumns (row : Nat) (r : List SqlValue) : Nat → List Column → List Column
  | _, [] => []
  | colI, col :: cols =>
    (if (sqlite3_column_text cv (r.getD (colI * 2) .null)).isNone
        ∧ (sqlite3_column_text cv (r.getD (1 + colI * 2) .null)).isNone then
      col.setValue row missingValueInteger missingValueDouble
    else
      col.setValue row (sqlite3_column_int cv (r.getD (colI * 2) .null))
        (_doubleTroubleReader cv (r.getD (colI * 2 + 1) .null)))
    :: loadRowIntoColumns row r (colI + 1) cols

/-- The closure `processRow` of `dataSetBatchedValuesLoad`; the dataset being
filled is the state. -/
def loadProcessRow (rowCount rowPercent : Nat) (row : Nat) (r : List SqlValue)
    (data : DataSet) : M DataSet := do
  if row % rowPercent == 0 then progressCallback (ProgressCall.loadRow row rowCount)
  let colCount := r.length
  cAssert (colCount == data._columns.length * 2 + 1)
  pure { data with
    _columns := loadRowIntoColumns cv row r 0 data._columns
    _filter := data._filter.setFilterValueNoDB row
      (sqlite3_column_int cv (r.getD (colCount - 1) .null) != 0) }

/-- `DatabaseInterface::dataSetBatchedValuesLoad`: the dataset with the values and
the filter mask read from the store. -/
def dataSetBatchedValuesLoad (data : DataSet) : M DataSet := do
  let data ←
    if data._filter._id == -1 then do
      let fid ← dataSetGetFilter cv data._dataSetID
      pure { data with _filter := { data._filter with _id := fid } }
    else pure data
  if data._columns.length == 0 && data._filter._id == -1 then pure data
  else do
    transactionReadBegin
    let statement := Stmt.selectSlots data._dataSetID
      (data._columns.flatMap (fun col => [SlotName.colInt col._id, SlotName.colDbl col._id])
        ++ [SlotName.filter data._filter._id])
    let rowCount := (← dataSetRowCount cv data._dataSetID).toNat
    let data := { data with
      _columns := data._columns.map (fun col => col.setRowCount rowCount)
      _filter := data._filter.setRowCount rowCount }
    let rowPercent := max 1 (rowCount / 100)
    let data ← _runStatements statement [] (loadProcessRow cv rowCount rowPercent) data
    transactionReadEnd
    pure data

end Values

/-! ## `Filter`, `Column` and `DataSet` -/

section Mirror

variable (cv : SqliteConv)

/-- `DatabaseInterface::dataSetLoad`, restricted to the revision: the value of the
output parameter `revision` afterwards (unchanged without a registry row). -/
def dataSetLoad (dataSetId : Int) (revision : Int) : M Int :=
  _runStatements Stmt.selectDataSet [sqlite3_bind_int dataSetId]
    (fun _ r _ => do
      cAssert (r.length == 7)
      pure (sqlite3_column_int cv (r.getD 5 .null)))
    revision

/-- `DatabaseInterface::filterLoad`, restricted to the expression, the revision and
the name. -/
def filterLoad (filterIndex : Int) (f : Filter) : M Filter :=
  _runStatements Stmt.selectFilter [sqlite3_bind_int filterIndex]
    (fun _ r f => do
      cAssert (r.length == 6)
      pure { f with
        _rFilter := _wrap_sqlite3_column_text cv (r.getD 0 .null)
        _revision := sqlite3_column_int cv (r.getD 4 .null)
        _name := _wrap_sqlite3_column_text cv (r.getD 5 .null) })
    f

/-- `DatabaseInterface::filterLoadErrorMsg`. -/
def filterLoadErrorMsg (filterIndex : Int) : M String :=
  _runStatements Stmt.selectFilterErrorMsg [sqlite3_bind_int filterIndex]
    (fun _ r _ => do
      cAssert (r.length == 1)
      pure (_wrap_sqlite3_column_text cv (r.getD 0 .null)))
    ""

/-- `DatabaseInterface::filterSelect`: the vector `bools` afterwards and the
returned flag `changed`. -/
def filterSelect (filterIndex : Int) (bools : List Bool) : M (Bool × List Bool) := do
  transactionReadBegin
  let dataSet ← filterGetDataSetId cv filterIndex
  let out ←
    if dataSet != -1 then do
      let rows := (← dataSetRowCount cv dataSet).toNat
      let changed := decide (rows ≠ bools.length)
      let bools := resize bools rows false
      _runStatements (Stmt.selectSlots dataSet [SlotName.filter filterIndex]) []
        (fun row r (p : Bool × List Bool) =>
          let val := sqlite3_column_int cv (r.getD 0 .null) != 0
          match p.2[row]? with
          | some b => pure (p.1 || b != val, p.2.set row val)
          | none => M.raise Err.outOfRange)
        (changed, bools)
    else pure (false, bools)
  transactionReadEnd
  pure out

/-- `DatabaseInterface::columnGetBasicInfo`, restricted to the name and the
revision. -/
def columnGetBasicInfo (columnId : Int) (col : Column) : M Column :=
  _runStatements Stmt.selectColumnBasic [sqlite3_bind_int columnId]
    (fun _ r col => do
      cAssert (r.length == 7)
      pure { col with
        _name := _wrap_sqlite3_column_text cv (r.getD 0 .null)
        _revision := sqlite3_column_int cv (r.getD 4 .null) })
    col

/-- Modelled from the spec: `Filter::dbLoad` is defined outside the sources at
hand.  It hydrates the filter of the dataset from the store: its id, expression,
name, revision, error message and mask. -/
def Filter.dbLoad (f : Filter) (dataSetId : Int) : M Filter := do
  let id ← if f._id == -1 then dataSetGetFilter cv dataSetId else pure f._id
  let f ← filterLoad cv id { f with _id := id }
  let msg ← filterLoadErrorMsg cv id
  let (_, bools) ← filterSelect cv id f._filtered
  pure { f with _errorMsg := msg, _filtered := bools }

/-- Modelled from the spec: `Filter::incRevision` is defined outside the sources at
hand; outside batched-write mode it bumps the stored revision and caches it. -/
def Filter.incRevision (f : Filter) (batched : Bool) : M Filter :=
  if !batched then do
    let rev ← filterIncRevision cv f._id
    pure { f with _revision := rev }
  else pure f

/-- Modelled from the spec: `Filter::reset` is defined outside the sources at hand.
Every entry of the mask allows its row again, in memory for `rowCount` rows and,
outside batched-write mode, in the store; the change ends with the revision bump
of the filter. -/
def Filter.reset (f : Filter) (rowCount : Nat) (batched : Bool) : M Filter := do
  if !batched then filterClear cv f._id
  Filter.incRevision cv { f with _filtered := List.replicate rowCount true } batched

/-- Modelled from the spec: `Filter::checkForUpdates` is defined outside the sources
at hand; it compares the cached revision with the stored one and reloads the filter
on a mismatch. -/
def Filter.checkForUpdates (f : Filter) (dataSetId : Int) : M (Bool × Filter) :=
  if f._id == -1 then pure (false, f)
  else do
    let rev ← filterGetRevision cv f._id
    if f._revision != rev then do
      let f ← Filter.dbLoad cv f dataSetId
      pure (true, f)
    else pure (false, f)

/-- Modelled from the spec: the constructors `Column(DataSet *)` and
`Column(DataSet *, int id)` are defined outside the sources at hand; a new column
has no name and no values. -/
def Column.new (id : Int) : Column :=
  { _id := id, _name := "", _revision := 0, _ints := [], _dbls := [] }

/-- Modelled from the spec: `Column::dbLoadIndex(index, false)` is defined outside
the sources at hand; it takes the id of the column registered at the position and
hydrates the metadata, without the values. -/
def Column.dbLoadIndex (col : Column) (dataSetId : Int) (index : Nat) : M Column := do
  let id ← columnIdForIndex cv dataSetId index
  columnGetBasicInfo cv id { col with _id := id }

/-- Modelled from the spec: `Column::incRevision` is defined outside the sources at
hand; outside batched-write mode it bumps the stored revision and caches it. -/
def Column.incRevision (col : Column) (batched : Bool) : M Column :=
  if !batched then do
    let rev ← columnIncRevision cv col._id
    pure { col with _revision := rev }
  else pure col

/-- Modelled from the spec: `Column::setName` is defined outside the sources at
hand; a changed name is written to the registry and the change ends with the
revision bump of the column. -/
def Column.setName (col : Column) (name : String) (batched : Bool) : M Column :=
  if col._name == name then pure col
  else do
    columnSetName col._id name
    Column.incRevision cv { col with _name := name } batched

/-- Modelled from the spec: `Column::dbDelete()` is defined outside the sources at
hand; deleting a column drops its storage slots and its registry row and
re-tightens the positions of its siblings, which is `columnDelete` with
`cleanUpRest = true`. -/
def Column.dbDelete (col : Column) : M Unit :=
  columnDelete cv col._id true

/-- Modelled from the spec: `Column::checkForUpdates` is defined outside the sources
at hand; it compares the cached revision with the stored one and on a mismatch
reloads the metadata and the values of this column only. -/
def Column.checkForUpdates (col : Column) : M (Bool × Column) :=
  if col._id == -1 then pure (false, col)
  else do
    let rev ← columnGetRevision cv col._id
    if col._revision != rev then do
      let col ← columnGetBasicInfo cv col._id col
      let (ints, dbls) ← columnGetValues cv col._id col._ints col._dbls
      pure (true, { col with _ints := ints, _dbls := dbls })
    else pure (false, col)

/-- `DataSet::incRevision`.  The call `checkForChanges()` that follows the increment
only notifies the in-memory node hierarchy. -/
def DataSet.incRevision (data : DataSet) : M DataSet := do
  cAssert (data._dataSetID != -1)
  if !data._writeBatchedToDB then
    let rev ← dataSetIncRevision cv data._dataSetID
    pure { data with _revision := rev }
  else pure data

/-- `DataSet::removeColumn(size_t index)`. -/
def DataSet.removeColumn (data : DataSet) (index : Nat) : M DataSet := do
  cAssert (decide (data._dataSetID > 0))
  match data._columns[index]? with
  | none => M.raise Err.outOfRange
  | some removeMe =>
    let data := { data with _columns := data._columns.eraseIdx index }
    Column.dbDelete cv removeMe
    DataSet.incRevision cv data

/-- The loop of `DataSet::removeColumn(const std::string &)` over the columns from
position `i` on. -/
def DataSet.removeColumnNamedFrom (data : DataSet) (name : String) :
    List Column → Nat → M DataSet
  | [], _ => pure data
  | col :: rest, i =>
    if col._name == name then do
      Column.dbDelete cv col
      DataSet.incRevision cv { data with _columns := data._columns.eraseIdx i }
    else DataSet.removeColumnNamedFrom data name rest (i + 1)

/-- `DataSet::removeColumn(const std::string & name)`. -/
def DataSet.removeColumnNamed (data : DataSet) (name : String) : M DataSet := do
  cAssert (decide (data._dataSetID > 0))
  DataSet.removeColumnNamedFrom cv data name data._columns 0

/-- `DataSet::insertColumn(index, alterDataSetTable)`. -/
def DataSet.insertColumn (data : DataSet) (index : Nat) (alterDataSetTable : Bool) :
    M DataSet := do
  cAssert (decide (data._dataSetID > 0))
  let id ← columnInsert cv data._dataSetID index "" "unknown" alterDataSetTable
  let newColumn := Column.new id
  if index ≤ data._columns.length then
    let newColumn := newColumn.setRowCount data._rowCount
    DataSet.incRevision cv
      { data with _columns := data._columns.take index ++ newColumn :: data._columns.drop index }
  else M.raise Err.outOfRange

/-- `DataSet::newColumn(name)`: the dataset afterwards and the new column. -/
def DataSet.newColumn (data : DataSet) (name : String) : M (DataSet × Column) := do
  cAssert (decide (data._dataSetID > 0))
  let id ← columnInsert cv data._dataSetID (-1) name "unknown" true
  let col ← Column.setName cv (Column.new id) name data._writeBatchedToDB
  let data ← DataSet.incRevision cv { data with _columns := data._columns ++ [col] }
  pure (data, col)

end Mirror

section DataSetOps

variable (cv : SqliteConv)

/-- The loop `for(size_t i=0; i<colCount; i++)` of `DataSet::dbLoad`, with `n`
iterations left: a column object is appended when the list ends at `i`, then the
column at `i` is loaded from the registry entry at position `i`. -/
def DataSet.loadColumns (dataSetId : Int) : Nat → Nat → List Column → M (List Column)
  | 0, _, cols => pure cols
  | n + 1, i, cols => do
    let cols := if cols.length == i then cols ++ [Column.new (-1)] else cols
    match cols[i]? with
    | none => M.raise Err.outOfRange
    | some col =>
      let col ← Column.dbLoadIndex cv col dataSetId i
      DataSet.loadColumns dataSetId n (i + 1) (cols.set i col)

/-- `DataSet::dbLoad(index)` with the default progress callback and without the
0.19 fix; the empty-values policy is not represented. -/
def DataSet.dbLoad (data : DataSet) (index : Int) : M DataSet := do
  cAssert (data._dataSetID == -1 || data._dataSetID == index
    || (data._dataSetID != -1 && index == -1))
  let missing ← if index != -1 then (do pure (!(← dataSetExists cv index))) else pure false
  if missing then pure data
  else do
    let data := if index != -1 then { data with _dataSetID := index } else data
    cAssert (decide (data._dataSetID > 0))
    let rev ← dataSetLoad cv data._dataSetID data._revision
    let data := { data with _revision := rev }
    let filter ← Filter.dbLoad cv data._filter data._dataSetID
    let data := { data with _filter := filter }
    let colCount ← dataSetColCount cv data._dataSetID
    let rowCount ← dataSetRowCount cv data._dataSetID
    let data := { data with _rowCount := rowCount.toNat }
    let cols ← DataSet.loadColumns cv data._dataSetID colCount.toNat 0 data._columns
    let data := { data with _columns := cols.take colCount.toNat }
    dataSetBatchedValuesLoad cv data

/-- The loop `for(size_t i=curCount; i<colCount; i++) insertColumn(i, ...)` of
`DataSet::setColumnCount`, with `n` iterations left. -/
def DataSet.insertColumnsLoop (alterDataSetTable : Bool) : Nat → Nat → DataSet → M DataSet
  | 0, _, data => pure data
  | n + 1, i, data => do
    let data ← DataSet.insertColumn cv data i alterDataSetTable
    DataSet.insertColumnsLoop alterDataSetTable n (i + 1) data

/-- The loop `for(size_t i=curCount-1; i>=colCount; i--) removeColumn(i)` of
`DataSet::setColumnCount`; `i` is a 64-bit `size_t`, so decrementing 0 wraps
around to 2^64 - 1.  The loop is entered with `curCount - 1` for a positive
`curCount`. -/
def DataSet.removeColumnsLoop (colCount : Nat) : Nat → Nat → DataSet → M DataSet
  | 0, _, _ => M.raise Err.fuel
  | fuel + 1, i, data =>
    if i ≥ colCount then do
      let data ← DataSet.removeColumn cv data i
      DataSet.removeColumnsLoop colCount fuel (if i = 0 then 18446744073709551615 else i - 1) data
    else pure data

/-- `DataSet::setColumnCount`. -/
def DataSet.setColumnCount (data : DataSet) (colCount : Nat) : M DataSet := do
  transactionWriteBegin
  let curCount := data._columns.length
  let alterTableAfterwards := curCount == 0 && decide (colCount > 0)
  let data ←
    if colCount > curCount then
      DataSet.insertColumnsLoop cv (!alterTableAfterwards) (colCount - curCount) curCount data
    else if colCount < curCount then
      DataSet.removeColumnsLoop cv colCount (curCount + 1) (curCount - 1) data
    else pure data
  let data ← DataSet.incRevision cv data
  transactionWriteEnd false
  if alterTableAfterwards then dataSetCreateTable data
  pure data

/-- `DataSet::setRowCount`. -/
def DataSet.setRowCount (data : DataSet) (rowCount : Nat) : M DataSet := do
  let data := { data with _rowCount := rowCount }
  let data ←
    if !data._writeBatchedToDB then do
      dataSetSetRowCount cv data._dataSetID rowCount
      DataSet.dbLoad cv data (-1)
    else pure data
  let filter ← Filter.reset cv data._filter data._rowCount data._writeBatchedToDB
  pure { data with _filter := filter }

/-- A `std::set<std::string>` as the list of its elements in increasing order:
insertion. -/
def stringsetInsert (s : List String) (x : String) : List String :=
  if x ∈ s then s else List.orderedInsert (fun a b => a.data ≤ b.data) x s

/-- A `std::set<std::string>`: removal of an element. -/
def stringsetErase (s : List String) (x : String) : List String :=
  s.filter (fun y => !decide (y = x))

/-- The output parameters of `DataSet::checkForUpdates`; `none` stands for a null
pointer passed by the caller. -/
structure UpdateReport where
  colsChanged : Option (List String)
  colsRemoved : Option (List String)
  newColumns : Option Bool
  rowCountChanged : Option Bool
deriving DecidableEq

/-- The loop over the columns in the branch of `DataSet::checkForUpdates` taken when
the dataset revision is unchanged: the columns afterwards, the flag
`somethingChanged` and the vector `colsChanged`. -/
def DataSet.checkColumns :
    List Column → Bool → Option (List String) → M (List Column × Bool × Option (List String))
  | [], somethingChanged, colsChanged => pure ([], somethingChanged, colsChanged)
  | col :: rest, somethingChanged, colsChanged => do
    let (changed, col) ← Column.checkForUpdates cv col
    let somethingChanged := if changed then true else somethingChanged
    let colsChanged := if changed then colsChanged.map (fun v => v ++ [col._name]) else colsChanged
    let (rest, somethingChanged, colsChanged) ←
      DataSet.checkColumns rest somethingChanged colsChanged
    pure (col :: rest, somethingChanged, colsChanged)

/-- `DataSet::checkForUpdates`: the returned flag, the dataset afterwards and the
output parameters afterwards (`report` holds them as the caller passed them). -/
def DataSet.checkForUpdates (data : DataSet) (report : UpdateReport) :
    M (Bool × DataSet × UpdateReport) := do
  if data._dataSetID == -1 then pure (false, data, report)
  else do
    let prevCols := data._columns.foldl (fun s col => stringsetInsert s col._name) []
    let rowCountPrev := data._rowCount
    let rev ← dataSetGetRevision cv data._dataSetID
    if data._revision != rev then do
      let data ← DataSet.dbLoad cv data (-1)
      let report := { report with
        newColumns := report.newColumns.map (fun _ => decide (prevCols.length < data._columns.length)) }
      let report := { report with
        rowCountChanged := report.rowCountChanged.map (fun _ => decide (rowCountPrev ≠ data._rowCount)) }
      let (report, prevCols) :=
        match report.colsChanged with
        | some _ =>
          ({ report with colsChanged := some (data._columns.map (fun (col : Column) => col._name)) },
            data._columns.foldl (fun s (col : Column) => stringsetErase s col._name) prevCols)
        | none => (report, prevCols)
      let report := { report with colsRemoved := report.colsRemoved.map (fun _ => prevCols) }
      pure (true, data, report)
    else do
      let (changed, filter) ← Filter.checkForUpdates cv data._filter data._dataSetID
      let (cols, somethingChanged, colsChanged) ←
        DataSet.checkColumns cv data._columns changed report.colsChanged
      let data := { data with _filter := filter, _columns := cols }
      let report := { report with colsChanged := colsChanged }
      let report := { report with colsRemoved := report.colsRemoved.map (fun _ => []) }
      let report := { report with newColumns := report.newColumns.map (fun _ => false) }
      let report := { report with
        rowCountChanged := report.rowCountChanged.map (fun _ => decide (rowCountPrev ≠ data._rowCount)) }
      pure (somethingChanged || (report.rowCountChanged == some true), data, report)

end DataSetOps

/-- The double a reload yields for a double that was written: a NaN comes back as
the missing-value double, `-0.0` as `+0.0`, every other value as itself. -/
def reloaded (d : Dbl) : Dbl :=
  if d.isnan then missingValueDouble else if d = Dbl.negZero then Dbl.zero else d

/-- A column of the mirror after the first `j` result rows were loaded into it:
entry `i < j` of each array holds the value decoded from row `rowOf i`, the
entries from `j` on are as before. -/
def loadedColumn (cv : SqliteConv) (rowOf : Nat → PhysRow) (j : Nat) (m : Column) : Column :=
  { m with
    _ints := (List.range j).map (fun i => sqlite3_column_int cv ((rowOf i).cell (.colInt m._id)))
      ++ m._ints.drop j
    _dbls := (List.range j).map (fun i =>
        _doubleTroubleReader cv ((rowOf i).cell (.colDbl m._id)))
      ++ m._dbls.drop j }

/-- The filter of the mirror after the first `j` result rows were loaded into it. -/
def loadedFilter (cv : SqliteConv) (rowOf : Nat → PhysRow) (j : Nat) (f : Filter) : Filter :=
  { f with
    _filtered := (List.range j).map (fun i =>
        sqlite3_column_int cv ((rowOf i).cell (.filter f._id)) != 0)
      ++ f._filtered.drop j }

/-! ## Relations between the state before and after a call -/

/-- A computation keeps a relation between the state it starts from and the state
it ends in, whether it returns or raises. -/
def M.Keeps {α : Type} (R : Db → Db → Prop) (x : M α) : Prop := ∀ db, R db (x db).2

/-- A relation on states that is reflexive and transitive and that holds across
the bookkeeping steps of the interface: extending a trace, changing the write depth
and setting the function-static `prevUpdate`. -/
structure Respected (R : Db → Db → Prop) : Prop where
  refl : ∀ db, R db db
  trans : ∀ a b c, R a b → R b c → R a c
  log : ∀ db s, R db { db with log := db.log ++ [s] }
  progress : ∀ db p, R db { db with progress := db.progress ++ [p] }
  writeDepth : ∀ db n, R db { db with transactionWriteDepth := n }
  prevUpdate : ∀ db n, R db { db with prevUpdate := n }

/-- Running a statement keeps a relation, whatever the bound parameters. -/
def StepKeeps (R : Db → Db → Prop) (stmt : Stmt) : Prop :=
  ∀ params db, R db (stmt.step params db).2.2

/-- Two versions of a row that differ at most in the two slots of column `c`. -/
def RowFrame (c : Int) (r r' : PhysRow) : Prop :=
  r'.rowNumber = r.rowNumber ∧
  ∀ s, s ≠ SlotName.colInt c → s ≠ SlotName.colDbl c → r'.cell s = r.cell s

/-- Two versions of a physical table with the same slots and the same rows, in
the same order, up to the two slots of column `c`. -/
def TableFrame (c : Int) (t t' : PhysTable) : Prop :=
  t'.slots = t.slots ∧ List.Forall₂ (RowFrame c) t.rows t'.rows

/-- Two versions of the store with the same registry tables and the same physical
tables up to the two slots of column `c`. -/
def StoreFrame (c : Int) (db db' : Db) : Prop :=
  db'.dataSets = db.dataSets ∧ db'.columns = db.columns ∧ db'.filters = db.filters ∧
  List.Forall₂ (fun p p' => p'.1 = p.1 ∧ TableFrame c p.2 p'.2) db.tables db'.tables

/-! ## Sample states

Concrete stores and mirrors on which the definitions are evaluated. -/

/-- A store with dataset 1 at revision 4, its filter 1 at revision 0 and no
column; the physical table has the filter slot only and holds no row. -/
def sampleDb : Db where
  dataSets := [⟨1, 4⟩]
  columns := []
  filters := [⟨1, 1, "", "", "", 0⟩]
  tables := [(1, { slots := [SlotName.filter 1], rows := [] })]
  transactionWriteDepth := 0
  transactionReadDepth := 0
  prevUpdate := 0
  log := []
  progress := []

/-- The mirror of dataset 1 of `sampleDb`. -/
def sampleDataSet : DataSet where
  _dataSetID := 1
  _revision := 4
  _rowCount := 0
  _columns := []
  _filter := ⟨1, "", "", "", 0, []⟩
  _writeBatchedToDB := false

/-- The physical table of dataset 1 in `sampleStore`: the filter slot and the two
slots of column 7, with two rows. -/
def sampleTable : PhysTable where
  slots := [SlotName.filter 1, SlotName.colDbl 7, SlotName.colInt 7]
  rows :=
    [ { rowNumber := 1, cells := [(SlotName.filter 1, .integer 1),
          (SlotName.colDbl 7, .real Dbl.one), (SlotName.colInt 7, .integer 5)] },
      { rowNumber := 2, cells := [(SlotName.filter 1, .integer 0),
          (SlotName.colDbl 7, .text "nan"), (SlotName.colInt 7, .integer 6)] } ]

/-- A store with dataset 1 at revision 4, its filter 1, and column 7 named `a` at
position 0 and revision 2, with two rows of values. -/
def sampleStore : Db where
  dataSets := [⟨1, 4⟩]
  columns := [⟨7, 1, "a", 0, 2⟩]
  filters := [⟨1, 1, "", "", "", 0⟩]
  tables := [(1, sampleTable)]
  transactionWriteDepth := 0
  transactionReadDepth := 0
  prevUpdate := 0
  log := []
  progress := []

/-- A dataset with two rows to write to `sampleStore`: column 7 holds a finite
double and a NaN that is not the missing-value double. -/
def sampleData : DataSet where
  _dataSetID := 1
  _revision := 4
  _rowCount := 2
  _columns := [⟨7, "a", 2, [3, -1], [Dbl.one, ⟨false, 2047, 1⟩]⟩]
  _filter := ⟨1, "", "", "", 0, [true, false]⟩
  _writeBatchedToDB := false

/-- A mirror of dataset 1 of `sampleStore` that holds no value yet. -/
def sampleMirror : DataSet where
  _dataSetID := 1
  _revision := 4
  _rowCount := 0
  _columns := [⟨7, "a", 2, [], []⟩]
  _filter := ⟨1, "", "", "", 0, []⟩
  _writeBatchedToDB := false

/-- The store `sampleStore` after another process replaced column `a` by a column
`b`: dataset 1 stands at revision 5 and holds column 8 named `b` at position 0. -/
def sampleStoreReplaced : Db where
  dataSets := [⟨1, 5⟩]
  columns := [⟨8, 1, "b", 0, 0⟩]
  filters := [⟨1, 1, "", "", "", 0⟩]
  tables := [(1, { slots := [SlotName.filter 1, SlotName.colDbl 8, SlotName.colInt 8],
                   rows := [] })]
  transactionWriteDepth := 0
  transactionReadDepth := 0
  prevUpdate := 0
  log := []
  progress := []

/-- The mirror `sampleDataSet` after `insertColumn(0)`: revision 5 and one new
column, with id 1. -/
def sampleDataSetInserted : DataSet where
  _dataSetID := 1
  _revision := 5
  _rowCount := 0
  _columns := [⟨1, "", 0, [], []⟩]
  _filter := ⟨1, "", "", "", 0, []⟩
  _writeBatchedToDB := false

/-- The physical table of dataset 1 in `sampleStoreThree`: the filter slot and the
two slots of each of the columns 7, 8 and 9, without rows. -/
def sampleTableThree : PhysTable where
  slots := [SlotName.filter 1, SlotName.colDbl 7, SlotName.colInt 7, SlotName.colDbl 8,
    SlotName.colInt 8, SlotName.colDbl 9, SlotName.colInt 9]
  rows := []

/-- A store with dataset 1 at revision 4 holding the columns 7, 8 and 9 at the
positions 0, 1 and 2. -/
def sampleStoreThree : Db where
  dataSets := [⟨1, 4⟩]
  columns := [⟨7, 1, "a", 0, 2⟩, ⟨8, 1, "b", 1, 0⟩, ⟨9, 1, "c", 2, 0⟩]
  filters := [⟨1, 1, "", "", "", 0⟩]
  tables := [(1, sampleTableThree)]
  transactionWriteDepth := 0
  transactionReadDepth := 0
  prevUpdate := 0
  log := []
  progress := []

/-- The mirror of dataset 1 of `sampleStoreThree`. -/
def sampleMirrorThree : DataSet where
  _dataSetID := 1
  _revision := 4
  _rowCount := 0
  _columns := [⟨7, "a", 2, [], []⟩, ⟨8, "b", 0, [], []⟩, ⟨9, "c", 0, [], []⟩]
  _filter := ⟨1, "", "", "", 0, []⟩
  _writeBatchedToDB := false

/-! ## Operations that change the column count -/

/-- The operations of `DataSet` that change the number of columns. -/
inductive ColumnCountOp where
  /-- The call `insertColumn(index, alterDataSetTable)`. -/
  | insertColumn (index : Nat) (alterDataSetTable : Bool)
  /-- The call `newColumn(name)`. -/
  | newColumn (name : String)
  /-- The call `removeColumn(size_t index)`. -/
  | removeColumn (index : Nat)
  /-- The call `removeColumn(const std::string & name)`. -/
  | removeColumnNamed (name : String)
  /-- The call `setColumnCount(colCount)`. -/
  | setColumnCount (colCount : Nat)
deriving DecidableEq

/-- Run one of the operations on a dataset; the result is the dataset afterwards. -/
def ColumnCountOp.run (cv : SqliteConv) : ColumnCountOp → DataSet → M DataSet
  | .insertColumn index alterDataSetTable, data =>
    DataSet.insertColumn cv data index alterDataSetTable
  | .newColumn name, data => do
    let (data, _) ← DataSet.newColumn cv data name
    pure data
  | .removeColumn index, data => DataSet.removeColumn cv data index
  | .removeColumnNamed name, data => DataSet.removeColumnNamed cv data name
  | .setColumnCount colCount, data => DataSet.setColumnCount cv data colCount

/-- Whether the operation is a `setColumnCount` that takes the dataset from no
column to some (the case `alterTableAfterwards` of the source). -/
def ColumnCountOp.createsTable : ColumnCountOp → DataSet → Bool
  | .setColumnCount colCount, data => data._columns.length == 0 && decide (colCount > 0)
  | _, _ => false

/-- What the operation needs to change the column count at all: the removal by
name needs a column of that name. -/
def ColumnCountOp.applies : ColumnCountOp → DataSet → Prop
  | .removeColumnNamed name, data => ∃ col ∈ data._columns, col._name = name
  | _, _ => True

/-- Two states with the same `DataSets` registry and the same read depth, the
second with a trace of statements that extends the first. -/
def RegistryKept (db db' : Db) : Prop :=
  db'.dataSets = db.dataSets ∧ db'.transactionReadDepth = db.transactionReadDepth ∧
  ∃ l, db'.log = db.log ++ l

/-- A trace of statements that ends with the increment of a dataset revision and
its read-back, followed by nothing but `COMMIT`. -/
def EndsWithIncrement (log : List Stmt) : Prop :=
  ∃ pre post, log = pre ++ [Stmt.incRevision Registry.DataSets,
      Stmt.selectRevision Registry.DataSets] ++ post ∧
    ∀ s ∈ post, s = Stmt.commit

/-- The state after a step that bumped the revision of dataset `id` relative to an
earlier state: same dataset ids, same read depth, a longer trace that ends with the
increment, and a revision that is larger, of which `cached` is the C `int`. -/
structure RevisionBumped (id : Int) (cached : Int) (db db' : Db) : Prop where
  ids : db'.dataSets.map (fun r => r.id) = db.dataSets.map (fun r => r.id)
  readDepth : db'.transactionReadDepth = db.transactionReadDepth
  log : ∃ l, db'.log = db.log ++ l ∧ EndsWithIncrement l
  revision : ∀ r, db.dataSetRevision id = some r →
    ∃ r', db'.dataSetRevision id = some r' ∧ r < r' ∧ cached = toInt32 r'

/-- The state after steps that did not lower the revision of dataset `id`: same
dataset ids, same read depth, a trace that extends the earlier one. -/
structure RevisionMono (id : Int) (db db' : Db) : Prop where
  ids : db'.dataSets.map (fun r => r.id) = db.dataSets.map (fun r => r.id)
  readDepth : db'.transactionReadDepth = db.transactionReadDepth
  log : ∃ l, db'.log = db.log ++ l
  revision : ∀ r, db.dataSetRevision id = some r →
    ∃ r', db'.dataSetRevision id = some r' ∧ r ≤ r'

/-! ## Position indices -/

/-- The position indices of the columns of a dataset, in registry order. -/
def Db.colIndices (db : Db) (ds : Int) : List Int :=
  (db.columns.filter (fun r => decide (r.dataSet = ds))).map (fun r => r.colIdx)

/-- The position indices of the `n` columns of a dataset are exactly `0..n-1`:
there are `n` of them, no two are equal, and each lies in `0..n-1`. -/
def Db.DenseIndices (db : Db) (ds : Int) (n : Nat) : Prop :=
  (db.colIndices ds).length = n ∧ (db.colIndices ds).Nodup ∧
  ∀ x ∈ db.colIndices ds, 0 ≤ x ∧ x < n

/-- The registry row of a column after the columns of dataset `ds` above position
`i` moved down by one. -/
def ColumnsRow.shiftDown (ds i : Int) (r : ColumnsRow) : ColumnsRow :=
  if r.dataSet = ds ∧ i < r.colIdx then { r with colIdx := r.colIdx - 1 } else r

/-- The registry row of a column after the columns of dataset `ds` at position `i`
or above moved up by one. -/
def ColumnsRow.shiftUp (ds i : Int) (r : ColumnsRow) : ColumnsRow :=
  if r.dataSet = ds ∧ i ≤ r.colIdx then { r with colIdx := r.colIdx + 1 } else r

/-! ## Row counts -/

/-- The rows `INSERT ... DEFAULT VALUES` adds to a table holding the rows `1..c`
when it runs `k` times: the rows `c+1..c+k`, every slot at its declared default. -/
def defaultRows (t : PhysTable) (c k : Nat) : List PhysRow :=
  (List.range k).map (fun (j : Nat) => newRow t ((c : Int) + (j : Int) + 1) [])

/-- The row numbers `1..n` in increasing order. -/
def rowNumbersTo (n : Nat) : List Int := (List.range n).map (fun (i : Nat) => (i : Int) + 1)

/-! ## Freshly created datasets -/

/-- Two states holding the same registry tables and physical tables at the same
transaction depths; the traces may differ. -/
def SameStore (db db' : Db) : Prop :=
  db'.dataSets = db.dataSets ∧ db'.columns = db.columns ∧ db'.filters = db.filters ∧
  db'.tables = db.tables ∧ db'.transactionWriteDepth = db.transactionWriteDepth ∧
  db'.transactionReadDepth = db.transactionReadDepth

/-- Two states holding the same registry tables. -/
def RegistriesKept (db db' : Db) : Prop :=
  db'.dataSets = db.dataSets ∧ db'.columns = db.columns ∧ db'.filters = db.filters

/-- A store and the mirror of a dataset as they are right after the dataset was
created: the dataset and its one filter are registered, the dataset has no column,
its physical table has the filter slot only and no row, the mirror is loaded, has
no column and is not in batched-write mode, and no transaction is open. -/
structure FreshDataSet (db : Db) (data : DataSet) : Prop where
  loaded : 0 < data._dataSetID
  idRange : inInt32 data._dataSetID
  notBatched : data._writeBatchedToDB = false
  noColumns : data._columns = []
  noColumnRows : ∀ c ∈ db.columns, c.dataSet ≠ data._dataSetID
  filterId : data._filter._id ≠ -1
  table : db.table data._dataSetID
    = some { slots := [SlotName.filter data._filter._id], rows := [] }
  dataSetKeys : (db.dataSets.map (fun r => r.id)).Nodup
  dataSetRow : ∃ row, db.dataSets.find? (fun r => decide (r.id = data._dataSetID)) = some row
  filterKeys : (db.filters.map (fun r => r.id)).Nodup
  filterRow : ∃ row, db.filters.find? (fun r => decide (r.id = data._filter._id)) = some row ∧
    row.dataSet = data._dataSetID
  writeDepth : db.transactionWriteDepth = 0
  readDepth : db.transactionReadDepth = 0

/-! ## Sequences of transaction calls -/

/-- One call of a transaction function of `DatabaseInterface`. -/
inductive TransactionCall where
  /-- The call `transactionWriteBegin()`. -/
  | writeBegin
  /-- The call `transactionWriteEnd(rollback)`. -/
  | writeEnd (rollback : Bool)
  /-- The call `transactionReadBegin()`. -/
  | readBegin
  /-- The call `transactionReadEnd()`. -/
  | readEnd
deriving DecidableEq

/-- Run one transaction call. -/
def TransactionCall.run : TransactionCall → M Unit
  | .writeBegin => transactionWriteBegin
  | .writeEnd rollback => transactionWriteEnd rollback
  | .readBegin => transactionReadBegin
  | .readEnd => transactionReadEnd

/-- Run a sequence of transaction calls in order; a call that raises ends the
sequence. -/
def runCalls : List TransactionCall → M Unit
  | [] => pure ()
  | c :: cs => do
    c.run
    runCalls cs

/-- The nesting depth after a sequence of begins (`true`) and ends (`false`) entered
at a given depth; `none` when an end has no begin to match. -/
def depthAfter : Nat → List Bool → Option Nat
  | d, [] => some d
  | d, true :: cs => depthAfter (d + 1) cs
  | d, false :: cs => if d = 0 then none else depthAfter (d - 1) cs

/-- A balanced, properly nested sequence of begins and ends. -/
def Nested (cs : List Bool) : Prop := depthAfter 0 cs = some 0

instance (cs : List Bool) : Decidable (Nested cs) := by unfold Nested; infer_instance

/-- The number of begins that a sequence of begins and ends, entered at depth `d`,
makes at depth 0: the outermost pairs of a nested sequence. -/
def outermostFrom : Nat → List Bool → Nat
  | _, [] => 0
  | d, true :: cs => (if d = 0 then 1 else 0) + outermostFrom (d + 1) cs
  | d, false :: cs => outermostFrom (d - 1) cs

/-- The number of outermost pairs of a sequence of begins and ends entered at
depth 0. -/
def outermostPairs (cs : List Bool) : Nat := outermostFrom 0 cs

/-- The statements a sequence of begins and ends entered at depth `d` issues when a
begin at depth 0 issues `opening`, an end that returns to depth 0 issues `COMMIT`
and no other call issues a statement. -/
def issuedBy (opening : Stmt) : Nat → List Bool → List Stmt
  | _, [] => []
  | d, true :: cs => (if d = 0 then [opening] else []) ++ issuedBy opening (d + 1) cs
  | d, false :: cs => (if d = 1 then [Stmt.commit] else []) ++ issuedBy opening (d - 1) cs

/-- The write calls of a sequence of begins and ends: `transactionWriteBegin()` and
`transactionWriteEnd()`. -/
def writeCalls (cs : List Bool) : List TransactionCall :=
  cs.map (fun b => if b then TransactionCall.writeBegin else TransactionCall.writeEnd false)

/-- The read calls of a sequence of begins and ends: `transactionReadBegin()` and
`transactionReadEnd()`. -/
def readCalls (cs : List Bool) : List TransactionCall :=
  cs.map (fun b => if b then TransactionCall.readBegin else TransactionCall.readEnd)

/-- The two depth counters are not both positive. -/
def Exclusive (db : Db) : Prop :=
  ¬ (0 < db.transactionWriteDepth ∧ 0 < db.transactionReadDepth)

instance (db : Db) : Decidable (Exclusive db) := by unfold Exclusive; infer_instance

/-! ## The error texts of the statement runner -/

namespace Text

/-- The result codes of the engine that `_runStatements` can meet. -/
inductive ResultCode where
  | SQLITE_OK
  | SQLITE_ERROR
  | SQLITE_BUSY
  | SQLITE_READONLY
  | SQLITE_CONSTRAINT
  | SQLITE_ROW
  | SQLITE_DONE
deriving DecidableEq

/-- What the engine does with the statement that starts at an offset of the text:
the result of `sqlite3_prepare_v2`, whether a statement object came back, the offset
of the tail, the result of each successive `sqlite3_step` and the result of
`sqlite3_finalize`. -/
structure Prepared where
  ret : ResultCode
  dbStmt : Bool
  tail : Nat
  sqlite3_step : Nat → ResultCode
  sqlite3_finalize : ResultCode

/-- The engine as `_runStatements` sees it for one text: the outcome of preparing at
each offset and the message `sqlite3_errmsg` gives. -/
structure Engine where
  sqlite3_prepare_v2 : Nat → Prepared
  sqlite3_errmsg : String

/-- The ways `_runStatements` ends other than by returning. -/
inductive Raised where
  /-- A `std::runtime_error` with its message. -/
  | runtime_error (what : String)
  /-- The iteration bound of a modelled loop was used up. -/
  | fuel
deriving DecidableEq

/-- The call `s.substr(pos)` of `std::string`. -/
def substr (s : String) (pos : Nat) : String := ⟨s.data.drop pos⟩

/-- The call `s.substr(pos, len)` of `std::string`. -/
def substrLen (s : String) (pos len : Nat) : String := ⟨(s.data.drop pos).take len⟩

/-- The inner `do ... while` of `_runStatements`, which steps the statement prepared
at offset `current`; `row` counts the steps. -/
def stepLoop (engine : Engine) (statements : String) (current : Nat) (p : Prepared) :
    Nat → Nat → Except Raised ResultCode
  | 0, _ => .error Raised.fuel
  | fuel + 1, row =>
    let ret := p.sqlite3_step row
    if ret = ResultCode.SQLITE_ERROR then
      .error (Raised.runtime_error ("Running ```\n" ++ substr statements current
        ++ "\n``` failed because of: `" ++ engine.sqlite3_errmsg))
    else if (ret = ResultCode.SQLITE_BUSY ∨ ret = ResultCode.SQLITE_ROW)
        ∧ ret ≠ ResultCode.SQLITE_DONE then
      stepLoop engine statements current p fuel (row + 1)
    else .ok ret

/-- The outer `do ... while` of `_runStatements` over the statements of the text,
from offset `current` on: the value of `ret` when the loop is left. -/
def statementLoop (engine : Engine) (statements : String) (stepFuel : Nat) :
    Nat → Nat → Except Raised ResultCode
  | 0, _ => .error Raised.fuel
  | fuel + 1, current => do
    let p := engine.sqlite3_prepare_v2 current
    let ret ←
      if p.ret = ResultCode.SQLITE_OK ∧ p.dbStmt then do
        let _ ← stepLoop engine statements current p stepFuel 0
        pure p.sqlite3_finalize
      else pure p.ret
    let remain := statements.length - p.tail
    if remain > 1 ∧ (ret = ResultCode.SQLITE_OK ∧ ret ≠ ResultCode.SQLITE_DONE) then
      statementLoop engine statements stepFuel fuel p.tail
    else pure ret

/-- The length to which `_runStatements` cuts the text for its message. -/
def maxLenStatementError : Nat := 200

/-- `DatabaseInterface::_runStatements`, restricted to the result codes and to the
texts of the errors it raises; `fuel` bounds the number of statements and `stepFuel`
the number of steps of one statement. -/
def _runStatements (engine : Engine) (statements : String) (fuel stepFuel : Nat) :
    Except Raised Unit := do
  let ret ← statementLoop engine statements stepFuel fuel 0
  let shortStatements :=
    if statements.length ≤ maxLenStatementError then statements
    else substrLen statements 0 maxLenStatementError
  if ret = ResultCode.SQLITE_ERROR then
    .error (Raised.runtime_error ("Running ```\n" ++ shortStatements
      ++ "\n``` failed because of: `" ++ engine.sqlite3_errmsg))
  else if ret = ResultCode.SQLITE_READONLY then
    .error (Raised.runtime_error ("Running ```\n" ++ shortStatements
      ++ "\n``` failed because the database is readonly..."))
  else pure ()

/-- An engine that compiles the whole text as one statement and fails with
`SQLITE_ERROR` at its first step. -/
def failsAtStep (statements errmsg : String) : Engine where
  sqlite3_prepare_v2 := fun _ =>
    { ret := ResultCode.SQLITE_OK
      dbStmt := true
      tail := statements.length
      sqlite3_step := fun _ => ResultCode.SQLITE_ERROR
      sqlite3_finalize := ResultCode.SQLITE_ERROR }
  sqlite3_errmsg := errmsg

/-- An engine that fails with `SQLITE_ERROR` when it prepares the text. -/
def failsAtPrepare (errmsg : String) : Engine where
  sqlite3_prepare_v2 := fun _ =>
    { ret := ResultCode.SQLITE_ERROR
      dbStmt := false
      tail := 0
      sqlite3_step := fun _ => ResultCode.SQLITE_DONE
      sqlite3_finalize := ResultCode.SQLITE_OK }
  sqlite3_errmsg := errmsg

end Text

/-! ## Filters in the store -/

section FilterStore

variable (cv : SqliteConv)

/-- `DatabaseInterface::filterUpdateErrorMsg`. -/
def filterUpdateErrorMsg (filterIndex : Int) (errorMsg : String) : M Unit :=
  runStatements Stmt.updateFilterErrorMsg [sqlite3_bind_text errorMsg, sqlite3_bind_int filterIndex]

/-- `DatabaseInterface::filterUpdate`. -/
def filterUpdate (filterIndex : Int) (rFilter generatedFilter constructorJson constructorR
    name : String) : M Unit :=
  runStatements Stmt.updateFilterFields
    [sqlite3_bind_text rFilter, sqlite3_bind_text generatedFilter,
      sqlite3_bind_text constructorJson, sqlite3_bind_text constructorR, sqlite3_bind_text name,
      sqlite3_bind_int filterIndex]

/-- `DatabaseInterface::filterGetId(const std::string & name)`: the id of the last
filter of that name, `-1` without one. -/
def filterGetIdByName (name : String) : M Int :=
  _runStatements Stmt.selectFilterIdByName [sqlite3_bind_text name]
    (fun _ r _ => pure (sqlite3_column_int cv (r.getD 0 .null))) (-1)

/-- `DatabaseInterface::filterWrite`.  The binder reads `values[rowOutside]` only
when it is applied, which is for `row < values.size()`. -/
def filterWrite (filterIndex : Int) (values : List Bool) : M Unit := do
  transactionWriteBegin
  let dataSet ← filterGetDataSetId cv filterIndex
  let _ ← _runStatementsRepeatedly (values.length + 1) (Stmt.updateFilter dataSet filterIndex)
    (fun row (_ : Nat) =>
      pure (decide (row < values.length),
        some [sqlite3_bind_int (if values.getD row false then 1 else 0),
          sqlite3_bind_int ((row : Int) + 1)],
        row)) 0
  let _ ← filterIncRevision cv filterIndex
  transactionWriteEnd false

/-- `DatabaseInterface::dataSetGetId`. -/
def dataSetGetId : M Int :=
  runStatementsId cv Stmt.selectAnyDataSetId []

/-- Modelled from the spec: `Filter::setErrorMsg` is defined outside the sources at
hand; the message of the last evaluation is kept in memory and stored with the
filter. -/
def Filter.setErrorMsg (f : Filter) (errorMsg : String) : M Filter := do
  filterUpdateErrorMsg f._id errorMsg
  pure { f with _errorMsg := errorMsg }

/-- Modelled from the spec: `Filter::setRFilter` is defined outside the sources at
hand; the last-applied expression is kept in memory and stored with the filter. -/
def Filter.setRFilter (f : Filter) (rFilter : String) : M Filter := do
  filterUpdate f._id rFilter "" "" "" f._name
  pure { f with _rFilter := rFilter }

/-- Modelled from the spec: `Filter::setFilterVector` is defined outside the sources
at hand; the mask is replaced in memory and written to the store. -/
def Filter.setFilterVector (f : Filter) (filterResult : List Bool) : M Filter := do
  filterWrite cv f._id filterResult
  pure { f with _filtered := filterResult }

/-- Modelled from the spec: the constructor `Filter(DataSet *, name, createIfMissing)`
with `createIfMissing = false` is defined outside the sources at hand; it hydrates
the stored filter of that name and raises without one. -/
def Filter.named (dataSetId : Int) (name : String) : M Filter := do
  let id ← filterGetIdByName cv name
  if id == -1 then
    M.raise (Err.runtimeError ("Filter by name '" ++ name ++ "' does not exist"))
  else
    Filter.dbLoad cv ⟨id, "", name, "", 0, []⟩ dataSetId

/-- `DataSet::endBatchedToDB(progressCallback, columns)`. -/
def DataSet.endBatchedToDB (data : DataSet) (columns : List Column) : M DataSet := do
  cAssert data._writeBatchedToDB
  let data := { data with _writeBatchedToDB := false }
  let columns := if columns.length == 0 then data._columns else columns
  dataSetBatchedValuesUpdate data columns
  DataSet.incRevision cv data

/-- Modelled from the spec: the members of a `DataSet` object before it is created or
loaded are declared outside the sources at hand; it has no id, no column and no
filter yet. -/
def DataSet.unloaded : DataSet where
  _dataSetID := -1
  _revision := -1
  _rowCount := 0
  _columns := []
  _filter := ⟨-1, "", "", "", -1, []⟩
  _writeBatchedToDB := false

/-- `DataSet::DataSet(int index)` for an index other than `-1`, which is how
`provideAndUpdateDataSet` calls it: a positive index is loaded. -/
def DataSet.ofIndex (index : Int) : M DataSet :=
  if index > 0 then DataSet.dbLoad cv DataSet.unloaded index else pure DataSet.unloaded

end FilterStore
/-! ## Datasets, filters and labels in the store -/

/-- Modelled from the spec: the class `Label` is defined outside the sources at
hand; these are the members the interface reads and writes.  The original value, a
JSON value in the source, is kept as its text. -/
structure Label where
  _dbId : Int
  _intsId : Int
  _label : String
  _filterAllows : Bool
  _description : String
  _originalValue : String
  _order : Int
deriving DecidableEq

/-- Modelled from the spec: `Column::labelsSet` is defined outside the sources at
hand; the label at position `row` of the labels of the column is replaced in memory,
and a label is appended when `row` is the number of labels. -/
def Column.labelsSet (labels : List Label) (row : Nat) (label : Label) : List Label :=
  if row < labels.length then labels.set row label else labels ++ [label]

/-- Modelled from the spec: `Column::labelsRemoveBeyond` is defined outside the
sources at hand; the labels from position `n` on are dropped in memory. -/
def Column.labelsRemoveBeyond (labels : List Label) (n : Nat) : List Label := labels.take n

section Registries

variable (cv : SqliteConv)

/-- `DatabaseInterface::dataSetInsert`. -/
def dataSetInsert (dataFilePath : String) (dataFileTimestamp : Int)
    (description databaseJson emptyValuesJson : String) (dataSynch : Bool) : M Int := do
  transactionWriteBegin
  let id ← runStatementsId cv Stmt.insertDataSet
    [sqlite3_bind_text dataFilePath, sqlite3_bind_int dataFileTimestamp,
      sqlite3_bind_text description, sqlite3_bind_text databaseJson,
      sqlite3_bind_text emptyValuesJson, sqlite3_bind_int (if dataSynch then 1 else 0)]
  runStatements (Stmt.createTable id []) []
  transactionWriteEnd false
  pure id

/-- `DatabaseInterface::dataSetDelete`. -/
def dataSetDelete (dataSetId : Int) : M Unit := do
  transactionWriteBegin
  runStatements (Stmt.deleteDataSet dataSetId) []
  runStatements (Stmt.dropTable dataSetId) []
  transactionWriteEnd false

/-- `DatabaseInterface::filterDelete`. -/
def filterDelete (filterIndex : Int) : M Unit := do
  transactionWriteBegin
  let dataSetId ← filterGetDataSetId cv filterIndex
  if dataSetId != -1 then
    runStatements (Stmt.dropSlot dataSetId (SlotName.filter filterIndex)) []
  runStatements (Stmt.deleteFilter filterIndex) []
  transactionWriteEnd false

/-- `DatabaseInterface::filterInsert`. -/
def filterInsert (dataSetId : Int) (rFilter generatedFilter constructorJson constructorR
    name : String) : M Int := do
  transactionWriteBegin
  let id ← runStatementsId cv Stmt.insertFilter
    [sqlite3_bind_int dataSetId, sqlite3_bind_text rFilter, sqlite3_bind_text generatedFilter,
      sqlite3_bind_text constructorJson, sqlite3_bind_text constructorR, sqlite3_bind_text name]
  runStatements (Stmt.addSlot dataSetId (SlotName.filter id)) []
  transactionWriteEnd false
  pure id

/-- `DatabaseInterface::columnGetLabelCount`.  The local `out` is not initialised in
the source; the statement yields one row, which assigns it. -/
def columnGetLabelCount (columnId : Int) : M Int :=
  _runStatements Stmt.selectLabelCount [sqlite3_bind_int columnId]
    (fun _ r (_ : Int) => do
      cAssert (r.length == 1)
      pure (sqlite3_column_int cv (r.getD 0 .null)))
    0

/-- `DatabaseInterface::labelsLoad` for the column with the given id: the labels of
the column afterwards.  `Column::beginBatchedLabelsDB` and
`Column::endBatchedLabelsDB(false)` (modelled from the spec: they are defined
outside the sources at hand) switch the batched mode of the labels on and off in
memory; the parse of the original value is not represented. -/
def labelsLoad (columnId : Int) (labels : List Label) : M (List Label) := do
  transactionReadBegin
  let labelsSize ← columnGetLabelCount cv columnId
  let labels ← _runStatements Stmt.selectLabels [sqlite3_bind_int columnId]
    (fun row r (labels : List Label) => do
      cAssert (r.length == 7)
      pure (Column.labelsSet labels row
        { _dbId := sqlite3_column_int cv (r.getD 0 .null)
          _intsId := sqlite3_column_int cv (r.getD 1 .null)
          _label := _wrap_sqlite3_column_text cv (r.getD 2 .null)
          _order := sqlite3_column_int cv (r.getD 3 .null)
          _filterAllows := sqlite3_column_int cv (r.getD 4 .null) != 0
          _description := _wrap_sqlite3_column_text cv (r.getD 5 .null)
          _originalValue := _wrap_sqlite3_column_text cv (r.getD 6 .null) }))
    labels
  let labels := Column.labelsRemoveBeyond labels labelsSize.toNat
  transactionReadEnd
  pure labels

/-- `DatabaseInterface::labelsSetOrder`; the map is given as its entries (id and
order) in the order of iteration.  The iterator `iter` is the state of the loop. -/
def labelsSetOrder (orderPerDbId : List (Int × Int)) : M Unit :=
  if orderPerDbId.isEmpty then pure ()
  else do
    transactionWriteBegin
    let _ ← _runStatementsRepeatedly (orderPerDbId.length + 1) Stmt.updateLabelOrdering
      (fun _ (iter : List (Int × Int)) =>
        match iter with
        | [] => pure (false, none, [])
        | entry :: rest =>
          pure (true, some [sqlite3_bind_int entry.2, sqlite3_bind_int entry.1], rest))
      orderPerDbId
    transactionWriteEnd false

/-- `DatabaseInterface::labelSetOrder`. -/
def labelSetOrder (id order : Int) : M Unit := do
  transactionWriteBegin
  runStatements Stmt.updateLabelOrdering [sqlite3_bind_int order, sqlite3_bind_int id]
  transactionWriteEnd false

/-- The `while` loop of `DatabaseInterface::_runStatementsRepeatedly` when a
`processRow` is passed: as `repeatedLoop`, and `processRow` is invoked for each
result row of a step with the running row counter and the repetition. -/
def repeatedLoopRows {σ : Type} (statements : Stmt)
    (bindParameterFactory : Nat → σ → M (Bool × Option (List SqlValue) × σ))
    (processRow : Nat → Nat → List SqlValue → σ → M σ) :
    Nat → Rc → Nat → Nat → List SqlValue → σ → M σ
  | 0, _, _, _, _, _ => M.raise Err.fuel
  | fuel + 1, ret, row, repetition, bound, s =>
    if ret = Rc.ok ∨ ret = Rc.done then do
      let (more, binder, s') ← bindParameterFactory row s
      if more then
        let bound' := match binder with
          | some p => p
          | none => bound
        let db ← M.get
        match statements.step bound' db with
        | (ret', rows, db') =>
          M.modify (fun _ => db')
          let s'' ← processRows (fun i r t => processRow i repetition r t) row rows s'
          if ret' = Rc.error then M.raise Err.sqlError
          else
            repeatedLoopRows statements bindParameterFactory processRow fuel ret'
              (row + rows.length + 1) (repetition + 1) bound' s''
      else pure s'
    else pure s

/-- `DatabaseInterface::_runStatementsRepeatedly` for a text holding one statement,
with a `processRow`; `fuel` bounds the number of calls of the factory. -/
def _runStatementsRepeatedlyRows {σ : Type} (fuel : Nat) (statements : Stmt)
    (bindParameterFactory : Nat → σ → M (Bool × Option (List SqlValue) × σ))
    (processRow : Nat → Nat → List SqlValue → σ → M σ) (init : σ) : M σ := do
  logStmt statements
  let db ← M.get
  if statements.prepare db then
    repeatedLoopRows statements bindParameterFactory processRow fuel Rc.ok 0 0 [] init
  else
    M.raise Err.sqlError

/-- `DatabaseInterface::labelsWrite` for the column with the given id and labels:
the labels afterwards, with the ids the store gave them.  The state of the loop is
the labels before the iterator `labelIter` and those from it on. -/
def labelsWrite (columnId : Int) (labels : List Label) : M (List Label) := do
  transactionWriteBegin
  runStatements Stmt.deleteLabels [sqlite3_bind_int columnId]
  let labels ←
    if labels.isEmpty then pure labels
    else do
      let out ← _runStatementsRepeatedlyRows (labels.length + 1) Stmt.insertLabel
        (fun _ (iter : List Label × List Label) =>
          match iter.2 with
          | [] => pure (false, none, iter)
          | label :: _ =>
            pure (true,
              some [sqlite3_bind_int columnId, sqlite3_bind_int label._intsId,
                sqlite3_bind_text label._label,
                sqlite3_bind_int (if label._filterAllows then 1 else 0),
                sqlite3_bind_text label._description, sqlite3_bind_text label._originalValue,
                sqlite3_bind_int label._order],
              iter))
        (fun _ _ r (iter : List Label × List Label) => do
          cAssert (r.length == 1)
          match iter.2 with
          | [] => M.raise Err.outOfRange
          | label :: rest =>
            pure (iter.1 ++ [{ label with _dbId := sqlite3_column_int cv (r.getD 0 .null) }],
              rest))
        ([], labels)
      pure (out.1 ++ out.2)
  transactionWriteEnd false
  pure labels

/-- `DatabaseInterface::create`; `_db` tells whether the handle is set on entry and
`opened` whether `sqlite3_open_v2` succeeds.  The removal of an existing file is not
represented. -/
def create (_db opened : Bool) : M Unit := do
  cAssert (!_db)
  if opened then
    transactionWriteBegin
    runStatements Stmt.construction []
    transactionWriteEnd false
  else
    M.raise (Err.runtimeError
      ("JASP cannot run without an internal database and it cannot be created. "
        ++ "Contact the JASP team for help."))

end Registries

/-! ## The worker engine -/

/-- The values of `engineState` that the sources name. -/
inductive engineState where
  | initializing
  | idle
  | analysis
  | filter
  | filterByName
  | rCode
  | computeColumn
  | pauseRequested
  | paused
  | resuming
  | moduleInstallRequest
  | moduleLoadRequest
  | stopRequested
  | stopped
  | logCfg
  | settings
  | reloadData
deriving DecidableEq

/-- Modelled from the spec: `engineStateToString` is defined outside the sources at
hand; the text of an engine state is its name. -/
def engineStateToString : engineState → String
  | .initializing => "initializing"
  | .idle => "idle"
  | .analysis => "analysis"
  | .filter => "filter"
  | .filterByName => "filterByName"
  | .rCode => "rCode"
  | .computeColumn => "computeColumn"
  | .pauseRequested => "pauseRequested"
  | .paused => "paused"
  | .resuming => "resuming"
  | .moduleInstallRequest => "moduleInstallRequest"
  | .moduleLoadRequest => "moduleLoadRequest"
  | .stopRequested => "stopRequested"
  | .stopped => "stopped"
  | .logCfg => "logCfg"
  | .settings => "settings"
  | .reloadData => "reloadData"

/-- The values of `engineAnalysisStatus` that the sources name. -/
inductive Status where
  | empty
  | toRun
  | running
  | changed
  | complete
  | aborted
  | stopped
  | error
  | exception
  | saveImg
  | editImg
  | rewriteImgs
deriving DecidableEq

/-- The values of `performType` that the sources name, and `other` for any value the
`switch` of `receiveAnalysisMessage` does not list. -/
inductive performType where
  | run
  | abort
  | saveImg
  | editImg
  | rewriteImgs
  | other
deriving DecidableEq

/-- The values of `columnType` that the sources name. -/
inductive columnType where
  | scale
  | ordinal
  | nominal
  | nominalText
  | unknown
deriving DecidableEq

/-- A value of a member of a JSON object the engine sends. -/
inductive JsonValue where
  | string (s : String)
  | int (i : Int)
  | bool (b : Bool)
deriving DecidableEq

/-- An argument of `sendString`: the empty string, which clears the send buffer, or
the styled string of a JSON object, kept as the list of its members. -/
inductive Sent where
  | empty
  | object (members : List (String × JsonValue))
deriving DecidableEq

/-- The members of a request that the handlers read, each with the default that
`jsonRequest.get` gives it when absent already filled in; `typeRequest` is the value
`engineStateFromString` gave. -/
structure Request where
  typeRequest : engineState
  id : Int
  perform : performType
  filter : String
  generatedFilter : String
  requestId : Int
  name : String
  columnName : String
  computeCode : String
  columnType : columnType
  rCode : String
  whiteListed : Bool
  returnLog : Bool
  unloadData : Bool
  moduleRequest : String
  moduleCode : String
  moduleName : String
  moduleLibPaths : String
deriving DecidableEq

/-- What `_channel->receive` yields within the timeout: nothing, the empty string, a
text without a `typeRequest`, or a request. -/
inductive Received where
  | nothing
  | emptyData
  | noTypeRequest
  | request (jsonRequest : Request)
deriving DecidableEq

/-- The computation collaborator and the encoder of column names as the engine uses
them; the results are those of the calls made while one request is handled.
`rbridge_applyFilter` yields the mask or the message of the `filterException` it
throws. -/
structure RBridge where
  stripRComments : String → String
  rbridge_applyFilter : String → String → Except String (List Bool)
  jaspRCPP_getLastErrorMsg : String
  encode : String → String
  rbridge_evalRComputedColumn : String → String → String
  rbridge_evalRCodeWhiteListed : String → String
  jaspRCPP_evalRCode : String → String
  jaspRCPP_evalRCodeCommander : String → String

/-- The members of `Engine` that the embedded functions use, and three traces kept
for stating properties: the arguments of `sendString`, the handlers entered (by the
name of the function), and the code handed to the collaborator. -/
structure Engine where
  _engineState : engineState
  _lastRequest : engineState
  _analysisId : Int
  _analysisStatus : Status
  _dataSet : Option DataSet
  sent : List Sent
  handled : List String
  evaluated : List String
deriving DecidableEq

/-- `Engine::sendString`, as far as what goes to the channel. -/
def Engine.sendString (e : Engine) (message : Sent) : Engine :=
  { e with sent := e.sent ++ [message] }

/-- Record that a handler was entered. -/
def Engine.enter (e : Engine) (handler : String) : Engine :=
  { e with handled := e.handled ++ [handler] }

/-- Record code handed to the collaborator. -/
def Engine.evaluate (e : Engine) (code : String) : Engine :=
  { e with evaluated := e.evaluated ++ [code] }

/-- `Engine::sendFilterResult`. -/
def Engine.sendFilterResult (e : Engine) (filterRequestId : Int) : Engine :=
  e.sendString (.object
    [("typeRequest", .string (engineStateToString engineState.filter)),
     ("requestId", .int filterRequestId)])

/-- `Engine::sendFilterError`. -/
def Engine.sendFilterError (e : Engine) (filterRequestId : Int) (errorMessage : String) : Engine :=
  e.sendString (.object
    [("typeRequest", .string (engineStateToString engineState.filter)),
     ("requestId", .int filterRequestId),
     ("error", .string errorMessage)])

/-- `Engine::sendFilterByNameDone`. -/
def Engine.sendFilterByNameDone (e : Engine) (name errorMessage : String) : Engine :=
  e.sendString (.object
    [("typeRequest", .string (engineStateToString engineState.filterByName)),
     ("name", .string name),
     ("errorMessage", .string errorMessage)])

/-- `Engine::sendRCodeResult`. -/
def Engine.sendRCodeResult (R : RBridge) (e : Engine) (rCodeRequestId : Int)
    (rCodeResult : String) : Engine :=
  let RError := R.jaspRCPP_getLastErrorMsg
  e.sendString (.object
    ((if RError.length > 0 then [("rCodeError", JsonValue.string RError)] else []) ++
    [("typeRequest", .string (engineStateToString engineState.rCode)),
     ("rCodeResult", .string rCodeResult),
     ("requestId", .int rCodeRequestId)]))

/-- `Engine::sendRCodeError`. -/
def Engine.sendRCodeError (R : RBridge) (e : Engine) (rCodeRequestId : Int) : Engine :=
  let RError := R.jaspRCPP_getLastErrorMsg
  e.sendString (.object
    [("typeRequest", .string (engineStateToString engineState.rCode)),
     ("rCodeError", .string (if RError.length = 0 then
        "R Code failed for unknown reason. Check that R function returns a string." else RError)),
     ("requestId", .int rCodeRequestId)])

/-- `Engine::sendEnginePaused`. -/
def Engine.sendEnginePaused (e : Engine) : Engine :=
  e.sendString (.object [("typeRequest", .string (engineStateToString engineState.paused))])

/-- `Engine::sendEngineResumed`. -/
def Engine.sendEngineResumed (e : Engine) (justReloadedData : Bool) : Engine :=
  e.sendString (.object
    [("typeRequest", .string (engineStateToString engineState.resuming)),
     ("justReloadedData", .bool justReloadedData)])

/-- `Engine::sendEngineLoadingData`. -/
def Engine.sendEngineLoadingData (e : Engine) : Engine :=
  e.sendString (.object [("typeRequest", .string (engineStateToString engineState.reloadData))])

/-- `Engine::sendEngineStopped`. -/
def Engine.sendEngineStopped (e : Engine) : Engine :=
  e.sendString (.object [("typeRequest", .string (engineStateToString e._engineState))])

section EngineOps

variable (cv : SqliteConv) (R : RBridge)

/-- `EngineBase::provideAndUpdateDataSet`: the engine afterwards; the returned
pointer is its `_dataSet`. -/
def Engine.provideAndUpdateDataSet (e : Engine) : M Engine := do
  let e ←
    match e._dataSet with
    | none => do
      let id ← dataSetGetId cv
      if id != -1 then do
        let index ← dataSetGetId cv
        let data ← DataSet.ofIndex cv index
        pure { e with _dataSet := some data }
      else pure e
    | some _ => pure e
  match e._dataSet with
  | some data => do
    let (_, data, _) ← DataSet.checkForUpdates cv data ⟨none, none, none, none⟩
    pure { e with _dataSet := some data }
  | none => pure e

/-- `EngineBase::reloadColumnNames`, as far as the dataset goes. -/
def Engine.reloadColumnNames (e : Engine) : M Engine := do
  let e ← Engine.provideAndUpdateDataSet cv e
  match e._dataSet with
  | none => pure e
  | some _ => Engine.provideAndUpdateDataSet cv e

/-- `Engine::runFilter`. -/
def Engine.runFilter (e : Engine) (filter generatedFilter : String) (filterRequestId : Int) :
    M Engine := do
  let strippedFilter := R.stripRComments filter
  let e := e.evaluate strippedFilter
  let e ←
    match R.rbridge_applyFilter strippedFilter generatedFilter with
    | .ok filterResult =>
      let RPossibleWarning := R.jaspRCPP_getLastErrorMsg
      match e._dataSet with
      | none => M.raise Err.nullPointer
      | some data => do
        transactionWriteBegin
        let f ← Filter.setRFilter data._filter filter
        let f ← Filter.setFilterVector cv f filterResult
        let f ← Filter.setErrorMsg f RPossibleWarning
        let f ← Filter.incRevision cv f data._writeBatchedToDB
        transactionWriteEnd false
        pure ({ e with _dataSet := some { data with _filter := f } }.sendFilterResult
          filterRequestId)
    | .error what =>
      let error :=
        if what.length > 0 then what
        else "Something went wrong with the filter but it is unclear what."
      match e._dataSet with
      | none => M.raise Err.nullPointer
      | some data => do
        transactionWriteBegin
        let f ← Filter.setErrorMsg data._filter error
        let f ← Filter.incRevision cv f data._writeBatchedToDB
        transactionWriteEnd false
        pure ({ e with _dataSet := some { data with _filter := f } }.sendFilterError
          filterRequestId error)
  pure { e with _engineState := engineState.idle }

/-- `Engine::runFilterByName`.  The filter object is local to the call. -/
def Engine.runFilterByName (e : Engine) (name : String) : M Engine := do
  let e ← Engine.provideAndUpdateDataSet cv e
  let localFilter ← Filter.named cv
    (match e._dataSet with
      | some data => data._dataSetID
      | none => -1) name
  let strippedFilter := R.stripRComments localFilter._rFilter
  let e := e.evaluate strippedFilter
  let (filterResult, RPossibleWarning) :=
    match R.rbridge_applyFilter strippedFilter "" with
    | .ok filterResult => (filterResult, R.jaspRCPP_getLastErrorMsg)
    | .error what =>
      let error := if what.length > 0 then what else "but it is unclear what the problem was..."
      let error := "There was a problem running filter '" ++ name ++ "':\n" ++ error
      (List.replicate
        (match e._dataSet with
          | some data => data._rowCount
          | none => 0) false, error)
  transactionWriteBegin
  let localFilter ← Filter.setFilterVector cv localFilter filterResult
  let localFilter ← Filter.setErrorMsg localFilter RPossibleWarning
  let _ ← Filter.incRevision cv localFilter
    (match e._dataSet with
      | some data => data._writeBatchedToDB
      | none => false)
  transactionWriteEnd false
  let e := e.sendFilterByNameDone name RPossibleWarning
  pure { e with _engineState := engineState.idle }

/-- `Engine::receiveFilterMessage`. -/
def Engine.receiveFilterMessage (e : Engine) (jsonRequest : Request) : M Engine :=
  let e := e.enter "receiveFilterMessage"
  let e := { e with _engineState := engineState.filter }
  Engine.runFilter cv R e jsonRequest.filter jsonRequest.generatedFilter jsonRequest.requestId

/-- `Engine::receiveFilterByNameMessage`. -/
def Engine.receiveFilterByNameMessage (e : Engine) (jsonRequest : Request) : M Engine :=
  let e := e.enter "receiveFilterByNameMessage"
  let e := { e with _engineState := engineState.filter }
  Engine.runFilterByName cv R e jsonRequest.name

/-- The map `setColumnFunction` of `Engine::runComputeColumn`; `none` stands for a
key that `std::map::at` does not find. -/
def setColumnFunction : columnType → Option String
  | .scale => some ".setColumnDataAsScale"
  | .ordinal => some ".setColumnDataAsOrdinal"
  | .nominal => some ".setColumnDataAsNominal"
  | .nominalText => some ".setColumnDataAsNominalText"
  | .unknown => none

/-- `Engine::runComputeColumn`.  The `catch` clause rethrows what it caught. -/
def Engine.runComputeColumn (e : Engine) (computeColumnName computeColumnCode : String)
    (computeColumnType : columnType) : M Engine := do
  let e ← Engine.provideAndUpdateDataSet cv e
  let (e, computeColumnResponse) ←
    match e._dataSet with
    | some _ =>
      let computeColumnNameEnc := R.encode computeColumnName
      match setColumnFunction computeColumnType with
      | none => M.raise (Err.runtimeError "map::at")
      | some f =>
        let e := e.evaluate computeColumnCode
        let computeColumnResultStr := R.rbridge_evalRComputedColumn computeColumnCode
          ("toString(" ++ f ++ "('" ++ computeColumnNameEnc ++ "', .calcedVals))")
        pure (e,
          [("typeRequest", JsonValue.string (engineStateToString engineState.computeColumn)),
           ("columnName", JsonValue.string computeColumnNameEnc),
           ("result", JsonValue.string computeColumnResultStr),
           ("error", JsonValue.string R.jaspRCPP_getLastErrorMsg)])
    | none =>
      pure (e,
        [("typeRequest", JsonValue.string (engineStateToString engineState.computeColumn)),
         ("columnName", JsonValue.string computeColumnName),
         ("result", JsonValue.string "fail"),
         ("error", JsonValue.string "No DataSet loaded in engine!")])
  let e := e.sendString (.object computeColumnResponse)
  pure { e with _engineState := engineState.idle }

/-- `Engine::receiveComputeColumnMessage`. -/
def Engine.receiveComputeColumnMessage (e : Engine) (jsonRequest : Request) : M Engine :=
  let e := e.enter "receiveComputeColumnMessage"
  let e := { e with _engineState := engineState.computeColumn }
  Engine.runComputeColumn cv R e jsonRequest.columnName jsonRequest.computeCode
    jsonRequest.columnType

/-- `Engine::runRCode`. -/
def Engine.runRCode (e : Engine) (rCode : String) (rCodeRequestId : Int) (whiteListed : Bool) :
    Engine :=
  let e := e.evaluate rCode
  let rCodeResult :=
    if whiteListed then R.rbridge_evalRCodeWhiteListed rCode else R.jaspRCPP_evalRCode rCode
  let e :=
    if rCodeResult = "null" then Engine.sendRCodeError R e rCodeRequestId
    else Engine.sendRCodeResult R e rCodeRequestId rCodeResult
  { e with _engineState := engineState.idle }

/-- `Engine::runRCodeCommander`, without the encoding of column names and the
scripts that attach the data. -/
def Engine.runRCodeCommander (e : Engine) (rCode : String) : M Engine := do
  let e ← Engine.provideAndUpdateDataSet cv e
  let e ←
    match e._dataSet with
    | some _ => Engine.provideAndUpdateDataSet cv e
    | none => pure e
  let e := e.evaluate rCode
  let rCodeResult := R.jaspRCPP_evalRCodeCommander rCode
  let e := Engine.sendRCodeResult R e (-1) rCodeResult
  pure { e with _engineState := engineState.idle }

/-- `Engine::receiveRCodeMessage`. -/
def Engine.receiveRCodeMessage (e : Engine) (jsonRequest : Request) : M Engine :=
  let e := e.enter "receiveRCodeMessage"
  let e := { e with _engineState := engineState.rCode }
  if jsonRequest.returnLog then Engine.runRCodeCommander cv R e jsonRequest.rCode
  else pure (Engine.runRCode R e jsonRequest.rCode jsonRequest.requestId jsonRequest.whiteListed)

/-- `Engine::receiveModuleRequestMessage`. -/
def Engine.receiveModuleRequestMessage (e : Engine) (jsonRequest : Request) : Engine :=
  let e := e.enter "receiveModuleRequestMessage"
  let e := { e with _engineState := jsonRequest.typeRequest }
  let e := e.evaluate jsonRequest.moduleCode
  let result := R.jaspRCPP_evalRCode jsonRequest.moduleCode
  let succes := decide (result = "succes!")
  let e := e.sendString (.object
    [("moduleRequest", .string jsonRequest.moduleRequest),
     ("moduleName", .string jsonRequest.moduleName),
     ("succes", .bool succes),
     ("error", .string R.jaspRCPP_getLastErrorMsg),
     ("typeRequest", .string (engineStateToString e._engineState))])
  { e with _engineState := engineState.idle }

/-- `Engine::receiveAnalysisMessage`, as far as the state, the analysis id and the
analysis status go. -/
def Engine.receiveAnalysisMessage (e : Engine) (jsonRequest : Request) : M Engine := do
  let e := e.enter "receiveAnalysisMessage"
  if e._engineState ≠ engineState.idle ∧ e._engineState ≠ engineState.analysis then
    M.raise (Err.runtimeError ("Unexpected analysis message, current state is not idle or analysis ("
      ++ engineStateToString e._engineState ++ ")"))
  else
    let analysisId := jsonRequest.id
    let perform := jsonRequest.perform
    let e :=
      if analysisId = e._analysisId ∧ e._analysisStatus = Status.running then
        { e with _analysisStatus := if perform = performType.run then Status.changed
            else Status.aborted }
      else
        { e with
          _analysisId := analysisId
          _analysisStatus :=
            match perform with
            | .run => Status.toRun
            | .saveImg => Status.saveImg
            | .editImg => Status.editImg
            | .rewriteImgs => Status.rewriteImgs
            | .abort => Status.aborted
            | .other => Status.error }
    if e._analysisStatus = Status.toRun ∨ e._analysisStatus = Status.changed
        ∨ e._analysisStatus = Status.saveImg ∨ e._analysisStatus = Status.editImg
        ∨ e._analysisStatus = Status.rewriteImgs then
      pure { e with _engineState := engineState.analysis }
    else pure e

/-- The `switch` on the engine state that `stopEngine`, `pauseEngine` and
`receiveReloadData` share. -/
def Engine.dataSynch (e : Engine) : M Engine :=
  match e._engineState with
  | .analysis => pure { e with _analysisStatus := Status.aborted }
  | .filter | .filterByName | .computeColumn =>
    M.raise (Err.runtimeError ("Unexpected data synch during "
      ++ engineStateToString e._engineState
      ++ " somehow, you should not expect to see this exception ever."))
  | _ => pure e

/-- `Engine::stopEngine`. -/
def Engine.stopEngine (e : Engine) : M Engine := do
  let e := e.enter "stopEngine"
  let e ← Engine.dataSynch e
  let e := { e with _engineState := engineState.stopped }
  pure e.sendEngineStopped

/-- `Engine::pauseEngine`. -/
def Engine.pauseEngine (e : Engine) (json : Request) : M Engine := do
  let e := e.enter "pauseEngine"
  let e ← Engine.dataSynch e
  let e := { e with _engineState := engineState.paused }
  let e := if json.unloadData then { e with _dataSet := none } else e
  pure e.sendEnginePaused

/-- `Engine::receiveReloadData`. -/
def Engine.receiveReloadData (e : Engine) : M Engine := do
  let e := e.enter "receiveReloadData"
  let e ← Engine.dataSynch e
  let e := { e with _engineState := engineState.idle }
  let e := e.sendEngineLoadingData
  let e ← Engine.provideAndUpdateDataSet cv e
  let e ← Engine.reloadColumnNames cv e
  pure (e.sendEngineResumed false)

/-- `Engine::resumeEngine`; the settings it absorbs are not represented. -/
def Engine.resumeEngine (e : Engine) : Engine :=
  let e := e.enter "resumeEngine"
  let e := { e with _engineState := engineState.idle }
  e.sendEngineResumed false

/-- `Engine::receiveLogCfg`. -/
def Engine.receiveLogCfg (e : Engine) : Engine :=
  let e := e.enter "receiveLogCfg"
  let e := e.sendString (.object [("typeRequest", .string (engineStateToString engineState.logCfg))])
  { e with _engineState := engineState.idle }

/-- `Engine::receiveSettings`; the settings it absorbs are not represented. -/
def Engine.receiveSettings (e : Engine) : Engine :=
  let e := e.enter "receiveSettings"
  let e := e.sendString
    (.object [("typeRequest", .string (engineStateToString engineState.settings))])
  { e with _engineState := engineState.idle }

/-- `Engine::receiveMessages`: the returned flag and the engine afterwards. -/
def Engine.receiveMessages (e : Engine) (received : Received) : M (Bool × Engine) :=
  match received with
  | .nothing => pure (false, e)
  | .emptyData => pure (false, e)
  | .noTypeRequest => pure (false, e.sendString Sent.empty)
  | .request jsonRequest => do
    let e := e.sendString Sent.empty
    let e := { e with _lastRequest := jsonRequest.typeRequest }
    if e._engineState = engineState.initializing then
      if e._lastRequest = engineState.resuming then pure (false, Engine.resumeEngine e)
      else pure (false, e)
    else
      match e._lastRequest with
      | .analysis => do
        let e ← Engine.receiveAnalysisMessage e jsonRequest
        pure (true, e)
      | .filter => do
        let e ← Engine.receiveFilterMessage cv R e jsonRequest
        pure (false, e)
      | .filterByName => do
        let e ← Engine.receiveFilterByNameMessage cv R e jsonRequest
        pure (false, e)
      | .rCode => do
        let e ← Engine.receiveRCodeMessage cv R e jsonRequest
        pure (false, e)
      | .computeColumn => do
        let e ← Engine.receiveComputeColumnMessage cv R e jsonRequest
        pure (false, e)
      | .pauseRequested => do
        let e ← Engine.pauseEngine e jsonRequest
        pure (false, e)
      | .resuming => pure (false, Engine.resumeEngine e)
      | .moduleInstallRequest => pure (false, Engine.receiveModuleRequestMessage R e jsonRequest)
      | .moduleLoadRequest => pure (false, Engine.receiveModuleRequestMessage R e jsonRequest)
      | .stopRequested => do
        let e ← Engine.stopEngine e
        pure (false, e)
      | .logCfg => pure (false, Engine.receiveLogCfg e)
      | .settings => pure (false, Engine.receiveSettings e)
      | .reloadData => do
        let e ← Engine.receiveReloadData cv e
        pure (false, e)
      | s =>
        M.raise (Err.runtimeError
          ("Engine::receiveMessages begs you to add your new engineState "
            ++ engineStateToString s ++ " to it!"))

end EngineOps

/-! ## Sample engines

A collaborator, an engine and a request on which the definitions are evaluated. -/

/-- A collaborator that fails every filter with a message and yields `ok` for
everything else. -/
def sampleBridge : RBridge where
  stripRComments := fun s => s
  rbridge_applyFilter := fun _ _ => .error "object 'x' not found"
  jaspRCPP_getLastErrorMsg := ""
  encode := fun s => s
  rbridge_evalRComputedColumn := fun _ _ => "ok"
  rbridge_evalRCodeWhiteListed := fun _ => "ok"
  jaspRCPP_evalRCode := fun _ => "ok"
  jaspRCPP_evalRCodeCommander := fun _ => "ok"

/-- A collaborator as `sampleBridge` whose filter errors carry no message. -/
def sampleBridgeSilent : RBridge :=
  { sampleBridge with rbridge_applyFilter := fun _ _ => .error "" }

/-- An idle engine that holds the mirror `sampleData` of dataset 1 and runs
analysis 7. -/
def sampleEngine : Engine where
  _engineState := engineState.idle
  _lastRequest := engineState.idle
  _analysisId := 7
  _analysisStatus := Status.running
  _dataSet := some sampleData
  sent := []
  handled := []
  evaluated := []

/-- A request with every member at its default: an analysis request without id. -/
def sampleRequest : Request where
  typeRequest := engineState.analysis
  id := -1
  perform := performType.run
  filter := ""
  generatedFilter := ""
  requestId := -1
  name := ""
  columnName := ""
  computeCode := ""
  columnType := columnType.unknown
  rCode := ""
  whiteListed := true
  returnLog := false
  unloadData := false
  moduleRequest := ""
  moduleCode := ""
  moduleName := ""
  moduleLibPaths := ""

/-! ## Schema migration -/

namespace Upgrade

/-- Modelled from the spec: the class `Version` is declared outside the sources at
hand; a version is its four numbers, compared in order. -/
structure Version where
  major : Nat
  minor : Nat
  release : Nat
  fourth : Nat
deriving DecidableEq

/-- The numbers of a version in the order of comparison. -/
def Version.parts (v : Version) : List Nat := [v.major, v.minor, v.release, v.fourth]

instance : LT Version := ⟨fun a b => a.parts < b.parts⟩

instance : LE Version := ⟨fun a b => ¬ b.parts < a.parts⟩

instance (a b : Version) : Decidable (a < b) := by
  show Decidable (a.parts < b.parts)
  infer_instance

instance (a b : Version) : Decidable (a ≤ b) := by
  show Decidable (¬ b.parts < a.parts)
  infer_instance

/-- The statements `upgradeDBFromVersion` and the transaction functions issue. -/
inductive Sql where
  /-- SQL `BEGIN EXCLUSIVE` -/
  | beginExclusive
  /-- SQL `COMMIT` -/
  | commit
  /-- SQL `ALTER TABLE <table> ADD COLUMN <column> <type>;` -/
  | addColumn (table column : String)
  /-- SQL `ALTER TABLE <table> DROP COLUMN <column>;` -/
  | dropColumn (table column : String)
deriving DecidableEq

/-- The store as a migration sees it: the columns of each table, the depth counters
of the interface and a trace of the statements issued. -/
structure Store where
  schema : List (String × List String)
  transactionWriteDepth : Nat
  transactionReadDepth : Nat
  log : List Sql
deriving DecidableEq

/-- The ways a migration ends other than by returning. -/
inductive Raised where
  /-- A `std::runtime_error` of `_runStatements`, with the message of the engine. -/
  | runtime_error (errmsg : String)
  /-- A failed `assert`. -/
  | assertion
deriving DecidableEq

/-- `DatabaseInterface::tableHasColumn`. -/
def tableHasColumn (s : Store) (tableName columnName : String) : Bool :=
  match s.schema.lookup tableName with
  | some columns => decide (columnName ∈ columns)
  | none => false

/-- Replace the columns of a table. -/
def Store.setColumns (s : Store) (table : String) (columns : List String) : Store :=
  { s with schema := s.schema.map (fun p => if p.1 = table then (table, columns) else p) }

/-- `DatabaseInterface::runStatements` on one of the statements above.  The engine
refuses to add a column under a name the table already has and to drop a column
the table does not have. -/
def runStatements (sql : Sql) (s : Store) : Except Raised Store :=
  let s := { s with log := s.log ++ [sql] }
  match sql with
  | .beginExclusive => .ok s
  | .commit => .ok s
  | .addColumn table column =>
    match s.schema.lookup table with
    | none => .error (Raised.runtime_error ("no such table: " ++ table))
    | some columns =>
      if column ∈ columns then .error (Raised.runtime_error ("duplicate column name: " ++ column))
      else .ok (s.setColumns table (columns ++ [column]))
  | .dropColumn table column =>
    match s.schema.lookup table with
    | none => .error (Raised.runtime_error ("no such table: " ++ table))
    | some columns =>
      if column ∈ columns then .ok (s.setColumns table (columns.filter (fun c => c ≠ column)))
      else .error (Raised.runtime_error ("no such column: \"" ++ column ++ "\""))

/-- `DatabaseInterface::transactionWriteBegin`. -/
def transactionWriteBegin (s : Store) : Except Raised Store :=
  if s.transactionReadDepth ≠ 0 then .error Raised.assertion
  else
    let depth := s.transactionWriteDepth
    let s := { s with transactionWriteDepth := s.transactionWriteDepth + 1 }
    if depth = 0 then runStatements Sql.beginExclusive s else .ok s

/-- `DatabaseInterface::transactionWriteEnd()`. -/
def transactionWriteEnd (s : Store) : Except Raised Store :=
  if ¬ 0 < s.transactionWriteDepth then .error Raised.assertion
  else
    let s := { s with transactionWriteDepth := s.transactionWriteDepth - 1 }
    if s.transactionWriteDepth = 0 then runStatements Sql.commit s else .ok s

/-- Run a step when a condition holds. -/
def when_ (c : Bool) (step : Store → Except Raised Store) (s : Store) : Except Raised Store :=
  if c then step s else .ok s

/-- `DatabaseInterface::upgradeDBFromVersion`. -/
def upgradeDBFromVersion (originalVersion : Version) (s : Store) : Except Raised Store := do
  let s ← transactionWriteBegin s
  let s ← when_ (decide (originalVersion < ⟨0, 18, 2, 0⟩))
    (runStatements (Sql.addColumn "DataSets" "description")) s
  let s ← when_ (decide (originalVersion < ⟨0, 19, 0, 0⟩))
    (runStatements (Sql.dropColumn "Columns" "isComputed")) s
  let s ← when_ (decide (originalVersion ≤ ⟨0, 19, 0, 0⟩)) (fun s => do
    let s ← when_ (!tableHasColumn s "Columns" "emptyValuesJson")
      (runStatements (Sql.addColumn "Columns" "emptyValuesJson")) s
    let s ← when_ (!tableHasColumn s "Columns" "forceSourceColType")
      (runStatements (Sql.addColumn "Columns" "forceSourceColType")) s
    let s ← when_ (!tableHasColumn s "Columns" "autoSortByValue")
      (runStatements (Sql.addColumn "Columns" "autoSortByValue")) s
    when_ (!tableHasColumn s "DataSets" "dataFileTimestamp")
      (runStatements (Sql.addColumn "DataSets" "dataFileTimestamp")) s) s
  let s ← when_ (decide (originalVersion ≤ ⟨0, 19, 2, 0⟩)) (fun s =>
    when_ (tableHasColumn s "Columns" "forceSourceColType")
      (runStatements (Sql.dropColumn "Columns" "forceSourceColType")) s) s
  let s ← when_ (decide (originalVersion < ⟨0, 19, 2, 0⟩) && !tableHasColumn s "Filters" "name")
    (runStatements (Sql.addColumn "Filters" "name")) s
  transactionWriteEnd s

/-- A store with the registry tables as a version before 0.18.2 left them. -/
def sampleStore : Store where
  schema :=
    [("DataSets", ["id", "dataFilePath", "databaseJson", "emptyValuesJson", "revision",
        "dataFileSynch"]),
     ("Columns", ["id", "dataSet", "name", "title", "columnType", "colIdx", "isComputed",
        "revision"]),
     ("Filters", ["id", "dataSet", "rFilter", "generatedFilter", "constructorJson",
        "constructorR", "errorMsg", "revision"])]
  transactionWriteDepth := 0
  transactionReadDepth := 0
  log := []

/-- The columns of the registry tables after the migration of `sampleStore`. -/
def sampleMigrated : List (String × List String) :=
  [("DataSets", ["id", "dataFilePath", "databaseJson", "emptyValuesJson", "revision",
      "dataFileSynch", "description", "dataFileTimestamp"]),
   ("Columns", ["id", "dataSet", "name", "title", "columnType", "colIdx", "revision",
      "emptyValuesJson", "autoSortByValue"]),
   ("Filters", ["id", "dataSet", "rFilter", "generatedFilter", "constructorJson",
      "constructorR", "errorMsg", "revision", "name"])]

end Upgrade

/-! ## Terms -/

/-- The members of `Term` that equality and order use. -/
structure Term where
  _components : List String
  _asQString : String
deriving DecidableEq

/-- `Term::separator` outside Windows. -/
def Term.separator : String := " ﹡ "

/-- `Term::initFrom(const QStringList components, const columnTypeVec & types)`;
the types are not represented. -/
def Term.initFrom (components : List String) : Term :=
  { _asQString := String.intercalate Term.separator components
    _components := components }

/-- `Term::size`. -/
def Term.size (t : Term) : Nat := t._components.length

/-- `Term::contains`. -/
def Term.contains (t : Term) (component : String) : Bool :=
  t._components.any (fun termComponent => decide (component = termComponent))

/-- `Term::containsAll`. -/
def Term.containsAll (t : Term) (term : Term) : Bool :=
  term._components.all (fun termComponent => t.contains termComponent)

/-- `Term::operator==` for two objects at different addresses; for one and the
same object the source returns true at once, which is also what this gives. -/
def Term.eq (t other : Term) : Bool :=
  decide (other.size = t.size) && t.containsAll other

/-- Modelled from the spec: `operator<` of `QString` is defined outside the sources
at hand; the first text is a proper prefix of the second, or is smaller at the first
position at which they differ. -/
def qstringLess : List Char → List Char → Bool
  | _, [] => false
  | [], _ :: _ => true
  | a :: as, b :: bs => decide (a.toNat < b.toNat) || (decide (a = b) && qstringLess as bs)

/-- `Term::operator<`. -/
def Term.lt (t other : Term) : Bool :=
  qstringLess t._asQString.data other._asQString.data

/-! ## Further sample states -/

/-- The physical table of dataset 1 in `sampleStoreTwo`: the filter slot and the
slots of the columns 7 and 8, with two rows. -/
def sampleTableTwo : PhysTable where
  slots := [SlotName.filter 1, SlotName.colDbl 7, SlotName.colInt 7, SlotName.colDbl 8,
    SlotName.colInt 8]
  rows :=
    [ { rowNumber := 1, cells := [(SlotName.filter 1, .integer 1),
          (SlotName.colDbl 7, .real Dbl.one), (SlotName.colInt 7, .integer 5),
          (SlotName.colDbl 8, .real Dbl.one), (SlotName.colInt 8, .integer 15)] },
      { rowNumber := 2, cells := [(SlotName.filter 1, .integer 0),
          (SlotName.colDbl 7, .real Dbl.zero), (SlotName.colInt 7, .integer 6),
          (SlotName.colDbl 8, .real Dbl.zero), (SlotName.colInt 8, .integer 16)] } ]

/-- A store with dataset 1 holding the columns 7 and 8 with two rows of values, and
one filter. -/
def sampleStoreTwo : Db where
  dataSets := [⟨1, 4⟩]
  columns := [⟨7, 1, "a", 0, 2⟩, ⟨8, 1, "b", 1, 0⟩]
  filters := [⟨1, 1, "", "", "", 0⟩]
  tables := [(1, sampleTableTwo)]
  transactionWriteDepth := 0
  transactionReadDepth := 0
  prevUpdate := 0
  log := []
  progress := []

/-- The mirror of dataset 1 of `sampleStoreTwo` in batched-write mode, with new
values for column 7. -/
def sampleDataTwo : DataSet where
  _dataSetID := 1
  _revision := 4
  _rowCount := 2
  _columns := [⟨7, "a", 2, [3, -1], [Dbl.one, Dbl.zero]⟩, ⟨8, "b", 0, [15, 16], [Dbl.one, Dbl.zero]⟩]
  _filter := ⟨1, "", "", "", 0, [true, false]⟩
  _writeBatchedToDB := true

/-- A dataset with three rows to write to `sampleStore`. -/
def sampleDataThreeRows : DataSet where
  _dataSetID := 1
  _revision := 4
  _rowCount := 3
  _columns := [⟨7, "a", 2, [3, -1, 4], [Dbl.one, Dbl.zero, Dbl.one]⟩]
  _filter := ⟨1, "", "", "", 0, [true, false, true]⟩
  _writeBatchedToDB := false

/-- The registry row of a second filter of dataset 1, named `big`. -/
def sampleFilterBig : FiltersRow := ⟨2, 1, "a > 4", "big", "", 0⟩

/-- The physical table of dataset 1 in `sampleStoreNamed`: as `sampleTable`, with
the slot of filter 2, whose mask is true for row 1 and false for row 2. -/
def sampleTableNamed : PhysTable where
  slots := [SlotName.filter 1, SlotName.colDbl 7, SlotName.colInt 7, SlotName.filter 2]
  rows :=
    [ { rowNumber := 1, cells := [(SlotName.filter 1, .integer 1),
          (SlotName.colDbl 7, .real Dbl.one), (SlotName.colInt 7, .integer 5),
          (SlotName.filter 2, .integer 1)] },
      { rowNumber := 2, cells := [(SlotName.filter 1, .integer 0),
          (SlotName.colDbl 7, .text "nan"), (SlotName.colInt 7, .integer 6),
          (SlotName.filter 2, .integer 0)] } ]

/-- The store `sampleStore` with the second filter of dataset 1, named `big`. -/
def sampleStoreNamed : Db where
  dataSets := [⟨1, 4⟩]
  columns := [⟨7, 1, "a", 0, 2⟩]
  filters := [⟨1, 1, "", "", "", 0⟩, sampleFilterBig]
  tables := [(1, sampleTableNamed)]
  transactionWriteDepth := 0
  transactionReadDepth := 0
  prevUpdate := 0
  log := []
  progress := []

/-- A dataset with two rows to write to `sampleStore`: column 7 holds `-0.0` and
`1.0`. -/
def sampleDataNegZero : DataSet where
  _dataSetID := 1
  _revision := 4
  _rowCount := 2
  _columns := [⟨7, "a", 2, [3, -1], [Dbl.negZero, Dbl.one]⟩]
  _filter := ⟨1, "", "", "", 0, [true, false]⟩
  _writeBatchedToDB := false

/-! ## A mirror that is up to date -/

/-- A mirror of a dataset whose cached revisions are the stored ones: the dataset,
its filter and each of its columns are registered under unique ids with the
revision the mirror holds, each in the range of a C `int`. -/
structure UpToDate (db : Db) (data : DataSet) : Prop where
  loaded : data._dataSetID ≠ -1
  dataSetKeys : (db.dataSets.map (fun r => r.id)).Nodup
  columnKeys : (db.columns.map (fun r => r.id)).Nodup
  filterKeys : (db.filters.map (fun r => r.id)).Nodup
  revision : db.dataSetRevision data._dataSetID = some data._revision
  revisionRange : inInt32 data._revision
  filterRevision : data._filter._id ≠ -1 →
    db.filterRevision data._filter._id = some data._filter._revision
      ∧ inInt32 data._filter._revision
  columnRevision : ∀ col ∈ data._columns, col._id ≠ -1 →
    db.columnRevision col._id = some col._revision ∧ inInt32 col._revision

/-- The rows of a table after `filterWrite` wrote a mask of `n` entries that are all
false: the rows numbered `1..n` hold 0 in the slot of the filter. -/
def maskCleared (t : PhysTable) (f : Int) (n : Nat) : List PhysRow :=
  t.rows.map (fun r =>
    if 1 ≤ r.rowNumber ∧ r.rowNumber ≤ (n : Int) then
      r.setCell (SlotName.filter f) (SqlValue.integer 0)
    else r)
/-! ## Assertions and transaction depths -/

/-- The two depth counters hold the given values. -/
def AtDepths (w r : Nat) (db : Db) : Prop :=
  db.transactionWriteDepth = w ∧ db.transactionReadDepth = r

/-- A computation that, run from any state that satisfies `P`, fails no assertion
(it returns or raises another error), and whose value and final state satisfy `Q`
when it returns. -/
def M.Safe {α : Type} (P : Db → Prop) (x : M α) (Q : α → Db → Prop) : Prop :=
  ∀ db, P db → (x db).1 ≠ .error Err.assertion ∧ ∀ a, (x db).1 = .ok a → Q a (x db).2

/-- A step of a migration that fails no assertion and, when it returns, leaves the
write depth as it was. -/
def Upgrade.Inside (step : Upgrade.Store → Except Upgrade.Raised Upgrade.Store) : Prop :=
  ∀ s, step s ≠ .error Upgrade.Raised.assertion ∧
    ∀ s', step s = .ok s' → s'.transactionWriteDepth = s.transactionWriteDepth
/-! ## Theorems -/

theorem sampleConv_rendersNumeric : RendersNumeric sampleConv := by
  intro d _
  refine ⟨?_, ?_, ?_⟩ <;> (show ("0.0" : String) ≠ _) <;> decide

theorem binder_finite (x : Dbl) (h : x.isFinite = true) :
    _doubleTroubleBinder x = SqlValue.real x := by
  unfold Dbl.isFinite at h
  have h1 : (x.isnan || x.isinf) = false := by simpa using h
  have h2 : x.isnan = false := by
    cases hx : x.isnan <;> simp_all
  have h3 : x.isinf = false := by
    cases hx : x.isinf <;> simp_all
  simp [_doubleTroubleBinder, sqlite3_bind_double, h2, h3]

theorem reader_real (cv : SqliteConv) (x : Dbl)
    (h : cv.realToText x ≠ dbDblToString dbDbl.inf ∧
      cv.realToText x ≠ dbDblToString dbDbl.neg_inf ∧
      cv.realToText x ≠ dbDblToString dbDbl.nan) :
    _doubleTroubleReader cv (SqlValue.real x) = x := by
  obtain ⟨h1, h2, h3⟩ := h
  simp only [_doubleTroubleReader, _wrap_sqlite3_column_text, sqlite3_column_text,
    sqlite3_column_double]
  split
  · simp [h1, h2, h3]
  · rfl

/-- C1 fails at `-0.0`.  For every finite double `x` the binder stores `x` as a
native REAL, never as a sentinel text, and the reader falls through to the native
decode of the slot; but the slot `Column_<id>_DBL` is declared REAL and hands back
`x` itself only if `x` is not `-0.0`: for `-0.0` the reader returns `+0.0`, which
differs from `x` in the sign bit. -/
theorem doubleTrouble_roundtrip_finite (cv : SqliteConv) (hcv : RendersNumeric cv)
    (id : Int) (x : Dbl) (hx : x.isFinite = true) :
    _doubleTroubleBinder x = SqlValue.real x ∧
    (∀ c : dbDbl, _doubleTroubleBinder x ≠ SqlValue.text (dbDblToString c)) ∧
    _doubleTroubleReader cv ((SlotName.colDbl id).stored (_doubleTroubleBinder x))
      = sqlite3_column_double cv ((SlotName.colDbl id).stored (_doubleTroubleBinder x)) ∧
    (x ≠ Dbl.negZero →
      _doubleTroubleReader cv ((SlotName.colDbl id).stored (_doubleTroubleBinder x)) = x) ∧
    (x = Dbl.negZero →
      _doubleTroubleReader cv ((SlotName.colDbl id).stored (_doubleTroubleBinder x)) = Dbl.zero ∧
      _doubleTroubleReader cv ((SlotName.colDbl id).stored (_doubleTroubleBinder x)) ≠ x) := by
  have hb := binder_finite x hx
  have hz := reader_real cv Dbl.zero (hcv Dbl.zero (by decide))
  refine ⟨hb, ?_, ?_, ?_, ?_⟩
  · intro c
    rw [hb]
    simp
  · rw [hb]
    show _doubleTroubleReader cv (realAffinity (SqlValue.real x))
      = sqlite3_column_double cv (realAffinity (SqlValue.real x))
    by_cases h : x = Dbl.negZero
    · rw [realAffinity, if_pos h, hz]
      rfl
    · rw [realAffinity, if_neg h, reader_real cv x (hcv x hx)]
      rfl
  · intro h
    rw [hb]
    show _doubleTroubleReader cv (realAffinity (SqlValue.real x)) = x
    rw [realAffinity, if_neg h]
    exact reader_real cv x (hcv x hx)
  · intro h
    rw [hb]
    show _doubleTroubleReader cv (realAffinity (SqlValue.real x)) = Dbl.zero ∧
      _doubleTroubleReader cv (realAffinity (SqlValue.real x)) ≠ x
    rw [realAffinity, if_pos h, hz, h]
    exact ⟨rfl, by decide⟩

/-- C1 at the value `-0.0` written to the slot of column 7: the reader returns
`+0.0`. -/
theorem doubleTrouble_roundtrip_finite_witness :
    _doubleTroubleBinder Dbl.negZero = SqlValue.real Dbl.negZero ∧
    _doubleTroubleReader sampleConv ((SlotName.colDbl 7).stored (_doubleTroubleBinder Dbl.negZero))
      = Dbl.zero ∧
    _doubleTroubleReader sampleConv ((SlotName.colDbl 7).stored (_doubleTroubleBinder Dbl.negZero))
      ≠ Dbl.negZero :=
  have h := doubleTrouble_roundtrip_finite sampleConv sampleConv_rendersNumeric 7 Dbl.negZero
    (by decide)
  ⟨h.1, (h.2.2.2.2 rfl).1, (h.2.2.2.2 rfl).2⟩

theorem nonfinite_cases (x : Dbl) (hx : x.isFinite = false) :
    x.isnan = true ∨ x = Dbl.infinity ∨ x = Dbl.negInfinity := by
  obtain ⟨sg, ex, fr⟩ := x
  by_cases hn : Dbl.isnan ⟨sg, ex, fr⟩ = true
  · exact Or.inl hn
  · right
    have hi : Dbl.isinf ⟨sg, ex, fr⟩ = true := by
      simp only [Dbl.isFinite] at hx
      cases h1 : Dbl.isnan ⟨sg, ex, fr⟩ <;> cases h2 : Dbl.isinf ⟨sg, ex, fr⟩ <;> simp_all
    simp only [Dbl.isinf, Bool.and_eq_true, beq_iff_eq] at hi
    have he : ex = 2047 := Fin.ext hi.1
    have hf : fr = 0 := Fin.ext hi.2
    subst he hf
    cases sg
    · exact Or.inl rfl
    · exact Or.inr rfl

theorem binder_nan (x : Dbl) (h : x.isnan = true) :
    _doubleTroubleBinder x = SqlValue.text (dbDblToString dbDbl.nan) := by
  simp [_doubleTroubleBinder, h, sqlite3_bind_text]

theorem reader_text_nan (cv : SqliteConv) :
    _doubleTroubleReader cv (SqlValue.text (dbDblToString dbDbl.nan)) = missingValueDouble := by
  simp only [_doubleTroubleReader, _wrap_sqlite3_column_text, sqlite3_column_text]
  rw [if_pos (by decide), if_neg (by decide), if_neg (by decide), if_pos (by decide)]

theorem reader_text_inf (cv : SqliteConv) :
    _doubleTroubleReader cv (SqlValue.text (dbDblToString dbDbl.inf)) = Dbl.infinity := by
  simp only [_doubleTroubleReader, _wrap_sqlite3_column_text, sqlite3_column_text]
  rw [if_pos (by decide), if_pos (by decide)]

theorem reader_text_neg_inf (cv : SqliteConv) :
    _doubleTroubleReader cv (SqlValue.text (dbDblToString dbDbl.neg_inf)) = Dbl.negInfinity := by
  simp only [_doubleTroubleReader, _wrap_sqlite3_column_text, sqlite3_column_text]
  rw [if_pos (by decide), if_neg (by decide), if_pos (by decide)]

/-- C2: for every non-finite double the binder writes the sentinel text of its
category (the three texts are pairwise distinct), the reader returns the missing
value for `nan`, `+Infinity` for `inf` and `-Infinity` for `neg_inf`, and binding
the value read back writes the identical sentinel. -/
theorem doubleTrouble_roundtrip_nonfinite (cv : SqliteConv) (x : Dbl)
    (hx : x.isFinite = false) :
    (dbDblToString dbDbl.nan ≠ dbDblToString dbDbl.inf ∧
      dbDblToString dbDbl.nan ≠ dbDblToString dbDbl.neg_inf ∧
      dbDblToString dbDbl.inf ≠ dbDblToString dbDbl.neg_inf) ∧
    (x.isnan = true ∨ x = Dbl.infinity ∨ x = Dbl.negInfinity) ∧
    (x.isnan = true →
      _doubleTroubleBinder x = SqlValue.text (dbDblToString dbDbl.nan) ∧
      _doubleTroubleReader cv (_doubleTroubleBinder x) = missingValueDouble) ∧
    (x = Dbl.infinity →
      _doubleTroubleBinder x = SqlValue.text (dbDblToString dbDbl.inf) ∧
      _doubleTroubleReader cv (_doubleTroubleBinder x) = Dbl.infinity) ∧
    (x = Dbl.negInfinity →
      _doubleTroubleBinder x = SqlValue.text (dbDblToString dbDbl.neg_inf) ∧
      _doubleTroubleReader cv (_doubleTroubleBinder x) = Dbl.negInfinity) ∧
    _doubleTroubleBinder (_doubleTroubleReader cv (_doubleTroubleBinder x))
      = _doubleTroubleBinder x := by
  have hnan : x.isnan = true →
      _doubleTroubleBinder x = SqlValue.text (dbDblToString dbDbl.nan) ∧
      _doubleTroubleReader cv (_doubleTroubleBinder x) = missingValueDouble := by
    intro h
    rw [binder_nan x h]
    exact ⟨rfl, reader_text_nan cv⟩
  have hinf : x = Dbl.infinity →
      _doubleTroubleBinder x = SqlValue.text (dbDblToString dbDbl.inf) ∧
      _doubleTroubleReader cv (_doubleTroubleBinder x) = Dbl.infinity := by
    intro h
    subst h
    have hb : _doubleTroubleBinder Dbl.infinity = SqlValue.text (dbDblToString dbDbl.inf) := by
      decide
    rw [hb]
    exact ⟨rfl, reader_text_inf cv⟩
  have hneg : x = Dbl.negInfinity →
      _doubleTroubleBinder x = SqlValue.text (dbDblToString dbDbl.neg_inf) ∧
      _doubleTroubleReader cv (_doubleTroubleBinder x) = Dbl.negInfinity := by
    intro h
    subst h
    have hb : _doubleTroubleBinder Dbl.negInfinity
        = SqlValue.text (dbDblToString dbDbl.neg_inf) := by
      decide
    rw [hb]
    exact ⟨rfl, reader_text_neg_inf cv⟩
  refine ⟨⟨by decide, by decide, by decide⟩, nonfinite_cases x hx, hnan, hinf, hneg, ?_⟩
  rcases nonfinite_cases x hx with h | h | h
  · rw [(hnan h).2, (hnan h).1]
    decide
  · rw [(hinf h).2, (hinf h).1]
    decide
  · rw [(hneg h).2, (hneg h).1]
    decide

/-- C2 at a signalling-style NaN with sign bit set and payload 1. -/
theorem doubleTrouble_roundtrip_nonfinite_witness :
    _doubleTroubleBinder ⟨true, 2047, 1⟩ = SqlValue.text "nan" ∧
    _doubleTroubleReader sampleConv (_doubleTroubleBinder ⟨true, 2047, 1⟩) = missingValueDouble ∧
    _doubleTroubleBinder (_doubleTroubleReader sampleConv (_doubleTroubleBinder ⟨true, 2047, 1⟩))
      = SqlValue.text "nan" :=
  have h := doubleTrouble_roundtrip_nonfinite sampleConv ⟨true, 2047, 1⟩ (by decide)
  ⟨(h.2.2.1 (by decide)).1, (h.2.2.1 (by decide)).2,
    h.2.2.2.2.2.trans (h.2.2.1 (by decide)).1⟩


/-! ### The state monad and the statement runner -/

theorem M.bind_run {α β : Type} (x : M α) (f : α → M β) (db : Db) :
    (x >>= f) db = match x db with
      | (.ok a, db') => f a db'
      | (.error e, db') => (.error e, db') := rfl

theorem M.ite_run {α : Type} (c : Prop) [Decidable c] (x y : M α) (db : Db) :
    (if c then x else y) db = if c then x db else y db := by
  split <;> rfl

theorem toInt32_of_inInt32 (i : Int) (h : inInt32 i) : toInt32 i = i := by
  unfold inInt32 at h
  cases i with
  | ofNat k =>
    have hk : k < 2147483648 := by
      have := h.2
      simp only [Int.ofNat_eq_coe] at this
      omega
    simp only [toInt32, hk, if_true]
  | negSucc k =>
    have hk : k < 2147483648 := by
      have := h.1
      simp only [Int.negSucc_eq] at this
      omega
    simp only [toInt32, hk, if_true]

/-- The narrowing to a C `int` is the two's complement wrap modulo 2^32. -/
theorem toInt32_eq_wrap (i : Int) :
    toInt32 i = (i + 2147483648) % 4294967296 - 2147483648 := by
  cases i with
  | ofNat k =>
    simp only [toInt32]
    split
    · simp only [Int.ofNat_eq_coe]
      omega
    · rfl
  | negSucc k =>
    simp only [toInt32]
    split
    · simp only [Int.negSucc_eq]
      omega
    · rfl


theorem selectById_map_unique {ρ : Type} (rows : List ρ) (getId : ρ → Int) (id : Int) (row : ρ)
    (upd : ρ → ρ) (out : ρ → List SqlValue)
    (hupd : ∀ r, getId (upd r) = getId r)
    (hnd : (rows.map getId).Nodup)
    (hfind : rows.find? (fun r => decide (getId r = id)) = some row) :
    selectById (rows.map upd) getId (some id) out = [out (upd row)] := by
  induction rows with
  | nil => simp at hfind
  | cons a rest ih =>
    simp only [List.map_cons, List.nodup_cons] at hnd
    by_cases ha : getId a = id
    · have hrow : a = row := by simpa [List.find?, ha] using hfind
      subst hrow
      have hrest : ∀ r ∈ rest, getId r ≠ id := by
        intro r hr hid
        apply hnd.1
        rw [ha, ← hid]
        exact List.mem_map_of_mem getId hr
      have hnil : List.filter (fun r => decide (some (getId r) = some id)) (List.map upd rest) = [] := by
        rw [List.filter_eq_nil_iff]
        intro r hr
        obtain ⟨r0, hr0, rfl⟩ := List.mem_map.mp hr
        simp [hupd, hrest r0 hr0]
      simp only [selectById, List.map_cons, List.filter, hupd, ha, decide_True, hnil, List.map_nil]
    · have hfind' : rest.find? (fun r => decide (getId r = id)) = some row := by
        simpa [List.find?, ha] using hfind
      have := ih hnd.2 hfind'
      simpa [selectById, List.filter, hupd, ha] using this

/-- The state with one more statement in its trace. -/
theorem logStmt_run (s : Stmt) (db : Db) :
    logStmt s db = (.ok (), { db with log := db.log ++ [s] }) := rfl

theorem processRows_pure {σ : Type} (g : Nat → List SqlValue → σ → σ)
    (rows : List (List SqlValue)) (row : Nat) (s : σ) (db : Db) :
    processRows (fun i r x => pure (g i r x)) row rows s db
      = (.ok ((rows.enumFrom row).foldl (fun x p => g p.1 p.2 x) s), db) := by
  induction rows generalizing row s with
  | nil => rfl
  | cons r rs ih =>
    simp only [processRows, M.bind_run, pure, M.pure, List.enumFrom_cons, List.foldl_cons]
    exact ih (row + 1) (g row r s)

theorem runStatements_run (stmt : Stmt) (params : List SqlValue) (db : Db) :
    runStatements stmt params db =
      if stmt.prepare { db with log := db.log ++ [stmt] } then
        if (stmt.step params { db with log := db.log ++ [stmt] }).1 = Rc.error then
          (.error Err.sqlError, (stmt.step params { db with log := db.log ++ [stmt] }).2.2)
        else (.ok (), (stmt.step params { db with log := db.log ++ [stmt] }).2.2)
      else (.error Err.sqlError, { db with log := db.log ++ [stmt] }) := by
  simp only [runStatements, _runStatements, M.bind_run, logStmt_run, M.get, M.ite_run]
  split
  · rcases h : stmt.step params { db with log := db.log ++ [stmt] } with ⟨ret, rows, db'⟩
    simp only [M.bind_run, M.modify]
    have := processRows_pure (fun _ _ (s : Unit) => s) rows 0 () db'
    simp only [pure, M.pure] at this ⊢
    rw [this]
    simp only [M.ite_run]
    split <;> rfl
  · rfl

/-- The value `runStatementsId` extracts from the result rows. -/
theorem runStatementsId_run (cv : SqliteConv) (stmt : Stmt) (params : List SqlValue) (db : Db) :
    runStatementsId cv stmt params db =
      if stmt.prepare { db with log := db.log ++ [stmt] } then
        if (stmt.step params { db with log := db.log ++ [stmt] }).1 = Rc.error then
          (.error Err.sqlError, (stmt.step params { db with log := db.log ++ [stmt] }).2.2)
        else (.ok (((stmt.step params { db with log := db.log ++ [stmt] }).2.1.enumFrom 0).foldl
            (fun id p => if p.2.length ≠ 0 then sqlite3_column_int cv (p.2.getD 0 .null) else id) (-1)),
          (stmt.step params { db with log := db.log ++ [stmt] }).2.2)
      else (.error Err.sqlError, { db with log := db.log ++ [stmt] }) := by
  simp only [runStatementsId, _runStatements, M.bind_run, logStmt_run, M.get, M.ite_run]
  split
  · rcases h : stmt.step params { db with log := db.log ++ [stmt] } with ⟨ret, rows, db'⟩
    simp only [M.bind_run, M.modify]
    have := processRows_pure
      (fun _ r (id : Int) => if r.length ≠ 0 then sqlite3_column_int cv (r.getD 0 .null) else id)
      rows 0 (-1) db'
    simp only [pure, M.pure] at this ⊢
    rw [this]
    simp only [M.ite_run]
    split <;> rfl
  · rfl

theorem transactionWriteBegin_run (db : Db) (h : db.transactionReadDepth = 0) :
    transactionWriteBegin db =
      (.ok (), { db with
        transactionWriteDepth := db.transactionWriteDepth + 1
        log := db.log ++ (if db.transactionWriteDepth = 0 then [Stmt.beginExclusive] else []) }) := by
  simp only [transactionWriteBegin, M.bind_run, M.get, h, beq_self_eq_true, cAssert, if_true,
    pure, M.pure, M.modify, M.ite_run, runStatements_run, Stmt.prepare, Stmt.step]
  split <;> simp_all

theorem transactionWriteEnd_run (db : Db) (h : 0 < db.transactionWriteDepth) :
    transactionWriteEnd false db =
      (.ok (), { db with
        transactionWriteDepth := db.transactionWriteDepth - 1
        log := db.log ++ (if db.transactionWriteDepth - 1 = 0 then [Stmt.commit] else []) }) := by
  simp only [transactionWriteEnd, M.bind_run, M.get, h, decide_True, cAssert, if_true,
    pure, M.pure, M.modify, M.ite_run, runStatements_run, Stmt.prepare, Stmt.step]
  by_cases hc : db.transactionWriteDepth - 1 = 0 <;> simp [hc]

theorem dataSetIncRevision_run (cv : SqliteConv) (db : Db) (id r : Int)
    (hread : db.transactionReadDepth = 0)
    (hkey : (db.dataSets.map (fun x => x.id)).Nodup)
    (hrev : db.dataSetRevision id = some r) :
    dataSetIncRevision cv id db =
      (.ok (toInt32 (r + 1)),
        { db with
          dataSets := db.dataSets.map (fun x =>
            if x.id = id then { x with revision := x.revision + 1 } else x)
          log := db.log ++ (if db.transactionWriteDepth = 0 then [Stmt.beginExclusive] else [])
            ++ [Stmt.incRevision Registry.DataSets, Stmt.selectRevision Registry.DataSets]
            ++ (if db.transactionWriteDepth = 0 then [Stmt.commit] else []) }) := by
  obtain ⟨row, hrow, hrr⟩ : ∃ row, db.dataSets.find? (fun x => decide (x.id = id)) = some row ∧
      row.revision = r := by
    simp only [Db.dataSetRevision, Option.map_eq_some'] at hrev
    exact hrev
  have hsel := selectById_map_unique db.dataSets (fun x => x.id) id row
    (fun x => if x.id = id then { x with revision := x.revision + 1 } else x)
    (fun x => [SqlValue.integer x.revision]) (by intro x; dsimp only; split <;> rfl) hkey hrow
  have hid : row.id = id := by
    have := List.find?_some hrow
    simpa using this
  simp only [hid, if_true] at hsel
  simp only [dataSetIncRevision, M.bind_run, transactionWriteBegin_run db hread,
    runStatements_run, runStatementsId_run, Stmt.prepare, Stmt.step, sqlite3_bind_int, paramInt,
    List.getElem?_cons_zero, if_true, reduceCtorEq, if_false, Option.some.injEq, hsel]
  rw [transactionWriteEnd_run _ (by simp)]
  simp [pure, M.pure, sqlite3_column_int, hrr]

theorem columnIncRevision_run (cv : SqliteConv) (db : Db) (id r : Int)
    (hread : db.transactionReadDepth = 0)
    (hkey : (db.columns.map (fun x => x.id)).Nodup)
    (hrev : db.columnRevision id = some r) :
    columnIncRevision cv id db =
      (.ok (toInt32 (r + 1)),
        { db with
          columns := db.columns.map (fun x =>
            if x.id = id then { x with revision := x.revision + 1 } else x)
          log := db.log ++ (if db.transactionWriteDepth = 0 then [Stmt.beginExclusive] else [])
            ++ [Stmt.incRevision Registry.Columns, Stmt.selectRevision Registry.Columns]
            ++ (if db.transactionWriteDepth = 0 then [Stmt.commit] else []) }) := by
  obtain ⟨row, hrow, hrr⟩ : ∃ row, db.columns.find? (fun x => decide (x.id = id)) = some row ∧
      row.revision = r := by
    simp only [Db.columnRevision, Option.map_eq_some'] at hrev
    exact hrev
  have hsel := selectById_map_unique db.columns (fun x => x.id) id row
    (fun x => if x.id = id then { x with revision := x.revision + 1 } else x)
    (fun x => [SqlValue.integer x.revision]) (by intro x; dsimp only; split <;> rfl) hkey hrow
  have hid : row.id = id := by
    have := List.find?_some hrow
    simpa using this
  simp only [hid, if_true] at hsel
  simp only [columnIncRevision, M.bind_run, transactionWriteBegin_run db hread,
    runStatements_run, runStatementsId_run, Stmt.prepare, Stmt.step, sqlite3_bind_int, paramInt,
    List.getElem?_cons_zero, if_true, reduceCtorEq, if_false, Option.some.injEq, hsel]
  rw [transactionWriteEnd_run _ (by simp)]
  simp [pure, M.pure, sqlite3_column_int, hrr]

theorem filterIncRevision_run (cv : SqliteConv) (db : Db) (id r : Int)
    (hread : db.transactionReadDepth = 0)
    (hkey : (db.filters.map (fun x => x.id)).Nodup)
    (hrev : db.filterRevision id = some r) :
    filterIncRevision cv id db =
      (.ok (toInt32 (r + 1)),
        { db with
          filters := db.filters.map (fun x =>
            if x.id = id then { x with revision := x.revision + 1 } else x)
          log := db.log ++ (if db.transactionWriteDepth = 0 then [Stmt.beginExclusive] else [])
            ++ [Stmt.incRevision Registry.Filters, Stmt.selectRevision Registry.Filters]
            ++ (if db.transactionWriteDepth = 0 then [Stmt.commit] else []) }) := by
  obtain ⟨row, hrow, hrr⟩ : ∃ row, db.filters.find? (fun x => decide (x.id = id)) = some row ∧
      row.revision = r := by
    simp only [Db.filterRevision, Option.map_eq_some'] at hrev
    exact hrev
  have hsel := selectById_map_unique db.filters (fun x => x.id) id row
    (fun x => if x.id = id then { x with revision := x.revision + 1 } else x)
    (fun x => [SqlValue.integer x.revision]) (by intro x; dsimp only; split <;> rfl) hkey hrow
  have hid : row.id = id := by
    have := List.find?_some hrow
    simpa using this
  simp only [hid, if_true] at hsel
  simp only [filterIncRevision, M.bind_run, transactionWriteBegin_run db hread,
    runStatements_run, runStatementsId_run, Stmt.prepare, Stmt.step, sqlite3_bind_int, paramInt,
    List.getElem?_cons_zero, if_true, reduceCtorEq, if_false, Option.some.injEq, hsel]
  rw [transactionWriteEnd_run _ (by simp)]
  simp [pure, M.pure, sqlite3_column_int, hrr]

theorem find_map_unique {ρ : Type} (rows : List ρ) (getId : ρ → Int) (id : Int)
    (upd : ρ → ρ) (hupd : ∀ r, getId (upd r) = getId r) :
    (rows.map upd).find? (fun r => decide (getId r = id))
      = (rows.find? (fun r => decide (getId r = id))).map upd := by
  induction rows with
  | nil => rfl
  | cons a rest ih =>
    by_cases ha : getId a = id
    · simp [List.find?, hupd, ha]
    · simp [List.find?, hupd, ha, ih]

theorem revision_map_dataSets (db : Db) (id j : Int) :
    ((db.dataSets.map (fun x => if x.id = id then { x with revision := x.revision + 1 } else x)).find?
        (fun x => decide (x.id = j))).map (fun x => x.revision)
      = (db.dataSetRevision j).map (fun v => if j = id then v + 1 else v) := by
  rw [find_map_unique db.dataSets (fun x => x.id) j _ (by intro x; dsimp only; split <;> rfl)]
  unfold Db.dataSetRevision
  cases h : db.dataSets.find? (fun x => decide (x.id = j)) with
  | none => rfl
  | some row =>
    have hid : row.id = j := by simpa using List.find?_some h
    by_cases hj : j = id <;> simp [hid, hj]

theorem revision_map_columns (db : Db) (id j : Int) :
    ((db.columns.map (fun x => if x.id = id then { x with revision := x.revision + 1 } else x)).find?
        (fun x => decide (x.id = j))).map (fun x => x.revision)
      = (db.columnRevision j).map (fun v => if j = id then v + 1 else v) := by
  rw [find_map_unique db.columns (fun x => x.id) j _ (by intro x; dsimp only; split <;> rfl)]
  unfold Db.columnRevision
  cases h : db.columns.find? (fun x => decide (x.id = j)) with
  | none => rfl
  | some row =>
    have hid : row.id = j := by simpa using List.find?_some h
    by_cases hj : j = id <;> simp [hid, hj]

theorem revision_map_filters (db : Db) (id j : Int) :
    ((db.filters.map (fun x => if x.id = id then { x with revision := x.revision + 1 } else x)).find?
        (fun x => decide (x.id = j))).map (fun x => x.revision)
      = (db.filterRevision j).map (fun v => if j = id then v + 1 else v) := by
  rw [find_map_unique db.filters (fun x => x.id) j _ (by intro x; dsimp only; split <;> rfl)]
  unfold Db.filterRevision
  cases h : db.filters.find? (fun x => decide (x.id = j)) with
  | none => rfl
  | some row =>
    have hid : row.id = j := by simpa using List.find?_some h
    by_cases hj : j = id <;> simp [hid, hj]

/-- C4: for each entity kind and every existing id with stored revision `r` (with
`r + 1` a C `int`), the revision increment returns `r + 1`, leaves the stored
revision of that entity at `r + 1` and every other revision and every physical
table unchanged, and issues the increment and the read-back inside one write
transaction that it enters and leaves at the same depth. -/
theorem incRevision_bumps (cv : SqliteConv) (db : Db) (kind : Registry) (id r : Int)
    (hread : db.transactionReadDepth = 0)
    (hkey : (db.registryIds kind).Nodup)
    (hrev : db.revision kind id = some r)
    (hrange : inInt32 (r + 1)) :
    (incRevisionOf cv kind id db).1 = .ok (r + 1) ∧
    (incRevisionOf cv kind id db).2.revision kind id = some (r + 1) ∧
    (∀ k j, (k, j) ≠ (kind, id) → (incRevisionOf cv kind id db).2.revision k j = db.revision k j) ∧
    (incRevisionOf cv kind id db).2.tables = db.tables ∧
    (incRevisionOf cv kind id db).2.log = db.log ++
      inWriteTransaction db.transactionWriteDepth
        [Stmt.incRevision kind, Stmt.selectRevision kind] ∧
    (incRevisionOf cv kind id db).2.transactionWriteDepth = db.transactionWriteDepth ∧
    (incRevisionOf cv kind id db).2.transactionReadDepth = 0 := by
  cases kind with
  | DataSets =>
    simp only [incRevisionOf, dataSetIncRevision_run cv db id r hread hkey hrev,
      toInt32_of_inInt32 _ hrange]
    refine ⟨by trivial, ?_, ?_, by trivial, ?_, by trivial, hread⟩
    · have := revision_map_dataSets db id id
      simp only [Db.revision, Db.dataSetRevision] at hrev ⊢
      rw [this]
      simp [Db.dataSetRevision, hrev]
    · intro k j hkj
      cases k with
      | DataSets =>
        have hj : j ≠ id := fun h => hkj (by rw [h])
        have := revision_map_dataSets db id j
        simp only [Db.revision, Db.dataSetRevision] at this ⊢
        rw [this]
        cases List.find? (fun r => decide (r.id = j)) db.dataSets <;> simp [hj]
      | Columns => rfl
      | Filters => rfl
    · simp [inWriteTransaction, List.append_assoc]
  | Columns =>
    simp only [incRevisionOf, columnIncRevision_run cv db id r hread hkey hrev,
      toInt32_of_inInt32 _ hrange]
    refine ⟨by trivial, ?_, ?_, by trivial, ?_, by trivial, hread⟩
    · have := revision_map_columns db id id
      simp only [Db.revision, Db.columnRevision] at hrev ⊢
      rw [this]
      simp [Db.columnRevision, hrev]
    · intro k j hkj
      cases k with
      | Columns =>
        have hj : j ≠ id := fun h => hkj (by rw [h])
        have := revision_map_columns db id j
        simp only [Db.revision, Db.columnRevision] at this ⊢
        rw [this]
        cases List.find? (fun r => decide (r.id = j)) db.columns <;> simp [hj]
      | DataSets => rfl
      | Filters => rfl
    · simp [inWriteTransaction, List.append_assoc]
  | Filters =>
    simp only [incRevisionOf, filterIncRevision_run cv db id r hread hkey hrev,
      toInt32_of_inInt32 _ hrange]
    refine ⟨by trivial, ?_, ?_, by trivial, ?_, by trivial, hread⟩
    · have := revision_map_filters db id id
      simp only [Db.revision, Db.filterRevision] at hrev ⊢
      rw [this]
      simp [Db.filterRevision, hrev]
    · intro k j hkj
      cases k with
      | Filters =>
        have hj : j ≠ id := fun h => hkj (by rw [h])
        have := revision_map_filters db id j
        simp only [Db.revision, Db.filterRevision] at this ⊢
        rw [this]
        cases List.find? (fun r => decide (r.id = j)) db.filters <;> simp [hj]
      | DataSets => rfl
      | Columns => rfl
    · simp [inWriteTransaction, List.append_assoc]

/-! ### Physical tables -/

theorem lookup_map_setTable (tables : List (Int × PhysTable)) (ds : Int) (t' : PhysTable)
    (h : (tables.lookup ds).isSome) :
    (tables.map (fun p => if p.1 = ds then (ds, t') else p)).lookup ds = some t' := by
  induction tables with
  | nil => simp at h
  | cons p rest ih =>
    obtain ⟨k, v⟩ := p
    rw [List.map_cons]
    by_cases hk : k = ds
    · subst hk
      rw [if_pos (show ((k, v) : Int × PhysTable).1 = k from rfl)]
      simp [List.lookup]
    · have hne : (ds == k) = false := by simpa using fun h => hk h.symm
      rw [if_neg (show ¬ ((k, v) : Int × PhysTable).1 = ds from hk)]
      simp only [List.lookup, hne] at h ⊢
      exact ih h

theorem table_setTable (db : Db) (ds : Int) (t t' : PhysTable) (h : db.table ds = some t) :
    (db.setTable ds t').table ds = some t' := by
  unfold Db.table Db.setTable
  exact lookup_map_setTable db.tables ds t' (by unfold Db.table at h; simp [h])

theorem lookup_map_rows (tables : List (Int × PhysTable)) (ds : Int) (t : PhysTable)
    (f : PhysTable → List PhysRow) (h : tables.lookup ds = some t) :
    (tables.map (fun p => if p.1 = ds then (p.1, { p.2 with rows := f p.2 }) else p)).lookup ds
      = some { t with rows := f t } := by
  induction tables with
  | nil => simp at h
  | cons p rest ih =>
    obtain ⟨k, v⟩ := p
    rw [List.map_cons]
    by_cases hk : k = ds
    · subst hk
      rw [if_pos (show ((k, v) : Int × PhysTable).1 = k from rfl)]
      simp only [List.lookup, beq_self_eq_true] at h ⊢
      cases h
      rfl
    · have hne : (ds == k) = false := by simpa using fun h => hk h.symm
      rw [if_neg (show ¬ ((k, v) : Int × PhysTable).1 = ds from hk)]
      simp only [List.lookup, hne] at h ⊢
      exact ih h

theorem table_mapRows (db : Db) (ds : Int) (t : PhysTable) (f : PhysTable → List PhysRow)
    (h : db.table ds = some t) :
    (db.mapRows ds f).table ds = some { t with rows := f t } := by
  unfold Db.table Db.mapRows
  exact lookup_map_rows db.tables ds t f h

/-- The pairs of slot and value that `dataSetBatchedValuesUpdate` hands to the
`INSERT` for one row: the column list of the statement zipped with the bound
parameters. -/
theorem zip_bindParamStore (data : DataSet) (fid : Int) (cols : List Column) (row : Nat)
    (params : List SqlValue) (h : bindParamStore data cols row = some params) :
    ∃ b, data._filter._filtered[row]? = some b ∧
      (cols.flatMap (fun col => [SlotName.colDbl col._id, SlotName.colInt col._id])
          ++ [SlotName.filter fid]).zip params
        = cols.flatMap (fun col =>
            [(SlotName.colDbl col._id, _doubleTroubleBinder (col._dbls.getD row Dbl.zero)),
             (SlotName.colInt col._id, SqlValue.integer (col._ints.getD row 0))])
          ++ [(SlotName.filter fid, SqlValue.integer (if b then 1 else 0))] ∧
      params[2 * cols.length + 1]? = some (SqlValue.integer ((row : Int) + 1)) := by
  induction cols generalizing params with
  | nil =>
    simp only [bindParamStore] at h
    cases hb : data._filter._filtered[row]? with
    | none => simp [hb] at h
    | some b =>
      simp only [hb, Option.some.injEq] at h
      subst h
      exact ⟨b, rfl, by simp [sqlite3_bind_int], by simp [sqlite3_bind_int]⟩
  | cons col rest ih =>
    simp only [bindParamStore] at h
    cases hd : col._dbls[row]? with
    | none => simp [hd] at h
    | some d =>
      cases hi : col._ints[row]? with
      | none => simp [hd, hi] at h
      | some i =>
        cases hr : bindParamStore data rest row with
        | none => simp [hd, hi, hr] at h
        | some restParams =>
          simp only [hd, hi, hr, Option.some.injEq] at h
          subst h
          obtain ⟨b, hb, hzip, hlast⟩ := ih restParams hr
          have hd' : col._dbls.getD row Dbl.zero = d := by
            simp [List.getD, hd]
          have hi' : col._ints.getD row 0 = i := by
            simp [List.getD, hi]
          refine ⟨b, hb, ?_, ?_⟩
          · simp only [List.flatMap_cons, List.cons_append, List.nil_append, List.zip_cons_cons,
              hd', hi', sqlite3_bind_int]
            rw [hzip]
          · have : 2 * (rest.length + 1) + 1 = (2 * rest.length + 1) + 1 + 1 := by omega
            simp only [List.length_cons, this, List.getElem?_cons_succ]
            exact hlast

theorem bindParamStore_isSome (data : DataSet) (cols : List Column) (row : Nat)
    (hf : row < data._filter._filtered.length)
    (hc : ∀ col ∈ cols, row < col._dbls.length ∧ row < col._ints.length) :
    ∃ params, bindParamStore data cols row = some params := by
  induction cols with
  | nil =>
    simp only [bindParamStore]
    rw [List.getElem?_eq_getElem hf]
    exact ⟨_, rfl⟩
  | cons col rest ih =>
    obtain ⟨p, hp⟩ := ih (fun c hc' => hc c (List.mem_cons_of_mem _ hc'))
    have h1 := hc col (List.mem_cons_self _ _)
    simp only [bindParamStore, hp]
    rw [List.getElem?_eq_getElem h1.1, List.getElem?_eq_getElem h1.2]
    exact ⟨_, rfl⟩

theorem batchedBindFactory_run (data : DataSet) (cols : List Column) (ui : Nat) (row s : Nat)
    (db : Db) (hrow : row < data._rowCount)
    (hf : row < data._filter._filtered.length)
    (hc : ∀ col ∈ cols, row < col._dbls.length ∧ row < col._ints.length) :
    ∃ params db', batchedBindFactory data cols ui row s db = (.ok (true, some params, row), db') ∧
      bindParamStore data cols row = some params ∧
      db'.tables = db.tables ∧ db'.transactionWriteDepth = db.transactionWriteDepth ∧
      db'.transactionReadDepth = db.transactionReadDepth ∧
      db'.dataSets = db.dataSets ∧ db'.columns = db.columns ∧ db'.filters = db.filters ∧
      db'.log = db.log := by
  obtain ⟨params, hp⟩ := bindParamStore_isSome data cols row hf hc
  have hge : ¬ row ≥ data._rowCount := by omega
  simp only [batchedBindFactory, hge, if_false, M.bind_run, M.get, hp, M.ite_run,
    progressCallback, M.modify, pure, M.pure]
  by_cases hu : db.prevUpdate + ui ≤ row
  · simp only [hu, if_true]
    exact ⟨params, _, rfl, rfl, rfl, rfl, rfl, rfl, rfl, rfl, rfl⟩
  · simp only [hu, if_false]
    exact ⟨params, _, rfl, rfl, rfl, rfl, rfl, rfl, rfl, rfl, rfl⟩

theorem batchedBindFactory_end (data : DataSet) (cols : List Column) (ui : Nat) (row s : Nat)
    (db : Db) (hrow : row ≥ data._rowCount) :
    batchedBindFactory data cols ui row s db
      = (.ok (false, none, row), { db with progress := db.progress ++ [ProgressCall.one] }) := by
  simp only [batchedBindFactory, hrow, if_true, M.bind_run, progressCallback, M.modify, pure,
    M.pure]

theorem length_flatMap_pair {α β : Type} (l : List α) (f g : α → β) :
    (l.flatMap (fun a => [f a, g a])).length = 2 * l.length := by
  induction l with
  | nil => rfl
  | cons a rest ih => simp [List.flatMap_cons, ih]; omega

theorem writtenRows_succ (t : PhysTable) (data : DataSet) (cols : List Column) (k : Nat) :
    writtenRows t data cols (k + 1)
      = writtenRows t data cols k ++ [newRow t ((k : Int) + 1) (writtenCells data cols k)] := by
  simp [writtenRows, List.range_succ]

theorem writtenRows_rowNumber (t : PhysTable) (data : DataSet) (cols : List Column) (k : Nat) :
    (writtenRows t data cols k).map (fun r => r.rowNumber)
      = (List.range k).map (fun (i : Nat) => (i : Int) + 1) := by
  simp [writtenRows, newRow, Function.comp_def]

theorem writtenRows_fresh (t : PhysTable) (data : DataSet) (cols : List Column) (k : Nat) :
    (writtenRows t data cols k).any (fun r => decide (r.rowNumber = (k : Int) + 1)) = false := by
  rw [Bool.eq_false_iff]
  intro h
  simp only [List.any_eq_true, decide_eq_true_eq] at h
  obtain ⟨r, hr, hk⟩ := h
  simp only [writtenRows, List.mem_map, List.mem_range] at hr
  obtain ⟨i, hi, rfl⟩ := hr
  simp only [newRow] at hk
  omega

theorem table_congr (db db' : Db) (h : db'.tables = db.tables) (ds : Int) :
    db'.table ds = db.table ds := by
  unfold Db.table
  rw [h]

theorem storedCells_written (fid : Int) (b : Bool) (cols : List Column) (row : Nat) :
    storedCells (cols.flatMap (fun col =>
          [(SlotName.colDbl col._id, _doubleTroubleBinder (col._dbls.getD row Dbl.zero)),
           (SlotName.colInt col._id, SqlValue.integer (col._ints.getD row 0))])
        ++ [(SlotName.filter fid, SqlValue.integer (if b then 1 else 0))])
      = cols.flatMap (fun col =>
          [(SlotName.colDbl col._id,
              realAffinity (_doubleTroubleBinder (col._dbls.getD row Dbl.zero))),
           (SlotName.colInt col._id, SqlValue.integer (col._ints.getD row 0))])
        ++ [(SlotName.filter fid, SqlValue.integer (if b then 1 else 0))] := by
  induction cols with
  | nil => rfl
  | cons c rest ih =>
    simp only [List.flatMap_cons, List.cons_append, List.nil_append]
    unfold storedCells at ih ⊢
    simp only [List.map_cons]
    rw [ih]
    rfl

theorem insertRow_step (data : DataSet) (cols : List Column) (t : PhysTable) (k : Nat)
    (params : List SqlValue) (db : Db)
    (hp : bindParamStore data cols k = some params)
    (ht : db.table data._dataSetID
      = some { slots := t.slots, rows := writtenRows t data cols k }) :
    (Stmt.insertRow data._dataSetID
        (cols.flatMap (fun col => [SlotName.colDbl col._id, SlotName.colInt col._id])
          ++ [SlotName.filter data._filter._id])).step params db
      = (Rc.done, [], db.setTable data._dataSetID
          { slots := t.slots, rows := writtenRows t data cols (k + 1) }) := by
  obtain ⟨b, hb, hzip, hlast⟩ := zip_bindParamStore data data._filter._id cols k params hp
  have hlen : (cols.flatMap (fun col => [SlotName.colDbl col._id, SlotName.colInt col._id])
      ++ [SlotName.filter data._filter._id]).length = 2 * cols.length + 1 := by
    rw [List.length_append, length_flatMap_pair]
    rfl
  have hb' : data._filter._filtered.getD k false = b := by simp [List.getD, hb]
  simp only [Stmt.step, ht, paramInt, hlen, hlast, writtenRows_fresh, hzip, storedCells_written]
  simp only [Bool.false_eq_true, if_false, writtenRows_succ, writtenCells, hb', newRow]

theorem update_loop (data : DataSet) (cols : List Column) (ui : Nat) (t : PhysTable)
    (hf : data._filter._filtered.length = data._rowCount)
    (hc : ∀ col ∈ cols, col._dbls.length = data._rowCount ∧ col._ints.length = data._rowCount) :
    ∀ (m k : Nat) (db : Db) (ret : Rc) (bound : List SqlValue) (s : Nat),
      k + m = data._rowCount → (ret = Rc.ok ∨ ret = Rc.done) →
      db.table data._dataSetID = some { slots := t.slots, rows := writtenRows t data cols k } →
      ∃ s' db',
        repeatedLoop (Stmt.insertRow data._dataSetID
            (cols.flatMap (fun col => [SlotName.colDbl col._id, SlotName.colInt col._id])
              ++ [SlotName.filter data._filter._id]))
          (batchedBindFactory data cols ui) (m + 1) ret k bound s db = (.ok s', db') ∧
        db'.table data._dataSetID
          = some { slots := t.slots, rows := writtenRows t data cols data._rowCount } ∧
        db'.transactionWriteDepth = db.transactionWriteDepth ∧
        db'.transactionReadDepth = db.transactionReadDepth ∧
        db'.dataSets = db.dataSets ∧ db'.columns = db.columns ∧ db'.filters = db.filters := by
  intro m
  induction m with
  | zero =>
    intro k db ret bound s hk hret ht
    have hend := batchedBindFactory_end data cols ui k s db (by omega)
    have hkN : k = data._rowCount := by omega
    refine ⟨k, { db with progress := db.progress ++ [ProgressCall.one] }, ?_, ?_, rfl, rfl, rfl,
      rfl, rfl⟩
    · simp only [repeatedLoop, hret, if_true, M.bind_run, hend, Bool.false_eq_true, if_false,
        pure, M.pure]
    · rw [← hkN]
      exact ht
  | succ m ih =>
    intro k db ret bound s hk hret ht
    obtain ⟨params, dbF, hfac, hp, htab, hw, hr, hds, hcs, hfs, _⟩ :=
      batchedBindFactory_run data cols ui k s db (by omega) (by omega)
        (fun col hcol => by have := hc col hcol; omega)
    have htF : dbF.table data._dataSetID
        = some { slots := t.slots, rows := writtenRows t data cols k } := by
      rw [table_congr db dbF htab]
      exact ht
    have hstep := insertRow_step data cols t k params dbF hp htF
    obtain ⟨s', db', hloop, htab', hw', hr', hds', hcs', hfs'⟩ :=
      ih (k + 1) (dbF.setTable data._dataSetID
          { slots := t.slots, rows := writtenRows t data cols (k + 1) }) Rc.done params k
        (by omega) (Or.inr rfl) (table_setTable dbF _ _ _ htF)
    refine ⟨s', db', ?_, htab', ?_, ?_, ?_, ?_, ?_⟩
    · rw [repeatedLoop]
      simp only [hret, if_true, M.bind_run, hfac, M.get, hstep, M.modify, reduceCtorEq, if_false,
        List.length_nil, Nat.add_zero, M.ite_run]
      exact hloop
    · rw [hw']; exact hw
    · rw [hr']; exact hr
    · rw [hds']; exact hds
    · rw [hcs']; exact hcs
    · rw [hfs']; exact hfs

theorem runStatementsRepeatedly_run {σ : Type} (fuel : Nat) (stmt : Stmt)
    (factory : Nat → σ → M (Bool × Option (List SqlValue) × σ)) (init : σ) (db : Db) :
    _runStatementsRepeatedly fuel stmt factory init db =
      if stmt.prepare { db with log := db.log ++ [stmt] } then
        repeatedLoop stmt factory fuel Rc.ok 0 [] init { db with log := db.log ++ [stmt] }
      else (.error Err.sqlError, { db with log := db.log ++ [stmt] }) := by
  simp only [_runStatementsRepeatedly, M.bind_run, logStmt_run, M.get, M.ite_run]
  split <;> rfl

/-- The slots `dataSetBatchedValuesUpdate` and `dataSetBatchedValuesLoad` name for
a dataset are declared in its physical table. -/
theorem all_slots_mem (t : PhysTable) (cols : List Column) (fid : Int)
    (f g : Int → SlotName)
    (hcols : ∀ col ∈ cols, f col._id ∈ t.slots ∧ g col._id ∈ t.slots)
    (hfil : SlotName.filter fid ∈ t.slots) :
    (cols.flatMap (fun col => [f col._id, g col._id]) ++ [SlotName.filter fid]).all
      (fun s => decide (s ∈ t.slots)) = true := by
  rw [List.all_eq_true]
  intro s hs
  simp only [List.mem_append, List.mem_flatMap, List.mem_cons, List.mem_singleton,
    List.not_mem_nil, or_false] at hs
  simp only [decide_eq_true_eq]
  rcases hs with ⟨col, hcol, rfl | rfl⟩ | rfl
  · exact (hcols col hcol).1
  · exact (hcols col hcol).2
  · exact hfil

theorem batchedUpdate_run (data : DataSet) (cols : List Column) (t : PhysTable) (db : Db)
    (hread : db.transactionReadDepth = 0)
    (ht : db.table data._dataSetID = some t)
    (hslots : ∀ col ∈ cols, SlotName.colDbl col._id ∈ t.slots ∧ SlotName.colInt col._id ∈ t.slots)
    (hfslot : SlotName.filter data._filter._id ∈ t.slots)
    (hf : data._filter._filtered.length = data._rowCount)
    (hc : ∀ col ∈ cols, col._dbls.length = data._rowCount ∧ col._ints.length = data._rowCount) :
    ∃ db', dataSetBatchedValuesUpdate data cols db = (.ok (), db') ∧
      db'.table data._dataSetID
        = some { slots := t.slots, rows := writtenRows t data cols data._rowCount } ∧
      db'.transactionWriteDepth = db.transactionWriteDepth ∧
      db'.transactionReadDepth = 0 ∧
      db'.dataSets = db.dataSets ∧ db'.columns = db.columns ∧ db'.filters = db.filters := by
  -- the state after `transactionWriteBegin` and the `DELETE`
  let db1 : Db := { db with
    transactionWriteDepth := db.transactionWriteDepth + 1
    log := db.log ++ (if db.transactionWriteDepth = 0 then [Stmt.beginExclusive] else []) }
  have ht1 : db1.table data._dataSetID = some t := ht
  let db2 : Db := ({ db1 with log := db1.log ++ [Stmt.deleteRows data._dataSetID] } : Db).mapRows
    data._dataSetID (fun _ => [])
  have ht2 : db2.table data._dataSetID
      = some { slots := t.slots, rows := writtenRows t data cols 0 } :=
    table_mapRows _ _ t _ ht1
  have hdel : runStatements (Stmt.deleteRows data._dataSetID) [] db1 = (.ok (), db2) := by
    rw [runStatements_run]
    have : (({ db1 with log := db1.log ++ [Stmt.deleteRows data._dataSetID] } : Db).table
        data._dataSetID).isSome = true := by
      rw [show ({ db1 with log := db1.log ++ [Stmt.deleteRows data._dataSetID] } : Db).table
        data._dataSetID = some t from ht]
      rfl
    simp only [Stmt.prepare, this, if_true, Stmt.step, reduceCtorEq, if_false]
  have hd2 : db2.transactionWriteDepth = db.transactionWriteDepth + 1 ∧
      db2.transactionReadDepth = db.transactionReadDepth ∧ db2.dataSets = db.dataSets ∧
      db2.columns = db.columns ∧ db2.filters = db.filters := by
    exact ⟨rfl, rfl, rfl, rfl, rfl⟩
  let stmt := Stmt.insertRow data._dataSetID
    (cols.flatMap (fun col => [SlotName.colDbl col._id, SlotName.colInt col._id])
      ++ [SlotName.filter data._filter._id])
  let db3 : Db := { db2 with log := db2.log ++ [stmt] }
  have ht3 : db3.table data._dataSetID
      = some { slots := t.slots, rows := writtenRows t data cols 0 } := ht2
  obtain ⟨s', db4, hloop, ht4, hw4, hr4, hds4, hcs4, hfs4⟩ :=
    update_loop data cols (max 1 (data._rowCount / 100)) t hf hc data._rowCount 0 db3 Rc.ok [] 0
      (by omega) (Or.inl rfl) ht3
  have hprep : stmt.prepare db3 = true := by
    simp only [stmt, Stmt.prepare, ht3]
    exact all_slots_mem t cols data._filter._id SlotName.colDbl SlotName.colInt hslots hfslot
  have hrep : _runStatementsRepeatedly (data._rowCount + 1) stmt
      (batchedBindFactory data cols (max 1 (data._rowCount / 100))) 0 db2 = (.ok s', db4) := by
    rw [runStatementsRepeatedly_run]
    rw [if_pos hprep]
    exact hloop
  have hw4' : 0 < db4.transactionWriteDepth := by
    rw [hw4]
    show 0 < db2.transactionWriteDepth
    rw [hd2.1]
    omega
  refine ⟨{ db4 with
      transactionWriteDepth := db4.transactionWriteDepth - 1
      log := db4.log ++ (if db4.transactionWriteDepth - 1 = 0 then [Stmt.commit] else []) },
    ?_, ?_, ?_, ?_, ?_, ?_, ?_⟩
  · simp only [dataSetBatchedValuesUpdate, M.bind_run, transactionWriteBegin_run db hread]
    have hdel' : runStatements (Stmt.deleteRows data._dataSetID) []
        { db with
          transactionWriteDepth := db.transactionWriteDepth + 1
          log := db.log ++ (if db.transactionWriteDepth = 0 then [Stmt.beginExclusive] else []) }
        = (.ok (), db2) := hdel
    simp only [hdel', hrep]
    exact transactionWriteEnd_run db4 hw4'
  · exact ht4
  · show db4.transactionWriteDepth - 1 = db.transactionWriteDepth
    rw [hw4]
    show db2.transactionWriteDepth - 1 = _
    rw [hd2.1]
    omega
  · show db4.transactionReadDepth = 0
    rw [hr4]
    show db2.transactionReadDepth = 0
    rw [hd2.2.1]
    exact hread
  · show db4.dataSets = _
    rw [hds4]
    exact hd2.2.2.1
  · show db4.columns = _
    rw [hcs4]
    exact hd2.2.2.2.1
  · show db4.filters = _
    rw [hfs4]
    exact hd2.2.2.2.2

/-! ### Reading the written rows back -/

theorem reader_binder (cv : SqliteConv) (hcv : RendersNumeric cv) (d : Dbl) :
    _doubleTroubleReader cv (realAffinity (_doubleTroubleBinder d)) = reloaded d := by
  cases hfin : d.isFinite with
  | true =>
    have hn : d.isnan = false := by
      unfold Dbl.isFinite at hfin
      cases h : d.isnan <;> simp_all
    rw [binder_finite d hfin]
    by_cases hz : d = Dbl.negZero
    · subst hz
      rw [realAffinity, if_pos rfl, reader_real cv Dbl.zero (hcv Dbl.zero (by decide))]
      decide
    · rw [realAffinity, if_neg hz, reader_real cv d (hcv d hfin)]
      simp [reloaded, hn, hz]
  | false =>
    rcases nonfinite_cases d hfin with h | h | h
    · rw [binder_nan d h]
      show _doubleTroubleReader cv (SqlValue.text (dbDblToString dbDbl.nan)) = _
      rw [reader_text_nan]
      simp [reloaded, h]
    · subst h
      have hb : _doubleTroubleBinder Dbl.infinity = SqlValue.text (dbDblToString dbDbl.inf) := by
        decide
      rw [hb]
      show _doubleTroubleReader cv (SqlValue.text (dbDblToString dbDbl.inf)) = _
      rw [reader_text_inf]
      decide
    · subst h
      have hb : _doubleTroubleBinder Dbl.negInfinity
          = SqlValue.text (dbDblToString dbDbl.neg_inf) := by
        decide
      rw [hb]
      show _doubleTroubleReader cv (SqlValue.text (dbDblToString dbDbl.neg_inf)) = _
      rw [reader_text_neg_inf]
      decide

theorem binder_ne_null (d : Dbl) : _doubleTroubleBinder d ≠ SqlValue.null := by
  unfold _doubleTroubleBinder sqlite3_bind_text sqlite3_bind_double
  by_cases hn : d.isnan = true
  · simp [hn]
  · simp only [Bool.not_eq_true] at hn
    by_cases hi : d.isinf = true
    · simp [hn, hi]
    · simp only [Bool.not_eq_true] at hi
      simp [hn, hi]

theorem lookup_map_pair {α β : Type} [DecidableEq α] (l : List α) (f : α → β) (a : α)
    (h : a ∈ l) : (l.map (fun s => (s, f s))).lookup a = some (f a) := by
  induction l with
  | nil => simp at h
  | cons x rest ih =>
    by_cases hx : a = x
    · subst hx
      simp [List.lookup]
    · have hne : (a == x) = false := by simpa using hx
      rcases List.mem_cons.mp h with h1 | h1
      · exact absurd h1 hx
      · simp only [List.map_cons, List.lookup, hne]
        exact ih h1

theorem newRow_cell (t : PhysTable) (rn : Int) (given : List (SlotName × SqlValue))
    (s : SlotName) (hs : s ∈ t.slots) :
    (newRow t rn given).cell s = (given.lookup s).getD s.dflt := by
  unfold PhysRow.cell newRow
  simp only
  rw [lookup_map_pair t.slots _ s hs]

theorem writtenCells_cons (data : DataSet) (c : Column) (rest : List Column) (k : Nat) :
    writtenCells data (c :: rest) k
      = (SlotName.colDbl c._id, realAffinity (_doubleTroubleBinder (c._dbls.getD k Dbl.zero)))
        :: (SlotName.colInt c._id, SqlValue.integer (c._ints.getD k 0))
        :: writtenCells data rest k := by
  simp [writtenCells, List.flatMap_cons]

theorem lookup_cons_self {α β : Type} [DecidableEq α] (a : α) (b : β) (es : List (α × β)) :
    List.lookup a ((a, b) :: es) = some b := by
  simp [List.lookup]

theorem lookup_cons_of_ne {α β : Type} [DecidableEq α] (a k : α) (b : β) (es : List (α × β))
    (h : a ≠ k) : List.lookup a ((k, b) :: es) = List.lookup a es := by
  have hne : (a == k) = false := by simpa using h
  simp [List.lookup, hne]

theorem writtenCells_lookup_col (data : DataSet) (cols : List Column) (k : Nat)
    (hnd : (cols.map (fun c => c._id)).Nodup) (col : Column) (hcol : col ∈ cols) :
    (writtenCells data cols k).lookup (SlotName.colInt col._id)
        = some (SqlValue.integer (col._ints.getD k 0)) ∧
    (writtenCells data cols k).lookup (SlotName.colDbl col._id)
        = some (realAffinity (_doubleTroubleBinder (col._dbls.getD k Dbl.zero))) := by
  induction cols with
  | nil => simp at hcol
  | cons c rest ih =>
    rw [writtenCells_cons]
    simp only [List.map_cons, List.nodup_cons] at hnd
    by_cases hid : col._id = c._id
    · have hc : col = c := by
        rcases List.mem_cons.mp hcol with h | h
        · exact h
        · exact absurd (hid ▸ List.mem_map_of_mem (fun c => c._id) h) hnd.1
      subst hc
      constructor
      · rw [lookup_cons_of_ne _ _ _ _ (by simp), lookup_cons_self]
      · rw [lookup_cons_self]
    · have hmem : col ∈ rest := by
        rcases List.mem_cons.mp hcol with h | h
        · exact absurd (by rw [h]) hid
        · exact h
      have := ih hnd.2 hmem
      constructor
      · rw [lookup_cons_of_ne _ _ _ _ (by simp), lookup_cons_of_ne _ _ _ _ (by simpa using hid)]
        exact this.1
      · rw [lookup_cons_of_ne _ _ _ _ (by simpa using hid), lookup_cons_of_ne _ _ _ _ (by simp)]
        exact this.2

theorem writtenCells_lookup_filter (data : DataSet) (cols : List Column) (k : Nat) :
    (writtenCells data cols k).lookup (SlotName.filter data._filter._id)
      = some (SqlValue.integer (if data._filter._filtered.getD k false then 1 else 0)) := by
  induction cols with
  | nil =>
    simp only [writtenCells, List.flatMap_nil, List.nil_append]
    rw [lookup_cons_self]
  | cons c rest ih =>
    rw [writtenCells_cons, lookup_cons_of_ne _ _ _ _ (by simp),
      lookup_cons_of_ne _ _ _ _ (by simp)]
    exact ih

theorem getD_append_at {α : Type} (pre rest : List α) (n i : Nat) (d : α)
    (hpre : pre.length = n) : (pre ++ rest).getD (n + i) d = rest.getD i d := by
  subst hpre
  simp only [List.getD_eq_getElem?_getD]
  rw [List.getElem?_append_right (by omega)]
  simp

theorem loadRow_cols (cv : SqliteConv) (j : Nat) (f g : Column → SqlValue) :
    ∀ (ms : List Column) (colI : Nat) (pre post : List SqlValue), pre.length = colI * 2 →
      loadRowIntoColumns cv j (pre ++ (ms.flatMap (fun m => [f m, g m]) ++ post)) colI ms
        = ms.map (fun m =>
            if (sqlite3_column_text cv (f m)).isNone ∧ (sqlite3_column_text cv (g m)).isNone then
              m.setValue j missingValueInteger missingValueDouble
            else m.setValue j (sqlite3_column_int cv (f m)) (_doubleTroubleReader cv (g m))) := by
  intro ms
  induction ms with
  | nil => intro colI pre post _; rfl
  | cons m rest ih =>
    intro colI pre post hpre
    have h0 : (pre ++ ((m :: rest).flatMap (fun m => [f m, g m]) ++ post)).getD (colI * 2)
        SqlValue.null = f m := by
      have := getD_append_at pre ((m :: rest).flatMap (fun m => [f m, g m]) ++ post)
        (colI * 2) 0 SqlValue.null hpre
      rw [Nat.add_zero] at this
      rw [this]
      simp [List.flatMap_cons]
    have h1 : (pre ++ ((m :: rest).flatMap (fun m => [f m, g m]) ++ post)).getD
        (colI * 2 + 1) SqlValue.null = g m := by
      rw [getD_append_at pre _ (colI * 2) 1 SqlValue.null hpre]
      simp [List.flatMap_cons]
    have h1' : (pre ++ ((m :: rest).flatMap (fun m => [f m, g m]) ++ post)).getD
        (1 + colI * 2) SqlValue.null = g m := by
      rw [Nat.add_comm]
      exact h1
    have hrec := ih (colI + 1) (pre ++ [f m, g m]) post (by simp [hpre]; omega)
    have hlist : pre ++ ((m :: rest).flatMap (fun m => [f m, g m]) ++ post)
        = (pre ++ [f m, g m]) ++ (rest.flatMap (fun m => [f m, g m]) ++ post) := by
      simp [List.flatMap_cons]
    rw [loadRowIntoColumns, h0, h1, h1', List.map_cons, hlist, hrec]

theorem set_prefix_drop {α : Type} (A l : List α) (j : Nat) (v : α) (hA : A.length = j)
    (hj : j < l.length) : (A ++ l.drop j).set j v = (A ++ [v]) ++ l.drop (j + 1) := by
  have hd : (l.drop j).set 0 v = v :: l.drop (j + 1) := by
    rw [List.drop_eq_getElem_cons hj]
    rfl
  rw [List.set_append, if_neg (by omega), hA, Nat.sub_self, hd]
  simp

theorem loadedColumn_id (cv : SqliteConv) (rowOf : Nat → PhysRow) (j : Nat) (m : Column) :
    (loadedColumn cv rowOf j m)._id = m._id := rfl

theorem loadedColumn_setValue (cv : SqliteConv) (rowOf : Nat → PhysRow) (j : Nat) (m : Column)
    (hi : j < m._ints.length) (hd : j < m._dbls.length) :
    (loadedColumn cv rowOf j m).setValue j
        (sqlite3_column_int cv ((rowOf j).cell (.colInt m._id)))
        (_doubleTroubleReader cv ((rowOf j).cell (.colDbl m._id)))
      = loadedColumn cv rowOf (j + 1) m := by
  simp only [loadedColumn, Column.setValue]
  rw [set_prefix_drop _ _ _ _ (by simp) hi, set_prefix_drop _ _ _ _ (by simp) hd]
  simp [List.range_succ]

theorem loadedFilter_set (cv : SqliteConv) (rowOf : Nat → PhysRow) (j : Nat) (f : Filter)
    (hj : j < f._filtered.length) :
    (loadedFilter cv rowOf j f).setFilterValueNoDB j
        (sqlite3_column_int cv ((rowOf j).cell (.filter f._id)) != 0)
      = loadedFilter cv rowOf (j + 1) f := by
  simp only [loadedFilter, Filter.setFilterValueNoDB]
  rw [set_prefix_drop _ _ _ _ (by simp) hj]
  simp [List.range_succ]

/-- The result row that the `SELECT` of `dataSetBatchedValuesLoad` yields for a
stored row. -/
theorem selected_row (ms : List Column) (fid : Int) (row : PhysRow) :
    (ms.flatMap (fun col => [SlotName.colInt col._id, SlotName.colDbl col._id])
        ++ [SlotName.filter fid]).map row.cell
      = [] ++ (ms.flatMap (fun m =>
            [row.cell (SlotName.colInt m._id), row.cell (SlotName.colDbl m._id)])
          ++ [row.cell (SlotName.filter fid)]) := by
  simp [List.map_flatMap]

theorem loadProcessRow_run (cv : SqliteConv) (rowCount rowPercent j : Nat) (rowOf : Nat → PhysRow)
    (ms : List Column) (f : Filter) (data : DataSet) (db : Db)
    (hcols : data._columns = ms.map (loadedColumn cv rowOf j))
    (hfil : data._filter = loadedFilter cv rowOf j f)
    (hnn : ∀ m ∈ ms, (sqlite3_column_text cv ((rowOf j).cell (.colInt m._id))).isNone = false)
    (hlen : ∀ m ∈ ms, j < m._ints.length ∧ j < m._dbls.length)
    (hflen : j < f._filtered.length) :
    ∃ db', loadProcessRow cv rowCount rowPercent j
        ((ms.flatMap (fun col => [SlotName.colInt col._id, SlotName.colDbl col._id])
          ++ [SlotName.filter f._id]).map (rowOf j).cell) data db
        = (.ok { data with
            _columns := ms.map (loadedColumn cv rowOf (j + 1))
            _filter := loadedFilter cv rowOf (j + 1) f }, db') ∧
      db'.tables = db.tables ∧ db'.transactionWriteDepth = db.transactionWriteDepth ∧
      db'.transactionReadDepth = db.transactionReadDepth ∧ db'.log = db.log := by
  have hlenr : ((ms.flatMap (fun col => [SlotName.colInt col._id, SlotName.colDbl col._id])
      ++ [SlotName.filter f._id]).map (rowOf j).cell).length = ms.length * 2 + 1 := by
    rw [List.length_map, List.length_append, length_flatMap_pair]
    simp; omega
  have hclen : data._columns.length = ms.length := by rw [hcols, List.length_map]
  have hlast : ((ms.flatMap (fun col => [SlotName.colInt col._id, SlotName.colDbl col._id])
      ++ [SlotName.filter f._id]).map (rowOf j).cell).getD (ms.length * 2 + 1 - 1) SqlValue.null
      = (rowOf j).cell (SlotName.filter f._id) := by
    rw [List.map_append]
    have := getD_append_at
      ((ms.flatMap (fun col => [SlotName.colInt col._id, SlotName.colDbl col._id])).map
        (rowOf j).cell)
      ([SlotName.filter f._id].map (rowOf j).cell) (ms.length * 2) 0 SqlValue.null
      (by rw [List.length_map, length_flatMap_pair]; omega)
    simpa using this
  have hload : loadRowIntoColumns cv j
      ((ms.flatMap (fun col => [SlotName.colInt col._id, SlotName.colDbl col._id])
        ++ [SlotName.filter f._id]).map (rowOf j).cell) 0 data._columns
      = ms.map (loadedColumn cv rowOf (j + 1)) := by
    have hsel := selected_row (data._columns) f._id (rowOf j)
    have hids : data._columns.flatMap
        (fun col => [SlotName.colInt col._id, SlotName.colDbl col._id])
        = ms.flatMap (fun col => [SlotName.colInt col._id, SlotName.colDbl col._id]) := by
      rw [hcols, List.flatMap_map]
      rfl
    rw [hids] at hsel
    rw [hsel, loadRow_cols cv j _ _ data._columns 0 [] _ rfl, hcols, List.map_map]
    apply List.map_congr_left
    intro m hm
    simp only [Function.comp, loadedColumn_id]
    rw [if_neg (by rw [hnn m hm]; simp)]
    exact loadedColumn_setValue cv rowOf j m (hlen m hm).1 (hlen m hm).2
  have hfset := loadedFilter_set cv rowOf j f hflen
  simp only [loadProcessRow, M.bind_run, M.ite_run, hlenr, hclen, beq_self_eq_true, cAssert,
    if_true, pure, M.pure, hlast, hload, hfil, hfset, progressCallback, M.modify]
  split <;> exact ⟨_, rfl, rfl, rfl, rfl, rfl⟩

theorem load_rows (cv : SqliteConv) (rowCount rowPercent : Nat) (rowOf : Nat → PhysRow)
    (ms : List Column) (f : Filter) (N : Nat)
    (hnn : ∀ j, j < N → ∀ m ∈ ms,
      (sqlite3_column_text cv ((rowOf j).cell (.colInt m._id))).isNone = false)
    (hlen : ∀ m ∈ ms, m._ints.length = N ∧ m._dbls.length = N)
    (hflen : f._filtered.length = N) :
    ∀ (n k : Nat) (data : DataSet) (db : Db), k + n = N →
      data._columns = ms.map (loadedColumn cv rowOf k) →
      data._filter = loadedFilter cv rowOf k f →
      ∃ db', processRows (loadProcessRow cv rowCount rowPercent) k
          ((List.range' k n).map (fun j =>
            (ms.flatMap (fun col => [SlotName.colInt col._id, SlotName.colDbl col._id])
              ++ [SlotName.filter f._id]).map (rowOf j).cell)) data db
          = (.ok { data with
              _columns := ms.map (loadedColumn cv rowOf N)
              _filter := loadedFilter cv rowOf N f }, db') ∧
        db'.tables = db.tables ∧ db'.transactionWriteDepth = db.transactionWriteDepth ∧
        db'.transactionReadDepth = db.transactionReadDepth ∧ db'.log = db.log := by
  intro n
  induction n with
  | zero =>
    intro k data db hk hcols hfil
    have hkN : k = N := by omega
    subst hkN
    refine ⟨db, ?_, rfl, rfl, rfl, rfl⟩
    simp only [List.range', List.map_nil, processRows, pure, M.pure]
    rw [← hcols, ← hfil]
  | succ n ih =>
    intro k data db hk hcols hfil
    obtain ⟨db1, hrun, ht1, hw1, hr1, hl1⟩ := loadProcessRow_run cv rowCount rowPercent k rowOf ms f
      data db hcols hfil (hnn k (by omega))
      (fun m hm => by have := hlen m hm; omega) (by omega)
    obtain ⟨db2, hrest, ht2, hw2, hr2, hl2⟩ := ih (k + 1)
      { data with
        _columns := ms.map (loadedColumn cv rowOf (k + 1))
        _filter := loadedFilter cv rowOf (k + 1) f } db1 (by omega) rfl rfl
    refine ⟨db2, ?_, by rw [ht2, ht1], by rw [hw2, hw1], by rw [hr2, hr1], by rw [hl2, hl1]⟩
    rw [List.range'_succ, List.map_cons, processRows]
    simp only [M.bind_run, hrun]
    exact hrest

theorem runStatementsGen_run {σ : Type} (stmt : Stmt) (params : List SqlValue)
    (processRow : Nat → List SqlValue → σ → M σ) (init : σ) (db : Db) :
    _runStatements stmt params processRow init db =
      if stmt.prepare { db with log := db.log ++ [stmt] } then
        match processRows processRow 0 (stmt.step params { db with log := db.log ++ [stmt] }).2.1
            init (stmt.step params { db with log := db.log ++ [stmt] }).2.2 with
        | (.ok out, db') =>
          if (stmt.step params { db with log := db.log ++ [stmt] }).1 = Rc.error then
            (.error Err.sqlError, db')
          else (.ok out, db')
        | (.error e, db') => (.error e, db')
      else (.error Err.sqlError, { db with log := db.log ++ [stmt] }) := by
  simp only [_runStatements, M.bind_run, logStmt_run, M.get, M.ite_run]
  split
  · rcases h : stmt.step params { db with log := db.log ++ [stmt] } with ⟨ret, rows, db'⟩
    simp only [M.bind_run, M.modify]
    rcases h2 : processRows processRow 0 rows init db' with ⟨res, db''⟩
    cases res with
    | ok out =>
      simp only [M.ite_run]
      split <;> rfl
    | error e => rfl
  · rfl

theorem transactionReadBegin_run (db : Db) (h : db.transactionWriteDepth = 0) :
    transactionReadBegin db =
      (.ok (), { db with
        transactionReadDepth := db.transactionReadDepth + 1
        log := db.log ++ (if db.transactionReadDepth = 0 then [Stmt.beginDeferred] else []) }) := by
  simp only [transactionReadBegin, M.bind_run, M.get, h, beq_self_eq_true, cAssert, if_true,
    pure, M.pure, M.modify, M.ite_run, runStatements_run, Stmt.prepare, Stmt.step]
  split <;> simp_all

theorem transactionReadEnd_run (db : Db) (h : 0 < db.transactionReadDepth) :
    transactionReadEnd db =
      (.ok (), { db with
        transactionReadDepth := db.transactionReadDepth - 1
        log := db.log ++ (if db.transactionReadDepth - 1 = 0 then [Stmt.commit] else []) }) := by
  simp only [transactionReadEnd, M.bind_run, M.get, h, decide_True, cAssert, if_true,
    pure, M.pure, M.modify, M.ite_run, runStatements_run, Stmt.prepare, Stmt.step]
  by_cases hc : db.transactionReadDepth - 1 = 0 <;> simp [hc]

theorem dataSetRowCount_run (cv : SqliteConv) (db : Db) (ds : Int) (t : PhysTable)
    (ht : db.table ds = some t) :
    dataSetRowCount cv ds db
      = (.ok (toInt32 t.rows.length), { db with log := db.log ++ [Stmt.selectRowCount ds] }) := by
  have ht' : ({ db with log := db.log ++ [Stmt.selectRowCount ds] } : Db).table ds = some t := ht
  simp only [dataSetRowCount, runStatementsId_run, Stmt.prepare, Stmt.step, ht', Option.isSome_some,
    if_true, reduceCtorEq, if_false]
  simp [sqlite3_column_int]

theorem orderByRowNumber_sorted (rowOf : Nat → PhysRow) (N : Nat)
    (hrn : ∀ j, (rowOf j).rowNumber = (j : Int) + 1) :
    orderByRowNumber ((List.range N).map rowOf) = (List.range N).map rowOf := by
  unfold orderByRowNumber
  apply List.Sorted.insertionSort_eq
  unfold List.Sorted
  rw [List.pairwise_map]
  refine (List.pairwise_lt_range N).imp ?_
  intro a b hab
  rw [hrn a, hrn b]
  omega

theorem resize_length {α : Type} (l : List α) (n : Nat) (fill : α) :
    (resize l n fill).length = n := by
  simp [resize]
  omega

theorem loadedColumn_zero (cv : SqliteConv) (rowOf : Nat → PhysRow) (m : Column) :
    loadedColumn cv rowOf 0 m = m := by
  simp [loadedColumn]

theorem loadedFilter_zero (cv : SqliteConv) (rowOf : Nat → PhysRow) (f : Filter) :
    loadedFilter cv rowOf 0 f = f := by
  simp [loadedFilter]

theorem batchedLoad_run (cv : SqliteConv) (mirror : DataSet) (slots : List SlotName)
    (rowOf : Nat → PhysRow) (N : Nat) (db : Db)
    (hw : db.transactionWriteDepth = 0)
    (ht : db.table mirror._dataSetID = some { slots := slots, rows := (List.range N).map rowOf })
    (hrn : ∀ j, (rowOf j).rowNumber = (j : Int) + 1)
    (hfid : mirror._filter._id ≠ -1)
    (hslots : ∀ col ∈ mirror._columns,
      SlotName.colInt col._id ∈ slots ∧ SlotName.colDbl col._id ∈ slots)
    (hfslot : SlotName.filter mirror._filter._id ∈ slots)
    (hN : inInt32 N)
    (hnn : ∀ j, j < N → ∀ m ∈ mirror._columns,
      (sqlite3_column_text cv ((rowOf j).cell (.colInt m._id))).isNone = false) :
    ∃ db', dataSetBatchedValuesLoad cv mirror db
        = (.ok { mirror with
            _columns := (mirror._columns.map (fun col => col.setRowCount N)).map
              (loadedColumn cv rowOf N)
            _filter := loadedFilter cv rowOf N (mirror._filter.setRowCount N) }, db') ∧
      db'.tables = db.tables ∧ db'.transactionWriteDepth = 0 ∧
      db'.transactionReadDepth = db.transactionReadDepth := by
  have hbeq : (mirror._filter._id == -1) = false := by simpa using hfid
  let ms0 := mirror._columns.map (fun col => col.setRowCount N)
  let f0 := mirror._filter.setRowCount N
  let stmt := Stmt.selectSlots mirror._dataSetID
    (mirror._columns.flatMap (fun col => [SlotName.colInt col._id, SlotName.colDbl col._id])
      ++ [SlotName.filter mirror._filter._id])
  have hslotsEq : mirror._columns.flatMap
      (fun col => [SlotName.colInt col._id, SlotName.colDbl col._id])
      = ms0.flatMap (fun col => [SlotName.colInt col._id, SlotName.colDbl col._id]) := by
    simp only [ms0, List.flatMap_map]
    rfl
  -- the states the call passes through
  let db1 : Db := { db with
    transactionReadDepth := db.transactionReadDepth + 1
    log := db.log ++ (if db.transactionReadDepth = 0 then [Stmt.beginDeferred] else []) }
  let db2 : Db := { db1 with log := db1.log ++ [Stmt.selectRowCount mirror._dataSetID] }
  let db3 : Db := { db2 with log := db2.log ++ [stmt] }
  have ht3 : db3.table mirror._dataSetID
      = some { slots := slots, rows := (List.range N).map rowOf } := ht
  have hcount : dataSetRowCount cv mirror._dataSetID db1 = (.ok (N : Int), db2) := by
    rw [dataSetRowCount_run cv db1 _ _ ht]
    simp only [List.length_map, List.length_range]
    rw [toInt32_of_inInt32 _ hN]
  obtain ⟨db4, hrows, ht4, hw4, hr4, _⟩ := load_rows cv N (max 1 (N / 100)) rowOf ms0 f0 N
    (fun j hj m hm => by
      obtain ⟨c, hc, rfl⟩ := List.mem_map.mp hm
      exact hnn j hj c hc)
    (fun m hm => by
      obtain ⟨c, hc, rfl⟩ := List.mem_map.mp hm
      exact ⟨resize_length _ _ _, resize_length _ _ _⟩)
    (resize_length _ _ _) N 0
    { mirror with _columns := ms0, _filter := f0 } db3 (by omega)
    (by
      show ms0 = ms0.map (loadedColumn cv rowOf 0)
      rw [List.map_congr_left (fun m _ => loadedColumn_zero cv rowOf m)]
      simp)
    (by simp only [loadedFilter_zero])
  have hprep : stmt.prepare db3 = true := by
    simp only [stmt, Stmt.prepare, ht3]
    exact all_slots_mem ⟨slots, (List.range N).map rowOf⟩ mirror._columns mirror._filter._id
      SlotName.colInt SlotName.colDbl hslots hfslot
  have hstep : stmt.step [] db3 = (Rc.done,
      (List.range' 0 N).map (fun j =>
        (ms0.flatMap (fun col => [SlotName.colInt col._id, SlotName.colDbl col._id])
          ++ [SlotName.filter f0._id]).map (rowOf j).cell), db3) := by
    simp only [stmt, Stmt.step, ht3, orderByRowNumber_sorted rowOf N hrn, List.map_map, hslotsEq]
    rw [List.range_eq_range']
    rfl
  have hsel : _runStatements stmt [] (loadProcessRow cv N (max 1 (N / 100)))
      { mirror with _columns := ms0, _filter := f0 } db2
      = (.ok { mirror with
          _columns := ms0.map (loadedColumn cv rowOf N)
          _filter := loadedFilter cv rowOf N f0 }, db4) := by
    rw [runStatementsGen_run]
    rw [if_pos hprep]
    rw [show stmt.step [] { db2 with log := db2.log ++ [stmt] } = _ from hstep]
    simp only [hrows, reduceCtorEq, if_false]
  have hr4' : 0 < db4.transactionReadDepth := by
    rw [hr4]
    show 0 < db.transactionReadDepth + 1
    omega
  refine ⟨{ db4 with
      transactionReadDepth := db4.transactionReadDepth - 1
      log := db4.log ++ (if db4.transactionReadDepth - 1 = 0 then [Stmt.commit] else []) },
    ?_, ?_, ?_, ?_⟩
  · simp only [dataSetBatchedValuesLoad, hbeq, M.bind_run, M.ite_run, Bool.false_eq_true, if_false,
      pure, M.pure, Bool.and_false, transactionReadBegin_run db hw]
    have hcount' : dataSetRowCount cv mirror._dataSetID
        { db with
          transactionReadDepth := db.transactionReadDepth + 1
          log := db.log ++ (if db.transactionReadDepth = 0 then [Stmt.beginDeferred] else []) }
        = (.ok (N : Int), db2) := hcount
    simp only [hcount', Int.toNat_ofNat]
    have hsel' : _runStatements
        (Stmt.selectSlots mirror._dataSetID
          (mirror._columns.flatMap (fun col => [SlotName.colInt col._id, SlotName.colDbl col._id])
            ++ [SlotName.filter mirror._filter._id])) []
        (loadProcessRow cv N (max 1 (N / 100)))
        { mirror with
          _columns := mirror._columns.map (fun col => col.setRowCount N)
          _filter := mirror._filter.setRowCount N } db2
        = (.ok { mirror with
          _columns := ms0.map (loadedColumn cv rowOf N)
          _filter := loadedFilter cv rowOf N f0 }, db4) := hsel
    simp only [hsel', transactionReadEnd_run db4 hr4']
  · show db4.tables = db.tables
    rw [ht4]
  · show db4.transactionWriteDepth = 0
    rw [hw4]
    exact hw
  · show db4.transactionReadDepth - 1 = db.transactionReadDepth
    rw [hr4]
    show db.transactionReadDepth + 1 - 1 = _
    omega
theorem range_map_getD {α β : Type} (l : List α) (d : α) (g : α → β) :
    (List.range l.length).map (fun i => g (l.getD i d)) = l.map g := by
  apply List.ext_getElem
  · simp
  · intro n h1 h2
    simp only [List.length_map, List.length_range] at h1
    simp [List.getD, List.getElem?_eq_getElem h1]

theorem written_cell_col (data : DataSet) (t : PhysTable) (cols : List Column) (j : Nat)
    (hnd : (cols.map (fun c => c._id)).Nodup) (d : Column) (hd : d ∈ cols)
    (hslots : SlotName.colDbl d._id ∈ t.slots ∧ SlotName.colInt d._id ∈ t.slots) :
    (newRow t ((j : Int) + 1) (writtenCells data cols j)).cell (SlotName.colInt d._id)
        = SqlValue.integer (d._ints.getD j 0) ∧
    (newRow t ((j : Int) + 1) (writtenCells data cols j)).cell (SlotName.colDbl d._id)
        = realAffinity (_doubleTroubleBinder (d._dbls.getD j Dbl.zero)) := by
  have h := writtenCells_lookup_col data cols j hnd d hd
  rw [newRow_cell _ _ _ _ hslots.2, newRow_cell _ _ _ _ hslots.1, h.1, h.2]
  exact ⟨rfl, rfl⟩

theorem written_cell_filter (data : DataSet) (t : PhysTable) (cols : List Column) (j : Nat)
    (hslot : SlotName.filter data._filter._id ∈ t.slots) :
    (newRow t ((j : Int) + 1) (writtenCells data cols j)).cell (SlotName.filter data._filter._id)
        = SqlValue.integer (if data._filter._filtered.getD j false then 1 else 0) := by
  rw [newRow_cell _ _ _ _ hslot, writtenCells_lookup_filter]
  rfl

theorem mem_of_map_id_eq (ms ds : List Column)
    (h : ms.map (fun c => c._id) = ds.map (fun c => c._id)) (m : Column) (hm : m ∈ ms) :
    ∃ d ∈ ds, d._id = m._id := by
  have : m._id ∈ ds.map (fun c => c._id) := by
    rw [← h]
    exact List.mem_map_of_mem (fun c => c._id) hm
  obtain ⟨d, hd, hid⟩ := List.mem_map.mp this
  exact ⟨d, hd, hid⟩

theorem map_via_id {β : Type} (ms ds : List Column) (F : Column → β) (G : Int → β)
    (h : ms.map (fun c => c._id) = ds.map (fun c => c._id))
    (hF : ∀ m ∈ ms, F m = G m._id) :
    ms.map F = ds.map (fun d => G d._id) := by
  rw [List.map_congr_left hF]
  have h1 : ms.map (fun m => G m._id) = (ms.map (fun c => c._id)).map G := by
    rw [List.map_map]
    rfl
  have h2 : ds.map (fun d => G d._id) = (ds.map (fun c => c._id)).map G := by
    rw [List.map_map]
    rfl
  rw [h1, h2, h]
/-- C3 fails at `-0.0`.  After `dataSetBatchedValuesUpdate` over all columns of a
dataset with `N` rows, `dataSetBatchedValuesLoad` into any mirror of that dataset
(same dataset, column and filter ids, arbitrary previous values) succeeds; the
store then holds exactly the rows numbered `1..N`, every column of the mirror holds
the integers that were written, the filter holds the mask that was written, and the
doubles come back with NaN replaced by the missing-value double and `-0.0` replaced
by `+0.0`: a column that holds `-0.0` is not reloaded with the doubles written. -/
theorem batched_roundtrip (cv : SqliteConv) (hcv : RendersNumeric cv)
    (data mirror : DataSet) (t : PhysTable) (db : Db)
    (hread : db.transactionReadDepth = 0) (hwrite : db.transactionWriteDepth = 0)
    (ht : db.table data._dataSetID = some t)
    (hslots : ∀ col ∈ data._columns,
      SlotName.colDbl col._id ∈ t.slots ∧ SlotName.colInt col._id ∈ t.slots)
    (hfslot : SlotName.filter data._filter._id ∈ t.slots)
    (hfid : data._filter._id ≠ -1)
    (hnd : (data._columns.map (fun c => c._id)).Nodup)
    (hf : data._filter._filtered.length = data._rowCount)
    (hc : ∀ col ∈ data._columns,
      col._dbls.length = data._rowCount ∧ col._ints.length = data._rowCount)
    (hint : ∀ col ∈ data._columns, ∀ v ∈ col._ints, inInt32 v)
    (hN : inInt32 data._rowCount)
    (hmid : mirror._dataSetID = data._dataSetID)
    (hmcols : mirror._columns.map (fun c => c._id) = data._columns.map (fun c => c._id))
    (hmf : mirror._filter._id = data._filter._id) :
    ∃ db1 db2 loaded,
      dataSetBatchedValuesUpdate data data._columns db = (.ok (), db1) ∧
      dataSetBatchedValuesLoad cv mirror db1 = (.ok loaded, db2) ∧
      (db2.table data._dataSetID).map (fun t => t.rows.map (fun r => r.rowNumber))
        = some ((List.range data._rowCount).map (fun (i : Nat) => (i : Int) + 1)) ∧
      loaded._columns.map (fun c => c._id) = data._columns.map (fun c => c._id) ∧
      loaded._columns.map (fun c => c._ints) = data._columns.map (fun c => c._ints) ∧
      loaded._columns.map (fun c => c._dbls)
        = data._columns.map (fun c => c._dbls.map reloaded) ∧
      loaded._filter._filtered = data._filter._filtered ∧
      ((∃ c ∈ data._columns, Dbl.negZero ∈ c._dbls) →
        loaded._columns.map (fun c => c._dbls) ≠ data._columns.map (fun c => c._dbls)) := by
  have hneg : ∀ l : List (List Dbl), (∃ c ∈ data._columns, Dbl.negZero ∈ c._dbls) →
      l = data._columns.map (fun c => c._dbls.map reloaded) →
      l ≠ data._columns.map (fun c => c._dbls) := by
    rintro l ⟨c, hc, hz⟩ hl heq
    rw [hl] at heq
    have h1 := (List.map_inj_left.mp heq) c hc
    have h2 : c._dbls.map reloaded = c._dbls.map id := by
      rw [List.map_id]
      exact h1
    have h3 := (List.map_inj_left.mp h2) Dbl.negZero hz
    exact absurd h3 (by decide)
  obtain ⟨db1, hupd, ht1, hw1, hr1, _, _, _⟩ :=
    batchedUpdate_run data data._columns t db hread ht hslots hfslot hf hc
  let rowOf : Nat → PhysRow := fun j =>
    newRow t ((j : Int) + 1) (writtenCells data data._columns j)
  have hcell : ∀ j, ∀ m ∈ mirror._columns, ∃ d ∈ data._columns, d._id = m._id ∧
      (rowOf j).cell (SlotName.colInt m._id) = SqlValue.integer (d._ints.getD j 0) ∧
      (rowOf j).cell (SlotName.colDbl m._id)
        = realAffinity (_doubleTroubleBinder (d._dbls.getD j Dbl.zero)) := by
    intro j m hm
    obtain ⟨d, hd, hid⟩ := mem_of_map_id_eq _ _ hmcols m hm
    have := written_cell_col data t data._columns j hnd d hd (hslots d hd)
    rw [hid] at this
    exact ⟨d, hd, hid, this⟩
  have ht1' : db1.table mirror._dataSetID
      = some { slots := t.slots, rows := (List.range data._rowCount).map rowOf } := by
    rw [hmid, ht1]
    rfl
  obtain ⟨db2, hload, htab2, _, _⟩ := batchedLoad_run cv mirror t.slots rowOf data._rowCount db1
    (by rw [hw1]; exact hwrite) ht1' (fun j => rfl) (by rw [hmf]; exact hfid)
    (fun col hcol => by
      obtain ⟨d, hd, hid⟩ := mem_of_map_id_eq _ _ hmcols col hcol
      rw [← hid]
      exact ⟨(hslots d hd).2, (hslots d hd).1⟩)
    (by rw [hmf]; exact hfslot) hN
    (fun j _ m hm => by
      obtain ⟨d, _, _, h1, _⟩ := hcell j m hm
      rw [h1]
      rfl)
  have hdbls : ((mirror._columns.map (fun col => col.setRowCount data._rowCount)).map
      (loadedColumn cv rowOf data._rowCount)).map (fun c => c._dbls)
        = data._columns.map (fun c => c._dbls.map reloaded) := by
    simp only [List.map_map]
    have hG := map_via_id mirror._columns data._columns
      ((fun c => c._dbls) ∘ loadedColumn cv rowOf data._rowCount ∘ fun col =>
        col.setRowCount data._rowCount)
      (fun id => (List.range data._rowCount).map (fun i =>
        _doubleTroubleReader cv ((rowOf i).cell (SlotName.colDbl id)))) hmcols
      (fun m _ => by
        simp only [Function.comp, loadedColumn, Column.setRowCount]
        rw [List.drop_of_length_le (by rw [resize_length]), List.append_nil])
    rw [hG]
    apply List.map_congr_left
    intro d hd
    have hlen := (hc d hd).1
    rw [← hlen]
    have : ∀ i, _doubleTroubleReader cv ((rowOf i).cell (SlotName.colDbl d._id))
        = reloaded (d._dbls.getD i Dbl.zero) := by
      intro i
      rw [(written_cell_col data t data._columns i hnd d hd (hslots d hd)).2]
      exact reader_binder cv hcv _
    simp only [this]
    exact range_map_getD d._dbls Dbl.zero reloaded
  refine ⟨db1, db2, _, hupd, hload, ?_, ?_, ?_, hdbls, ?_, fun h => hneg _ h hdbls⟩
  · rw [table_congr db1 db2 htab2, ht1]
    simp only [Option.map_some', writtenRows_rowNumber]
  · simp only [List.map_map]
    rw [← hmcols]
    rfl
  · simp only [List.map_map]
    have hG := map_via_id mirror._columns data._columns
      ((fun c => c._ints) ∘ loadedColumn cv rowOf data._rowCount ∘ fun col =>
        col.setRowCount data._rowCount)
      (fun id => (List.range data._rowCount).map (fun i =>
        sqlite3_column_int cv ((rowOf i).cell (SlotName.colInt id)))) hmcols
      (fun m _ => by
        simp only [Function.comp, loadedColumn, Column.setRowCount]
        rw [List.drop_of_length_le (by rw [resize_length]), List.append_nil])
    rw [hG]
    apply List.map_congr_left
    intro d hd
    have hlen := (hc d hd).2
    rw [← hlen]
    have : ∀ i, sqlite3_column_int cv ((rowOf i).cell (SlotName.colInt d._id))
        = toInt32 (d._ints.getD i 0) := by
      intro i
      rw [(written_cell_col data t data._columns i hnd d hd (hslots d hd)).1]
      rfl
    simp only [this]
    rw [range_map_getD d._ints 0 toInt32]
    conv_rhs => rw [← List.map_id d._ints]
    apply List.map_congr_left
    intro v hv
    exact toInt32_of_inInt32 v (hint d hd v hv)
  · show (loadedFilter cv rowOf data._rowCount (mirror._filter.setRowCount data._rowCount))._filtered
      = _
    simp only [loadedFilter, Filter.setRowCount]
    rw [List.drop_of_length_le (by rw [resize_length]), List.append_nil, hmf]
    have : ∀ i, (sqlite3_column_int cv ((rowOf i).cell (SlotName.filter data._filter._id)) != 0)
        = data._filter._filtered.getD i false := by
      intro i
      rw [written_cell_filter data t data._columns i hfslot]
      cases data._filter._filtered.getD i false <;> simp [sqlite3_column_int, toInt32]
    simp only [this]
    rw [← hf]
    have := range_map_getD data._filter._filtered false id
    simpa using this

/-! ### Relations kept by the interface -/

theorem keeps_pure {α : Type} {R : Db → Db → Prop} (hR : Respected R) (a : α) :
    M.Keeps R (pure a : M α) := fun db => hR.refl db

theorem keeps_raise {α : Type} {R : Db → Db → Prop} (hR : Respected R) (e : Err) :
    M.Keeps R (M.raise e : M α) := fun db => hR.refl db

theorem keeps_get {R : Db → Db → Prop} (hR : Respected R) : M.Keeps R M.get :=
  fun db => hR.refl db

theorem keeps_bind {α β : Type} {R : Db → Db → Prop} (hR : Respected R) {x : M α}
    {f : α → M β} (hx : M.Keeps R x) (hf : ∀ a, M.Keeps R (f a)) : M.Keeps R (x >>= f) := by
  intro db
  rw [M.bind_run]
  have h1 := hx db
  rcases hxe : x db with ⟨res, db'⟩
  rw [hxe] at h1
  cases res with
  | ok a => exact hR.trans _ _ _ h1 (hf a db')
  | error e => exact h1

theorem keeps_ite {α : Type} {R : Db → Db → Prop} (c : Prop) [Decidable c] {x y : M α}
    (hx : M.Keeps R x) (hy : M.Keeps R y) : M.Keeps R (if c then x else y) := by
  split
  · exact hx
  · exact hy

theorem keeps_cAssert {R : Db → Db → Prop} (hR : Respected R) (c : Bool) :
    M.Keeps R (cAssert c) := by
  unfold cAssert
  exact keeps_ite _ (keeps_pure hR ()) (keeps_raise hR _)

theorem keeps_logStmt {R : Db → Db → Prop} (hR : Respected R) (s : Stmt) :
    M.Keeps R (logStmt s) := fun db => hR.log db s

theorem keeps_progressCallback {R : Db → Db → Prop} (hR : Respected R) (p : ProgressCall) :
    M.Keeps R (progressCallback p) := fun db => hR.progress db p

theorem keeps_processRows {σ : Type} {R : Db → Db → Prop} (hR : Respected R)
    (processRow : Nat → List SqlValue → σ → M σ)
    (hp : ∀ i r s, M.Keeps R (processRow i r s)) :
    ∀ (rows : List (List SqlValue)) (row : Nat) (s : σ),
      M.Keeps R (processRows processRow row rows s) := by
  intro rows
  induction rows with
  | nil => intro row s; exact keeps_pure hR s
  | cons r rs ih =>
    intro row s
    rw [processRows]
    exact keeps_bind hR (hp row r s) (fun s' => ih (row + 1) s')

theorem keeps_runStatementsGen {σ : Type} {R : Db → Db → Prop} (hR : Respected R)
    (stmt : Stmt) (hs : StepKeeps R stmt) (params : List SqlValue)
    (processRow : Nat → List SqlValue → σ → M σ)
    (hp : ∀ i r s, M.Keeps R (processRow i r s)) (init : σ) :
    M.Keeps R (_runStatements stmt params processRow init) := by
  intro db
  rw [runStatementsGen_run]
  have hlog := hR.log db stmt
  split
  · have hstep := hs params { db with log := db.log ++ [stmt] }
    have hrows := keeps_processRows hR processRow hp
      (stmt.step params { db with log := db.log ++ [stmt] }).2.1 0 init
      (stmt.step params { db with log := db.log ++ [stmt] }).2.2
    have hall := hR.trans _ _ _ hlog (hR.trans _ _ _ hstep hrows)
    rcases hpr : processRows processRow 0
      (stmt.step params { db with log := db.log ++ [stmt] }).2.1 init
      (stmt.step params { db with log := db.log ++ [stmt] }).2.2 with ⟨res, db'⟩
    rw [hpr] at hall
    cases res with
    | ok out =>
      simp only
      split <;> exact hall
    | error e => exact hall
  · exact hlog

theorem keeps_runStatements {R : Db → Db → Prop} (hR : Respected R)
    (stmt : Stmt) (hs : StepKeeps R stmt) (params : List SqlValue) :
    M.Keeps R (runStatements stmt params) :=
  keeps_runStatementsGen hR stmt hs params _ (fun _ _ s => keeps_pure hR s) ()

theorem keeps_runStatementsId {R : Db → Db → Prop} (hR : Respected R) (cv : SqliteConv)
    (stmt : Stmt) (hs : StepKeeps R stmt) (params : List SqlValue) :
    M.Keeps R (runStatementsId cv stmt params) :=
  keeps_runStatementsGen hR stmt hs params _ (fun _ _ _ => keeps_pure hR _) (-1)

theorem keeps_repeatedLoop {σ : Type} {R : Db → Db → Prop} (hR : Respected R)
    (stmt : Stmt) (hs : StepKeeps R stmt)
    (factory : Nat → σ → M (Bool × Option (List SqlValue) × σ))
    (hf : ∀ row s, M.Keeps R (factory row s)) :
    ∀ (fuel : Nat) (ret : Rc) (row : Nat) (bound : List SqlValue) (s : σ),
      M.Keeps R (repeatedLoop stmt factory fuel ret row bound s) := by
  intro fuel
  induction fuel with
  | zero => intro ret row bound s; exact keeps_raise hR _
  | succ fuel ih =>
    intro ret row bound s
    rw [repeatedLoop]
    refine keeps_ite _ ?_ (keeps_pure hR s)
    refine keeps_bind hR (hf row s) ?_
    rintro ⟨more, binder, s'⟩
    cases more with
    | false => exact keeps_pure hR s'
    | true =>
      have key : ∀ (b : List SqlValue) (db : Db),
          R db ((match stmt.step b db with
            | (ret', rows, db') =>
              if ret' = Rc.error then ((.error Err.sqlError, db') : Except Err σ × Db)
              else repeatedLoop stmt factory fuel ret' (row + rows.length + 1) b s' db').2) := by
        intro b db
        have hstep := hs b db
        rcases hst : stmt.step b db with ⟨ret', rows, db'⟩
        rw [hst] at hstep
        simp only
        split
        · exact hstep
        · exact hR.trans _ _ _ hstep (ih ret' _ _ s' db')
      intro db
      cases binder with
      | none =>
        simp only [if_true, M.bind_run, M.get, M.modify, M.ite_run, M.raise]
        exact key bound db
      | some p =>
        simp only [if_true, M.bind_run, M.get, M.modify, M.ite_run, M.raise]
        exact key p db

theorem keeps_runStatementsRepeatedly {σ : Type} {R : Db → Db → Prop} (hR : Respected R)
    (fuel : Nat) (stmt : Stmt) (hs : StepKeeps R stmt)
    (factory : Nat → σ → M (Bool × Option (List SqlValue) × σ))
    (hf : ∀ row s, M.Keeps R (factory row s)) (init : σ) :
    M.Keeps R (_runStatementsRepeatedly fuel stmt factory init) := by
  intro db
  rw [runStatementsRepeatedly_run]
  split
  · exact hR.trans _ _ _ (hR.log db stmt)
      (keeps_repeatedLoop hR stmt hs factory hf fuel Rc.ok 0 [] init _)
  · exact hR.log db stmt

theorem stepKeeps_of_unchanged {R : Db → Db → Prop} (hR : Respected R) (stmt : Stmt)
    (h : ∀ params db, (stmt.step params db).2.2 = db) : StepKeeps R stmt := by
  intro params db
  rw [h]
  exact hR.refl db

theorem keeps_transactionWriteBegin {R : Db → Db → Prop} (hR : Respected R) :
    M.Keeps R transactionWriteBegin := by
  unfold transactionWriteBegin
  refine keeps_bind hR (keeps_get hR) (fun db0 => ?_)
  refine keeps_bind hR (keeps_cAssert hR _) (fun _ => ?_)
  refine keeps_bind hR (fun db => hR.writeDepth db _) (fun _ => ?_)
  refine keeps_ite _ ?_ (keeps_pure hR _)
  exact keeps_runStatements hR Stmt.beginExclusive
    (stepKeeps_of_unchanged hR _ (fun _ _ => rfl)) _

theorem keeps_transactionWriteEnd {R : Db → Db → Prop} (hR : Respected R) :
    M.Keeps R (transactionWriteEnd false) := by
  unfold transactionWriteEnd
  refine keeps_bind hR (keeps_get hR) (fun db0 => ?_)
  refine keeps_bind hR (keeps_cAssert hR _) (fun _ => ?_)
  simp only [Bool.false_eq_true, if_false]
  refine keeps_bind hR (fun db => hR.writeDepth db _) (fun _ => ?_)
  refine keeps_ite _ ?_ (keeps_pure hR _)
  exact keeps_runStatements hR Stmt.commit
    (stepKeeps_of_unchanged hR _ (fun _ _ => rfl)) _

/-! ### Writing the values of one column -/

theorem forall₂_trans_of {α : Type} {R : α → α → Prop}
    (ht : ∀ a b c, R a b → R b c → R a c) :
    ∀ (l₁ l₂ l₃ : List α), List.Forall₂ R l₁ l₂ → List.Forall₂ R l₂ l₃ → List.Forall₂ R l₁ l₃ := by
  intro l₁ l₂ l₃ h12
  induction h12 generalizing l₃ with
  | nil => intro h; cases h; exact List.Forall₂.nil
  | cons hab _ ih =>
    intro h
    cases h with
    | cons hbc hrest => exact List.Forall₂.cons (ht _ _ _ hab hbc) (ih _ hrest)

theorem setCell_cell_of_ne (r : PhysRow) (s s' : SlotName) (v : SqlValue) (h : s' ≠ s) :
    (r.setCell s v).cell s' = r.cell s' := by
  unfold PhysRow.cell PhysRow.setCell
  simp only
  have : List.lookup s' (r.cells.map (fun p => if p.1 = s then (s, v) else p))
      = List.lookup s' r.cells := by
    induction r.cells with
    | nil => rfl
    | cons p rest ih =>
      obtain ⟨k, w⟩ := p
      rw [List.map_cons]
      by_cases hk : k = s
      · subst hk
        rw [if_pos (show ((k, w) : SlotName × SqlValue).1 = k from rfl),
          lookup_cons_of_ne _ _ _ _ h, lookup_cons_of_ne _ _ _ _ h]
        exact ih
      · rw [if_neg (show ¬ ((k, w) : SlotName × SqlValue).1 = s from hk)]
        by_cases hs : s' = k
        · subst hs
          rw [lookup_cons_self, lookup_cons_self]
        · rw [lookup_cons_of_ne _ _ _ _ hs, lookup_cons_of_ne _ _ _ _ hs]
          exact ih
  rw [this]

theorem rowFrame_refl (c : Int) (r : PhysRow) : RowFrame c r r := ⟨rfl, fun _ _ _ => rfl⟩

theorem rowFrame_trans (c : Int) (r₁ r₂ r₃ : PhysRow) (h12 : RowFrame c r₁ r₂)
    (h23 : RowFrame c r₂ r₃) : RowFrame c r₁ r₃ :=
  ⟨h23.1.trans h12.1, fun s h1 h2 => (h23.2 s h1 h2).trans (h12.2 s h1 h2)⟩

theorem tableFrame_refl (c : Int) (t : PhysTable) : TableFrame c t t :=
  ⟨rfl, List.forall₂_same.mpr (fun r _ => rowFrame_refl c r)⟩

theorem tableFrame_trans (c : Int) (t₁ t₂ t₃ : PhysTable) (h12 : TableFrame c t₁ t₂)
    (h23 : TableFrame c t₂ t₃) : TableFrame c t₁ t₃ :=
  ⟨h23.1.trans h12.1, forall₂_trans_of (rowFrame_trans c) _ _ _ h12.2 h23.2⟩

theorem storeFrame_refl (c : Int) (db : Db) : StoreFrame c db db :=
  ⟨rfl, rfl, rfl, List.forall₂_same.mpr (fun p _ => ⟨rfl, tableFrame_refl c p.2⟩)⟩

theorem storeFrame_trans (c : Int) (a b d : Db) (h12 : StoreFrame c a b)
    (h23 : StoreFrame c b d) : StoreFrame c a d := by
  obtain ⟨h1, h2, h3, h4⟩ := h12
  obtain ⟨g1, g2, g3, g4⟩ := h23
  refine ⟨g1.trans h1, g2.trans h2, g3.trans h3, ?_⟩
  exact forall₂_trans_of
    (fun p q r hpq hqr => ⟨hqr.1.trans hpq.1, tableFrame_trans c _ _ _ hpq.2 hqr.2⟩)
    _ _ _ h4 g4

theorem storeFrame_respected (c : Int) : Respected (StoreFrame c) where
  refl := storeFrame_refl c
  trans := storeFrame_trans c
  log := fun db _ => storeFrame_refl c db
  progress := fun db _ => storeFrame_refl c db
  writeDepth := fun db _ => storeFrame_refl c db
  prevUpdate := fun db _ => storeFrame_refl c db

theorem storeFrame_mapRows (c : Int) (db : Db) (ds : Int) (f : PhysTable → List PhysRow)
    (hf : ∀ t, List.Forall₂ (RowFrame c) t.rows (f t)) :
    StoreFrame c db (db.mapRows ds f) := by
  refine ⟨rfl, rfl, rfl, ?_⟩
  unfold Db.mapRows
  simp only
  rw [List.forall₂_map_right_iff, List.forall₂_same]
  intro p _
  by_cases hp : p.1 = ds
  · rw [if_pos hp]
    exact ⟨rfl, rfl, hf p.2⟩
  · rw [if_neg hp]
    exact ⟨rfl, tableFrame_refl c p.2⟩

theorem stepKeeps_updateColumn (c ds : Int) :
    StepKeeps (StoreFrame c) (Stmt.updateColumn ds c) := by
  intro params db
  simp only [Stmt.step]
  apply storeFrame_mapRows
  intro t
  rw [List.forall₂_map_right_iff, List.forall₂_same]
  intro r _
  split
  · refine ⟨rfl, fun s h1 h2 => ?_⟩
    rw [setCell_cell_of_ne _ _ _ _ h2, setCell_cell_of_ne _ _ _ _ h1]
  · exact rowFrame_refl c r

theorem keeps_columnGetDataSetId {R : Db → Db → Prop} (hR : Respected R) (cv : SqliteConv)
    (columnId : Int) : M.Keeps R (columnGetDataSetId cv columnId) :=
  keeps_runStatementsId hR cv (Stmt.selectColumnDataSet columnId)
    (stepKeeps_of_unchanged hR _ (fun _ _ => rfl)) _

theorem keeps_columnSetValue (cv : SqliteConv) (columnId : Int) (row : Nat) (valueInt : Int)
    (valueDbl : Dbl) :
    M.Keeps (StoreFrame columnId) (columnSetValue cv columnId row valueInt valueDbl) := by
  unfold columnSetValue
  refine keeps_bind (storeFrame_respected _) (keeps_columnGetDataSetId (storeFrame_respected _) cv _)
    (fun ds => ?_)
  exact keeps_runStatements (storeFrame_respected _) _ (stepKeeps_updateColumn columnId ds) _

theorem keeps_columnSetValues (cv : SqliteConv) (columnId : Int) (ints : List Int)
    (dbls : List Dbl) :
    M.Keeps (StoreFrame columnId) (columnSetValues cv columnId ints dbls) := by
  have hR := storeFrame_respected columnId
  unfold columnSetValues
  refine keeps_bind hR (keeps_transactionWriteBegin hR) (fun _ => ?_)
  refine keeps_bind hR (keeps_columnGetDataSetId hR cv _) (fun ds => ?_)
  refine keeps_bind hR ?_ (fun _ => keeps_transactionWriteEnd hR)
  refine keeps_runStatementsRepeatedly hR _ _ (stepKeeps_updateColumn columnId ds) _ ?_ _
  intro row s
  refine keeps_ite _ (keeps_pure hR _) ?_
  split
  · exact keeps_pure hR _
  · exact keeps_raise hR _
theorem lookup_frame (c : Int) (l l' : List (Int × PhysTable))
    (h : List.Forall₂ (fun p p' => p'.1 = p.1 ∧ TableFrame c p.2 p'.2) l l') (ds : Int) :
    (l.lookup ds = none ∧ l'.lookup ds = none) ∨
    ∃ t t', l.lookup ds = some t ∧ l'.lookup ds = some t' ∧ TableFrame c t t' := by
  induction h with
  | nil => exact Or.inl ⟨rfl, rfl⟩
  | @cons p p' rest rest' hp _ ih =>
    obtain ⟨k, t⟩ := p
    obtain ⟨k', t'⟩ := p'
    obtain ⟨hk, ht⟩ := hp
    simp only at hk ht
    subst hk
    by_cases hds : ds = k'
    · subst hds
      exact Or.inr ⟨t, t', lookup_cons_self _ _ _, lookup_cons_self _ _ _, ht⟩
    · rw [lookup_cons_of_ne _ _ _ _ hds, lookup_cons_of_ne _ _ _ _ hds]
      exact ih

/-- C7: `columnSetValues` (for vectors with a double for every integer) and
`columnSetValue` leave the three registry tables, hence every stored revision, as
they are, and leave every physical table with the same slots and the same rows in
the same order, each row keeping its row number and the value of every slot other
than the `_INT` and `_DBL` slot of the column written. -/
theorem columnSetValues_frame (cv : SqliteConv) (db : Db) (columnId : Int) :
    (∀ (ints : List Int) (dbls : List Dbl), ints.length ≤ dbls.length →
      StoreFrame columnId db (columnSetValues cv columnId ints dbls db).2 ∧
      (∀ id, (columnSetValues cv columnId ints dbls db).2.dataSetRevision id
        = db.dataSetRevision id) ∧
      (∀ ds, ((columnSetValues cv columnId ints dbls db).2.table ds).map (fun t => t.rows.length)
        = (db.table ds).map (fun t => t.rows.length)) ∧
      (∀ ds t, db.table ds = some t →
        ∃ t', (columnSetValues cv columnId ints dbls db).2.table ds = some t' ∧
          TableFrame columnId t t')) ∧
    (∀ (row : Nat) (valueInt : Int) (valueDbl : Dbl),
      StoreFrame columnId db (columnSetValue cv columnId row valueInt valueDbl db).2 ∧
      (∀ id, (columnSetValue cv columnId row valueInt valueDbl db).2.dataSetRevision id
        = db.dataSetRevision id) ∧
      (∀ ds, ((columnSetValue cv columnId row valueInt valueDbl db).2.table ds).map
          (fun t => t.rows.length)
        = (db.table ds).map (fun t => t.rows.length)) ∧
      (∀ ds t, db.table ds = some t →
        ∃ t', (columnSetValue cv columnId row valueInt valueDbl db).2.table ds = some t' ∧
          TableFrame columnId t t')) := by
  have key : ∀ db' : Db, StoreFrame columnId db db' →
      StoreFrame columnId db db' ∧
      (∀ id, db'.dataSetRevision id = db.dataSetRevision id) ∧
      (∀ ds, (db'.table ds).map (fun t => t.rows.length)
        = (db.table ds).map (fun t => t.rows.length)) ∧
      (∀ ds t, db.table ds = some t → ∃ t', db'.table ds = some t' ∧ TableFrame columnId t t') := by
    intro db' h
    refine ⟨h, ?_, ?_, ?_⟩
    · intro id
      unfold Db.dataSetRevision
      rw [h.1]
    · intro ds
      unfold Db.table
      rcases lookup_frame columnId _ _ h.2.2.2 ds with ⟨h1, h2⟩ | ⟨t, t', h1, h2, hf⟩
      · rw [h1, h2]
      · rw [h1, h2]
        simp only [Option.map_some', Option.some.injEq]
        exact hf.2.length_eq.symm
    · intro ds t ht
      unfold Db.table at ht ⊢
      rcases lookup_frame columnId _ _ h.2.2.2 ds with ⟨h1, _⟩ | ⟨t0, t', h1, h2, hf⟩
      · rw [h1] at ht
        cases ht
      · rw [h1] at ht
        cases ht
        exact ⟨t', h2, hf⟩
  constructor
  · intro ints dbls _
    exact key _ (keeps_columnSetValues cv columnId ints dbls db)
  · intro row valueInt valueDbl
    exact key _ (keeps_columnSetValue cv columnId row valueInt valueDbl db)

/-- C3 at `sampleDataNegZero` written to `sampleStore` and loaded into
`sampleMirror`: the column written as `-0.0, 1.0` is reloaded as `+0.0, 1.0`. -/
theorem batched_roundtrip_witness :
    ∃ db1 db2 loaded,
      dataSetBatchedValuesUpdate sampleDataNegZero sampleDataNegZero._columns sampleStore
        = (.ok (), db1) ∧
      dataSetBatchedValuesLoad sampleConv sampleMirror db1 = (.ok loaded, db2) ∧
      (db2.table sampleDataNegZero._dataSetID).map (fun t => t.rows.map (fun r => r.rowNumber))
        = some ((List.range sampleDataNegZero._rowCount).map (fun (i : Nat) => (i : Int) + 1)) ∧
      loaded._columns.map (fun c => c._id) = sampleDataNegZero._columns.map (fun c => c._id) ∧
      loaded._columns.map (fun c => c._ints) = sampleDataNegZero._columns.map (fun c => c._ints) ∧
      loaded._columns.map (fun c => c._dbls) = [[Dbl.zero, Dbl.one]] ∧
      loaded._filter._filtered = sampleDataNegZero._filter._filtered ∧
      loaded._columns.map (fun c => c._dbls) ≠ sampleDataNegZero._columns.map (fun c => c._dbls) :=
  have h := batched_roundtrip sampleConv sampleConv_rendersNumeric sampleDataNegZero sampleMirror
    sampleTable sampleStore rfl rfl rfl (by decide) (by decide) (by decide) (by decide) rfl
    (by decide) (by decide) (by decide) rfl rfl rfl
  match h with
  | ⟨db1, db2, loaded, h1, h2, h3, h4, h5, h6, h7, h8⟩ =>
    ⟨db1, db2, loaded, h1, h2, h3, h4, h5, h6.trans (by decide), h7,
      h8 ⟨_, List.mem_singleton.mpr rfl, by decide⟩⟩

/-- C4 at the dataset of `sampleDb`, whose stored revision is 4. -/
theorem incRevision_bumps_witness :
    (incRevisionOf sampleConv Registry.DataSets 1 sampleDb).1 = .ok (4 + 1) ∧
    (incRevisionOf sampleConv Registry.DataSets 1 sampleDb).2.revision Registry.DataSets 1
      = some (4 + 1) ∧
    (∀ k j, (k, j) ≠ (Registry.DataSets, (1 : Int)) →
      (incRevisionOf sampleConv Registry.DataSets 1 sampleDb).2.revision k j
        = sampleDb.revision k j) ∧
    (incRevisionOf sampleConv Registry.DataSets 1 sampleDb).2.tables = sampleDb.tables ∧
    (incRevisionOf sampleConv Registry.DataSets 1 sampleDb).2.log = sampleDb.log ++
      inWriteTransaction sampleDb.transactionWriteDepth
        [Stmt.incRevision Registry.DataSets, Stmt.selectRevision Registry.DataSets] ∧
    (incRevisionOf sampleConv Registry.DataSets 1 sampleDb).2.transactionWriteDepth
      = sampleDb.transactionWriteDepth ∧
    (incRevisionOf sampleConv Registry.DataSets 1 sampleDb).2.transactionReadDepth = 0 :=
  incRevision_bumps sampleConv sampleDb Registry.DataSets 1 4 rfl (by decide) (by decide)
    (by decide)

/-- C7 at column 7 of `sampleStore`: writing two values leaves the registry tables
and every slot other than the two of column 7 as they are. -/
theorem columnSetValues_frame_witness :
    StoreFrame 7 sampleStore
      (columnSetValues sampleConv 7 [3, -1] [Dbl.one, Dbl.zero] sampleStore).2 ∧
    StoreFrame 7 sampleStore (columnSetValue sampleConv 7 1 3 Dbl.one sampleStore).2 :=
  ⟨((columnSetValues_frame sampleConv sampleStore 7).1 [3, -1] [Dbl.one, Dbl.zero]
      (by decide)).1,
    ((columnSetValues_frame sampleConv sampleStore 7).2 1 3 Dbl.one).1⟩

/-- C6: `DataSet::setRowCount(2)` on the mirror of `sampleDb` (0 rows, not batched)
returns, the physical table then holds two rows, and the stored revision of the
dataset is still 4. -/
theorem setRowCount_keeps_revision :
    (DataSet.setRowCount sampleConv sampleDataSet 2 sampleDb).1.toBool = true ∧
    ((DataSet.setRowCount sampleConv sampleDataSet 2 sampleDb).2.table 1).map
      (fun t => t.rows.length) = some 2 ∧
    sampleDb.dataSetRevision 1 = some 4 ∧
    (DataSet.setRowCount sampleConv sampleDataSet 2 sampleDb).2.dataSetRevision 1 = some 4 := by
  decide!

/-- C8: `DataSet::checkForUpdates` on a mirror holding column `a` at revision 4,
against a store at revision 5 in which `a` was replaced by `b`, reloads and reports
`b` among the columns and `a` as removed, and sets `newColumns` to false. -/
theorem checkForUpdates_newColumns_by_count :
    (DataSet.checkForUpdates sampleConv sampleMirror ⟨some [], some [], some true, some true⟩
      sampleStoreReplaced).1.toOption.map
        (fun r => (r.1, r.2.1._columns.map (fun c => c._name), r.2.2))
      = some (true, ["b"], ⟨some ["b"], some ["a"], some false, some false⟩) := by
  decide!

/-- C9: `DataSet::checkForUpdates` on a mirror at the revisions of the store, called
with a vector `colsChanged` that holds an entry, reports no change and returns the
vector with that entry still in it. -/
theorem checkForUpdates_keeps_stale_colsChanged :
    (DataSet.checkForUpdates sampleConv sampleMirror
      ⟨some ["stale"], some ["x"], some true, some true⟩ sampleStore).1.toOption.map
        (fun r => (r.1, r.2.2))
      = some (false, ⟨some ["stale"], some [], some false, some false⟩) := by
  decide!

/-- C10: `columnInsert` with index -1 into dataset 1 of `sampleDb`, which has no
column, returns the id 1 of the new column and registers it at position 1. -/
theorem columnInsert_append_empty :
    sampleDb.columns = [] ∧
    (columnInsert sampleConv 1 (-1) "a" "unknown" true sampleDb).1.toOption = some 1 ∧
    (columnInsert sampleConv 1 (-1) "a" "unknown" true sampleDb).2.columns.map
      (fun c => (c.id, c.colIdx)) = [(1, 1)] := by
  decide!

/-! ### The dataset registry across the column operations -/

theorem registryKept_respected : Respected RegistryKept where
  refl := fun db => ⟨rfl, rfl, [], by simp⟩
  trans := by
    rintro a b c ⟨h1, h2, l1, h3⟩ ⟨h4, h5, l2, h6⟩
    exact ⟨h4.trans h1, h5.trans h2, l1 ++ l2, by rw [h6, h3, List.append_assoc]⟩
  log := fun db s => ⟨rfl, rfl, [s], rfl⟩
  progress := fun db p => ⟨rfl, rfl, [], by simp⟩
  writeDepth := fun db n => ⟨rfl, rfl, [], by simp⟩
  prevUpdate := fun db n => ⟨rfl, rfl, [], by simp⟩

/-- No statement other than the increment of a dataset revision, the insertion and
the deletion of a dataset and the construction of the store changes the `DataSets`
registry, and no statement changes a depth or the trace. -/
theorem step_registry (stmt : Stmt)
    (h : stmt ≠ Stmt.incRevision Registry.DataSets ∧ stmt ≠ Stmt.insertDataSet
      ∧ (∀ ds, stmt ≠ Stmt.deleteDataSet ds) ∧ stmt ≠ Stmt.construction)
    (params : List SqlValue) (db : Db) :
    (stmt.step params db).2.2.dataSets = db.dataSets ∧
    (stmt.step params db).2.2.transactionReadDepth = db.transactionReadDepth ∧
    (stmt.step params db).2.2.transactionWriteDepth = db.transactionWriteDepth ∧
    (stmt.step params db).2.2.log = db.log := by
  cases stmt with
  | incRevision t => cases t <;> first | exact absurd rfl h.1 | exact ⟨rfl, rfl, rfl, rfl⟩
  | selectRevision t => cases t <;> exact ⟨rfl, rfl, rfl, rfl⟩
  | insertDataSet => exact absurd rfl h.2.1
  | deleteDataSet ds => exact absurd rfl (h.2.2.1 ds)
  | construction => exact absurd rfl h.2.2.2
  | _ =>
    simp only [Stmt.step, Db.mapRows, Db.setTable]
    repeat' split
    all_goals first
      | exact ⟨rfl, rfl, rfl, rfl⟩
      | exact ⟨trivial, trivial, trivial, trivial⟩

theorem stepKeeps_registryKept (stmt : Stmt)
    (h : stmt ≠ Stmt.incRevision Registry.DataSets ∧ stmt ≠ Stmt.insertDataSet
      ∧ (∀ ds, stmt ≠ Stmt.deleteDataSet ds) ∧ stmt ≠ Stmt.construction) :
    StepKeeps RegistryKept stmt := by
  intro params db
  obtain ⟨h1, h2, _, h4⟩ := step_registry stmt h params db
  exact ⟨h1, h2, [], by rw [h4]; simp⟩

section KeepsColumnOps

variable {R : Db → Db → Prop} (hR : Respected R)
  (hs : ∀ stmt, (stmt ≠ Stmt.incRevision Registry.DataSets ∧ stmt ≠ Stmt.insertDataSet
      ∧ (∀ ds, stmt ≠ Stmt.deleteDataSet ds) ∧ stmt ≠ Stmt.construction) → StepKeeps R stmt)
  (cv : SqliteConv)

include hR hs

theorem keeps_columnInsert (dataSetId index : Int) (name colType : String) (alterTable : Bool) :
    M.Keeps R (columnInsert cv dataSetId index name colType alterTable) := by
  unfold columnInsert columnLastFreeIndex columnIndexIncrements columnIdForIndex
  repeat (first
    | exact keeps_pure hR _
    | exact keeps_transactionWriteBegin hR
    | exact keeps_transactionWriteEnd hR
    | exact keeps_runStatements hR _ (hs _ (by simp)) _
    | exact keeps_runStatementsId hR cv _ (hs _ (by simp)) _
    | refine keeps_bind hR ?_ (fun _ => ?_)
    | refine keeps_ite _ ?_ ?_)

theorem keeps_columnDelete (columnId : Int) (cleanUpRest : Bool) :
    M.Keeps R (columnDelete cv columnId cleanUpRest) := by
  unfold columnDelete columnIndexDecrements columnIdForIndex columnGetDataSetId columnIndexForId
  repeat (first
    | exact keeps_pure hR _
    | exact keeps_transactionWriteBegin hR
    | exact keeps_transactionWriteEnd hR
    | exact keeps_runStatements hR _ (hs _ (by simp)) _
    | exact keeps_runStatementsId hR cv _ (hs _ (by simp)) _
    | refine keeps_bind hR ?_ (fun _ => ?_)
    | refine keeps_ite _ ?_ ?_)

theorem keeps_Column_setName (col : Column) (name : String) (batched : Bool) :
    M.Keeps R (Column.setName cv col name batched) := by
  unfold Column.setName Column.incRevision columnSetName columnIncRevision
  repeat (first
    | exact keeps_pure hR _
    | exact keeps_transactionWriteBegin hR
    | exact keeps_transactionWriteEnd hR
    | exact keeps_runStatements hR _ (hs _ (by simp)) _
    | exact keeps_runStatementsId hR cv _ (hs _ (by simp)) _
    | refine keeps_bind hR ?_ (fun _ => ?_)
    | refine keeps_ite _ ?_ ?_)

theorem keeps_dataSetCreateTable (dataSet : DataSet) :
    M.Keeps R (dataSetCreateTable dataSet) := by
  unfold dataSetCreateTable
  repeat (first
    | exact keeps_pure hR _
    | exact keeps_runStatements hR _ (hs _ (by simp)) _
    | refine keeps_bind hR ?_ (fun _ => ?_))

end KeepsColumnOps

theorem bind_ok {α β : Type} (x : M α) (f : α → M β) (db db' : Db) (b : β)
    (h : (x >>= f) db = (.ok b, db')) :
    ∃ a db1, x db = (.ok a, db1) ∧ f a db1 = (.ok b, db') := by
  rw [M.bind_run] at h
  rcases hx : x db with ⟨res, db1⟩
  rw [hx] at h
  cases res with
  | ok a => exact ⟨a, db1, rfl, h⟩
  | error e => simp at h

theorem cAssert_ok (c : Bool) (db db' : Db) (h : cAssert c db = (.ok (), db')) :
    c = true ∧ db' = db := by
  unfold cAssert at h
  cases c with
  | true => simp only [if_true, pure, M.pure, Prod.mk.injEq, true_and] at h; exact ⟨rfl, h.symm⟩
  | false => simp [M.raise] at h

theorem endsWithIncrement_prepend (l0 l : List Stmt) (h : EndsWithIncrement l) :
    EndsWithIncrement (l0 ++ l) := by
  obtain ⟨pre, post, hl, hp⟩ := h
  exact ⟨l0 ++ pre, post, by rw [hl]; simp, hp⟩

theorem endsWithIncrement_commits (l post' : List Stmt) (h : EndsWithIncrement l)
    (hc : ∀ s ∈ post', s = Stmt.commit) : EndsWithIncrement (l ++ post') := by
  obtain ⟨pre, post, hl, hp⟩ := h
  refine ⟨pre, post ++ post', by rw [hl]; simp, ?_⟩
  intro s hs
  rcases List.mem_append.mp hs with h1 | h1
  · exact hp s h1
  · exact hc s h1

theorem revisionMono_of_kept (id : Int) (a b : Db) (h : RegistryKept a b) :
    RevisionMono id a b where
  ids := by rw [h.1]
  readDepth := h.2.1
  log := h.2.2
  revision := fun r hr => ⟨r, by unfold Db.dataSetRevision at hr ⊢; rw [h.1]; exact hr, le_refl r⟩

theorem revisionMono_refl (id : Int) (a : Db) : RevisionMono id a a :=
  revisionMono_of_kept id a a (registryKept_respected.refl a)

theorem revisionMono_of_bumped (id c : Int) (a b : Db) (h : RevisionBumped id c a b) :
    RevisionMono id a b where
  ids := h.ids
  readDepth := h.readDepth
  log := by obtain ⟨l, hl, _⟩ := h.log; exact ⟨l, hl⟩
  revision := fun r hr => by
    obtain ⟨r', h1, h2, _⟩ := h.revision r hr
    exact ⟨r', h1, le_of_lt h2⟩

theorem revisionMono_trans (id : Int) (a b c : Db) (h1 : RevisionMono id a b)
    (h2 : RevisionMono id b c) : RevisionMono id a c where
  ids := h2.ids.trans h1.ids
  readDepth := h2.readDepth.trans h1.readDepth
  log := by
    obtain ⟨l1, hl1⟩ := h1.log
    obtain ⟨l2, hl2⟩ := h2.log
    exact ⟨l1 ++ l2, by rw [hl2, hl1, List.append_assoc]⟩
  revision := fun r hr => by
    obtain ⟨r1, hr1, hle1⟩ := h1.revision r hr
    obtain ⟨r2, hr2, hle2⟩ := h2.revision r1 hr1
    exact ⟨r2, hr2, le_trans hle1 hle2⟩

theorem bumped_of_mono_bumped (id c : Int) (a b d : Db) (h1 : RevisionMono id a b)
    (h2 : RevisionBumped id c b d) : RevisionBumped id c a d where
  ids := h2.ids.trans h1.ids
  readDepth := h2.readDepth.trans h1.readDepth
  log := by
    obtain ⟨l1, hl1⟩ := h1.log
    obtain ⟨l2, hl2, he⟩ := h2.log
    exact ⟨l1 ++ l2, by rw [hl2, hl1, List.append_assoc], endsWithIncrement_prepend l1 l2 he⟩
  revision := fun r hr => by
    obtain ⟨r1, hr1, hle1⟩ := h1.revision r hr
    obtain ⟨r2, hr2, hlt, hc⟩ := h2.revision r1 hr1
    exact ⟨r2, hr2, lt_of_le_of_lt hle1 hlt, hc⟩

/-- The increment of `DataSet::incRevision` on a loaded dataset outside batched
mode and outside a read transaction. -/
theorem DataSet_incRevision_bumped (cv : SqliteConv) (data : DataSet) (db : Db) (r : Int)
    (hb : data._writeBatchedToDB = false) (hid : 0 < data._dataSetID)
    (hread : db.transactionReadDepth = 0)
    (hkey : (db.dataSets.map (fun x => x.id)).Nodup)
    (hrev : db.dataSetRevision data._dataSetID = some r) :
    ∃ db', DataSet.incRevision cv data db
        = (.ok { data with _revision := toInt32 (r + 1) }, db') ∧
      RevisionBumped data._dataSetID (toInt32 (r + 1)) db db' ∧
      db'.transactionWriteDepth = db.transactionWriteDepth := by
  have hne : (data._dataSetID != -1) = true := by
    simp only [bne_iff_ne, ne_eq]
    omega
  refine ⟨{ db with
      dataSets := db.dataSets.map (fun x =>
        if x.id = data._dataSetID then { x with revision := x.revision + 1 } else x)
      log := db.log ++ (if db.transactionWriteDepth = 0 then [Stmt.beginExclusive] else [])
        ++ [Stmt.incRevision Registry.DataSets, Stmt.selectRevision Registry.DataSets]
        ++ (if db.transactionWriteDepth = 0 then [Stmt.commit] else []) }, ?_, ?_, ?_⟩
  · simp only [DataSet.incRevision, M.bind_run, hne, cAssert, if_true, pure, M.pure, hb,
      Bool.not_false, dataSetIncRevision_run cv db data._dataSetID r hread hkey hrev]
  · constructor
    · simp only [List.map_map]
      apply List.map_congr_left
      intro x _
      simp only [Function.comp]
      split <;> rfl
    · rfl
    · refine ⟨_, by simp only [List.append_assoc]; rfl, ?_⟩
      refine ⟨if db.transactionWriteDepth = 0 then [Stmt.beginExclusive] else [],
        if db.transactionWriteDepth = 0 then [Stmt.commit] else [], by simp, ?_⟩
      intro s hs
      split at hs
      · simpa using hs
      · simp at hs
    · intro r0 hr0
      rw [hrev] at hr0
      obtain rfl : r = r0 := by simpa using hr0
      refine ⟨r + 1, ?_, by omega, rfl⟩
      have := revision_map_dataSets db data._dataSetID data._dataSetID
      simp only [Db.dataSetRevision] at hrev ⊢
      rw [this]
      simp [Db.dataSetRevision, hrev]
  · rfl

theorem kept_of_run {α : Type} (x : M α) (hx : M.Keeps RegistryKept x) (db db1 : Db)
    (res : Except Err α) (h : x db = (res, db1)) : RegistryKept db db1 := by
  have := hx db
  rw [h] at this
  exact this

/-- A step that kept the revision from going down, followed by
`DataSet::incRevision`. -/
theorem bumped_after (cv : SqliteConv) (data out : DataSet) (db db1 db' : Db) (r : Int)
    (hinc : DataSet.incRevision cv data db1 = (.ok out, db'))
    (hpre : RevisionMono data._dataSetID db db1)
    (hb : data._writeBatchedToDB = false) (hid : 0 < data._dataSetID)
    (hread : db.transactionReadDepth = 0)
    (hkey : (db.dataSets.map (fun x => x.id)).Nodup)
    (hrev : db.dataSetRevision data._dataSetID = some r) :
    RevisionBumped data._dataSetID out._revision db db' ∧
    out._dataSetID = data._dataSetID ∧ out._writeBatchedToDB = false ∧
    out._columns = data._columns := by
  obtain ⟨r1, hr1, _⟩ := hpre.revision r hrev
  obtain ⟨db2, hrun, hbump, _⟩ := DataSet_incRevision_bumped cv data db1 r1 hb hid
    (by rw [hpre.readDepth]; exact hread) (by rw [hpre.ids]; exact hkey) hr1
  rw [hrun] at hinc
  simp only [Prod.mk.injEq, Except.ok.injEq] at hinc
  obtain ⟨hout, hdb⟩ := hinc
  subst hout hdb
  exact ⟨bumped_of_mono_bumped _ _ db db1 db2 hpre hbump, rfl, hb, rfl⟩

section SingleOps

variable (cv : SqliteConv) (data out : DataSet) (db db' : Db) (r : Int)
  (hb : data._writeBatchedToDB = false) (hid : 0 < data._dataSetID)
  (hread : db.transactionReadDepth = 0)
  (hkey : (db.dataSets.map (fun x => x.id)).Nodup)
  (hrev : db.dataSetRevision data._dataSetID = some r)

include hb hid hread hkey hrev

theorem insertColumn_bumped (index : Nat) (alterDataSetTable : Bool)
    (hok : DataSet.insertColumn cv data index alterDataSetTable db = (.ok out, db')) :
    RevisionBumped data._dataSetID out._revision db db' ∧
    out._dataSetID = data._dataSetID ∧ out._writeBatchedToDB = false := by
  unfold DataSet.insertColumn at hok
  obtain ⟨_, db0, h0, hok1⟩ := bind_ok _ _ _ _ _ hok
  clear hok
  obtain ⟨_, hdb0⟩ := cAssert_ok _ _ _ h0
  subst hdb0
  clear h0
  have hok := hok1
  clear hok1
  obtain ⟨id, db1, h1, hok⟩ := bind_ok _ _ _ _ _ hok
  have hk := kept_of_run _ (keeps_columnInsert registryKept_respected stepKeeps_registryKept
    cv _ _ _ _ _) _ _ _ h1
  split at hok
  · have := bumped_after cv _ out db0 db1 db' r hok
      (revisionMono_of_kept _ _ _ hk) hb hid hread hkey hrev
    exact ⟨this.1, this.2.1, this.2.2.1⟩
  · simp [M.raise] at hok

theorem newColumn_bumped (name : String) (col : Column)
    (hok : DataSet.newColumn cv data name db = (.ok (out, col), db')) :
    RevisionBumped data._dataSetID out._revision db db' ∧
    out._dataSetID = data._dataSetID ∧ out._writeBatchedToDB = false := by
  unfold DataSet.newColumn at hok
  obtain ⟨_, db0, h0, hok1⟩ := bind_ok _ _ _ _ _ hok
  clear hok
  obtain ⟨_, hdb0⟩ := cAssert_ok _ _ _ h0
  subst hdb0
  clear h0
  have hok := hok1
  clear hok1
  obtain ⟨id, db1, h1, hok⟩ := bind_ok _ _ _ _ _ hok
  have hk1 := kept_of_run _ (keeps_columnInsert registryKept_respected stepKeeps_registryKept
    cv _ _ _ _ _) _ _ _ h1
  obtain ⟨c, db2, h2, hok⟩ := bind_ok _ _ _ _ _ hok
  have hk2 := kept_of_run _ (keeps_Column_setName registryKept_respected stepKeeps_registryKept
    cv _ _ _) _ _ _ h2
  obtain ⟨d, db3, h3, hok⟩ := bind_ok _ _ _ _ _ hok
  simp only [pure, M.pure, Prod.mk.injEq, Except.ok.injEq] at hok
  obtain ⟨⟨rfl, _⟩, rfl⟩ := hok
  have := bumped_after cv _ d db0 db2 db3 r h3
    (revisionMono_of_kept _ _ _ (registryKept_respected.trans _ _ _ hk1 hk2)) hb hid hread hkey hrev
  exact ⟨this.1, this.2.1, this.2.2.1⟩

theorem removeColumn_bumped (index : Nat)
    (hok : DataSet.removeColumn cv data index db = (.ok out, db')) :
    RevisionBumped data._dataSetID out._revision db db' ∧
    out._dataSetID = data._dataSetID ∧ out._writeBatchedToDB = false := by
  unfold DataSet.removeColumn at hok
  obtain ⟨_, db0, h0, hok1⟩ := bind_ok _ _ _ _ _ hok
  clear hok
  obtain ⟨_, hdb0⟩ := cAssert_ok _ _ _ h0
  subst hdb0
  clear h0
  have hok := hok1
  clear hok1
  rcases hcol : data._columns[index]? with _ | removeMe
  · simp [hcol, M.raise] at hok
  · simp only [hcol] at hok
    obtain ⟨_, db1, h1, hok⟩ := bind_ok _ _ _ _ _ hok
    have hk := kept_of_run _ (keeps_columnDelete registryKept_respected stepKeeps_registryKept
      cv _ _) _ _ _ h1
    have := bumped_after cv _ out db0 db1 db' r hok
      (revisionMono_of_kept _ _ _ hk) hb hid hread hkey hrev
    exact ⟨this.1, this.2.1, this.2.2.1⟩

theorem removeColumnNamedFrom_bumped (name : String) (cols : List Column) (i : Nat)
    (hex : ∃ col ∈ cols, col._name = name)
    (hok : DataSet.removeColumnNamedFrom cv data name cols i db = (.ok out, db')) :
    RevisionBumped data._dataSetID out._revision db db' ∧
    out._dataSetID = data._dataSetID ∧ out._writeBatchedToDB = false := by
  induction cols generalizing i with
  | nil => simp at hex
  | cons col rest ih =>
    rw [DataSet.removeColumnNamedFrom] at hok
    split at hok
    · obtain ⟨_, db1, h1, hok⟩ := bind_ok _ _ _ _ _ hok
      have hk := kept_of_run _ (keeps_columnDelete registryKept_respected
        stepKeeps_registryKept cv _ _) _ _ _ h1
      have := bumped_after cv _ out db db1 db' r hok
        (revisionMono_of_kept _ _ _ hk) hb hid hread hkey hrev
      exact ⟨this.1, this.2.1, this.2.2.1⟩
    · rename_i hne
      refine ih (i + 1) ?_ hok
      obtain ⟨c, hc, hcn⟩ := hex
      rcases List.mem_cons.mp hc with rfl | hc'
      · exact absurd (by simpa using hcn) hne
      · exact ⟨c, hc', hcn⟩

theorem removeColumnNamed_bumped (name : String)
    (hex : ∃ col ∈ data._columns, col._name = name)
    (hok : DataSet.removeColumnNamed cv data name db = (.ok out, db')) :
    RevisionBumped data._dataSetID out._revision db db' ∧
    out._dataSetID = data._dataSetID ∧ out._writeBatchedToDB = false := by
  unfold DataSet.removeColumnNamed at hok
  obtain ⟨_, db0, h0, hok1⟩ := bind_ok _ _ _ _ _ hok
  clear hok
  obtain ⟨_, hdb0⟩ := cAssert_ok _ _ _ h0
  subst hdb0
  clear h0
  have hok := hok1
  clear hok1
  exact removeColumnNamedFrom_bumped cv data out db0 db' r hb hid hread hkey hrev name _ 0 hex hok

end SingleOps

theorem insertColumnsLoop_mono (cv : SqliteConv) (alterDataSetTable : Bool) (n : Nat) :
    ∀ (i : Nat) (data out : DataSet) (db db' : Db) (r : Int),
      data._writeBatchedToDB = false → 0 < data._dataSetID →
      db.transactionReadDepth = 0 → (db.dataSets.map (fun x => x.id)).Nodup →
      db.dataSetRevision data._dataSetID = some r →
      DataSet.insertColumnsLoop cv alterDataSetTable n i data db = (.ok out, db') →
      RevisionMono data._dataSetID db db' ∧ out._dataSetID = data._dataSetID ∧
        out._writeBatchedToDB = false := by
  induction n with
  | zero =>
    intro i data out db db' r hb _ _ _ _ hok
    simp only [DataSet.insertColumnsLoop, pure, M.pure, Prod.mk.injEq, Except.ok.injEq] at hok
    obtain ⟨rfl, rfl⟩ := hok
    exact ⟨revisionMono_refl _ _, rfl, hb⟩
  | succ n ih =>
    intro i data out db db' r hb hid hread hkey hrev hok
    rw [DataSet.insertColumnsLoop] at hok
    obtain ⟨d1, db1, h1, hok⟩ := bind_ok _ _ _ _ _ hok
    obtain ⟨hbump, hid1, hb1⟩ := insertColumn_bumped cv data d1 db db1 r hb hid hread hkey hrev
      i alterDataSetTable h1
    obtain ⟨r1, hr1, _, _⟩ := hbump.revision r hrev
    obtain ⟨hm, hido, hbo⟩ := ih (i + 1) d1 out db1 db' r1 hb1 (by rw [hid1]; exact hid)
      (by rw [hbump.readDepth]; exact hread) (by rw [hbump.ids]; exact hkey)
      (by rw [hid1]; exact hr1) hok
    rw [hid1] at hm
    exact ⟨revisionMono_trans _ _ _ _ (revisionMono_of_bumped _ _ _ _ hbump) hm,
      hido.trans hid1, hbo⟩

theorem removeColumnsLoop_mono (cv : SqliteConv) (colCount : Nat) (fuel : Nat) :
    ∀ (i : Nat) (data out : DataSet) (db db' : Db) (r : Int),
      data._writeBatchedToDB = false → 0 < data._dataSetID →
      db.transactionReadDepth = 0 → (db.dataSets.map (fun x => x.id)).Nodup →
      db.dataSetRevision data._dataSetID = some r →
      DataSet.removeColumnsLoop cv colCount fuel i data db = (.ok out, db') →
      RevisionMono data._dataSetID db db' ∧ out._dataSetID = data._dataSetID ∧
        out._writeBatchedToDB = false := by
  induction fuel with
  | zero =>
    intro i data out db db' r _ _ _ _ _ hok
    simp [DataSet.removeColumnsLoop, M.raise] at hok
  | succ fuel ih =>
    intro i data out db db' r hb hid hread hkey hrev hok
    rw [DataSet.removeColumnsLoop] at hok
    split at hok
    · obtain ⟨d1, db1, h1, hok⟩ := bind_ok _ _ _ _ _ hok
      obtain ⟨hbump, hid1, hb1⟩ := removeColumn_bumped cv data d1 db db1 r hb hid hread hkey hrev
        i h1
      obtain ⟨r1, hr1, _, _⟩ := hbump.revision r hrev
      obtain ⟨hm, hido, hbo⟩ := ih _ d1 out db1 db' r1 hb1 (by rw [hid1]; exact hid)
        (by rw [hbump.readDepth]; exact hread) (by rw [hbump.ids]; exact hkey)
        (by rw [hid1]; exact hr1) hok
      rw [hid1] at hm
      exact ⟨revisionMono_trans _ _ _ _ (revisionMono_of_bumped _ _ _ _ hbump) hm,
        hido.trans hid1, hbo⟩
    · simp only [pure, M.pure, Prod.mk.injEq, Except.ok.injEq] at hok
      obtain ⟨rfl, rfl⟩ := hok
      exact ⟨revisionMono_refl _ _, rfl, hb⟩

theorem transactionWriteEnd_ok (db db' : Db) (h : transactionWriteEnd false db = (.ok (), db')) :
    db'.dataSets = db.dataSets ∧ db'.transactionReadDepth = db.transactionReadDepth ∧
    ∃ post, db'.log = db.log ++ post ∧ ∀ s ∈ post, s = Stmt.commit := by
  by_cases hd : 0 < db.transactionWriteDepth
  · rw [transactionWriteEnd_run db hd] at h
    simp only [Prod.mk.injEq, true_and] at h
    subst h
    refine ⟨rfl, rfl, _, rfl, ?_⟩
    intro s hs
    split at hs
    · simpa using hs
    · simp at hs
  · simp [transactionWriteEnd, M.bind_run, M.get, cAssert, hd, M.raise] at h

theorem bumped_then_commits (id c : Int) (a b b' : Db) (h : RevisionBumped id c a b)
    (h1 : b'.dataSets = b.dataSets) (h2 : b'.transactionReadDepth = b.transactionReadDepth)
    (post : List Stmt) (h3 : b'.log = b.log ++ post) (h4 : ∀ s ∈ post, s = Stmt.commit) :
    RevisionBumped id c a b' where
  ids := by rw [h1]; exact h.ids
  readDepth := h2.trans h.readDepth
  log := by
    obtain ⟨l, hl, he⟩ := h.log
    exact ⟨l ++ post, by rw [h3, hl, List.append_assoc], endsWithIncrement_commits l post he h4⟩
  revision := fun r hr => by
    obtain ⟨r', hr', hlt, hc⟩ := h.revision r hr
    exact ⟨r', by unfold Db.dataSetRevision at hr' ⊢; rw [h1]; exact hr', hlt, hc⟩

theorem setColumnCount_eq (cv : SqliteConv) (data : DataSet) (colCount : Nat) :
    DataSet.setColumnCount cv data colCount =
      transactionWriteBegin >>= fun _ =>
      (if colCount > data._columns.length then
          DataSet.insertColumnsLoop cv (!(data._columns.length == 0 && decide (colCount > 0)))
            (colCount - data._columns.length) data._columns.length data
        else if colCount < data._columns.length then
          DataSet.removeColumnsLoop cv colCount (data._columns.length + 1)
            (data._columns.length - 1) data
        else pure data) >>= fun d =>
      DataSet.incRevision cv d >>= fun d =>
      transactionWriteEnd false >>= fun _ =>
      (if (data._columns.length == 0 && decide (colCount > 0)) = true then dataSetCreateTable d
        else pure ()) >>= fun _ =>
      pure d := by
  unfold DataSet.setColumnCount
  dsimp only
  split_ifs <;> rfl

theorem setColumnCount_bumped (cv : SqliteConv) (data out : DataSet) (db db' : Db) (r : Int)
    (hb : data._writeBatchedToDB = false) (hid : 0 < data._dataSetID)
    (hread : db.transactionReadDepth = 0)
    (hkey : (db.dataSets.map (fun x => x.id)).Nodup)
    (hrev : db.dataSetRevision data._dataSetID = some r) (colCount : Nat)
    (hok : DataSet.setColumnCount cv data colCount db = (.ok out, db')) :
    ∃ dbm, RevisionBumped data._dataSetID out._revision db dbm ∧
      db'.dataSets = dbm.dataSets ∧
      ((data._columns.length == 0 && decide (colCount > 0)) = false → db' = dbm) := by
  rw [setColumnCount_eq] at hok
  obtain ⟨_, db1, h1, hok⟩ := bind_ok _ _ _ _ _ hok
  have hk1 := kept_of_run _ (keeps_transactionWriteBegin registryKept_respected) _ _ _ h1
  obtain ⟨d2, db2, h2, hok⟩ := bind_ok _ _ _ _ _ hok
  have hr1 : db1.dataSetRevision data._dataSetID = some r := by
    unfold Db.dataSetRevision at hrev ⊢
    rw [hk1.1]
    exact hrev
  have hloop : RevisionMono data._dataSetID db1 db2 ∧ d2._dataSetID = data._dataSetID ∧
      d2._writeBatchedToDB = false := by
    split at h2
    · exact insertColumnsLoop_mono cv _ _ _ data d2 db1 db2 r hb hid
        (by rw [hk1.2.1]; exact hread) (by rw [hk1.1]; exact hkey) hr1 h2
    · split at h2
      · exact removeColumnsLoop_mono cv _ _ _ data d2 db1 db2 r hb hid
          (by rw [hk1.2.1]; exact hread) (by rw [hk1.1]; exact hkey) hr1 h2
      · simp only [pure, M.pure, Prod.mk.injEq, Except.ok.injEq] at h2
        obtain ⟨rfl, rfl⟩ := h2
        exact ⟨revisionMono_refl _ _, rfl, hb⟩
  obtain ⟨hm, hid2, hb2⟩ := hloop
  obtain ⟨d3, db3, h3, hok⟩ := bind_ok _ _ _ _ _ hok
  have hb3 := bumped_after cv d2 d3 db db2 db3 r h3
    (by rw [hid2]; exact revisionMono_trans _ _ _ _ (revisionMono_of_kept _ _ _ hk1) hm)
    hb2 (by rw [hid2]; exact hid) hread hkey (by rw [hid2]; exact hrev)
  rw [hid2] at hb3
  obtain ⟨_, db4, h4, hok⟩ := bind_ok _ _ _ _ _ hok
  obtain ⟨he1, he2, post, he3, he4⟩ := transactionWriteEnd_ok db3 db4 h4
  have hb4 := bumped_then_commits _ _ db db3 db4 hb3.1 he1 he2 post he3 he4
  obtain ⟨_, db5, h5, hok⟩ := bind_ok _ _ _ _ _ hok
  simp only [pure, M.pure, Prod.mk.injEq, Except.ok.injEq] at hok
  obtain ⟨rfl, rfl⟩ := hok
  refine ⟨db4, hb4, ?_, ?_⟩
  · split at h5
    · exact (kept_of_run _ (keeps_dataSetCreateTable registryKept_respected
        stepKeeps_registryKept _) _ _ _ h5).1
    · simp only [pure, M.pure, Prod.mk.injEq, true_and] at h5
      rw [h5]
  · intro hc
    rw [hc] at h5
    simp only [Bool.false_eq_true, if_false, pure, M.pure, Prod.mk.injEq, true_and] at h5
    exact h5.symm

/-- C5 (amended): for a loaded dataset outside batched-write mode and outside a
read transaction, whenever `insertColumn`, `newColumn`, `removeColumn` by index,
`removeColumn` by the name of an existing column, or `setColumnCount` returns, the
stored revision of the dataset is strictly greater than before and the cached
revision is the stored one as a C `int`; unless the call is a `setColumnCount` that
goes from no column to some, the statements issued end with the increment and its
read-back, followed by nothing but `COMMIT`. -/
theorem columnCount_bumps_revision (cv : SqliteConv) (op : ColumnCountOp)
    (data out : DataSet) (db : Db) (r : Int)
    (hb : data._writeBatchedToDB = false) (hid : 0 < data._dataSetID)
    (hread : db.transactionReadDepth = 0)
    (hkey : (db.dataSets.map (fun x => x.id)).Nodup)
    (hrev : db.dataSetRevision data._dataSetID = some r)
    (happ : op.applies data)
    (hok : (op.run cv data db).1 = .ok out) :
    ∃ r', (op.run cv data db).2.dataSetRevision data._dataSetID = some r' ∧ r < r' ∧
      out._revision = toInt32 r' ∧
      (op.createsTable data = false →
        ∃ l, (op.run cv data db).2.log = db.log ++ l ∧ EndsWithIncrement l) := by
  have hrun : op.run cv data db = (.ok out, (op.run cv data db).2) := by
    rw [← hok]
  generalize (op.run cv data db).2 = db' at hrun ⊢
  have fin : RevisionBumped data._dataSetID out._revision db db' →
      ∃ r', db'.dataSetRevision data._dataSetID = some r' ∧ r < r' ∧
        out._revision = toInt32 r' ∧
        (op.createsTable data = false → ∃ l, db'.log = db.log ++ l ∧ EndsWithIncrement l) := by
    intro h
    obtain ⟨r', h1, h2, h3⟩ := h.revision r hrev
    exact ⟨r', h1, h2, h3, fun _ => h.log⟩
  cases op with
  | insertColumn index alter =>
    exact fin (insertColumn_bumped cv data out db db' r hb hid hread hkey hrev index alter hrun).1
  | newColumn name =>
    simp only [ColumnCountOp.run] at hrun
    obtain ⟨⟨d, c⟩, db1, h1, h2⟩ := bind_ok _ _ _ _ _ hrun
    simp only [pure, M.pure, Prod.mk.injEq, Except.ok.injEq] at h2
    obtain ⟨rfl, rfl⟩ := h2
    exact fin (newColumn_bumped cv data d db db1 r hb hid hread hkey hrev name c h1).1
  | removeColumn index =>
    exact fin (removeColumn_bumped cv data out db db' r hb hid hread hkey hrev index hrun).1
  | removeColumnNamed name =>
    exact fin (removeColumnNamed_bumped cv data out db db' r hb hid hread hkey hrev name
      happ hrun).1
  | setColumnCount colCount =>
    obtain ⟨dbm, hbm, hds, hlast⟩ := setColumnCount_bumped cv data out db db' r hb hid hread
      hkey hrev colCount hrun
    obtain ⟨r', h1, h2, h3⟩ := hbm.revision r hrev
    refine ⟨r', by unfold Db.dataSetRevision at h1 ⊢; rw [hds]; exact h1, h2, h3, ?_⟩
    intro hc
    rw [hlast hc]
    exact hbm.log

/-- C5 (amended) at `insertColumn(0)` on the mirror of `sampleDb`, whose stored
revision is 4. -/
theorem columnCount_bumps_revision_witness :
    ∃ r', (ColumnCountOp.run sampleConv (ColumnCountOp.insertColumn 0 true) sampleDataSet
        sampleDb).2.dataSetRevision sampleDataSet._dataSetID = some r' ∧ 4 < r' ∧
      sampleDataSetInserted._revision = toInt32 r' ∧
      (ColumnCountOp.createsTable (ColumnCountOp.insertColumn 0 true) sampleDataSet = false →
        ∃ l, (ColumnCountOp.run sampleConv (ColumnCountOp.insertColumn 0 true) sampleDataSet
          sampleDb).2.log = sampleDb.log ++ l ∧ EndsWithIncrement l) :=
  columnCount_bumps_revision sampleConv (ColumnCountOp.insertColumn 0 true) sampleDataSet
    sampleDataSetInserted sampleDb 4 rfl (by decide) rfl (by decide) (by decide) trivial
    (by decide!)

/-- C5 as stated fails: `setColumnCount(2)` on the mirror of `sampleDb`, which has
no column, returns with the revision bumped from 4 to 7, and the last statements
it issues that change the store are `DROP TABLE` and `CREATE TABLE`, after the
last increment of the revision; `setColumnCount(0)` on a dataset with a column
does not return. -/
theorem setColumnCount_creates_table_last :
    (DataSet.setColumnCount sampleConv sampleDataSet 2 sampleDb).1.toBool = true ∧
    sampleDb.dataSetRevision 1 = some 4 ∧
    (DataSet.setColumnCount sampleConv sampleDataSet 2 sampleDb).2.dataSetRevision 1 = some 7 ∧
    ((DataSet.setColumnCount sampleConv sampleDataSet 2 sampleDb).2.log.filter
        Stmt.mutates).reverse.take 3 =
      [Stmt.createTable 1 [SlotName.filter 1, SlotName.colDbl 1, SlotName.colInt 1,
          SlotName.colDbl 2, SlotName.colInt 2],
        Stmt.dropTable 1, Stmt.incRevision Registry.DataSets] ∧
    (DataSet.setColumnCount sampleConv sampleMirror 0 sampleStore).1
      = .error Err.outOfRange := by
  decide!

/-! ### Deleting a column -/

theorem selectById_unique {ρ : Type} (rows : List ρ) (getId : ρ → Int) (id : Int) (row : ρ)
    (out : ρ → List SqlValue) (hnd : (rows.map getId).Nodup)
    (hfind : rows.find? (fun r => decide (getId r = id)) = some row) :
    selectById rows getId (some id) out = [out row] := by
  have := selectById_map_unique rows getId id row (fun r => r) out (fun _ => rfl) hnd hfind
  simpa using this

theorem foldl_last_id (cv : SqliteConv) (v : SqlValue) :
    (([[v]] : List (List SqlValue)).enumFrom 0).foldl
      (fun id p => if p.2.length ≠ 0 then sqlite3_column_int cv (p.2.getD 0 .null) else id) (-1)
      = sqlite3_column_int cv v := by
  simp [List.enumFrom]

theorem columnGetDataSetId_run (cv : SqliteConv) (db : Db) (columnId : Int) (c : ColumnsRow)
    (hkey : (db.columns.map (fun x => x.id)).Nodup)
    (hfind : db.columns.find? (fun x => decide (x.id = columnId)) = some c) :
    columnGetDataSetId cv columnId db =
      (.ok (toInt32 c.dataSet), { db with log := db.log ++ [Stmt.selectColumnDataSet columnId] }) := by
  have hsel := selectById_unique db.columns (fun x => x.id) columnId c
    (fun r => [SqlValue.integer r.dataSet]) hkey hfind
  simp only [columnGetDataSetId, runStatementsId_run, Stmt.prepare, Stmt.step, if_true,
    reduceCtorEq, if_false, hsel, foldl_last_id]
  rfl

theorem columnIndexForId_run (cv : SqliteConv) (db : Db) (columnId : Int) (c : ColumnsRow)
    (hkey : (db.columns.map (fun x => x.id)).Nodup)
    (hfind : db.columns.find? (fun x => decide (x.id = columnId)) = some c) :
    columnIndexForId cv columnId db =
      (.ok (toInt32 c.colIdx), { db with log := db.log ++ [Stmt.selectColIdx] }) := by
  have hsel := selectById_unique db.columns (fun x => x.id) columnId c
    (fun r => [SqlValue.integer r.colIdx]) hkey hfind
  simp only [columnIndexForId, runStatementsId_run, Stmt.prepare, Stmt.step, if_true,
    reduceCtorEq, if_false, sqlite3_bind_int, paramInt, List.getElem?_cons_zero, hsel,
    foldl_last_id]
  rfl

theorem columnIdForIndex_none (cv : SqliteConv) (db : Db) (ds i : Int)
    (hnone : ∀ c ∈ db.columns, ¬ (c.dataSet = ds ∧ c.colIdx = i)) :
    columnIdForIndex cv ds i db =
      (.ok (-1), { db with log := db.log ++ [Stmt.selectColumnIdForIndex] }) := by
  have hnil : List.filter (fun r : ColumnsRow =>
      decide (some r.dataSet = some ds) && decide (some r.colIdx = some i)) db.columns = [] := by
    rw [List.filter_eq_nil_iff]
    intro c hc
    have := hnone c hc
    simp only [Option.some.injEq, Bool.and_eq_true, decide_eq_true_eq]
    exact this
  simp only [columnIdForIndex, runStatementsId_run, Stmt.prepare, Stmt.step, if_true,
    reduceCtorEq, if_false, sqlite3_bind_int, paramInt, List.getElem?_cons_zero,
    List.getElem?_cons_succ, hnil, List.map_nil, List.enumFrom_nil, List.foldl_nil]

theorem dropSlot_run (db : Db) (ds : Int) (slot : SlotName) (t : PhysTable)
    (ht : db.table ds = some t) (hs : slot ∈ t.slots) :
    runStatements (Stmt.dropSlot ds slot) [] db =
      (.ok (), { db with
        tables := (db.setTable ds (t.dropSlot slot)).tables
        log := db.log ++ [Stmt.dropSlot ds slot] }) := by
  have ht' : ({ db with log := db.log ++ [Stmt.dropSlot ds slot] } : Db).table ds = some t := ht
  simp only [runStatements_run, Stmt.prepare, Stmt.step, ht', hs, decide_True, if_true,
    reduceCtorEq, if_false]
  rfl

theorem deleteColumn_run (db : Db) (ds columnId : Int) :
    runStatements Stmt.deleteColumn [sqlite3_bind_int ds, sqlite3_bind_int columnId] db =
      (.ok (), { db with
        columns := db.columns.filter (fun r =>
          !(decide (r.dataSet = ds) && decide (r.id = columnId)))
        log := db.log ++ [Stmt.deleteColumn] }) := by
  simp only [runStatements_run, Stmt.prepare, Stmt.step, if_true, reduceCtorEq, if_false,
    sqlite3_bind_int, paramInt, List.getElem?_cons_zero, List.getElem?_cons_succ,
    Option.some.injEq]

theorem columnIndexDecrements_run (cv : SqliteConv) (db : Db) (ds i : Int)
    (hnone : ∀ c ∈ db.columns, ¬ (c.dataSet = ds ∧ c.colIdx = i)) :
    columnIndexDecrements cv ds i db =
      (.ok (), { db with
        columns := db.columns.map (fun r =>
          if r.dataSet = ds ∧ i < r.colIdx then { r with colIdx := r.colIdx - 1 } else r)
        log := db.log ++ [Stmt.selectColumnIdForIndex, Stmt.decrementColIdx ds i] }) := by
  simp only [columnIndexDecrements, M.bind_run, columnIdForIndex_none cv db ds i hnone,
    beq_self_eq_true, if_true, runStatements_run, Stmt.prepare, Stmt.step, reduceCtorEq, if_false,
    List.append_assoc, List.singleton_append]

/-- The columns registry after `columnDelete(columnId, true)` of a column of dataset
`ds` at position `i`: its row is gone and the columns of the dataset at a position
above `i` moved down by one. -/
theorem columnDelete_run (cv : SqliteConv) (db : Db) (columnId : Int) (c : ColumnsRow)
    (t : PhysTable)
    (hread : db.transactionReadDepth = 0)
    (hkey : (db.columns.map (fun x => x.id)).Nodup)
    (hfind : db.columns.find? (fun x => decide (x.id = columnId)) = some c)
    (hds : inInt32 c.dataSet) (hidx : inInt32 c.colIdx)
    (ht : db.table c.dataSet = some t)
    (hdbl : SlotName.colDbl columnId ∈ t.slots) (hint : SlotName.colInt columnId ∈ t.slots)
    (huniq : ∀ c' ∈ db.columns, c'.dataSet = c.dataSet → c'.colIdx = c.colIdx →
      c'.id = columnId) :
    columnDelete cv columnId true db =
      (.ok (), { db with
        columns := (db.columns.filter (fun r =>
            !(decide (r.dataSet = c.dataSet) && decide (r.id = columnId)))).map (fun r =>
          if r.dataSet = c.dataSet ∧ c.colIdx < r.colIdx then { r with colIdx := r.colIdx - 1 }
          else r)
        tables := ((db.setTable c.dataSet (t.dropSlot (SlotName.colDbl columnId))).setTable
          c.dataSet ((t.dropSlot (SlotName.colDbl columnId)).dropSlot
            (SlotName.colInt columnId))).tables
        log := db.log ++ inWriteTransaction db.transactionWriteDepth
          [Stmt.selectColumnDataSet columnId, Stmt.selectColIdx,
            Stmt.dropSlot c.dataSet (SlotName.colDbl columnId),
            Stmt.dropSlot c.dataSet (SlotName.colInt columnId),
            Stmt.deleteColumn, Stmt.selectColumnIdForIndex,
            Stmt.decrementColIdx c.dataSet c.colIdx] }) := by
  have hds' := toInt32_of_inInt32 _ hds
  have hidx' := toInt32_of_inInt32 _ hidx
  unfold columnDelete
  simp only [M.bind_run, if_true]
  rw [transactionWriteBegin_run db hread]
  simp only []
  rw [columnGetDataSetId_run cv _ columnId c ?_ ?_]
  rotate_left
  · exact hkey
  · exact hfind
  simp only []
  rw [columnIndexForId_run cv _ columnId c ?_ ?_]
  rotate_left
  · exact hkey
  · exact hfind
  simp only [hds', hidx']
  rw [dropSlot_run _ c.dataSet (SlotName.colDbl columnId) t ?_ hdbl]
  rotate_left
  · exact ht
  simp only []
  rw [dropSlot_run _ c.dataSet (SlotName.colInt columnId)
    (t.dropSlot (SlotName.colDbl columnId)) ?_ ?_]
  rotate_left
  · exact table_setTable db c.dataSet t _ ht
  · simp only [PhysTable.dropSlot, List.mem_filter]
    exact ⟨hint, by simp⟩
  simp only []
  rw [deleteColumn_run]
  simp only []
  rw [columnIndexDecrements_run cv _ c.dataSet c.colIdx ?_]
  rotate_left
  · intro c' hc' hcc
    simp only [List.mem_filter, Bool.not_eq_true', Bool.and_eq_false_iff, decide_eq_false_iff_not]
      at hc'
    have := huniq c' hc'.1 hcc.1 hcc.2
    rcases hc'.2 with h | h
    · exact h hcc.1
    · exact h this
  simp only []
  rw [transactionWriteEnd_run _ (by simp)]
  simp only [Prod.mk.injEq, true_and, inWriteTransaction, Db.setTable, Nat.add_sub_cancel,
    List.append_assoc, List.singleton_append, List.cons_append, List.nil_append]

theorem eq_of_find_nodup (cols : List ColumnsRow) (columnId : Int) (c r : ColumnsRow)
    (hkey : (cols.map (fun x => x.id)).Nodup)
    (hfind : cols.find? (fun x => decide (x.id = columnId)) = some c)
    (hr : r ∈ cols) (hid : r.id = columnId) : r = c := by
  have hc : c ∈ cols := List.mem_of_find?_eq_some hfind
  have hcid : c.id = columnId := by simpa using List.find?_some hfind
  exact List.inj_on_of_nodup_map hkey hr hc (hid.trans hcid.symm)

theorem filter_ne_length {ρ : Type} (g : ρ → Int) (l : List ρ) (a : ρ)
    (hnd : (l.map g).Nodup) (ha : a ∈ l) :
    (l.filter (fun r => !decide (g r = g a))).length + 1 = l.length := by
  induction l with
  | nil => simp at ha
  | cons x rest ih =>
    simp only [List.map_cons, List.nodup_cons] at hnd
    by_cases hx : g x = g a
    · have hrest : ∀ r ∈ rest, g r ≠ g a := by
        intro r hr h
        apply hnd.1
        rw [hx, ← h]
        exact List.mem_map_of_mem g hr
      have hall : rest.filter (fun r => !decide (g r = g a)) = rest := by
        rw [List.filter_eq_self]
        intro r hr
        simp [hrest r hr]
      simp [List.filter_cons, hx, hall]
    · have ha' : a ∈ rest := by
        rcases List.mem_cons.mp ha with h | h
        · exact absurd (by rw [h]) hx
        · exact h
      simp [List.filter_cons, hx, ih hnd.2 ha']

theorem shiftDown_dataSet (ds i : Int) (r : ColumnsRow) :
    (r.shiftDown ds i).dataSet = r.dataSet := by
  unfold ColumnsRow.shiftDown
  split <;> rfl

theorem shiftDown_id (ds i : Int) (r : ColumnsRow) : (r.shiftDown ds i).id = r.id := by
  unfold ColumnsRow.shiftDown
  split <;> rfl

/-- The position indices of a dataset after one of its columns was removed and the
columns above it moved down. -/
theorem colIndices_after_delete (cols : List ColumnsRow) (ds i columnId : Int) :
    (((cols.filter (fun r => !decide (r.id = columnId))).map (ColumnsRow.shiftDown ds i)).filter
        (fun r => decide (r.dataSet = ds))).map (fun r => r.colIdx)
      = (((cols.filter (fun r => decide (r.dataSet = ds))).filter
          (fun r => !decide (r.id = columnId))).map (fun r => r.colIdx)).map
        (fun x => if i < x then x - 1 else x) := by
  induction cols with
  | nil => rfl
  | cons a rest ih =>
    by_cases h1 : a.id = columnId <;> by_cases h2 : a.dataSet = ds
    · simp [List.filter_cons, h1, h2, ih]
    · simp [List.filter_cons, h1, h2, ih]
    · simp only [List.filter_cons, h1, h2, decide_False, decide_True, Bool.not_false, if_true,
        List.map_cons, shiftDown_dataSet, ih, List.cons.injEq, and_true]
      unfold ColumnsRow.shiftDown
      simp only [h2, true_and]
      split <;> rfl
    · simp only [List.filter_cons, h1, h2, decide_False, Bool.not_false, if_true,
        List.map_cons, shiftDown_dataSet, if_false, Bool.false_eq_true]
      exact ih

/-- Removing one column of a dataset with dense position indices and moving the
columns above it down leaves dense position indices. -/
theorem dense_after_delete (cols : List ColumnsRow) (columnId : Int) (c : ColumnsRow) (n : Nat)
    (hkey : (cols.map (fun x => x.id)).Nodup)
    (hfind : cols.find? (fun x => decide (x.id = columnId)) = some c)
    (hlen : ((cols.filter (fun r => decide (r.dataSet = c.dataSet))).map
      (fun r => r.colIdx)).length = n)
    (hnd : ((cols.filter (fun r => decide (r.dataSet = c.dataSet))).map
      (fun r => r.colIdx)).Nodup)
    (hbd : ∀ x : Int, x ∈ (cols.filter (fun r => decide (r.dataSet = c.dataSet))).map
      (fun r => r.colIdx) → 0 ≤ x ∧ x < (n : Int)) :
    ((((cols.filter (fun r => decide (r.dataSet = c.dataSet))).filter
          (fun r => !decide (r.id = columnId))).map (fun r => r.colIdx)).map
        (fun x => if c.colIdx < x then x - 1 else x)).length = n - 1 ∧
    ((((cols.filter (fun r => decide (r.dataSet = c.dataSet))).filter
          (fun r => !decide (r.id = columnId))).map (fun r => r.colIdx)).map
        (fun x => if c.colIdx < x then x - 1 else x)).Nodup ∧
    ∀ x ∈ ((((cols.filter (fun r => decide (r.dataSet = c.dataSet))).filter
          (fun r => !decide (r.id = columnId))).map (fun r => r.colIdx)).map
        (fun x => if c.colIdx < x then x - 1 else x)), 0 ≤ x ∧ x < ((n - 1 : Nat) : Int) := by
  have hc : c ∈ cols := List.mem_of_find?_eq_some hfind
  have hcid : c.id = columnId := by simpa using List.find?_some hfind
  generalize hD : cols.filter (fun r => decide (r.dataSet = c.dataSet)) = D at hlen hnd hbd ⊢
  have hcD : c ∈ D := by
    rw [← hD]
    simp [List.mem_filter, hc]
  have hDkey : (D.map (fun x => x.id)).Nodup := by
    rw [← hD]
    exact hkey.sublist (List.Sublist.map _ (List.filter_sublist _))
  have hi : 0 ≤ c.colIdx ∧ c.colIdx < n := hbd _ (List.mem_map_of_mem (fun r => r.colIdx) hcD)
  have hMlen : (D.filter (fun r => !decide (r.id = columnId))).length + 1 = D.length := by
    have := filter_ne_length (fun r : ColumnsRow => r.id) D c hDkey hcD
    simpa [hcid] using this
  have hsub : ((D.filter (fun r => !decide (r.id = columnId))).map (fun r => r.colIdx)).Sublist
      (D.map (fun r => r.colIdx)) := List.Sublist.map _ (List.filter_sublist _)
  have hnotin : ∀ x ∈ (D.filter (fun r => !decide (r.id = columnId))).map (fun r => r.colIdx),
      x ≠ c.colIdx := by
    intro x hx hxi
    obtain ⟨r, hr, hrx⟩ := List.mem_map.mp hx
    simp only [List.mem_filter, Bool.not_eq_true', decide_eq_false_iff_not] at hr
    have : r = c := List.inj_on_of_nodup_map hnd hr.1 hcD (hrx.trans hxi)
    exact hr.2 (by rw [this]; exact hcid)
  rw [List.length_map] at hlen
  refine ⟨?_, ?_, ?_⟩
  · rw [List.length_map, List.length_map]
    omega
  · refine List.Nodup.map_on ?_ (hnd.sublist hsub)
    intro x hx y hy hxy
    have hx' := hnotin x hx
    have hy' := hnotin y hy
    split at hxy <;> split at hxy <;> omega
  · intro y hy
    obtain ⟨x, hx, rfl⟩ := List.mem_map.mp hy
    have hx' := hnotin x hx
    have hxb := hbd x (hsub.subset hx)
    split <;> omega

/-- C11: for a column `c` with id `columnId` of a dataset with `n` densely indexed
columns, `columnDelete(columnId, true)` returns; the registry then holds the other
rows in their order, those of the dataset above the position of `c` moved down by
one and all others unchanged; the physical table lost the two slots of the column;
all statements were issued inside one write transaction, left at the depth it was
entered at; and the position indices of the dataset are those of `n - 1` densely
indexed columns. -/
theorem columnDelete_tightens (cv : SqliteConv) (db : Db) (columnId : Int) (c : ColumnsRow)
    (t : PhysTable) (n : Nat)
    (hread : db.transactionReadDepth = 0)
    (hkey : (db.columns.map (fun x => x.id)).Nodup)
    (hfind : db.columns.find? (fun x => decide (x.id = columnId)) = some c)
    (hds : inInt32 c.dataSet) (hidx : inInt32 c.colIdx)
    (ht : db.table c.dataSet = some t)
    (hdbl : SlotName.colDbl columnId ∈ t.slots) (hint : SlotName.colInt columnId ∈ t.slots)
    (hdense : db.DenseIndices c.dataSet n) :
    (columnDelete cv columnId true db).1 = .ok () ∧
    (columnDelete cv columnId true db).2.columns =
      (db.columns.filter (fun r => !decide (r.id = columnId))).map
        (ColumnsRow.shiftDown c.dataSet c.colIdx) ∧
    ((columnDelete cv columnId true db).2.table c.dataSet).map (fun t => t.slots) =
      some (t.slots.filter (fun s =>
        !decide (s = SlotName.colDbl columnId) && !decide (s = SlotName.colInt columnId))) ∧
    (columnDelete cv columnId true db).2.log = db.log ++
      inWriteTransaction db.transactionWriteDepth
        [Stmt.selectColumnDataSet columnId, Stmt.selectColIdx,
          Stmt.dropSlot c.dataSet (SlotName.colDbl columnId),
          Stmt.dropSlot c.dataSet (SlotName.colInt columnId),
          Stmt.deleteColumn, Stmt.selectColumnIdForIndex,
          Stmt.decrementColIdx c.dataSet c.colIdx] ∧
    (columnDelete cv columnId true db).2.transactionWriteDepth = db.transactionWriteDepth ∧
    (columnDelete cv columnId true db).2.DenseIndices c.dataSet (n - 1) := by
  have hc : c ∈ db.columns := List.mem_of_find?_eq_some hfind
  have hcid : c.id = columnId := by simpa using List.find?_some hfind
  obtain ⟨hlen, hnd, hbd⟩ := hdense
  unfold Db.colIndices at hlen hnd hbd
  have huniq : ∀ c' ∈ db.columns, c'.dataSet = c.dataSet → c'.colIdx = c.colIdx →
      c'.id = columnId := by
    intro c' hc' h1 h2
    have : c' = c := List.inj_on_of_nodup_map hnd
      (by simp [List.mem_filter, hc', h1]) (by simp [List.mem_filter, hc]) h2
    rw [this]
    exact hcid
  have hfilter : db.columns.filter (fun r =>
        !(decide (r.dataSet = c.dataSet) && decide (r.id = columnId)))
      = db.columns.filter (fun r => !decide (r.id = columnId)) := by
    apply List.filter_congr
    intro r hr
    by_cases h : r.id = columnId
    · have := eq_of_find_nodup db.columns columnId c r hkey hfind hr h
      simp [h, this]
    · simp [h]
  rw [columnDelete_run cv db columnId c t hread hkey hfind hds hidx ht hdbl hint huniq]
  refine ⟨rfl, ?_, ?_, rfl, rfl, ?_⟩
  · show List.map _ (List.filter _ db.columns) = _
    rw [hfilter]
    rfl
  · have h1 := table_setTable db c.dataSet t (t.dropSlot (SlotName.colDbl columnId)) ht
    have h2 := table_setTable _ c.dataSet _
      ((t.dropSlot (SlotName.colDbl columnId)).dropSlot (SlotName.colInt columnId)) h1
    show Option.map _ (Db.table _ c.dataSet) = _
    unfold Db.table at h2 ⊢
    rw [h2]
    simp [PhysTable.dropSlot, List.filter_filter, Bool.and_comm]
  · unfold Db.DenseIndices Db.colIndices
    show (List.map _ (List.filter _ (List.map _ (List.filter _ db.columns)))).length = _ ∧ _
    rw [hfilter]
    have := colIndices_after_delete db.columns c.dataSet c.colIdx columnId
    unfold ColumnsRow.shiftDown at this
    rw [this]
    exact dense_after_delete db.columns columnId c n hkey hfind hlen hnd hbd

/-- C11 at column 8, the middle one of the three columns of `sampleStoreThree`. -/
theorem columnDelete_tightens_witness :
    (columnDelete sampleConv 8 true sampleStoreThree).1 = .ok () ∧
    (columnDelete sampleConv 8 true sampleStoreThree).2.columns =
      (sampleStoreThree.columns.filter (fun r => !decide (r.id = 8))).map
        (ColumnsRow.shiftDown 1 1) ∧
    (columnDelete sampleConv 8 true sampleStoreThree).2.DenseIndices 1 (3 - 1) :=
  (fun h => ⟨h.1, h.2.1, h.2.2.2.2.2⟩)
    (columnDelete_tightens sampleConv sampleStoreThree 8 ⟨8, 1, "b", 1, 0⟩ sampleTableThree 3
      rfl (by decide) (by decide) (by decide) (by decide) rfl (by decide) (by decide)
      ⟨by decide, by decide, by decide⟩)

/-! ### Inserting a column and removing it again -/

/-- Among dense position indices every position below the count is in use. -/
theorem dense_mem (L : List Int) (n : Nat) (hlen : L.length = n) (hnd : L.Nodup)
    (hbd : ∀ x ∈ L, 0 ≤ x ∧ x < (n : Int)) (i : Nat) (hi : i < n) : (i : Int) ∈ L := by
  have hsub : L.toFinset ⊆ (Finset.range n).image (fun k : Nat => (k : Int)) := by
    intro x hx
    have hx' := hbd x (List.mem_toFinset.mp hx)
    refine Finset.mem_image.mpr ⟨x.toNat, Finset.mem_range.mpr ?_, ?_⟩
    · omega
    · exact Int.toNat_of_nonneg hx'.1
  have hcard : ((Finset.range n).image (fun k : Nat => (k : Int))).card ≤ L.toFinset.card := by
    rw [List.toFinset_card_of_nodup hnd, hlen]
    exact le_trans Finset.card_image_le (by simp)
  have heq := Finset.eq_of_subset_of_card_le hsub hcard
  have : (i : Int) ∈ L.toFinset := by
    rw [heq]
    exact Finset.mem_image.mpr ⟨i, Finset.mem_range.mpr hi, rfl⟩
  exact List.mem_toFinset.mp this

theorem foldl_id_ne (cv : SqliteConv) (rows : List ColumnsRow)
    (hids : ∀ c ∈ rows, 0 < c.id ∧ c.id < 2147483648) (hne : rows ≠ []) :
    ∀ (k : Nat) (init : Int),
      ((rows.map (fun r => [SqlValue.integer r.id])).enumFrom k).foldl
        (fun id p => if p.2.length ≠ 0 then sqlite3_column_int cv (p.2.getD 0 .null) else id) init
        ≠ -1 := by
  induction rows with
  | nil => exact absurd rfl hne
  | cons a rest ih =>
    intro k init
    have ha := hids a (List.mem_cons_self _ _)
    have hconv : sqlite3_column_int cv (SqlValue.integer a.id) = a.id :=
      toInt32_of_inInt32 _ ⟨by omega, ha.2⟩
    by_cases hrest : rest = []
    · subst hrest
      simp only [List.map_cons, List.map_nil, List.enumFrom_cons, List.enumFrom_nil,
        List.foldl_cons, List.foldl_nil, List.length_singleton, ne_eq, one_ne_zero,
        not_false_eq_true, if_true, List.getD_cons_zero, hconv]
      omega
    · simp only [List.map_cons, List.enumFrom_cons, List.foldl_cons]
      exact ih (fun c hc => hids c (List.mem_cons_of_mem _ hc)) hrest (k + 1) _

theorem columnIdForIndex_some (cv : SqliteConv) (db : Db) (ds i : Int)
    (hids : ∀ c ∈ db.columns, 0 < c.id ∧ c.id < 2147483648)
    (hsome : ∃ c ∈ db.columns, c.dataSet = ds ∧ c.colIdx = i) :
    ∃ id, id ≠ -1 ∧ columnIdForIndex cv ds i db =
      (.ok id, { db with log := db.log ++ [Stmt.selectColumnIdForIndex] }) := by
  have hrun := runStatementsId_run cv Stmt.selectColumnIdForIndex
    [sqlite3_bind_int ds, sqlite3_bind_int i] db
  simp only [Stmt.prepare, Stmt.step, if_true, reduceCtorEq, if_false, sqlite3_bind_int,
    paramInt, List.getElem?_cons_zero, List.getElem?_cons_succ] at hrun
  refine ⟨_, ?_, hrun⟩
  apply foldl_id_ne
  · intro c hc
    exact hids c (List.mem_of_mem_filter hc)
  · obtain ⟨c, hc, h1, h2⟩ := hsome
    apply List.ne_nil_of_mem (a := c)
    simp [List.mem_filter, hc, h1, h2]

theorem columnIndexIncrements_run (cv : SqliteConv) (db : Db) (ds i : Int)
    (hids : ∀ c ∈ db.columns, 0 < c.id ∧ c.id < 2147483648) :
    columnIndexIncrements cv ds i db =
      (.ok (), { db with
        columns := if (∃ c ∈ db.columns, c.dataSet = ds ∧ c.colIdx = i) then
            db.columns.map (ColumnsRow.shiftUp ds i) else db.columns
        log := db.log ++ (Stmt.selectColumnIdForIndex ::
          if (∃ c ∈ db.columns, c.dataSet = ds ∧ c.colIdx = i) then
            [Stmt.incrementColIdx ds i] else []) }) := by
  by_cases h : ∃ c ∈ db.columns, c.dataSet = ds ∧ c.colIdx = i
  · obtain ⟨id, hid, hrun⟩ := columnIdForIndex_some cv db ds i hids h
    have hb : (id != -1) = true := by simpa using hid
    simp only [columnIndexIncrements, M.bind_run, hrun, hb, if_true, runStatements_run,
      Stmt.prepare, Stmt.step, reduceCtorEq, if_false, h, List.append_assoc,
      List.singleton_append]
    rfl
  · have hnone : ∀ c ∈ db.columns, ¬ (c.dataSet = ds ∧ c.colIdx = i) := by
      intro c hc hcc
      exact h ⟨c, hc, hcc⟩
    simp only [columnIndexIncrements, M.bind_run, columnIdForIndex_none cv db ds i hnone, h,
      if_false, pure, M.pure]
    rfl

theorem shiftUp_id (ds i : Int) (r : ColumnsRow) : (r.shiftUp ds i).id = r.id := by
  unfold ColumnsRow.shiftUp
  split <;> rfl

theorem shiftUp_dataSet (ds i : Int) (r : ColumnsRow) :
    (r.shiftUp ds i).dataSet = r.dataSet := by
  unfold ColumnsRow.shiftUp
  split <;> rfl

theorem ids_shiftUp (cols : List ColumnsRow) (ds i : Int) (P : Prop) [Decidable P] :
    (if P then cols.map (ColumnsRow.shiftUp ds i) else cols).map (fun r => r.id)
      = cols.map (fun r => r.id) := by
  split
  · rw [List.map_map]
    apply List.map_congr_left
    intro r _
    exact shiftUp_id ds i r
  · rfl

theorem addSlot_run (db : Db) (ds : Int) (slot : SlotName) (t : PhysTable)
    (ht : db.table ds = some t) (hs : slot ∉ t.slots) :
    runStatements (Stmt.addSlot ds slot) [] db =
      (.ok (), { db with
        tables := (db.setTable ds (t.addSlot slot)).tables
        log := db.log ++ [Stmt.addSlot ds slot] }) := by
  have ht' : ({ db with log := db.log ++ [Stmt.addSlot ds slot] } : Db).table ds = some t := ht
  simp only [runStatements_run, Stmt.prepare, Stmt.step, ht', hs, decide_False, Bool.not_false,
    if_true, reduceCtorEq, if_false]
  rfl

theorem insertColumn_run (cv : SqliteConv) (db : Db) (ds i : Int) (name colType : String)
    (hnew : inInt32 (nextRowId (db.columns.map (fun r => r.id)))) :
    runStatementsId cv Stmt.insertColumn
        [sqlite3_bind_int ds, sqlite3_bind_text name, sqlite3_bind_text colType,
          sqlite3_bind_int i] db =
      (.ok (nextRowId (db.columns.map (fun r => r.id))), { db with
        columns := db.columns ++
          [⟨nextRowId (db.columns.map (fun r => r.id)), ds, name, i, 0⟩]
        log := db.log ++ [Stmt.insertColumn] }) := by
  simp only [runStatementsId_run, Stmt.prepare, Stmt.step, if_true, reduceCtorEq, if_false,
    foldl_last_id, sqlite3_bind_int, sqlite3_bind_text, paramInt, paramText,
    List.getElem?_cons_zero, List.getElem?_cons_succ, Option.getD_some]
  simp only [sqlite3_column_int, toInt32_of_inInt32 _ hnew]

/-- The store after `columnInsert` at a position `i` other than -1, with
`alterTable`: the columns of the dataset at position `i` or above moved up by one
when position `i` was in use, the new column is registered at position `i`, and
the physical table gained its two slots. -/
theorem columnInsert_run (cv : SqliteConv) (db : Db) (ds i : Int) (name colType : String)
    (t : PhysTable)
    (hread : db.transactionReadDepth = 0)
    (hids : ∀ c ∈ db.columns, 0 < c.id ∧ c.id < 2147483648)
    (hi : i ≠ -1) (ht : db.table ds = some t)
    (hnew : inInt32 (nextRowId (db.columns.map (fun r => r.id))))
    (hdbl : SlotName.colDbl (nextRowId (db.columns.map (fun r => r.id))) ∉ t.slots)
    (hint : SlotName.colInt (nextRowId (db.columns.map (fun r => r.id))) ∉ t.slots) :
    columnInsert cv ds i name colType true db =
      (.ok (nextRowId (db.columns.map (fun r => r.id))), { db with
        columns := (if (∃ c ∈ db.columns, c.dataSet = ds ∧ c.colIdx = i) then
            db.columns.map (ColumnsRow.shiftUp ds i) else db.columns) ++
          [⟨nextRowId (db.columns.map (fun r => r.id)), ds, name, i, 0⟩]
        tables := ((db.setTable ds (t.addSlot
            (SlotName.colDbl (nextRowId (db.columns.map (fun r => r.id)))))).setTable ds
          ((t.addSlot (SlotName.colDbl (nextRowId (db.columns.map (fun r => r.id))))).addSlot
            (SlotName.colInt (nextRowId (db.columns.map (fun r => r.id)))))).tables
        log := db.log ++ inWriteTransaction db.transactionWriteDepth
          ((Stmt.selectColumnIdForIndex ::
            if (∃ c ∈ db.columns, c.dataSet = ds ∧ c.colIdx = i) then
              [Stmt.incrementColIdx ds i] else []) ++
            [Stmt.insertColumn,
              Stmt.addSlot ds (SlotName.colDbl (nextRowId (db.columns.map (fun r => r.id)))),
              Stmt.addSlot ds (SlotName.colInt (nextRowId (db.columns.map (fun r => r.id))))]) }) := by
  have hib : (i == -1) = false := by simpa using hi
  unfold columnInsert
  simp only [M.bind_run, hib, Bool.false_eq_true, if_false, if_true]
  rw [transactionWriteBegin_run db hread]
  simp only []
  rw [columnIndexIncrements_run cv _ ds i ?_]
  rotate_left
  · exact hids
  simp only [pure, M.pure]
  rw [insertColumn_run cv _ ds i name colType ?_]
  rotate_left
  · show inInt32 (nextRowId (List.map _ (if _ then _ else _)))
    rw [ids_shiftUp]
    exact hnew
  simp only [ids_shiftUp]
  rw [addSlot_run _ ds (SlotName.colDbl (nextRowId (db.columns.map (fun r => r.id)))) t ?_ hdbl]
  rotate_left
  · exact ht
  simp only []
  rw [addSlot_run _ ds (SlotName.colInt (nextRowId (db.columns.map (fun r => r.id))))
    (t.addSlot (SlotName.colDbl (nextRowId (db.columns.map (fun r => r.id))))) ?_ ?_]
  rotate_left
  · exact table_setTable db ds t _ ht
  · simp only [PhysTable.addSlot, List.mem_append, List.mem_singleton, not_or]
    exact ⟨hint, by simp⟩
  simp only []
  rw [transactionWriteEnd_run _ (by simp)]
  simp only [Prod.mk.injEq, true_and, inWriteTransaction, Db.setTable, Nat.add_sub_cancel,
    List.append_assoc, List.singleton_append, List.cons_append, List.nil_append]

theorem DataSet_incRevision_frame (cv : SqliteConv) (data : DataSet) (db : Db) (r : Int)
    (hb : data._writeBatchedToDB = false) (hid : 0 < data._dataSetID)
    (hread : db.transactionReadDepth = 0)
    (hkey : (db.dataSets.map (fun x => x.id)).Nodup)
    (hrev : db.dataSetRevision data._dataSetID = some r) :
    ∃ db', DataSet.incRevision cv data db
        = (.ok { data with _revision := toInt32 (r + 1) }, db') ∧
      db'.columns = db.columns ∧ db'.tables = db.tables ∧ db'.transactionReadDepth = 0 ∧
      db'.dataSets.map (fun x => x.id) = db.dataSets.map (fun x => x.id) ∧
      db'.dataSetRevision data._dataSetID = some (r + 1) := by
  obtain ⟨db', hrun, hbump, _⟩ := DataSet_incRevision_bumped cv data db r hb hid hread hkey hrev
  have hne : (data._dataSetID != -1) = true := by
    simp only [bne_iff_ne, ne_eq]
    omega
  have hrun' := hrun
  simp only [DataSet.incRevision, M.bind_run, hne, cAssert, if_true, pure, M.pure, hb,
    Bool.not_false, dataSetIncRevision_run cv db data._dataSetID r hread hkey hrev,
    Prod.mk.injEq, true_and] at hrun'
  subst hrun'
  refine ⟨_, hrun, rfl, rfl, hread, hbump.ids, ?_⟩
  obtain ⟨r', h1, _, h3⟩ := hbump.revision r hrev
  have := revision_map_dataSets db data._dataSetID data._dataSetID
  simp only [Db.dataSetRevision] at hrev ⊢
  rw [this]
  simp [Db.dataSetRevision, hrev]

theorem le_of_maxInt (l : List Int) (m : Int) (h : maxInt? l = some m) : ∀ x ∈ l, x ≤ m := by
  induction l generalizing m with
  | nil => simp
  | cons a rest ih =>
    intro x hx
    simp only [maxInt?] at h
    rcases hrest : maxInt? rest with _ | m'
    · rw [hrest] at h
      simp only [Option.some.injEq] at h
      have hnil : rest = [] := by
        cases rest with
        | nil => rfl
        | cons b rest' =>
          simp only [maxInt?] at hrest
          split at hrest <;> simp at hrest
      subst hnil
      simp only [List.mem_singleton] at hx
      omega
    · rw [hrest] at h
      simp only [Option.some.injEq] at h
      have := ih m' hrest
      rcases List.mem_cons.mp hx with rfl | hx'
      · split at h <;> omega
      · have := this x hx'
        split at h <;> omega

theorem nextRowId_not_mem (l : List Int) : nextRowId l ∉ l := by
  intro h
  unfold nextRowId at h
  rcases hm : maxInt? l with _ | m
  · cases l with
    | nil => simp at h
    | cons b rest =>
      simp only [maxInt?] at hm
      split at hm <;> simp at hm
  · rw [hm] at h
    have := le_of_maxInt l m hm _ h
    simp only at this
    omega

theorem getElem?_insert_at {α : Type} (l : List α) (x : α) (i : Nat) (h : i ≤ l.length) :
    (l.take i ++ x :: l.drop i)[i]? = some x := by
  rw [List.getElem?_append_right (by simp [h])]
  simp [h]

theorem eraseIdx_insert_at {α : Type} (l : List α) (x : α) (i : Nat) (h : i ≤ l.length) :
    (l.take i ++ x :: l.drop i).eraseIdx i = l := by
  rw [List.eraseIdx_append_of_length_le (by simp [h])]
  simp [h]

theorem shiftDown_shiftUp (ds i : Int) (r : ColumnsRow) :
    (r.shiftUp ds i).shiftDown ds i = r := by
  unfold ColumnsRow.shiftUp
  split
  · rename_i h
    unfold ColumnsRow.shiftDown
    rw [if_pos ⟨h.1, by show i < r.colIdx + 1; omega⟩]
    cases r
    simp
  · rename_i h
    unfold ColumnsRow.shiftDown
    rw [if_neg]
    intro h'
    exact h ⟨h'.1, le_of_lt h'.2⟩

/-- The registry after `columnInsert` at position `i` followed by `columnDelete`
of the new column, for dense position indices: the rows that were there before. -/
theorem columns_restored (cols : List ColumnsRow) (ds : Int) (i n : Nat) (newId : Int)
    (name : String)
    (hnew : newId ∉ cols.map (fun r => r.id))
    (hlen : ((cols.filter (fun r => decide (r.dataSet = ds))).map (fun r => r.colIdx)).length = n)
    (hnd : ((cols.filter (fun r => decide (r.dataSet = ds))).map (fun r => r.colIdx)).Nodup)
    (hbd : ∀ x : Int, x ∈ (cols.filter (fun r => decide (r.dataSet = ds))).map
      (fun r => r.colIdx) → 0 ≤ x ∧ x < (n : Int))
    (hi : i ≤ n) :
    (((if (∃ c ∈ cols, c.dataSet = ds ∧ c.colIdx = (i : Int)) then
          cols.map (ColumnsRow.shiftUp ds i) else cols) ++
        [(⟨newId, ds, name, i, 0⟩ : ColumnsRow)]).filter (fun r => !decide (r.id = newId))).map
      (ColumnsRow.shiftDown ds i) = cols := by
  have hkeep : ∀ (l : List ColumnsRow), (∀ r ∈ l, r.id ≠ newId) →
      (l ++ [(⟨newId, ds, name, i, 0⟩ : ColumnsRow)]).filter (fun r => !decide (r.id = newId))
        = l := by
    intro l hl
    rw [List.filter_append]
    have h1 : l.filter (fun r => !decide (r.id = newId)) = l := by
      rw [List.filter_eq_self]
      intro r hr
      simp [hl r hr]
    rw [h1]
    simp
  have hcols : ∀ r ∈ cols, r.id ≠ newId := by
    intro r hr h
    exact hnew (List.mem_map.mpr ⟨r, hr, h⟩)
  by_cases hex : ∃ c ∈ cols, c.dataSet = ds ∧ c.colIdx = (i : Int)
  · rw [if_pos hex, hkeep]
    · rw [List.map_map]
      conv_rhs => rw [← List.map_id cols]
      apply List.map_congr_left
      intro r _
      exact shiftDown_shiftUp ds i r
    · intro r hr
      obtain ⟨r0, hr0, rfl⟩ := List.mem_map.mp hr
      rw [shiftUp_id]
      exact hcols r0 hr0
  · rw [if_neg hex, hkeep cols hcols]
    conv_rhs => rw [← List.map_id cols]
    apply List.map_congr_left
    intro r hr
    unfold ColumnsRow.shiftDown
    rw [if_neg]
    · rfl
    · intro h
      have hmem : r.colIdx ∈ (cols.filter (fun r => decide (r.dataSet = ds))).map
          (fun r => r.colIdx) :=
        List.mem_map.mpr ⟨r, by simp [List.mem_filter, hr, h.1], rfl⟩
      have hb := hbd _ hmem
      have hin : i < n := by omega
      have := dense_mem _ n hlen hnd hbd i hin
      obtain ⟨c, hc, hci⟩ := List.mem_map.mp this
      simp only [List.mem_filter, decide_eq_true_eq] at hc
      exact hex ⟨c, hc.1, hc.2, hci⟩

theorem columnDelete_frame (cv : SqliteConv) (db : Db) (columnId : Int) (c : ColumnsRow)
    (t : PhysTable)
    (hread : db.transactionReadDepth = 0)
    (hkey : (db.columns.map (fun x => x.id)).Nodup)
    (hfind : db.columns.find? (fun x => decide (x.id = columnId)) = some c)
    (hds : inInt32 c.dataSet) (hidx : inInt32 c.colIdx)
    (ht : db.table c.dataSet = some t)
    (hdbl : SlotName.colDbl columnId ∈ t.slots) (hint : SlotName.colInt columnId ∈ t.slots)
    (huniq : ∀ c' ∈ db.columns, c'.dataSet = c.dataSet → c'.colIdx = c.colIdx →
      c'.id = columnId) :
    ∃ db', columnDelete cv columnId true db = (.ok (), db') ∧
      db'.columns = (db.columns.filter (fun r => !decide (r.id = columnId))).map
        (ColumnsRow.shiftDown c.dataSet c.colIdx) ∧
      db'.dataSets = db.dataSets ∧ db'.transactionReadDepth = 0 := by
  have hfilter : db.columns.filter (fun r =>
        !(decide (r.dataSet = c.dataSet) && decide (r.id = columnId)))
      = db.columns.filter (fun r => !decide (r.id = columnId)) := by
    apply List.filter_congr
    intro r hr
    by_cases h : r.id = columnId
    · have := eq_of_find_nodup db.columns columnId c r hkey hfind hr h
      simp [h, this]
    · simp [h]
  refine ⟨_, columnDelete_run cv db columnId c t hread hkey hfind hds hidx ht hdbl hint huniq,
    ?_, rfl, hread⟩
  show List.map _ (List.filter _ db.columns) = _
  rw [hfilter]
  rfl

/-- C12: for a loaded dataset outside batched-write mode whose `n` columns are
densely indexed in the store, and a position `i` not beyond the column count,
`insertColumn(i)` followed by `removeColumn(i)` both return, and afterwards the
columns registry holds exactly the rows it held before, each with the position
index it had, and the in-memory column list is the original one. -/
theorem insert_remove_restores (cv : SqliteConv) (data : DataSet) (db : Db) (i n : Nat)
    (t : PhysTable) (r : Int)
    (hb : data._writeBatchedToDB = false) (hid : 0 < data._dataSetID)
    (hds : inInt32 data._dataSetID) (hi32 : inInt32 i)
    (hread : db.transactionReadDepth = 0)
    (hkeyD : (db.dataSets.map (fun x => x.id)).Nodup)
    (hrev : db.dataSetRevision data._dataSetID = some r)
    (hkeyC : (db.columns.map (fun x => x.id)).Nodup)
    (hids : ∀ c ∈ db.columns, 0 < c.id ∧ c.id < 2147483648)
    (hnew : inInt32 (nextRowId (db.columns.map (fun x => x.id))))
    (ht : db.table data._dataSetID = some t)
    (hdbl : SlotName.colDbl (nextRowId (db.columns.map (fun x => x.id))) ∉ t.slots)
    (hint : SlotName.colInt (nextRowId (db.columns.map (fun x => x.id))) ∉ t.slots)
    (hdense : db.DenseIndices data._dataSetID n)
    (hi : i ≤ n) (hlen : i ≤ data._columns.length) :
    ∃ d1 db1 d2 db2,
      DataSet.insertColumn cv data i true db = (.ok d1, db1) ∧
      DataSet.removeColumn cv d1 i db1 = (.ok d2, db2) ∧
      db2.columns = db.columns ∧ d2._columns = data._columns := by
  obtain ⟨hdl, hdn, hdb⟩ := hdense
  unfold Db.colIndices at hdl hdn hdb
  have hidb : decide (data._dataSetID > 0) = true := by simpa using hid
  have hine : ((i : Nat) : Int) ≠ -1 := by omega
  have hins := columnInsert_run cv db data._dataSetID i "" "unknown" t hread hids hine ht hnew
    hdbl hint
  generalize hnewId : nextRowId (db.columns.map (fun x => x.id)) = newId at hins hnew hdbl hint
  have hfresh : newId ∉ db.columns.map (fun x => x.id) := by
    rw [← hnewId]
    exact nextRowId_not_mem _
  generalize hdbA : ({ db with
        columns := (if (∃ c ∈ db.columns, c.dataSet = data._dataSetID ∧ c.colIdx = (i : Int)) then
            db.columns.map (ColumnsRow.shiftUp data._dataSetID i) else db.columns) ++
          [⟨newId, data._dataSetID, "", i, 0⟩]
        tables := ((db.setTable data._dataSetID (t.addSlot (SlotName.colDbl newId))).setTable
          data._dataSetID ((t.addSlot (SlotName.colDbl newId)).addSlot
            (SlotName.colInt newId))).tables
        log := db.log ++ inWriteTransaction db.transactionWriteDepth
          ((Stmt.selectColumnIdForIndex ::
            if (∃ c ∈ db.columns, c.dataSet = data._dataSetID ∧ c.colIdx = (i : Int)) then
              [Stmt.incrementColIdx data._dataSetID i] else []) ++
            [Stmt.insertColumn, Stmt.addSlot data._dataSetID (SlotName.colDbl newId),
              Stmt.addSlot data._dataSetID (SlotName.colInt newId)]) } : Db) = dbA at hins
  have hA_cols : dbA.columns = (if (∃ c ∈ db.columns, c.dataSet = data._dataSetID ∧
        c.colIdx = (i : Int)) then
      db.columns.map (ColumnsRow.shiftUp data._dataSetID i) else db.columns) ++
      [⟨newId, data._dataSetID, "", i, 0⟩] := by rw [← hdbA]
  have hA_ds : dbA.dataSets = db.dataSets := by rw [← hdbA]
  have hA_read : dbA.transactionReadDepth = 0 := by rw [← hdbA]; exact hread
  have hA_table : dbA.table data._dataSetID =
      some ((t.addSlot (SlotName.colDbl newId)).addSlot (SlotName.colInt newId)) := by
    rw [← hdbA]
    have h1 := table_setTable db data._dataSetID t (t.addSlot (SlotName.colDbl newId)) ht
    exact table_setTable _ data._dataSetID _ _ h1
  -- the increment that ends `insertColumn`
  obtain ⟨db1, hinc1, h1c, h1t, h1r, h1ids, h1rev⟩ := DataSet_incRevision_frame cv
    { data with _columns := data._columns.take i ++
        (Column.new newId).setRowCount data._rowCount :: data._columns.drop i }
    dbA r hb hid hA_read (by rw [hA_ds]; exact hkeyD)
    (by unfold Db.dataSetRevision; rw [hA_ds]; exact hrev)
  have hrun1 : DataSet.insertColumn cv data i true db =
      (.ok { data with
        _columns := data._columns.take i ++
          (Column.new newId).setRowCount data._rowCount :: data._columns.drop i
        _revision := toInt32 (r + 1) }, db1) := by
    simp only [DataSet.insertColumn, M.bind_run, cAssert, hidb, if_true, pure, M.pure, hins,
      hlen]
    exact hinc1
  -- the registry row of the new column
  have hshift_ids : ∀ x ∈ (if (∃ c ∈ db.columns, c.dataSet = data._dataSetID ∧
        c.colIdx = (i : Int)) then
      db.columns.map (ColumnsRow.shiftUp data._dataSetID i) else db.columns), x.id ≠ newId := by
    intro x hx h
    apply hfresh
    rw [← h, ← ids_shiftUp db.columns data._dataSetID i
      (∃ c ∈ db.columns, c.dataSet = data._dataSetID ∧ c.colIdx = (i : Int))]
    exact List.mem_map_of_mem (fun r => r.id) hx
  have hkey1 : (db1.columns.map (fun x => x.id)).Nodup := by
    rw [h1c, hA_cols, List.map_append, ids_shiftUp]
    simp only [List.map_cons, List.map_nil]
    rw [List.nodup_append]
    refine ⟨hkeyC, by simp, ?_⟩
    intro a ha hb'
    simp only [List.mem_singleton] at hb'
    subst hb'
    exact hfresh ha
  have hfind1 : db1.columns.find? (fun x => decide (x.id = newId))
      = some ⟨newId, data._dataSetID, "", i, 0⟩ := by
    rw [h1c, hA_cols, List.find?_append]
    have : List.find? (fun x : ColumnsRow => decide (x.id = newId))
        (if (∃ c ∈ db.columns, c.dataSet = data._dataSetID ∧ c.colIdx = (i : Int)) then
          db.columns.map (ColumnsRow.shiftUp data._dataSetID i) else db.columns) = none := by
      rw [List.find?_eq_none]
      intro x hx
      simp [hshift_ids x hx]
    rw [this]
    simp
  have huniq1 : ∀ c' ∈ db1.columns, c'.dataSet = data._dataSetID → c'.colIdx = (i : Int) →
      c'.id = newId := by
    intro c' hc' hcd hci
    rw [h1c, hA_cols, List.mem_append] at hc'
    rcases hc' with hc' | hc'
    · exfalso
      by_cases hex : ∃ c ∈ db.columns, c.dataSet = data._dataSetID ∧ c.colIdx = (i : Int)
      · rw [if_pos hex] at hc'
        obtain ⟨r0, _, rfl⟩ := List.mem_map.mp hc'
        rw [shiftUp_dataSet] at hcd
        unfold ColumnsRow.shiftUp at hci
        split at hci
        · simp only at hci
          omega
        · rename_i hn
          exact hn ⟨hcd, by omega⟩
      · rw [if_neg hex] at hc'
        exact hex ⟨c', hc', hcd, hci⟩
    · simp only [List.mem_singleton] at hc'
      rw [hc']
  obtain ⟨dbB, hdel, hBc, hBds, hBr⟩ := columnDelete_frame cv db1 newId
    ⟨newId, data._dataSetID, "", i, 0⟩
    ((t.addSlot (SlotName.colDbl newId)).addSlot (SlotName.colInt newId))
    h1r hkey1 hfind1 hds hi32 (by unfold Db.table; rw [h1t]; exact hA_table)
    (by simp [PhysTable.addSlot]) (by simp [PhysTable.addSlot]) huniq1
  have hrestored : dbB.columns = db.columns := by
    rw [hBc, h1c, hA_cols]
    exact columns_restored db.columns data._dataSetID i n newId "" hfresh hdl hdn hdb hi
  obtain ⟨db2, hinc2, h2c, _, _, _, _⟩ := DataSet_incRevision_frame cv
    { data with _columns := data._columns, _revision := toInt32 (r + 1) }
    dbB (r + 1) hb hid hBr (by rw [hBds, h1ids, hA_ds]; exact hkeyD)
    (by unfold Db.dataSetRevision at h1rev ⊢; rw [hBds]; exact h1rev)
  refine ⟨_, db1, { data with _columns := data._columns, _revision := toInt32 (r + 1 + 1) },
    db2, hrun1, ?_, by rw [h2c, hrestored], rfl⟩
  simp only [DataSet.removeColumn, M.bind_run, cAssert, hidb, if_true, pure, M.pure,
    getElem?_insert_at _ _ _ hlen, eraseIdx_insert_at _ _ _ hlen, Column.dbDelete]
  have hcid : ((Column.new newId).setRowCount data._rowCount)._id = newId := rfl
  rw [hcid, hdel]
  simp only []
  exact hinc2

/-- C12 at position 1 of the three columns of `sampleStoreThree`. -/
theorem insert_remove_restores_witness :
    ∃ d1 db1 d2 db2,
      DataSet.insertColumn sampleConv sampleMirrorThree 1 true sampleStoreThree = (.ok d1, db1) ∧
      DataSet.removeColumn sampleConv d1 1 db1 = (.ok d2, db2) ∧
      db2.columns = sampleStoreThree.columns ∧ d2._columns = sampleMirrorThree._columns :=
  insert_remove_restores sampleConv sampleMirrorThree sampleStoreThree 1 3 sampleTableThree 4
    rfl (by decide) (by decide) (by decide) rfl (by decide) (by decide) (by decide) (by decide)
    (by decide) rfl (by decide) (by decide) ⟨by decide, by decide, by decide⟩ (by decide)
    (by decide)

/-! ### Setting the row count -/

theorem maxInt_mem (l : List Int) (m : Int) (h : maxInt? l = some m) : m ∈ l := by
  induction l generalizing m with
  | nil => simp [maxInt?] at h
  | cons a rest ih =>
    simp only [maxInt?] at h
    rcases hrest : maxInt? rest with _ | m'
    · rw [hrest] at h
      simp only [Option.some.injEq] at h
      simp [h]
    · rw [hrest] at h
      simp only [Option.some.injEq] at h
      have := ih m' hrest
      split at h
      · subst h
        exact List.mem_cons_of_mem _ this
      · subst h
        exact List.mem_cons_self _ _

theorem maxInt_isSome (l : List Int) (h : l ≠ []) : ∃ m, maxInt? l = some m := by
  cases l with
  | nil => exact absurd rfl h
  | cons a rest =>
    simp only [maxInt?]
    split
    · exact ⟨_, rfl⟩
    · exact ⟨_, rfl⟩

theorem nextRowId_rowNumbersTo (c : Nat) : nextRowId (rowNumbersTo c) = (c : Int) + 1 := by
  unfold nextRowId
  cases c with
  | zero => simp [rowNumbersTo, maxInt?]
  | succ k =>
    obtain ⟨m, hm⟩ := maxInt_isSome (rowNumbersTo (k + 1)) (by simp [rowNumbersTo])
    rw [hm]
    have h1 := maxInt_mem _ _ hm
    have h2 := le_of_maxInt _ _ hm ((k : Int) + 1)
      (by simp only [rowNumbersTo, List.mem_map, List.mem_range]; exact ⟨k, by omega, rfl⟩)
    simp only [rowNumbersTo, List.mem_map, List.mem_range] at h1
    obtain ⟨a, ha, rfl⟩ := h1
    simp only
    push_cast
    omega

theorem rowNumbers_defaultRows (t : PhysTable) (c k : Nat) :
    rowNumbersTo c ++ (defaultRows t c k).map (fun r => r.rowNumber) = rowNumbersTo (c + k) := by
  unfold rowNumbersTo defaultRows
  rw [List.range_add, List.map_append, List.map_map, List.map_map]
  congr 1

theorem defaultRows_succ (t : PhysTable) (c k : Nat) :
    defaultRows t c (k + 1) = defaultRows t c k ++ [newRow t ((c : Int) + (k : Int) + 1) []] := by
  unfold defaultRows
  rw [List.range_succ, List.map_append]
  rfl

/-- The loop of `dataSetSetRowCount` that inserts default rows, with `m` rows still
to insert after `j` were inserted. -/
theorem insertDefault_loop (ds : Int) (t : PhysTable) (c n : Nat)
    (hrows : t.rows.map (fun r => r.rowNumber) = rowNumbersTo c) :
    ∀ (m fuel j : Nat) (db : Db) (ret : Rc) (bound : List SqlValue),
      m < fuel → c + j + m = n → (ret = Rc.ok ∨ ret = Rc.done) →
      db.table ds = some { t with rows := t.rows ++ defaultRows t c j } →
      ∃ db',
        repeatedLoop (Stmt.insertDefaultValues ds)
          (fun row (_ : Unit) => pure (decide ((c : Int) + (row : Int) < (n : Int)), none, ()))
          fuel ret j bound () db = (.ok (), db') ∧
        db'.table ds = some { t with rows := t.rows ++ defaultRows t c (n - c) } ∧
        db'.transactionWriteDepth = db.transactionWriteDepth ∧
        db'.transactionReadDepth = db.transactionReadDepth ∧ db'.log = db.log := by
  intro m
  induction m with
  | zero =>
    intro fuel j db ret bound hfuel hj hret htab
    obtain ⟨fuel, rfl⟩ : ∃ f, fuel = f + 1 := ⟨fuel - 1, by omega⟩
    have hlt : ¬ ((c : Int) + (j : Int) < (n : Int)) := by omega
    refine ⟨db, ?_, ?_, rfl, rfl, rfl⟩
    · simp only [repeatedLoop, hret, if_true, M.bind_run, pure, M.pure, hlt, decide_False,
        Bool.false_eq_true, if_false]
    · have : n - c = j := by omega
      rw [this]
      exact htab
  | succ m ih =>
    intro fuel j db ret bound hfuel hj hret htab
    obtain ⟨fuel, rfl⟩ : ∃ f, fuel = f + 1 := ⟨fuel - 1, by omega⟩
    have hlt : (c : Int) + (j : Int) < (n : Int) := by omega
    have hnext : nextRowId ((t.rows ++ defaultRows t c j).map (fun r => r.rowNumber))
        = (c : Int) + (j : Int) + 1 := by
      rw [List.map_append, hrows, rowNumbers_defaultRows, nextRowId_rowNumbersTo]
      push_cast
      rfl
    have hstep : (Stmt.insertDefaultValues ds).step bound db =
        (Rc.done, [], db.mapRows ds (fun t' => t'.rows ++
          [newRow t' (nextRowId (t'.rows.map (fun r => r.rowNumber))) []])) := rfl
    have htab' : (db.mapRows ds (fun t' => t'.rows ++
          [newRow t' (nextRowId (t'.rows.map (fun r => r.rowNumber))) []])).table ds
        = some { t with rows := t.rows ++ defaultRows t c (j + 1) } := by
      rw [table_mapRows db ds _ _ htab]
      simp only [hnext, defaultRows_succ, List.append_assoc]
      rfl
    obtain ⟨db', hloop, ht', hw', hr', hl'⟩ := ih fuel (j + 1) _ Rc.done bound (by omega)
      (by omega) (Or.inr rfl) htab'
    refine ⟨db', ?_, ht', hw', hr', hl'⟩
    rw [repeatedLoop]
    simp only [hret, if_true, M.bind_run, pure, M.pure, hlt, decide_True, M.get, hstep, M.modify,
      reduceCtorEq, if_false, List.length_nil, Nat.add_zero, M.ite_run]
    exact hloop

theorem rowNumbersTo_succ (c : Nat) : rowNumbersTo (c + 1) = rowNumbersTo c ++ [(c : Int) + 1] := by
  unfold rowNumbersTo
  rw [List.range_succ, List.map_append]
  rfl

theorem rowNumbersTo_length (c : Nat) : (rowNumbersTo c).length = c := by
  simp [rowNumbersTo]

/-- In a table holding the rows `1..c` in this order, the rows numbered at most
`n` are the first `n` rows. -/
theorem filter_le_eq_take (n : Nat) :
    ∀ (c : Nat) (l : List PhysRow), l.map (fun r => r.rowNumber) = rowNumbersTo c →
      l.filter (fun r => decide (r.rowNumber ≤ (n : Int))) = l.take n := by
  intro c
  induction c with
  | zero =>
    intro l hl
    have : l = [] := by simpa [rowNumbersTo] using hl
    subst this
    simp
  | succ c ih =>
    intro l hl
    have hlen : l.length = c + 1 := by
      have := congrArg List.length hl
      simpa [rowNumbersTo_length] using this
    obtain ⟨l', x, rfl⟩ : ∃ l' x, l = l' ++ [x] := by
      refine ⟨l.dropLast, l.getLast (by intro h; simp [h] at hlen), ?_⟩
      exact (List.dropLast_append_getLast _).symm
    rw [List.map_append, rowNumbersTo_succ] at hl
    have hl'len : l'.length = c := by simpa using hlen
    have hsplit := List.append_inj hl (by simp [rowNumbersTo_length, hl'len])
    have hx : x.rowNumber = (c : Int) + 1 := by simpa using hsplit.2
    rw [List.filter_append, ih l' hsplit.1]
    by_cases hcn : c + 1 ≤ n
    · have h1 : decide (x.rowNumber ≤ (n : Int)) = true := by
        rw [hx]
        simp only [decide_eq_true_eq]
        omega
      simp only [List.filter_cons, h1, if_true, List.filter_nil]
      rw [List.take_of_length_le (by omega), List.take_of_length_le (by simp; omega)]
    · have h1 : decide (x.rowNumber ≤ (n : Int)) = false := by
        rw [hx]
        simp only [decide_eq_false_iff_not]
        omega
      simp only [List.filter_cons, h1, Bool.false_eq_true, if_false, List.filter_nil,
        List.append_nil]
      rw [List.take_append_of_le_length (by omega)]

theorem rowNumbersTo_take (c n : Nat) : (rowNumbersTo c).take n = rowNumbersTo (min n c) := by
  unfold rowNumbersTo
  rw [← List.map_take, List.take_range]

/-- The store after `dataSetSetRowCount` on a table holding the rows `1..c`. -/
theorem dataSetSetRowCount_run (cv : SqliteConv) (db : Db) (ds : Int) (t : PhysTable)
    (c n : Nat)
    (hread : db.transactionReadDepth = 0)
    (ht : db.table ds = some t)
    (hrows : t.rows.map (fun r => r.rowNumber) = rowNumbersTo c)
    (hc : inInt32 (c : Int)) :
    ∃ db', dataSetSetRowCount cv ds n db = (.ok (), db') ∧
      db'.table ds = some { t with
        rows := if c ≤ n then t.rows ++ defaultRows t c (n - c)
          else t.rows.filter (fun r => decide (r.rowNumber ≤ (n : Int))) } ∧
      db'.transactionWriteDepth = db.transactionWriteDepth ∧
      db'.transactionReadDepth = db.transactionReadDepth := by
  have hlen : t.rows.length = c := by
    have := congrArg List.length hrows
    simpa [rowNumbersTo_length] using this
  have hcount : toInt32 (t.rows.length : Int) = (c : Int) := by
    rw [hlen]
    exact toInt32_of_inInt32 _ hc
  unfold dataSetSetRowCount
  simp only [M.bind_run]
  rw [transactionWriteBegin_run db hread]
  simp only []
  rw [dataSetRowCount_run cv _ ds t ?_]
  rotate_left
  · exact ht
  simp only [hcount]
  by_cases hcn : c ≤ n
  · have hge : (n : Int) ≥ (c : Int) := by omega
    simp only [hge, if_true, hcn]
    rw [M.bind_run, runStatementsRepeatedly_run]
    have hprep : ∀ d : Db, d.table ds = some t →
        (Stmt.insertDefaultValues ds).prepare d = true := by
      intro d hd
      simp only [Stmt.prepare, hd, Option.isSome_some]
    dsimp only
    rw [if_pos ?_]
    rotate_left
    · exact hprep _ ht
    obtain ⟨db', hloop, ht', hw', hr', hl'⟩ := insertDefault_loop ds t c n hrows (n - c)
      (n + 1) 0
      { db with
        transactionWriteDepth := db.transactionWriteDepth + 1
        log := ((db.log ++ if db.transactionWriteDepth = 0 then [Stmt.beginExclusive] else [])
          ++ [Stmt.selectRowCount ds]) ++ [Stmt.insertDefaultValues ds] }
      Rc.ok [] (by omega) (by omega) (Or.inl rfl) (by simpa [defaultRows] using ht)
    rw [hloop]
    simp only []
    rw [transactionWriteEnd_run db' (by rw [hw']; simp)]
    refine ⟨_, rfl, ?_, ?_, ?_⟩
    · exact ht'
    · show db'.transactionWriteDepth - 1 = _
      rw [hw']
      simp
    · exact hr'
  · have hge : ¬ ((n : Int) ≥ (c : Int)) := by omega
    simp only [hge, if_false, hcn]
    rw [M.bind_run, runStatements_run]
    have ht1 : ({ db with
        transactionWriteDepth := db.transactionWriteDepth + 1
        log := ((db.log ++ if db.transactionWriteDepth = 0 then [Stmt.beginExclusive] else [])
          ++ [Stmt.selectRowCount ds]) ++ [Stmt.deleteRowsAbove ds n] } : Db).table ds
        = some t := ht
    simp only [Stmt.prepare, ht1, Option.isSome_some, if_true, Stmt.step, reduceCtorEq, if_false]
    rw [transactionWriteEnd_run _ (by simp [Db.mapRows])]
    refine ⟨_, rfl, ?_, ?_, rfl⟩
    · have := table_mapRows _ ds t
        (fun t => t.rows.filter (fun r => decide (r.rowNumber ≤ (n : Int)))) ht1
      unfold Db.table at this ⊢
      exact this
    · simp [Db.mapRows]

/-- C13: for a dataset whose physical table holds the rows `1..c`,
`dataSetSetRowCount` with target `n` returns; for `n >= c` the table afterwards
holds the rows it held followed by `n - c` rows of default values, for `n < c` it
holds the rows that were numbered at most `n`; in both cases the rows are numbered
`1..n` and the first `min c n` of them are the stored rows `1..min c n`. -/
theorem dataSetSetRowCount_rows (cv : SqliteConv) (db : Db) (ds : Int) (t : PhysTable)
    (c n : Nat)
    (hread : db.transactionReadDepth = 0)
    (ht : db.table ds = some t)
    (hrows : t.rows.map (fun r => r.rowNumber) = rowNumbersTo c)
    (hc : inInt32 (c : Int)) :
    (dataSetSetRowCount cv ds n db).1 = .ok () ∧
    (dataSetSetRowCount cv ds n db).2.table ds = some { t with
      rows := if c ≤ n then t.rows ++ defaultRows t c (n - c)
        else t.rows.filter (fun r => decide (r.rowNumber ≤ (n : Int))) } ∧
    ((dataSetSetRowCount cv ds n db).2.table ds).map
      (fun t' => t'.rows.map (fun r => r.rowNumber)) = some (rowNumbersTo n) ∧
    ((dataSetSetRowCount cv ds n db).2.table ds).map (fun t' => t'.rows.take (min c n))
      = some (t.rows.take (min c n)) ∧
    (dataSetSetRowCount cv ds n db).2.transactionWriteDepth = db.transactionWriteDepth := by
  have hlen : t.rows.length = c := by
    have := congrArg List.length hrows
    simpa [rowNumbersTo_length] using this
  obtain ⟨db', hrun, htab, hw, _⟩ := dataSetSetRowCount_run cv db ds t c n hread ht hrows hc
  rw [hrun]
  refine ⟨rfl, htab, ?_, ?_, hw⟩
  · show Option.map _ (db'.table ds) = _
    rw [htab]
    simp only [Option.map_some', Option.some.injEq]
    split
    · rename_i hcn
      rw [List.map_append, hrows, rowNumbers_defaultRows]
      congr 1
      omega
    · rename_i hcn
      rw [filter_le_eq_take n c t.rows hrows, List.map_take, hrows, rowNumbersTo_take]
      congr 1
      omega
  · show Option.map _ (db'.table ds) = _
    rw [htab]
    simp only [Option.map_some', Option.some.injEq]
    split
    · rename_i hcn
      rw [Nat.min_eq_left hcn, List.take_append_of_le_length (by omega)]
    · rename_i hcn
      rw [filter_le_eq_take n c t.rows hrows, Nat.min_eq_right (by omega), List.take_take]
      simp

/-- C13 at the table of `sampleStore`, which holds the rows 1 and 2, grown to five
rows. -/
theorem dataSetSetRowCount_rows_witness :
    (dataSetSetRowCount sampleConv 1 5 sampleStore).1 = .ok () ∧
    ((dataSetSetRowCount sampleConv 1 5 sampleStore).2.table 1).map
      (fun t' => t'.rows.map (fun r => r.rowNumber)) = some (rowNumbersTo 5) ∧
    ((dataSetSetRowCount sampleConv 1 5 sampleStore).2.table 1).map
      (fun t' => t'.rows.take (min 2 5)) = some (sampleTable.rows.take (min 2 5)) :=
  (fun h => ⟨h.1, h.2.2.1, h.2.2.2.1⟩)
    (dataSetSetRowCount_rows sampleConv sampleStore 1 sampleTable 2 5 rfl rfl (by decide)
      (by decide))

/-! ### Setting the row count of a freshly created dataset -/

theorem sameStore_refl (db : Db) : SameStore db db := ⟨rfl, rfl, rfl, rfl, rfl, rfl⟩

theorem sameStore_log (db0 db : Db) (h : SameStore db0 db) (l : List Stmt) :
    SameStore db0 { db with log := l } := h

theorem sameStore_table (db0 db : Db) (h : SameStore db0 db) (ds : Int) :
    db.table ds = db0.table ds := by
  unfold Db.table
  rw [h.2.2.2.1]

theorem processRows_one {σ : Type} (p : Nat → List SqlValue → σ → M σ) (r : List SqlValue)
    (s : σ) (db : Db) :
    processRows p 0 [r] s db = p 0 r s db := by
  simp only [processRows, M.bind_run]
  rcases p 0 r s db with ⟨res, db'⟩
  cases res <;> rfl

theorem dataSetLoad_ok (cv : SqliteConv) (db0 db : Db) (hs : SameStore db0 db) (ds rev : Int)
    (row : DataSetsRow)
    (hkey : (db0.dataSets.map (fun r => r.id)).Nodup)
    (hfind : db0.dataSets.find? (fun r => decide (r.id = ds)) = some row) :
    ∃ v db', dataSetLoad cv ds rev db = (.ok v, db') ∧ SameStore db0 db' := by
  have hsel := selectById_unique db0.dataSets (fun r => r.id) ds row
    (fun r => [SqlValue.text "", SqlValue.integer 0, SqlValue.text "", SqlValue.text "",
      SqlValue.text "", SqlValue.integer r.revision, SqlValue.integer 0]) hkey hfind
  have h : ∃ v, dataSetLoad cv ds rev db
      = (.ok v, { db with log := db.log ++ [Stmt.selectDataSet] }) := by
    simp only [dataSetLoad, runStatementsGen_run, Stmt.prepare, Stmt.step, if_true,
    sqlite3_bind_int, paramInt, List.getElem?_cons_zero, hs.1, hsel, processRows_one,
      M.bind_run, cAssert, List.length_cons, List.length_nil, pure, M.pure, reduceCtorEq,
      if_false]
    exact ⟨_, rfl⟩
  obtain ⟨v, hv⟩ := h
  exact ⟨v, _, hv, sameStore_log db0 db hs (db.log ++ [Stmt.selectDataSet])⟩

theorem filterLoad_ok (cv : SqliteConv) (db0 db : Db) (hs : SameStore db0 db) (f : Int)
    (flt : Filter) (row : FiltersRow)
    (hkey : (db0.filters.map (fun r => r.id)).Nodup)
    (hfind : db0.filters.find? (fun r => decide (r.id = f)) = some row) :
    ∃ flt' db', filterLoad cv f flt db = (.ok flt', db') ∧ flt'._id = flt._id ∧
      flt'._filtered = flt._filtered ∧ SameStore db0 db' := by
  have hsel := selectById_unique db0.filters (fun r => r.id) f row
    (fun r => [SqlValue.text r.rFilter, SqlValue.text "", SqlValue.text "", SqlValue.text "",
      SqlValue.integer r.revision, SqlValue.text r.name]) hkey hfind
  have h : ∃ flt', filterLoad cv f flt db
      = (.ok flt', { db with log := db.log ++ [Stmt.selectFilter] }) ∧ flt'._id = flt._id ∧
      flt'._filtered = flt._filtered := by
    simp only [filterLoad, runStatementsGen_run, Stmt.prepare, Stmt.step, if_true,
      sqlite3_bind_int, paramInt, List.getElem?_cons_zero, hs.2.2.1, hsel, processRows_one,
      M.bind_run, cAssert, List.length_cons, List.length_nil, pure, M.pure, reduceCtorEq,
      if_false]
    exact ⟨_, rfl, rfl, rfl⟩
  obtain ⟨v, hv, h1, h2⟩ := h
  exact ⟨v, _, hv, h1, h2, sameStore_log db0 db hs (db.log ++ [Stmt.selectFilter])⟩

theorem filterLoadErrorMsg_ok (cv : SqliteConv) (db0 db : Db) (hs : SameStore db0 db) (f : Int)
    (row : FiltersRow)
    (hkey : (db0.filters.map (fun r => r.id)).Nodup)
    (hfind : db0.filters.find? (fun r => decide (r.id = f)) = some row) :
    ∃ msg db', filterLoadErrorMsg cv f db = (.ok msg, db') ∧ SameStore db0 db' := by
  have hsel := selectById_unique db0.filters (fun r => r.id) f row
    (fun r => [SqlValue.text r.errorMsg]) hkey hfind
  have h : ∃ msg, filterLoadErrorMsg cv f db
      = (.ok msg, { db with log := db.log ++ [Stmt.selectFilterErrorMsg] }) := by
    simp only [filterLoadErrorMsg, runStatementsGen_run, Stmt.prepare, Stmt.step, if_true,
      sqlite3_bind_int, paramInt, List.getElem?_cons_zero, hs.2.2.1, hsel, processRows_one,
      M.bind_run, cAssert, List.length_cons, List.length_nil, pure, M.pure, reduceCtorEq,
      if_false]
    exact ⟨_, rfl⟩
  obtain ⟨v, hv⟩ := h
  exact ⟨v, _, hv, sameStore_log db0 db hs (db.log ++ [Stmt.selectFilterErrorMsg])⟩

theorem filterGetDataSetId_run (cv : SqliteConv) (db : Db) (f : Int) (row : FiltersRow)
    (hkey : (db.filters.map (fun r => r.id)).Nodup)
    (hfind : db.filters.find? (fun r => decide (r.id = f)) = some row) :
    filterGetDataSetId cv f db =
      (.ok (toInt32 row.dataSet), { db with log := db.log ++ [Stmt.selectFilterDataSet f] }) := by
  have hsel := selectById_unique db.filters (fun r => r.id) f row
    (fun r => [SqlValue.integer r.dataSet]) hkey hfind
  simp only [filterGetDataSetId, runStatementsId_run, Stmt.prepare, Stmt.step, if_true,
    reduceCtorEq, if_false, hsel, foldl_last_id]
  rfl

theorem filterSelect_rows (cv : SqliteConv) (db : Db) :
    ∀ (rows : List (List SqlValue)) (k : Nat) (p : Bool × List Bool),
      k + rows.length ≤ p.2.length →
      ∃ p', processRows (fun row r (p : Bool × List Bool) =>
          match p.2[row]? with
          | some b => pure (p.1 || b != (sqlite3_column_int cv (r.getD 0 .null) != 0),
              p.2.set row (sqlite3_column_int cv (r.getD 0 .null) != 0))
          | none => M.raise Err.outOfRange) k rows p db = (.ok p', db) := by
  intro rows
  induction rows with
  | nil =>
    intro k p _
    exact ⟨p, rfl⟩
  | cons r rest ih =>
    intro k p hk
    simp only [List.length_cons] at hk
    have hlt : k < p.2.length := by omega
    obtain ⟨p', hp'⟩ := ih (k + 1)
      (p.1 || p.2[k] != (sqlite3_column_int cv (r.getD 0 .null) != 0),
        p.2.set k (sqlite3_column_int cv (r.getD 0 .null) != 0))
      (by simp only [List.length_set]; omega)
    refine ⟨p', ?_⟩
    simp only [processRows, M.bind_run, List.getElem?_eq_getElem hlt, pure, M.pure]
    exact hp'

theorem filterSelect_ok (cv : SqliteConv) (db0 db : Db) (hs : SameStore db0 db) (f : Int)
    (bools : List Bool) (row : FiltersRow) (t : PhysTable)
    (hkey : (db0.filters.map (fun r => r.id)).Nodup)
    (hfind : db0.filters.find? (fun r => decide (r.id = f)) = some row)
    (hds : inInt32 row.dataSet) (hne : row.dataSet ≠ -1)
    (ht : db0.table row.dataSet = some t) (hslot : SlotName.filter f ∈ t.slots)
    (hN : inInt32 (t.rows.length : Int))
    (hw : db0.transactionWriteDepth = 0) (_ : db0.transactionReadDepth = 0) :
    ∃ out db', filterSelect cv f bools db = (.ok out, db') ∧ SameStore db0 db' := by
  obtain ⟨h1, h2, h3, h4, h5, h6⟩ := hs
  have hds' := toInt32_of_inInt32 _ hds
  have hN' := toInt32_of_inInt32 _ hN
  have hneb : (row.dataSet != -1) = true := by simpa using hne
  have htab : ∀ d : Db, d.tables = db.tables → d.table row.dataSet = some t := by
    intro d hd
    unfold Db.table at ht ⊢
    rw [hd, h4]
    exact ht
  unfold filterSelect
  simp only [M.bind_run]
  rw [transactionReadBegin_run db (by rw [h5]; exact hw)]
  simp only []
  rw [filterGetDataSetId_run cv _ f row ?_ ?_]
  rotate_left
  · show (List.map _ db.filters).Nodup
    rw [h3]
    exact hkey
  · show List.find? _ db.filters = _
    rw [h3]
    exact hfind
  simp only [hds', hneb, if_true, M.bind_run]
  rw [dataSetRowCount_run cv _ row.dataSet t ?_]
  rotate_left
  · exact htab _ rfl
  simp only [hN', Int.toNat_ofNat]
  rw [runStatementsGen_run]
  have hprep : ∀ d : Db, d.tables = db.tables →
      (Stmt.selectSlots row.dataSet [SlotName.filter f]).prepare d = true := by
    intro d hd
    simp only [Stmt.prepare, htab d hd, List.all_cons, List.all_nil, Bool.and_true,
      decide_eq_true_eq]
    exact hslot
  dsimp only
  rw [if_pos ?_]
  rotate_left
  · exact hprep _ rfl
  have hstep : ∀ d : Db, d.tables = db.tables →
      (Stmt.selectSlots row.dataSet [SlotName.filter f]).step [] d =
        (Rc.done, (orderByRowNumber t.rows).map (fun r => [SlotName.filter f].map r.cell), d) := by
    intro d hd
    simp only [Stmt.step, htab d hd]
  rw [hstep _ ?_]
  rotate_left
  · rfl
  simp only []
  obtain ⟨p', hp'⟩ := filterSelect_rows cv
    { db with
      transactionReadDepth := db.transactionReadDepth + 1
      log := (((db.log ++ if db.transactionReadDepth = 0 then [Stmt.beginDeferred] else [])
        ++ [Stmt.selectFilterDataSet f]) ++ [Stmt.selectRowCount row.dataSet])
        ++ [Stmt.selectSlots row.dataSet [SlotName.filter f]] }
    ((orderByRowNumber t.rows).map (fun r => [SlotName.filter f].map r.cell)) 0
    (decide (t.rows.length ≠ bools.length), resize bools t.rows.length false)
    (by simp [resize_length, orderByRowNumber, List.length_insertionSort])
  erw [hp']
  simp only [reduceCtorEq, if_false]
  rw [transactionReadEnd_run _ (by simp)]
  simp only [pure, M.pure]
  refine ⟨_, _, rfl, h1, h2, h3, h4, h5, ?_⟩
  simp only [Nat.add_sub_cancel]
  exact h6

theorem registriesKept_respected : Respected RegistriesKept where
  refl := fun _ => ⟨rfl, rfl, rfl⟩
  trans := by
    rintro a b c ⟨h1, h2, h3⟩ ⟨h4, h5, h6⟩
    exact ⟨h4.trans h1, h5.trans h2, h6.trans h3⟩
  log := fun _ _ => ⟨rfl, rfl, rfl⟩
  progress := fun _ _ => ⟨rfl, rfl, rfl⟩
  writeDepth := fun _ _ => ⟨rfl, rfl, rfl⟩
  prevUpdate := fun _ _ => ⟨rfl, rfl, rfl⟩

theorem keeps_transactionReadBegin {R : Db → Db → Prop} (hR : Respected R)
    (hrd : ∀ db n, R db { db with transactionReadDepth := n }) :
    M.Keeps R transactionReadBegin := by
  unfold transactionReadBegin
  refine keeps_bind hR (keeps_get hR) (fun db0 => ?_)
  refine keeps_bind hR (keeps_cAssert hR _) (fun _ => ?_)
  refine keeps_bind hR (fun db => hrd db _) (fun _ => ?_)
  refine keeps_ite _ ?_ (keeps_pure hR _)
  exact keeps_runStatements hR Stmt.beginDeferred
    (stepKeeps_of_unchanged hR _ (fun _ _ => rfl)) _

theorem keeps_transactionReadEnd {R : Db → Db → Prop} (hR : Respected R)
    (hrd : ∀ db n, R db { db with transactionReadDepth := n }) :
    M.Keeps R transactionReadEnd := by
  unfold transactionReadEnd
  refine keeps_bind hR (keeps_get hR) (fun db0 => ?_)
  refine keeps_bind hR (keeps_cAssert hR _) (fun _ => ?_)
  refine keeps_bind hR (fun db => hrd db _) (fun _ => ?_)
  refine keeps_ite _ ?_ (keeps_pure hR _)
  exact keeps_runStatements hR Stmt.commit
    (stepKeeps_of_unchanged hR _ (fun _ _ => rfl)) _

theorem selectSlots_unchanged (ds : Int) (slots : List SlotName) (params : List SqlValue)
    (db : Db) : ((Stmt.selectSlots ds slots).step params db).2.2 = db := by
  simp only [Stmt.step]
  split <;> rfl

theorem selectRowCount_unchanged (ds : Int) (params : List SqlValue) (db : Db) :
    ((Stmt.selectRowCount ds).step params db).2.2 = db := by
  simp only [Stmt.step]
  split <;> rfl

/-- `dataSetBatchedValuesLoad` leaves the registry tables as they are. -/
theorem keeps_dataSetBatchedValuesLoad (cv : SqliteConv) (data : DataSet) :
    M.Keeps RegistriesKept (dataSetBatchedValuesLoad cv data) := by
  have hR := registriesKept_respected
  have hrd : ∀ (db : Db) (n : Nat),
      RegistriesKept db { db with transactionReadDepth := n } := fun _ _ => ⟨rfl, rfl, rfl⟩
  have hjp : ∀ (rowCount rowPercent i : Nat) (r : List SqlValue) (s : DataSet),
      M.Keeps RegistriesKept (loadProcessRow cv rowCount rowPercent i r s) := by
    intro rowCount rowPercent i r s
    unfold loadProcessRow
    dsimp only
    repeat (first
      | exact keeps_pure hR _
      | exact keeps_progressCallback hR _
      | exact keeps_cAssert hR _
      | refine keeps_bind hR ?_ (fun _ => ?_)
      | refine keeps_ite _ ?_ ?_)
  unfold dataSetBatchedValuesLoad dataSetGetFilter dataSetRowCount
  dsimp only
  repeat (first
    | exact keeps_pure hR _
    | exact keeps_transactionReadBegin hR hrd
    | exact keeps_transactionReadEnd hR hrd
    | exact keeps_runStatementsId hR cv _
        (stepKeeps_of_unchanged hR _ (by intro _ _; rfl)) _
    | exact keeps_runStatementsId hR cv _
        (stepKeeps_of_unchanged hR _ (selectRowCount_unchanged _)) _
    | exact keeps_runStatementsGen hR _
        (stepKeeps_of_unchanged hR _ (selectSlots_unchanged _ _)) _ _ (hjp _ _) _
    | refine keeps_bind hR ?_ (fun _ => ?_)
    | refine keeps_ite _ ?_ ?_)

theorem Filter_dbLoad_ok (cv : SqliteConv) (db0 db : Db) (hs : SameStore db0 db)
    (flt : Filter) (ds : Int) (row : FiltersRow) (t : PhysTable)
    (hfid : flt._id ≠ -1)
    (hkey : (db0.filters.map (fun r => r.id)).Nodup)
    (hfind : db0.filters.find? (fun r => decide (r.id = flt._id)) = some row)
    (hds : inInt32 row.dataSet) (hne : row.dataSet ≠ -1)
    (ht : db0.table row.dataSet = some t) (hslot : SlotName.filter flt._id ∈ t.slots)
    (hN : inInt32 (t.rows.length : Int))
    (hw : db0.transactionWriteDepth = 0) (hr : db0.transactionReadDepth = 0) :
    ∃ flt' db', Filter.dbLoad cv flt ds db = (.ok flt', db') ∧ flt'._id = flt._id ∧
      SameStore db0 db' := by
  have hb : (flt._id == -1) = false := by simpa using hfid
  unfold Filter.dbLoad
  simp only [hb, Bool.false_eq_true, if_false, M.bind_run, pure, M.pure]
  obtain ⟨f1, db1, h1, hid1, _, hs1⟩ := filterLoad_ok cv db0 db hs flt._id
    { flt with _id := flt._id } row hkey hfind
  rw [h1]
  simp only []
  obtain ⟨msg, db2, h2, hs2⟩ := filterLoadErrorMsg_ok cv db0 db1 hs1 flt._id row hkey hfind
  rw [h2]
  simp only []
  obtain ⟨out, db3, h3, hs3⟩ := filterSelect_ok cv db0 db2 hs2 flt._id f1._filtered row t hkey
    hfind hds hne ht hslot hN hw hr
  rw [h3]
  exact ⟨_, db3, rfl, hid1, hs3⟩

theorem dataSetColCount_zero (cv : SqliteConv) (db : Db) (ds : Int)
    (hnone : ∀ c ∈ db.columns, c.dataSet ≠ ds) :
    dataSetColCount cv ds db = (.ok 0, { db with log := db.log ++ [Stmt.selectColCount ds] }) := by
  have hnil : db.columns.filter (fun r => decide (r.dataSet = ds)) = [] := by
    rw [List.filter_eq_nil_iff]
    intro c hc
    simpa using hnone c hc
  simp only [dataSetColCount, runStatementsId_run, Stmt.prepare, Stmt.step, if_true,
    reduceCtorEq, if_false, hnil, List.length_nil, foldl_last_id]
  rfl

/-- `DataSet::dbLoad()` of a dataset without columns whose table holds the rows
`rowOf 0 .. rowOf (N-1)`. -/
theorem DataSet_dbLoad_ok (cv : SqliteConv) (db : Db) (data : DataSet) (drow : DataSetsRow)
    (frow : FiltersRow) (slots : List SlotName) (rowOf : Nat → PhysRow) (N : Nat)
    (hid : 0 < data._dataSetID) (hfid : data._filter._id ≠ -1)
    (hkeyD : (db.dataSets.map (fun r => r.id)).Nodup)
    (hfindD : db.dataSets.find? (fun r => decide (r.id = data._dataSetID)) = some drow)
    (hkeyF : (db.filters.map (fun r => r.id)).Nodup)
    (hfindF : db.filters.find? (fun r => decide (r.id = data._filter._id)) = some frow)
    (hfds : frow.dataSet = data._dataSetID) (hds : inInt32 data._dataSetID)
    (hnone : ∀ c ∈ db.columns, c.dataSet ≠ data._dataSetID)
    (ht : db.table data._dataSetID = some { slots := slots, rows := (List.range N).map rowOf })
    (hrn : ∀ j, (rowOf j).rowNumber = (j : Int) + 1)
    (hslot : SlotName.filter data._filter._id ∈ slots) (hN : inInt32 (N : Int))
    (hw : db.transactionWriteDepth = 0) (hr : db.transactionReadDepth = 0) :
    ∃ out db', DataSet.dbLoad cv data (-1) db = (.ok out, db') ∧
      out._rowCount = N ∧ out._filter._id = data._filter._id ∧
      out._dataSetID = data._dataSetID ∧ out._writeBatchedToDB = data._writeBatchedToDB ∧
      SameStore db db' := by
  have hidb : decide (data._dataSetID > 0) = true := by simpa using hid
  have hassert : (data._dataSetID == -1 || data._dataSetID == -1
      || (data._dataSetID != -1 && (-1 : Int) == -1)) = true := by
    have : data._dataSetID ≠ -1 := by omega
    simp [this]
  unfold DataSet.dbLoad
  simp only [M.bind_run, hassert, cAssert, if_true, pure, M.pure, bne_self_eq_false,
    Bool.false_eq_true, if_false, hidb]
  obtain ⟨rev, db1, h1, hs1⟩ := dataSetLoad_ok cv db db (sameStore_refl db) data._dataSetID
    data._revision drow hkeyD hfindD
  rw [h1]
  simp only []
  obtain ⟨flt, db2, h2, hfl, hs2⟩ := Filter_dbLoad_ok cv db db1 hs1 data._filter
    data._dataSetID frow { slots := slots, rows := (List.range N).map rowOf } hfid hkeyF hfindF
    (by rw [hfds]; exact hds) (by rw [hfds]; omega) (by rw [hfds]; exact ht) hslot
    (by simpa using hN) hw hr
  rw [h2]
  simp only []
  rw [dataSetColCount_zero cv db2 data._dataSetID (by rw [hs2.2.1]; exact hnone)]
  simp only []
  rw [dataSetRowCount_run cv _ data._dataSetID
    { slots := slots, rows := (List.range N).map rowOf } ?_]
  rotate_left
  · have := sameStore_table db db2 hs2 data._dataSetID
    rw [ht] at this
    exact this
  have hN' : toInt32 (((List.range N).map rowOf).length : Int) = (N : Int) := by
    rw [List.length_map, List.length_range]
    exact toInt32_of_inInt32 _ hN
  simp only [hN', Int.toNat_ofNat, Int.toNat_zero, DataSet.loadColumns, pure, M.pure,
    List.take_zero]
  obtain ⟨db3, h3, h3t, h3w, h3r⟩ := batchedLoad_run cv
    { data with _revision := rev, _filter := flt, _rowCount := N, _columns := [] }
    slots rowOf N
    { db2 with log := (db2.log ++ [Stmt.selectColCount data._dataSetID])
      ++ [Stmt.selectRowCount data._dataSetID] }
    (by show db2.transactionWriteDepth = 0; rw [hs2.2.2.2.2.1]; exact hw)
    (by
      have := sameStore_table db db2 hs2 data._dataSetID
      rw [ht] at this
      exact this)
    hrn (by rw [hfl]; exact hfid) (by intro col hcol; simp at hcol)
    (by rw [hfl]; exact hslot) hN (by intro j _ m hm; simp at hm)
  have hk := keeps_dataSetBatchedValuesLoad cv
    { data with _revision := rev, _filter := flt, _rowCount := N, _columns := [] }
    { db2 with log := (db2.log ++ [Stmt.selectColCount data._dataSetID])
      ++ [Stmt.selectRowCount data._dataSetID] }
  rw [h3] at hk
  refine ⟨_, db3, h3, rfl, ?_, rfl, rfl, ?_⟩
  · show (loadedFilter cv rowOf N (flt.setRowCount N))._id = _
    exact hfl
  · obtain ⟨k1, k2, k3⟩ := hk
    obtain ⟨s1, s2, s3, s4, s5, s6⟩ := hs2
    exact ⟨k1.trans s1, k2.trans s2, k3.trans s3, h3t.trans s4, h3w.trans (hw.symm),
      h3r.trans s6⟩

theorem keeps_dataSetSetRowCount (cv : SqliteConv) (ds : Int) (n : Nat) :
    M.Keeps RegistriesKept (dataSetSetRowCount cv ds n) := by
  have hR := registriesKept_respected
  unfold dataSetSetRowCount dataSetRowCount
  dsimp only
  repeat (first
    | exact keeps_pure hR _
    | exact keeps_transactionWriteBegin hR
    | exact keeps_transactionWriteEnd hR
    | exact keeps_runStatementsId hR cv _
        (stepKeeps_of_unchanged hR _ (selectRowCount_unchanged _)) _
    | exact keeps_runStatements hR _ (by intro _ _; exact ⟨rfl, rfl, rfl⟩) _
    | exact keeps_runStatementsRepeatedly hR _ _ (by intro _ _; exact ⟨rfl, rfl, rfl⟩) _
        (fun _ _ => keeps_pure hR _) _
    | refine keeps_bind hR ?_ (fun _ => ?_)
    | refine keeps_ite _ ?_ ?_)

theorem lookup_map_set (cells : List (SlotName × SqlValue)) (s : SlotName) (v : SqlValue)
    (h : s ∈ cells.map (fun p => p.1)) :
    (cells.map (fun p => if p.1 = s then (s, v) else p)).lookup s = some v := by
  induction cells with
  | nil => simp at h
  | cons p rest ih =>
    obtain ⟨k, w⟩ := p
    by_cases hk : k = s
    · subst hk
      rw [List.map_cons]
      show List.lookup k ((if k = k then (k, v) else (k, w)) :: _) = _
      rw [if_pos rfl, lookup_cons_self]
    · have hrest : s ∈ rest.map (fun p => p.1) := by
        simp only [List.map_cons, List.mem_cons] at h
        rcases h with h | h
        · exact absurd h.symm hk
        · exact h
      rw [List.map_cons]
      show List.lookup s ((if k = s then (s, v) else (k, w)) :: _) = _
      rw [if_neg hk, lookup_cons_of_ne s k w _ (fun h' => hk h'.symm)]
      exact ih hrest

theorem setCell_cell_self (r : PhysRow) (s : SlotName) (v : SqlValue)
    (h : s ∈ r.cells.map (fun p => p.1)) : (r.setCell s v).cell s = v := by
  unfold PhysRow.setCell PhysRow.cell
  simp only
  rw [lookup_map_set r.cells s v h]

theorem filterClear_ok (cv : SqliteConv) (db : Db) (f : Int) (frow : FiltersRow) (t : PhysTable)
    (hkey : (db.filters.map (fun r => r.id)).Nodup)
    (hfind : db.filters.find? (fun r => decide (r.id = f)) = some frow)
    (hds : inInt32 frow.dataSet)
    (ht : db.table frow.dataSet = some t) (hslot : SlotName.filter f ∈ t.slots) :
    ∃ db', filterClear cv f db = (.ok (), db') ∧
      db'.table frow.dataSet = some { t with
        rows := t.rows.map (fun r => r.setCell (SlotName.filter f) (SqlValue.integer 1)) } ∧
      db'.filters = db.filters ∧ db'.transactionReadDepth = db.transactionReadDepth := by
  have ht1 : ({ db with log := (db.log ++ [Stmt.selectFilterDataSet f])
      ++ [Stmt.clearFilter frow.dataSet f] } : Db).table frow.dataSet = some t := ht
  unfold filterClear
  simp only [M.bind_run, filterGetDataSetId_run cv db f frow hkey hfind,
    toInt32_of_inInt32 _ hds, runStatements_run, Stmt.prepare, ht1, hslot, decide_True, if_true,
    Stmt.step, reduceCtorEq, if_false]
  refine ⟨_, rfl, ?_, rfl, rfl⟩
  have := table_mapRows _ frow.dataSet t
    (fun t => t.rows.map (fun r => r.setCell (SlotName.filter f) (SqlValue.integer 1))) ht1
  unfold Db.table at this ⊢
  exact this

theorem Filter_reset_ok (cv : SqliteConv) (db : Db) (flt : Filter) (rowCount : Nat)
    (frow : FiltersRow) (t : PhysTable)
    (hkey : (db.filters.map (fun r => r.id)).Nodup)
    (hfind : db.filters.find? (fun r => decide (r.id = flt._id)) = some frow)
    (hds : inInt32 frow.dataSet)
    (ht : db.table frow.dataSet = some t) (hslot : SlotName.filter flt._id ∈ t.slots)
    (hr : db.transactionReadDepth = 0) :
    ∃ out db', Filter.reset cv flt rowCount false db = (.ok out, db') ∧
      out._filtered = List.replicate rowCount true ∧
      db'.table frow.dataSet = some { t with
        rows := t.rows.map (fun r => r.setCell (SlotName.filter flt._id) (SqlValue.integer 1)) } := by
  obtain ⟨db1, h1, h1t, h1f, h1r⟩ := filterClear_ok cv db flt._id frow t hkey hfind hds ht hslot
  have hrev : db1.filterRevision flt._id = some frow.revision := by
    unfold Db.filterRevision
    rw [h1f, hfind]
    rfl
  have h2 := filterIncRevision_run cv db1 flt._id frow.revision (by rw [h1r]; exact hr)
    (by rw [h1f]; exact hkey) hrev
  unfold Filter.reset Filter.incRevision
  simp only [Bool.not_false, if_true, M.bind_run, h1, h2, pure, M.pure]
  refine ⟨_, _, rfl, rfl, ?_⟩
  unfold Db.table at h1t ⊢
  exact h1t

/-- C14: for a freshly created dataset and every `n` in the range of a C `int`,
`DataSet::setRowCount(n)` returns with row count `n`; the mask loaded into memory
and the mask stored in the filter slot of the physical table both have `n`
entries, all of them true (stored as 1). -/
theorem setRowCount_fresh_mask (cv : SqliteConv) (db : Db) (data : DataSet) (n : Nat)
    (h : FreshDataSet db data) (hn : inInt32 (n : Int)) :
    ∃ out db', DataSet.setRowCount cv data n db = (.ok out, db') ∧
      out._rowCount = n ∧
      out._filter._filtered = List.replicate n true ∧
      (db'.table data._dataSetID).map
        (fun t => t.rows.map (fun r => r.cell (SlotName.filter data._filter._id)))
        = some (List.replicate n (SqlValue.integer 1)) := by
  obtain ⟨drow, hdrow⟩ := h.dataSetRow
  obtain ⟨frow, hfrow, hfds⟩ := h.filterRow
  -- the store after the rows were inserted
  obtain ⟨dbA, hA, hAt, hAw, hAr⟩ := dataSetSetRowCount_run cv db data._dataSetID
    { slots := [SlotName.filter data._filter._id], rows := [] } 0 n h.readDepth h.table rfl
    (by decide)
  have hAk := keeps_dataSetSetRowCount cv data._dataSetID n db
  rw [hA] at hAk
  obtain ⟨hA1, hA2, hA3⟩ := hAk
  have hAt' : dbA.table data._dataSetID = some
      { slots := [SlotName.filter data._filter._id]
        rows := (List.range n).map (fun (j : Nat) =>
          newRow { slots := [SlotName.filter data._filter._id], rows := [] }
            (((0 : Nat) : Int) + (j : Int) + 1) []) } := by
    rw [hAt]
    simp [defaultRows]
  -- the reload
  obtain ⟨out1, dbB, hB, hBrc, hBf, hBid, hBb, hBs⟩ := DataSet_dbLoad_ok cv dbA
    { data with _rowCount := n } drow frow [SlotName.filter data._filter._id]
    (fun (j : Nat) => newRow { slots := [SlotName.filter data._filter._id], rows := [] }
      (((0 : Nat) : Int) + (j : Int) + 1) []) n
    h.loaded h.filterId (by rw [hA1]; exact h.dataSetKeys) (by rw [hA1]; exact hdrow)
    (by rw [hA3]; exact h.filterKeys) (by rw [hA3]; exact hfrow) hfds h.idRange
    (by rw [hA2]; exact h.noColumnRows) hAt' (by intro j; simp [newRow]) (by simp) hn
    (by rw [hAw]; exact h.writeDepth) (by rw [hAr]; exact h.readDepth)
  obtain ⟨s1, s2, s3, s4, s5, s6⟩ := hBs
  -- the reset of the filter
  obtain ⟨out2, dbC, hC, hCf, hCt⟩ := Filter_reset_ok cv dbB out1._filter out1._rowCount frow
    { slots := [SlotName.filter data._filter._id]
      rows := (List.range n).map (fun (j : Nat) =>
        newRow { slots := [SlotName.filter data._filter._id], rows := [] }
          (((0 : Nat) : Int) + (j : Int) + 1) []) }
    (by rw [s3, hA3]; exact h.filterKeys) (by rw [hBf, s3, hA3]; exact hfrow)
    (by rw [hfds]; exact h.idRange)
    (by unfold Db.table at hAt' ⊢; rw [hfds, s4]; exact hAt')
    (by rw [hBf]; simp) (by rw [s6, hAr]; exact h.readDepth)
  refine ⟨{ out1 with _filter := out2 }, dbC, ?_, hBrc, ?_, ?_⟩
  · have hBb' : out1._writeBatchedToDB = false := hBb.trans h.notBatched
    simp only [h.notBatched] at hB
    unfold DataSet.setRowCount
    simp only [h.notBatched, Bool.not_false, if_true, M.bind_run, hA, hB, hBb', hC, pure, M.pure]
  · show out2._filtered = _
    rw [hCf, hBrc]
  · rw [hfds] at hCt
    rw [hCt, hBf]
    simp only [Option.map_some', Option.some.injEq, List.map_map]
    rw [List.eq_replicate_iff]
    refine ⟨by simp, ?_⟩
    intro v hv
    obtain ⟨j, _, rfl⟩ := List.mem_map.mp hv
    simp only [Function.comp]
    apply setCell_cell_self
    simp [newRow]

/-- The store `sampleDb` with its mirror `sampleDataSet` is a freshly created
dataset. -/
theorem sampleDb_fresh : FreshDataSet sampleDb sampleDataSet where
  loaded := by decide
  idRange := by decide
  notBatched := rfl
  noColumns := rfl
  noColumnRows := by decide
  filterId := by decide
  table := rfl
  dataSetKeys := by decide
  dataSetRow := ⟨⟨1, 4⟩, rfl⟩
  filterKeys := by decide
  filterRow := ⟨⟨1, 1, "", "", "", 0⟩, rfl, rfl⟩
  writeDepth := rfl
  readDepth := rfl

/-- C14 at the scenario of the specification: a freshly created dataset set to 50
rows. -/
theorem setRowCount_fresh_mask_witness :
    ∃ out db', DataSet.setRowCount sampleConv sampleDataSet 50 sampleDb = (.ok out, db') ∧
      out._rowCount = 50 ∧
      out._filter._filtered = List.replicate 50 true ∧
      (db'.table sampleDataSet._dataSetID).map
        (fun t => t.rows.map (fun r => r.cell (SlotName.filter sampleDataSet._filter._id)))
        = some (List.replicate 50 (SqlValue.integer 1)) :=
  setRowCount_fresh_mask sampleConv sampleDb sampleDataSet 50 sampleDb_fresh (by decide)

/-! ## Transaction nesting -/

theorem depthAfter_append (d : Nat) (a b : List Bool) :
    depthAfter d (a ++ b) = (depthAfter d a).bind (fun d' => depthAfter d' b) := by
  induction a generalizing d with
  | nil => rfl
  | cons c cs ih =>
    cases c with
    | true => simpa [depthAfter] using ih (d + 1)
    | false =>
      by_cases hd : d = 0
      · simp [depthAfter, hd]
      · simpa [depthAfter, hd] using ih (d - 1)

theorem runCalls_cons (c : TransactionCall) (cs : List TransactionCall) (db : Db) :
    runCalls (c :: cs) db =
      match c.run db with
      | (.ok _, db') => runCalls cs db'
      | (.error e, db') => (.error e, db') := by
  show M.bind c.run (fun _ => runCalls cs) db = _
  unfold M.bind
  rcases c.run db with ⟨r, db'⟩
  cases r <;> rfl

/-- Nested write calls entered inside an open write transaction only move the
depth counter. -/
theorem writeCalls_inner (cs : List Bool) (k k' : Nat) (db : Db)
    (hr : db.transactionReadDepth = 0) (hw : db.transactionWriteDepth = k + 1)
    (h : depthAfter k cs = some k') :
    runCalls (writeCalls cs) db = (.ok (), { db with transactionWriteDepth := k' + 1 }) := by
  induction cs generalizing k db with
  | nil =>
    simp only [depthAfter, Option.some.injEq] at h
    subst h
    show (Except.ok (), db) = _
    rw [← hw]
  | cons c cs ih =>
    cases c with
    | true =>
      simp only [depthAfter] at h
      simp only [writeCalls, List.map_cons, if_true, runCalls_cons, TransactionCall.run]
      rw [transactionWriteBegin_run db hr]
      simp only [hw, Nat.succ_ne_zero, if_false, List.append_nil]
      have := ih (k + 1) { db with transactionWriteDepth := k + 1 + 1, log := db.log } hr rfl h
      simpa [writeCalls] using this
    | false =>
      cases k with
      | zero => simp [depthAfter] at h
      | succ k =>
        simp only [depthAfter, Nat.succ_ne_zero, if_false, Nat.add_sub_cancel] at h
        simp only [writeCalls, List.map_cons, Bool.false_eq_true, if_false, runCalls_cons,
          TransactionCall.run]
        rw [transactionWriteEnd_run db (by omega)]
        simp only [hw, Nat.add_sub_cancel, Nat.succ_ne_zero, if_false, List.append_nil]
        have := ih k { db with transactionWriteDepth := k + 1, log := db.log } hr rfl h
        simpa [writeCalls] using this

/-- Nested read calls entered inside an open read transaction only move the depth
counter. -/
theorem readCalls_inner (cs : List Bool) (k k' : Nat) (db : Db)
    (hw : db.transactionWriteDepth = 0) (hr : db.transactionReadDepth = k + 1)
    (h : depthAfter k cs = some k') :
    runCalls (readCalls cs) db = (.ok (), { db with transactionReadDepth := k' + 1 }) := by
  induction cs generalizing k db with
  | nil =>
    simp only [depthAfter, Option.some.injEq] at h
    subst h
    show (Except.ok (), db) = _
    rw [← hr]
  | cons c cs ih =>
    cases c with
    | true =>
      simp only [depthAfter] at h
      simp only [readCalls, List.map_cons, if_true, runCalls_cons, TransactionCall.run]
      rw [transactionReadBegin_run db hw]
      simp only [hr, Nat.succ_ne_zero, if_false, List.append_nil]
      have := ih (k + 1) { db with transactionReadDepth := k + 1 + 1, log := db.log } hw rfl h
      simpa [readCalls] using this
    | false =>
      cases k with
      | zero => simp [depthAfter] at h
      | succ k =>
        simp only [depthAfter, Nat.succ_ne_zero, if_false, Nat.add_sub_cancel] at h
        simp only [readCalls, List.map_cons, Bool.false_eq_true, if_false, runCalls_cons,
          TransactionCall.run]
        rw [transactionReadEnd_run db (by omega)]
        simp only [hr, Nat.add_sub_cancel, Nat.succ_ne_zero, if_false, List.append_nil]
        have := ih k { db with transactionReadDepth := k + 1, log := db.log } hw rfl h
        simpa [readCalls] using this

theorem runCalls_append (a b : List TransactionCall) (db : Db) :
    runCalls (a ++ b) db =
      match runCalls a db with
      | (.ok _, db') => runCalls b db'
      | (.error e, db') => (.error e, db') := by
  induction a generalizing db with
  | nil => rfl
  | cons c cs ih =>
    rw [List.cons_append, runCalls_cons, runCalls_cons]
    rcases c.run db with ⟨r, db'⟩
    cases r with
    | error e => rfl
    | ok u => exact ih db'

theorem depthAfter_take (cs : List Bool) (k d : Nat) (h : depthAfter 0 cs = some d) :
    ∃ d', depthAfter 0 (cs.take k) = some d' := by
  rw [← List.take_append_drop k cs, depthAfter_append] at h
  cases hd : depthAfter 0 (cs.take k) with
  | none => simp [hd] at h
  | some d' => exact ⟨d', rfl⟩

theorem writeCalls_cons_true (cs : List Bool) :
    writeCalls (true :: cs) = TransactionCall.writeBegin :: writeCalls cs := rfl

theorem writeCalls_append_false (cs : List Bool) :
    writeCalls (cs ++ [false]) = writeCalls cs ++ [TransactionCall.writeEnd false] := by
  simp [writeCalls]

theorem readCalls_cons_true (cs : List Bool) :
    readCalls (true :: cs) = TransactionCall.readBegin :: readCalls cs := rfl

theorem readCalls_append_false (cs : List Bool) :
    readCalls (cs ++ [false]) = readCalls cs ++ [TransactionCall.readEnd] := by
  simp [readCalls]

/-- A single nest: starting from both depths at 0, an outermost
`transactionWriteBegin` / `transactionWriteEnd()` pair around any balanced, properly
nested sequence of further pairs issues exactly `BEGIN EXCLUSIVE` and `COMMIT`, the
first by the outermost begin and the second by the outermost end, and leaves the
write depth at 0; the same holds for the read calls with `BEGIN DEFERRED`. -/
theorem single_nest_issues_once (db : Db) (inner : List Bool)
    (hw : db.transactionWriteDepth = 0) (hr : db.transactionReadDepth = 0)
    (h : Nested inner) :
    (runCalls (writeCalls (true :: inner ++ [false])) db
        = (.ok (), { db with
            log := db.log ++ [Stmt.beginExclusive, Stmt.commit]
            transactionWriteDepth := 0 })
      ∧ ∀ k, k ≤ inner.length →
          ∃ d, runCalls (writeCalls ((true :: inner).take (k + 1))) db
            = (.ok (), { db with
                log := db.log ++ [Stmt.beginExclusive]
                transactionWriteDepth := d + 1 }))
    ∧ (runCalls (readCalls (true :: inner ++ [false])) db
        = (.ok (), { db with
            log := db.log ++ [Stmt.beginDeferred, Stmt.commit]
            transactionReadDepth := 0 })
      ∧ ∀ k, k ≤ inner.length →
          ∃ d, runCalls (readCalls ((true :: inner).take (k + 1))) db
            = (.ok (), { db with
                log := db.log ++ [Stmt.beginDeferred]
                transactionReadDepth := d + 1 })) := by
  refine ⟨⟨?_, ?_⟩, ⟨?_, ?_⟩⟩
  · rw [List.cons_append, writeCalls_cons_true, runCalls_cons]
    simp only [TransactionCall.run]
    rw [transactionWriteBegin_run db hr]
    simp only [hw, if_true]
    rw [writeCalls_append_false, runCalls_append,
      writeCalls_inner inner 0 0 _ ?_ ?_ h]
    rotate_left
    · exact hr
    · rfl
    simp only [runCalls_cons, TransactionCall.run]
    rw [transactionWriteEnd_run _ (by show 0 < 0 + 1; omega)]
    simp [runCalls, pure, M.pure]
  · intro k _
    obtain ⟨d, hd⟩ := depthAfter_take inner k 0 h
    refine ⟨d, ?_⟩
    rw [List.take_succ_cons, writeCalls_cons_true, runCalls_cons]
    simp only [TransactionCall.run]
    rw [transactionWriteBegin_run db hr]
    simp only [hw, if_true]
    rw [writeCalls_inner (inner.take k) 0 d _ ?_ ?_ hd]
    · exact hr
    · rfl
  · rw [List.cons_append, readCalls_cons_true, runCalls_cons]
    simp only [TransactionCall.run]
    rw [transactionReadBegin_run db hw]
    simp only [hr, if_true]
    rw [readCalls_append_false, runCalls_append,
      readCalls_inner inner 0 0 _ ?_ ?_ h]
    rotate_left
    · exact hw
    · rfl
    simp only [runCalls_cons, TransactionCall.run]
    rw [transactionReadEnd_run _ (by show 0 < 0 + 1; omega)]
    simp [runCalls, pure, M.pure]
  · intro k _
    obtain ⟨d, hd⟩ := depthAfter_take inner k 0 h
    refine ⟨d, ?_⟩
    rw [List.take_succ_cons, readCalls_cons_true, runCalls_cons]
    simp only [TransactionCall.run]
    rw [transactionReadBegin_run db hw]
    simp only [hr, if_true]
    rw [readCalls_inner (inner.take k) 0 d _ ?_ ?_ hd]
    · exact hw
    · rfl

theorem issuedBy_append (opening : Stmt) (a c : List Bool) (d d' : Nat)
    (h : depthAfter d a = some d') :
    issuedBy opening d (a ++ c) = issuedBy opening d a ++ issuedBy opening d' c := by
  induction a generalizing d with
  | nil =>
    simp only [depthAfter, Option.some.injEq] at h
    subst h
    rfl
  | cons x xs ih =>
    cases x with
    | true =>
      simp only [depthAfter] at h
      rw [List.cons_append, issuedBy, issuedBy, ih (d + 1) h, List.append_assoc]
    | false =>
      by_cases hd : d = 0
      · simp [depthAfter, hd] at h
      · simp only [depthAfter, hd, if_false] at h
        rw [List.cons_append, issuedBy, issuedBy, ih (d - 1) h, List.append_assoc]

theorem issuedBy_pairs (opening : Stmt) (cs : List Bool) (d : Nat)
    (h : depthAfter d cs = some 0) :
    issuedBy opening d cs = (if d = 0 then [] else [Stmt.commit])
      ++ (List.replicate (outermostFrom d cs) [opening, Stmt.commit]).flatten := by
  induction cs generalizing d with
  | nil =>
    simp only [depthAfter, Option.some.injEq] at h
    subst h
    rfl
  | cons x xs ih =>
    cases x with
    | true =>
      simp only [depthAfter] at h
      rw [issuedBy, outermostFrom, ih (d + 1) h]
      by_cases hd : d = 0
      · subst hd
        simp [List.replicate_succ']
        rw [Nat.add_comm, List.replicate_succ]
        simp
      · simp [hd]
    | false =>
      by_cases hd : d = 0
      · simp [depthAfter, hd] at h
      · simp only [depthAfter, hd, if_false] at h
        rw [issuedBy, outermostFrom, ih (d - 1) h]
        by_cases h1 : d = 1
        · subst h1
          simp
        · have : d - 1 ≠ 0 := by omega
          simp [hd, h1, this]

theorem writeCalls_run (cs : List Bool) (d d' : Nat) (db : Db)
    (hr : db.transactionReadDepth = 0) (hw : db.transactionWriteDepth = d)
    (h : depthAfter d cs = some d') :
    runCalls (writeCalls cs) db
      = (.ok (), { db with
          log := db.log ++ issuedBy Stmt.beginExclusive d cs
          transactionWriteDepth := d' }) := by
  induction cs generalizing d db with
  | nil =>
    simp only [depthAfter, Option.some.injEq] at h
    subst h
    subst hw
    show (Except.ok (), db) = _
    simp [issuedBy]
  | cons c cs ih =>
    cases c with
    | true =>
      simp only [depthAfter] at h
      simp only [writeCalls, List.map_cons, if_true, runCalls_cons, TransactionCall.run]
      rw [transactionWriteBegin_run db hr]
      simp only []
      have := ih (d + 1) { db with
        transactionWriteDepth := db.transactionWriteDepth + 1
        log := db.log ++ (if db.transactionWriteDepth = 0 then [Stmt.beginExclusive] else []) }
        hr (by simp [hw]) h
      rw [writeCalls] at this
      rw [this]
      simp [issuedBy, hw, List.append_assoc]
    | false =>
      by_cases hd : d = 0
      · simp [depthAfter, hd] at h
      · simp only [depthAfter, hd, if_false] at h
        simp only [writeCalls, List.map_cons, Bool.false_eq_true, if_false, runCalls_cons,
          TransactionCall.run]
        rw [transactionWriteEnd_run db (by omega)]
        simp only []
        have := ih (d - 1) { db with
          transactionWriteDepth := db.transactionWriteDepth - 1
          log := db.log ++ (if db.transactionWriteDepth - 1 = 0 then [Stmt.commit] else []) }
          hr (by simp [hw]) h
        rw [writeCalls] at this
        rw [this]
        have e : (d - 1 = 0) = (d = 1) := by
          apply propext
          omega
        simp [issuedBy, hw, List.append_assoc, e]

theorem readCalls_run (cs : List Bool) (d d' : Nat) (db : Db)
    (hw : db.transactionWriteDepth = 0) (hr : db.transactionReadDepth = d)
    (h : depthAfter d cs = some d') :
    runCalls (readCalls cs) db
      = (.ok (), { db with
          log := db.log ++ issuedBy Stmt.beginDeferred d cs
          transactionReadDepth := d' }) := by
  induction cs generalizing d db with
  | nil =>
    simp only [depthAfter, Option.some.injEq] at h
    subst h
    subst hr
    show (Except.ok (), db) = _
    simp [issuedBy]
  | cons c cs ih =>
    cases c with
    | true =>
      simp only [depthAfter] at h
      simp only [readCalls, List.map_cons, if_true, runCalls_cons, TransactionCall.run]
      rw [transactionReadBegin_run db hw]
      simp only []
      have := ih (d + 1) { db with
        transactionReadDepth := db.transactionReadDepth + 1
        log := db.log ++ (if db.transactionReadDepth = 0 then [Stmt.beginDeferred] else []) }
        hw (by simp [hr]) h
      rw [readCalls] at this
      rw [this]
      simp [issuedBy, hr, List.append_assoc]
    | false =>
      by_cases hd : d = 0
      · simp [depthAfter, hd] at h
      · simp only [depthAfter, hd, if_false] at h
        simp only [readCalls, List.map_cons, Bool.false_eq_true, if_false, runCalls_cons,
          TransactionCall.run]
        rw [transactionReadEnd_run db (by omega)]
        simp only []
        have := ih (d - 1) { db with
          transactionReadDepth := db.transactionReadDepth - 1
          log := db.log ++ (if db.transactionReadDepth - 1 = 0 then [Stmt.commit] else []) }
          hw (by simp [hr]) h
        rw [readCalls] at this
        rw [this]
        have e : (d - 1 = 0) = (d = 1) := by
          apply propext
          omega
        simp [issuedBy, hr, List.append_assoc, e]

theorem issuedBy_take_succ (opening : Stmt) (cs : List Bool) (k d : Nat) (c : Bool)
    (hc : cs[k]? = some c) (hd : depthAfter 0 (cs.take k) = some d) :
    issuedBy opening 0 (cs.take (k + 1))
      = issuedBy opening 0 (cs.take k)
        ++ (if c = true then (if d = 0 then [opening] else [])
            else (if d = 1 then [Stmt.commit] else [])) := by
  rw [List.take_succ, hc, issuedBy_append opening _ _ 0 d hd]
  cases c <;> simp [issuedBy]

/-- C17 as stated fails: the balanced, properly nested sequence begin, end, begin,
end of maximum depth 1, run from both depths at 0, issues `BEGIN EXCLUSIVE` twice and
`COMMIT` twice, and the read calls issue `BEGIN DEFERRED` twice and `COMMIT` twice. -/
theorem nested_transactions_two_pairs :
    Nested [true, false, true, false]
    ∧ runCalls (writeCalls [true, false, true, false]) sampleDb
        = (.ok (), { sampleDb with
            log := [Stmt.beginExclusive, Stmt.commit, Stmt.beginExclusive, Stmt.commit] })
    ∧ runCalls (readCalls [true, false, true, false]) sampleDb
        = (.ok (), { sampleDb with
            log := [Stmt.beginDeferred, Stmt.commit, Stmt.beginDeferred, Stmt.commit] }) := by
  refine ⟨by decide, ?_, ?_⟩
  · rw [writeCalls_run _ 0 0 sampleDb rfl rfl (by decide)]
    rfl
  · rw [readCalls_run _ 0 0 sampleDb rfl rfl (by decide)]
    rfl

/-- C17, amended: starting from both depths at 0, every balanced, properly nested
sequence of `transactionWriteBegin` / `transactionWriteEnd()` calls returns with the
write depth at 0 again, and the statements it issued are `BEGIN EXCLUSIVE`, `COMMIT`
once for each of its outermost pairs, in turn; a call at position `k`, made at depth
`d`, issues `BEGIN EXCLUSIVE` if it is a begin and `d = 0`, `COMMIT` if it is an end
and `d = 1`, and no statement otherwise.  The same holds for `transactionReadBegin` /
`transactionReadEnd` with `BEGIN DEFERRED`. -/
theorem nested_transactions_issue_per_pair (db : Db) (cs : List Bool)
    (hw : db.transactionWriteDepth = 0) (hr : db.transactionReadDepth = 0)
    (h : Nested cs) :
    (runCalls (writeCalls cs) db
        = (.ok (), { db with
            log := db.log
              ++ (List.replicate (outermostPairs cs) [Stmt.beginExclusive, Stmt.commit]).flatten
            transactionWriteDepth := 0 })
      ∧ ∀ k c, cs[k]? = some c →
          ∃ d, depthAfter 0 (cs.take k) = some d
            ∧ (runCalls (writeCalls (cs.take (k + 1))) db).1 = .ok ()
            ∧ (runCalls (writeCalls (cs.take (k + 1))) db).2.log
              = (runCalls (writeCalls (cs.take k)) db).2.log
                ++ (if c = true then (if d = 0 then [Stmt.beginExclusive] else [])
                    else (if d = 1 then [Stmt.commit] else [])))
    ∧ (runCalls (readCalls cs) db
        = (.ok (), { db with
            log := db.log
              ++ (List.replicate (outermostPairs cs) [Stmt.beginDeferred, Stmt.commit]).flatten
            transactionReadDepth := 0 })
      ∧ ∀ k c, cs[k]? = some c →
          ∃ d, depthAfter 0 (cs.take k) = some d
            ∧ (runCalls (readCalls (cs.take (k + 1))) db).1 = .ok ()
            ∧ (runCalls (readCalls (cs.take (k + 1))) db).2.log
              = (runCalls (readCalls (cs.take k)) db).2.log
                ++ (if c = true then (if d = 0 then [Stmt.beginDeferred] else [])
                    else (if d = 1 then [Stmt.commit] else []))) := by
  refine ⟨⟨?_, ?_⟩, ⟨?_, ?_⟩⟩
  · rw [writeCalls_run cs 0 0 db hr hw h, issuedBy_pairs _ cs 0 h]
    rfl
  · intro k c hc
    obtain ⟨d, hd⟩ := depthAfter_take cs k 0 h
    obtain ⟨d1, hd1⟩ := depthAfter_take cs (k + 1) 0 h
    refine ⟨d, hd, ?_, ?_⟩
    · rw [writeCalls_run _ 0 d1 db hr hw hd1]
    · rw [writeCalls_run _ 0 d1 db hr hw hd1, writeCalls_run _ 0 d db hr hw hd]
      show db.log ++ _ = db.log ++ _ ++ _
      rw [issuedBy_take_succ _ cs k d c hc hd, List.append_assoc]
  · rw [readCalls_run cs 0 0 db hw hr h, issuedBy_pairs _ cs 0 h]
    rfl
  · intro k c hc
    obtain ⟨d, hd⟩ := depthAfter_take cs k 0 h
    obtain ⟨d1, hd1⟩ := depthAfter_take cs (k + 1) 0 h
    refine ⟨d, hd, ?_, ?_⟩
    · rw [readCalls_run _ 0 d1 db hw hr hd1]
    · rw [readCalls_run _ 0 d1 db hw hr hd1, readCalls_run _ 0 d db hw hr hd]
      show db.log ++ _ = db.log ++ _ ++ _
      rw [issuedBy_take_succ _ cs k d c hc hd, List.append_assoc]

/-- C17, amended, at a sequence of two outermost pairs, the first around one inner
pair: begin, begin, end, end, begin, end. -/
theorem nested_transactions_issue_per_pair_witness :
    Nested [true, true, false, false, true, false]
    ∧ runCalls (writeCalls [true, true, false, false, true, false]) sampleDb
        = (.ok (), { sampleDb with
            log := [Stmt.beginExclusive, Stmt.commit, Stmt.beginExclusive, Stmt.commit]
            transactionWriteDepth := 0 })
    ∧ runCalls (readCalls [true, true, false, false, true, false]) sampleDb
        = (.ok (), { sampleDb with
            log := [Stmt.beginDeferred, Stmt.commit, Stmt.beginDeferred, Stmt.commit]
            transactionReadDepth := 0 }) :=
  have h := nested_transactions_issue_per_pair sampleDb [true, true, false, false, true, false]
    rfl rfl (by decide)
  ⟨by decide, h.1.1, h.2.1⟩

/-- C19: at every write depth `d >= 1`, `transactionWriteEnd(rollback = true)`
issues `ROLLBACK` and nothing else (no `COMMIT`), sets the write depth to 0 and
raises the error `Rollback!`. -/
theorem rollback_resets_depth (db : Db) (h : 0 < db.transactionWriteDepth) :
    transactionWriteEnd true db =
      (.error Err.rollback, { db with
        log := db.log ++ [Stmt.rollback]
        transactionWriteDepth := 0 }) := by
  simp only [transactionWriteEnd, M.bind_run, M.get, h, decide_True, cAssert, if_true,
    pure, M.pure, M.modify, M.ite_run, runStatements_run, Stmt.prepare, Stmt.step]
  simp [M.raise]

theorem rollback_resets_depth_witness :
    transactionWriteEnd true { sampleDb with transactionWriteDepth := 3 } =
      (.error Err.rollback, { ({ sampleDb with transactionWriteDepth := 3 } : Db) with
        log := ({ sampleDb with transactionWriteDepth := 3 } : Db).log ++ [Stmt.rollback]
        transactionWriteDepth := 0 }) :=
  rollback_resets_depth { sampleDb with transactionWriteDepth := 3 } (by decide)

/-! ## Mutual exclusion of read and write transactions -/

theorem call_keeps_exclusive (c : TransactionCall) (db : Db) (h : Exclusive db) :
    Exclusive (c.run db).2 := by
  unfold Exclusive at h ⊢
  cases c with
  | writeBegin =>
    by_cases hr : db.transactionReadDepth = 0
    · simp only [TransactionCall.run]
      rw [transactionWriteBegin_run db hr]
      simp [hr]
    · have : (transactionWriteBegin db) = (.error Err.assertion, db) := by
        simp [transactionWriteBegin, M.bind_run, M.get, cAssert, hr, M.raise]
      simp only [TransactionCall.run, this]
      exact h
  | readBegin =>
    by_cases hw : db.transactionWriteDepth = 0
    · simp only [TransactionCall.run]
      rw [transactionReadBegin_run db hw]
      simp [hw]
    · have : (transactionReadBegin db) = (.error Err.assertion, db) := by
        simp [transactionReadBegin, M.bind_run, M.get, cAssert, hw, M.raise]
      simp only [TransactionCall.run, this]
      exact h
  | writeEnd rollback =>
    by_cases hw : 0 < db.transactionWriteDepth
    · cases rollback with
      | false =>
        simp only [TransactionCall.run]
        rw [transactionWriteEnd_run db hw]
        intro hc
        exact h ⟨hw, hc.2⟩
      | true =>
        have : (transactionWriteEnd true db).2.transactionWriteDepth = 0 := by
          simp [transactionWriteEnd, M.bind_run, M.get, cAssert, hw, M.raise, M.modify,
            runStatements_run, Stmt.prepare, Stmt.step, pure, M.pure]
        simp only [TransactionCall.run]
        omega
    · have : (transactionWriteEnd rollback db) = (.error Err.assertion, db) := by
        simp [transactionWriteEnd, M.bind_run, M.get, cAssert, hw, M.raise]
      simp only [TransactionCall.run, this]
      exact h
  | readEnd =>
    by_cases hr : 0 < db.transactionReadDepth
    · simp only [TransactionCall.run]
      rw [transactionReadEnd_run db hr]
      intro hc
      exact h ⟨hc.1, hr⟩
    · have : (transactionReadEnd db) = (.error Err.assertion, db) := by
        simp [transactionReadEnd, M.bind_run, M.get, cAssert, hr, M.raise]
      simp only [TransactionCall.run, this]
      exact h

theorem runCalls_keeps_exclusive (cs : List TransactionCall) (db : Db) (h : Exclusive db) :
    Exclusive (runCalls cs db).2 := by
  induction cs generalizing db with
  | nil => exact h
  | cons c cs ih =>
    rw [runCalls_cons]
    have hc := call_keeps_exclusive c db h
    rcases hrun : c.run db with ⟨r, db'⟩
    rw [hrun] at hc
    cases r with
    | error e => exact hc
    | ok u => exact ih db' hc


/-! ## Filter requests -/

theorem filters_ids_map (fs : List FiltersRow) (g : FiltersRow → FiltersRow)
    (hg : ∀ x, (g x).id = x.id) :
    (fs.map g).map (fun x => x.id) = fs.map (fun x => x.id) := by
  rw [List.map_map]
  exact List.map_congr_left (fun x _ => hg x)

theorem filterRevision_map (fs : List FiltersRow) (g : FiltersRow → FiltersRow)
    (hg : ∀ x, (g x).id = x.id) (hr : ∀ x, (g x).revision = x.revision) (id : Int) :
    ((fs.map g).find? (fun x => decide (x.id = id))).map (fun x => x.revision)
      = (fs.find? (fun x => decide (x.id = id))).map (fun x => x.revision) := by
  induction fs with
  | nil => rfl
  | cons a rest ih =>
    simp only [List.map_cons, List.find?_cons, hg]
    by_cases h : a.id = id
    · simp [h, hr]
    · simp only [h, decide_False]
      exact ih

theorem filterUpdateErrorMsg_run (db : Db) (id : Int) (msg : String) :
    filterUpdateErrorMsg id msg db =
      (.ok (), { db with
        filters := db.filters.map (fun x => if x.id = id then { x with errorMsg := msg } else x)
        log := db.log ++ [Stmt.updateFilterErrorMsg] }) := by
  simp [filterUpdateErrorMsg, runStatements_run, Stmt.prepare, Stmt.step, sqlite3_bind_text,
    sqlite3_bind_int, paramInt, paramText]

/-- The error branch of `runFilter`, as an equation. -/
theorem runFilter_error_run (cv : SqliteConv) (R : RBridge) (e : Engine) (data : DataSet)
    (db : Db) (filter generatedFilter what : String) (filterRequestId r : Int)
    (hdata : e._dataSet = some data)
    (hfail : R.rbridge_applyFilter (R.stripRComments filter) generatedFilter = .error what)
    (hbatch : data._writeBatchedToDB = false)
    (hread : db.transactionReadDepth = 0)
    (hkey : (db.filters.map (fun x => x.id)).Nodup)
    (hrev : db.filterRevision data._filter._id = some r) :
    Engine.runFilter cv R e filter generatedFilter filterRequestId db =
      (.ok { e with
          _dataSet := some { data with _filter := { data._filter with
            _errorMsg := (if what.length > 0 then what
              else "Something went wrong with the filter but it is unclear what.")
            _revision := toInt32 (r + 1) } }
          evaluated := e.evaluated ++ [R.stripRComments filter]
          sent := e.sent ++ [Sent.object
            [("typeRequest", .string "filter"), ("requestId", .int filterRequestId),
             ("error", .string (if what.length > 0 then what
              else "Something went wrong with the filter but it is unclear what."))]]
          _engineState := engineState.idle },
        { db with
          filters := (db.filters.map (fun x => if x.id = data._filter._id then
              { x with errorMsg := (if what.length > 0 then what
                else "Something went wrong with the filter but it is unclear what.") } else x)).map
            (fun x => if x.id = data._filter._id then { x with revision := x.revision + 1 } else x)
          log := db.log ++ inWriteTransaction db.transactionWriteDepth
            [Stmt.updateFilterErrorMsg, Stmt.incRevision Registry.Filters,
              Stmt.selectRevision Registry.Filters] }) := by
  unfold Engine.runFilter
  simp only [hfail, Engine.evaluate, hdata, M.bind_run]
  rw [transactionWriteBegin_run db hread]
  simp only [Filter.setErrorMsg, M.bind_run, filterUpdateErrorMsg_run, pure, M.pure,
    Filter.incRevision, hbatch, Bool.not_false, if_true]
  have hg1 : ∀ x : FiltersRow, (if x.id = data._filter._id then
      { x with errorMsg := (if what.length > 0 then what
        else "Something went wrong with the filter but it is unclear what.") } else x).id = x.id := by
    intro x; split <;> rfl
  have hg2 : ∀ x : FiltersRow, (if x.id = data._filter._id then
      { x with errorMsg := (if what.length > 0 then what
        else "Something went wrong with the filter but it is unclear what.") } else x).revision
        = x.revision := by
    intro x; split <;> rfl
  rw [filterIncRevision_run cv _ data._filter._id r ?_ ?_ ?_]
  rotate_left
  · exact hread
  · show ((db.filters.map (fun (x : FiltersRow) => if x.id = data._filter._id then
      { x with errorMsg := (if what.length > 0 then what
        else "Something went wrong with the filter but it is unclear what.") } else x)).map
        (fun (x : FiltersRow) => x.id)).Nodup
    rw [filters_ids_map _ _ hg1]
    exact hkey
  · show ((db.filters.map (fun (x : FiltersRow) => if x.id = data._filter._id then
      { x with errorMsg := (if what.length > 0 then what
        else "Something went wrong with the filter but it is unclear what.") } else x)).find?
        (fun x => decide (x.id = data._filter._id))).map (fun x => x.revision) = some r
    rw [filterRevision_map _ _ hg1 hg2]
    exact hrev
  simp only []
  rw [transactionWriteEnd_run _ (by show 0 < db.transactionWriteDepth + 1; omega)]
  simp only [Engine.sendFilterError, Engine.sendString, engineStateToString, inWriteTransaction,
    Nat.add_sub_cancel, Nat.succ_ne_zero, if_false, List.append_nil, List.append_assoc]
  by_cases hw : db.transactionWriteDepth = 0 <;> simp [hw]

/-- C15: when the collaborator fails the filter of a request with a filter error,
`runFilter` (engine holding a dataset that is not in batched-write mode, called
outside a read transaction, filter ids unique, revision in the range of a C `int`)
returns; the mask and the expression of the dataset filter are unchanged in memory
and no physical table changes; the error message of the filter, in memory and
stored, is the message of the collaborator or the fixed fallback text when that
message is empty; the stored revision of the filter goes up by one and is cached;
nothing else in the `Filters` registry changes; the statements issued are the update
of the message, the increment and its read-back, inside one write transaction; one
response is sent, with the type filter, the request id and the error; and the engine
state is idle. -/
theorem runFilter_error_keeps_mask (cv : SqliteConv) (R : RBridge) (e : Engine) (data : DataSet)
    (db : Db) (filter generatedFilter what : String) (filterRequestId r : Int)
    (hdata : e._dataSet = some data)
    (hfail : R.rbridge_applyFilter (R.stripRComments filter) generatedFilter = .error what)
    (hbatch : data._writeBatchedToDB = false)
    (hread : db.transactionReadDepth = 0)
    (hkey : (db.filters.map (fun x => x.id)).Nodup)
    (hrev : db.filterRevision data._filter._id = some r)
    (hrange : inInt32 (r + 1)) :
    ∃ e' db' data' error,
      Engine.runFilter cv R e filter generatedFilter filterRequestId db = (.ok e', db') ∧
      error = (if what.length > 0 then what
        else "Something went wrong with the filter but it is unclear what.") ∧
      e'._dataSet = some data' ∧
      data'._filter._filtered = data._filter._filtered ∧
      data'._filter._rFilter = data._filter._rFilter ∧
      data'._filter._errorMsg = error ∧
      data'._filter._revision = r + 1 ∧
      db'.tables = db.tables ∧
      db'.filters = db.filters.map (fun x => if x.id = data._filter._id then
        { x with errorMsg := error, revision := x.revision + 1 } else x) ∧
      db'.filterRevision data._filter._id = some (r + 1) ∧
      db'.log = db.log ++ inWriteTransaction db.transactionWriteDepth
        [Stmt.updateFilterErrorMsg, Stmt.incRevision Registry.Filters,
          Stmt.selectRevision Registry.Filters] ∧
      db'.transactionWriteDepth = db.transactionWriteDepth ∧
      e'.sent = e.sent ++ [Sent.object
        [("typeRequest", .string "filter"), ("requestId", .int filterRequestId),
         ("error", .string error)]] ∧
      e'._engineState = engineState.idle := by
  have hrun := runFilter_error_run cv R e data db filter generatedFilter what filterRequestId r
    hdata hfail hbatch hread hkey hrev
  have hmap : (db.filters.map (fun x => if x.id = data._filter._id then
        { x with errorMsg := (if what.length > 0 then what
          else "Something went wrong with the filter but it is unclear what.") } else x)).map
      (fun x => if x.id = data._filter._id then { x with revision := x.revision + 1 } else x)
      = db.filters.map (fun x => if x.id = data._filter._id then
        { x with
          errorMsg := (if what.length > 0 then what
            else "Something went wrong with the filter but it is unclear what.")
          revision := x.revision + 1 } else x) := by
    rw [List.map_map]
    apply List.map_congr_left
    intro x _
    by_cases hx : x.id = data._filter._id <;> simp [hx]
  refine ⟨_, _, _, _, hrun, rfl, rfl, rfl, rfl, rfl, ?_, rfl, hmap, ?_, rfl, rfl, rfl, rfl⟩
  · exact toInt32_of_inInt32 _ hrange
  · show ((List.map _ (List.map _ db.filters)).find? _).map _ = _
    rw [hmap, find_map_unique db.filters (fun x => x.id) data._filter._id _
      (by intro x; dsimp only; split <;> rfl)]
    unfold Db.filterRevision at hrev
    cases hf : db.filters.find? (fun x => decide (x.id = data._filter._id)) with
    | none => simp [hf] at hrev
    | some row =>
      have hid : row.id = data._filter._id := by simpa using List.find?_some hf
      simp only [hf, Option.map_some', Option.some.injEq] at hrev
      simp [hid, hrev]

theorem runFilter_error_keeps_mask_witness :
    ∃ e' db' data' error,
      Engine.runFilter sampleConv sampleBridge sampleEngine "x > 1" "" 12 sampleStore
        = (.ok e', db') ∧
      error = (if "object 'x' not found".length > 0 then "object 'x' not found"
        else "Something went wrong with the filter but it is unclear what.") ∧
      e'._dataSet = some data' ∧
      data'._filter._filtered = sampleData._filter._filtered ∧
      data'._filter._rFilter = sampleData._filter._rFilter ∧
      data'._filter._errorMsg = error ∧
      data'._filter._revision = 0 + 1 ∧
      db'.tables = sampleStore.tables ∧
      db'.filters = sampleStore.filters.map (fun x => if x.id = sampleData._filter._id then
        { x with errorMsg := error, revision := x.revision + 1 } else x) ∧
      db'.filterRevision sampleData._filter._id = some (0 + 1) ∧
      db'.log = sampleStore.log ++ inWriteTransaction sampleStore.transactionWriteDepth
        [Stmt.updateFilterErrorMsg, Stmt.incRevision Registry.Filters,
          Stmt.selectRevision Registry.Filters] ∧
      db'.transactionWriteDepth = sampleStore.transactionWriteDepth ∧
      e'.sent = sampleEngine.sent ++ [Sent.object
        [("typeRequest", .string "filter"), ("requestId", .int 12),
         ("error", .string error)]] ∧
      e'._engineState = engineState.idle :=
  runFilter_error_keeps_mask sampleConv sampleBridge sampleEngine sampleData sampleStore
    "x > 1" "" "object 'x' not found" 12 0 rfl rfl rfl rfl (by decide) (by decide) (by decide)

/-! ## Filters by name -/

/-- C16 as stated fails: the stored mask of the filter named `big` before and after
`runFilterByName` is called for it with a collaborator that fails the filter: true and false before,
false and false afterwards; the call returns, stores the error text with its
prefix, leaves the stored revision of the filter raised from 0 to 2, sends one
response and ends with the engine idle. -/
theorem runFilterByName_error_clears_mask :
    (sampleStoreNamed.table 1).map (fun t => t.rows.map (fun r => r.cell (SlotName.filter 2)))
      = some [.integer 1, .integer 0] ∧
    (Engine.runFilterByName sampleConv sampleBridge sampleEngine "big"
        sampleStoreNamed).1.toOption.map (fun e => (e._engineState, e.sent))
      = some (engineState.idle,
          [Sent.object [("typeRequest", .string "filterByName"), ("name", .string "big"),
            ("errorMessage",
              .string "There was a problem running filter 'big':\nobject 'x' not found")]]) ∧
    ((Engine.runFilterByName sampleConv sampleBridge sampleEngine "big"
        sampleStoreNamed).2.table 1).map
        (fun t => t.rows.map (fun r => r.cell (SlotName.filter 2)))
      = some [.integer 0, .integer 0] ∧
    (Engine.runFilterByName sampleConv sampleBridge sampleEngine "big"
        sampleStoreNamed).2.filters
      = [⟨1, 1, "", "", "", 0⟩,
         ⟨2, 1, "a > 4", "big",
           "There was a problem running filter 'big':\nobject 'x' not found", 2⟩] := by
  decide!

theorem getRevision_fold (cv : SqliteConv) (v : Int) (hv : inInt32 v) :
    (([[SqlValue.integer v]] : List (List SqlValue)).enumFrom 0).foldl
      (fun id p => if p.2.length ≠ 0 then sqlite3_column_int cv (p.2.getD 0 .null) else id) (-1)
      = v := by
  rw [foldl_last_id]
  simp only [sqlite3_column_int, toInt32_of_inInt32 _ hv]

theorem dataSetGetRevision_run (cv : SqliteConv) (db : Db) (id r : Int)
    (hkey : (db.dataSets.map (fun x => x.id)).Nodup)
    (hrev : db.dataSetRevision id = some r) (hr : inInt32 r) :
    dataSetGetRevision cv id db
      = (.ok r, { db with log := db.log ++ [Stmt.selectRevision Registry.DataSets] }) := by
  obtain ⟨row, hrow, hrr⟩ : ∃ row, db.dataSets.find? (fun x => decide (x.id = id)) = some row ∧
      row.revision = r := by
    simp only [Db.dataSetRevision, Option.map_eq_some'] at hrev
    exact hrev
  have hsel := selectById_unique db.dataSets (fun x => x.id) id row
    (fun x => [SqlValue.integer x.revision]) hkey hrow
  simp only [dataSetGetRevision, runStatementsId_run, Stmt.prepare, Stmt.step, if_true,
    reduceCtorEq, if_false, sqlite3_bind_int, paramInt, List.getElem?_cons_zero, hsel, hrr,
    getRevision_fold cv r hr]

theorem filterGetRevision_run (cv : SqliteConv) (db : Db) (id r : Int)
    (hkey : (db.filters.map (fun x => x.id)).Nodup)
    (hrev : db.filterRevision id = some r) (hr : inInt32 r) :
    filterGetRevision cv id db
      = (.ok r, { db with log := db.log ++ [Stmt.selectRevision Registry.Filters] }) := by
  obtain ⟨row, hrow, hrr⟩ : ∃ row, db.filters.find? (fun x => decide (x.id = id)) = some row ∧
      row.revision = r := by
    simp only [Db.filterRevision, Option.map_eq_some'] at hrev
    exact hrev
  have hsel := selectById_unique db.filters (fun x => x.id) id row
    (fun x => [SqlValue.integer x.revision]) hkey hrow
  simp only [filterGetRevision, runStatementsId_run, Stmt.prepare, Stmt.step, if_true,
    reduceCtorEq, if_false, sqlite3_bind_int, paramInt, List.getElem?_cons_zero, hsel, hrr,
    getRevision_fold cv r hr]

theorem columnGetRevision_run (cv : SqliteConv) (db : Db) (id r : Int)
    (hkey : (db.columns.map (fun x => x.id)).Nodup)
    (hrev : db.columnRevision id = some r) (hr : inInt32 r) :
    columnGetRevision cv id db
      = (.ok r, { db with log := db.log ++ [Stmt.selectRevision Registry.Columns] }) := by
  obtain ⟨row, hrow, hrr⟩ : ∃ row, db.columns.find? (fun x => decide (x.id = id)) = some row ∧
      row.revision = r := by
    simp only [Db.columnRevision, Option.map_eq_some'] at hrev
    exact hrev
  have hsel := selectById_unique db.columns (fun x => x.id) id row
    (fun x => [SqlValue.integer x.revision]) hkey hrow
  simp only [columnGetRevision, runStatementsId_run, Stmt.prepare, Stmt.step, if_true,
    reduceCtorEq, if_false, sqlite3_bind_int, paramInt, List.getElem?_cons_zero, hsel, hrr,
    getRevision_fold cv r hr]

theorem sameStore_trans (a b c : Db) (h1 : SameStore a b) (h2 : SameStore b c) : SameStore a c := by
  unfold SameStore at h1 h2 ⊢
  refine ⟨h2.1.trans h1.1, h2.2.1.trans h1.2.1, h2.2.2.1.trans h1.2.2.1, ?_, ?_, ?_⟩
  · exact h2.2.2.2.1.trans h1.2.2.2.1
  · exact h2.2.2.2.2.1.trans h1.2.2.2.2.1
  · exact h2.2.2.2.2.2.trans h1.2.2.2.2.2

/-- A column whose cached revision is the stored one is left as it is. -/
theorem Column_checkForUpdates_upToDate (cv : SqliteConv) (db : Db) (col : Column)
    (hkey : (db.columns.map (fun x => x.id)).Nodup)
    (h : col._id ≠ -1 → db.columnRevision col._id = some col._revision ∧ inInt32 col._revision) :
    ∃ db', Column.checkForUpdates cv col db = (.ok (false, col), db') ∧ SameStore db db' := by
  unfold Column.checkForUpdates
  by_cases hid : col._id = -1
  · simp only [hid, beq_self_eq_true, if_true]
    exact ⟨db, rfl, sameStore_refl db⟩
  · have hb : (col._id == -1) = false := by simpa using hid
    obtain ⟨hrev, hr⟩ := h hid
    simp only [hb, Bool.false_eq_true, if_false, M.bind_run,
      columnGetRevision_run cv db col._id col._revision hkey hrev hr, bne_self_eq_false, pure,
      M.pure]
    exact ⟨_, rfl, sameStore_log db db (sameStore_refl db) _⟩

theorem checkColumns_upToDate (cv : SqliteConv) (cols : List Column) :
    ∀ (db : Db) (changed : Bool) (colsChanged : Option (List String)),
      (db.columns.map (fun x => x.id)).Nodup →
      (∀ col ∈ cols, col._id ≠ -1 →
        db.columnRevision col._id = some col._revision ∧ inInt32 col._revision) →
      ∃ db', DataSet.checkColumns cv cols changed colsChanged db
          = (.ok (cols, changed, colsChanged), db') ∧ SameStore db db' := by
  induction cols with
  | nil =>
    intro db changed colsChanged _ _
    exact ⟨db, rfl, sameStore_refl db⟩
  | cons col rest ih =>
    intro db changed colsChanged hkey h
    obtain ⟨db1, h1, hs1⟩ := Column_checkForUpdates_upToDate cv db col hkey
      (h col (List.mem_cons_self _ _))
    obtain ⟨db2, h2, hs2⟩ := ih db1 changed colsChanged (by rw [hs1.2.1]; exact hkey)
      (by
        intro c hc hne
        have := h c (List.mem_cons_of_mem _ hc) hne
        unfold Db.columnRevision at this ⊢
        rw [hs1.2.1]
        exact this)
    refine ⟨db2, ?_, sameStore_trans _ _ _ hs1 hs2⟩
    unfold DataSet.checkColumns
    simp only [M.bind_run, h1, Bool.false_eq_true, if_false, h2, pure, M.pure]

/-- An up-to-date mirror is left as it is by `checkForUpdates`. -/
theorem checkForUpdates_upToDate (cv : SqliteConv) (db : Db) (data : DataSet)
    (h : UpToDate db data) :
    ∃ flag report db', DataSet.checkForUpdates cv data ⟨none, none, none, none⟩ db
        = (.ok (flag, data, report), db') ∧ SameStore db db' := by
  have hb : (data._dataSetID == -1) = false := by simpa using h.loaded
  have hs0 : SameStore db { db with log := db.log ++ [Stmt.selectRevision Registry.DataSets] } :=
    sameStore_log db db (sameStore_refl db) _
  -- the filter
  have hfilter : ∃ db1, Filter.checkForUpdates cv data._filter data._dataSetID
      { db with log := db.log ++ [Stmt.selectRevision Registry.DataSets] }
        = (.ok (false, data._filter), db1) ∧ SameStore db db1 := by
    unfold Filter.checkForUpdates
    by_cases hid : data._filter._id = -1
    · simp only [hid, beq_self_eq_true, if_true]
      exact ⟨_, rfl, hs0⟩
    · have hfb : (data._filter._id == -1) = false := by simpa using hid
      obtain ⟨hrev, hr⟩ := h.filterRevision hid
      simp only [hfb, Bool.false_eq_true, if_false, M.bind_run]
      rw [filterGetRevision_run cv _ data._filter._id data._filter._revision ?_ ?_ hr]
      rotate_left
      · exact h.filterKeys
      · exact hrev
      simp only [bne_self_eq_false, Bool.false_eq_true, if_false, pure, M.pure]
      exact ⟨_, rfl, sameStore_log db _ hs0 _⟩
  obtain ⟨db1, hf1, hs1⟩ := hfilter
  obtain ⟨db2, hc2, hs2⟩ := checkColumns_upToDate cv data._columns db1 false none
    (by rw [hs1.2.1]; exact h.columnKeys)
    (by
      intro c hc hne
      have := h.columnRevision c hc hne
      unfold Db.columnRevision at this ⊢
      rw [hs1.2.1]
      exact this)
  have hrun : ∃ flag report, DataSet.checkForUpdates cv data ⟨none, none, none, none⟩ db
      = (.ok (flag, data, report), db2) := by
    unfold DataSet.checkForUpdates
    simp only [hb, Bool.false_eq_true, if_false, M.bind_run,
      dataSetGetRevision_run cv db data._dataSetID data._revision h.dataSetKeys h.revision
        h.revisionRange, bne_self_eq_false, hf1, hc2, pure, M.pure]
    exact ⟨_, _, rfl⟩
  obtain ⟨flag, report, hrun⟩ := hrun
  exact ⟨flag, report, db2, hrun, sameStore_trans _ _ _ hs1 hs2⟩

/-- With an up-to-date mirror `provideAndUpdateDataSet` changes neither the engine
nor the content of the store. -/
theorem provideAndUpdateDataSet_upToDate (cv : SqliteConv) (e : Engine) (db : Db)
    (data : DataSet) (hdata : e._dataSet = some data) (h : UpToDate db data) :
    ∃ db', Engine.provideAndUpdateDataSet cv e db = (.ok e, db') ∧ SameStore db db' := by
  obtain ⟨flag, report, db', hrun, hs⟩ := checkForUpdates_upToDate cv db data h
  refine ⟨db', ?_, hs⟩
  unfold Engine.provideAndUpdateDataSet
  simp only [hdata, M.bind_run, pure, M.pure, hrun]
  cases e
  simp only at hdata
  subst hdata
  rfl

theorem filterGetIdByName_run (cv : SqliteConv) (db : Db) (name : String) (frow : FiltersRow)
    (hname : db.filters.filter (fun r => decide (r.name = name)) = [frow])
    (hid : inInt32 frow.id) :
    filterGetIdByName cv name db
      = (.ok frow.id, { db with log := db.log ++ [Stmt.selectFilterIdByName] }) := by
  simp only [filterGetIdByName, runStatementsGen_run, Stmt.prepare, Stmt.step, if_true,
    sqlite3_bind_text, paramText, List.getElem?_cons_zero, hname, List.map_cons, List.map_nil,
    processRows_one, pure, M.pure, reduceCtorEq, if_false, List.getD_cons_zero,
    sqlite3_column_int, toInt32_of_inInt32 _ hid]

/-- The constructor of a filter by name loads the stored filter of that name. -/
theorem Filter_named_ok (cv : SqliteConv) (db0 db : Db) (hs : SameStore db0 db) (ds : Int)
    (name : String) (frow : FiltersRow) (t : PhysTable)
    (hname : db0.filters.filter (fun r => decide (r.name = name)) = [frow])
    (hid : inInt32 frow.id) (hne1 : frow.id ≠ -1)
    (hkey : (db0.filters.map (fun r => r.id)).Nodup)
    (hfind : db0.filters.find? (fun r => decide (r.id = frow.id)) = some frow)
    (hds : inInt32 frow.dataSet) (hne : frow.dataSet ≠ -1)
    (ht : db0.table frow.dataSet = some t) (hslot : SlotName.filter frow.id ∈ t.slots)
    (hN : inInt32 (t.rows.length : Int))
    (hw : db0.transactionWriteDepth = 0) (hr : db0.transactionReadDepth = 0) :
    ∃ flt db', Filter.named cv ds name db = (.ok flt, db') ∧ flt._id = frow.id ∧
      SameStore db0 db' := by
  have hb : (frow.id == -1) = false := by simpa using hne1
  obtain ⟨flt, db', hload, hfid, hs'⟩ := Filter_dbLoad_ok cv db0
    { db with log := db.log ++ [Stmt.selectFilterIdByName] }
    (sameStore_log db0 db hs _) ⟨frow.id, "", name, "", 0, []⟩ ds frow t hne1 hkey hfind hds hne ht
    hslot hN hw hr
  refine ⟨flt, db', ?_, hfid, hs'⟩
  unfold Filter.named
  simp only [M.bind_run]
  rw [filterGetIdByName_run cv db name frow (by rw [hs.2.2.1]; exact hname) hid]
  simp only [hb, Bool.false_eq_true, if_false]
  exact hload

theorem setCell_rowNumber (r : PhysRow) (s : SlotName) (v : SqlValue) :
    (r.setCell s v).rowNumber = r.rowNumber := rfl

theorem maskCleared_succ (t : PhysTable) (f : Int) (j : Nat) :
    (maskCleared t f j).map (fun r =>
        if some r.rowNumber = some ((j : Int) + 1) then
          r.setCell (SlotName.filter f) (SqlValue.integer 0)
        else r)
      = maskCleared t f (j + 1) := by
  unfold maskCleared
  rw [List.map_map]
  apply List.map_congr_left
  intro r _
  simp only [Function.comp]
  by_cases hin : 1 ≤ r.rowNumber ∧ r.rowNumber ≤ (j : Int)
  · have hne : ¬ (some r.rowNumber = some ((j : Int) + 1)) := by
      simp only [Option.some.injEq]
      omega
    have hin' : 1 ≤ r.rowNumber ∧ r.rowNumber ≤ ((j + 1 : Nat) : Int) := by
      push_cast
      omega
    rw [if_pos hin, if_pos hin', setCell_rowNumber, if_neg hne]
  · rw [if_neg hin]
    by_cases heq : r.rowNumber = (j : Int) + 1
    · have hin' : 1 ≤ r.rowNumber ∧ r.rowNumber ≤ ((j + 1 : Nat) : Int) := by
        push_cast
        omega
      rw [if_pos (by rw [heq]), if_pos hin']
    · have hin' : ¬ (1 ≤ r.rowNumber ∧ r.rowNumber ≤ ((j + 1 : Nat) : Int)) := by
        push_cast
        omega
      have hne : ¬ (some r.rowNumber = some ((j : Int) + 1)) := by
        simp only [Option.some.injEq]
        exact heq
      rw [if_neg hne, if_neg hin']

theorem maskCleared_zero (t : PhysTable) (f : Int) : maskCleared t f 0 = t.rows := by
  unfold maskCleared
  have : ∀ r : PhysRow, ¬ (1 ≤ r.rowNumber ∧ r.rowNumber ≤ ((0 : Nat) : Int)) := by
    intro r
    push_cast
    omega
  simp only [this, if_false, List.map_id']

theorem getD_replicate_false (n j : Nat) : (List.replicate n false).getD j false = false := by
  rw [List.getD_eq_getElem?_getD, List.getElem?_replicate]
  split <;> rfl

/-- The loop of `filterWrite` for a mask of `n` entries that are all false, with `m`
rows still to write after `j` were written. -/
theorem filterWrite_loop (ds f : Int) (t : PhysTable) (n : Nat) :
    ∀ (m fuel j : Nat) (db : Db) (ret : Rc) (bound : List SqlValue) (s : Nat),
      m < fuel → j + m = n → (ret = Rc.ok ∨ ret = Rc.done) →
      db.table ds = some { t with rows := maskCleared t f j } →
      ∃ s' db',
        repeatedLoop (Stmt.updateFilter ds f)
          (fun row (_ : Nat) =>
            pure (decide (row < (List.replicate n false).length),
              some [sqlite3_bind_int (if (List.replicate n false).getD row false then 1 else 0),
                sqlite3_bind_int ((row : Int) + 1)],
              row))
          fuel ret j bound s db = (.ok s', db') ∧
        db'.table ds = some { t with rows := maskCleared t f n } ∧
        db'.filters = db.filters ∧
        db'.transactionWriteDepth = db.transactionWriteDepth ∧
        db'.transactionReadDepth = db.transactionReadDepth := by
  intro m
  induction m with
  | zero =>
    intro fuel j db ret bound s hfuel hj hret htab
    obtain ⟨fuel, rfl⟩ : ∃ f, fuel = f + 1 := ⟨fuel - 1, by omega⟩
    have hlt : ¬ (j < n) := by omega
    refine ⟨j, db, ?_, ?_, rfl, rfl, rfl⟩
    · simp only [repeatedLoop, hret, if_true, M.bind_run, pure, M.pure, List.length_replicate, hlt,
        decide_False, Bool.false_eq_true, if_false]
    · have : n = j := by omega
      rw [this]
      exact htab
  | succ m ih =>
    intro fuel j db ret bound s hfuel hj hret htab
    obtain ⟨fuel, rfl⟩ : ∃ f, fuel = f + 1 := ⟨fuel - 1, by omega⟩
    have hlt : j < n := by omega
    have hstep : (Stmt.updateFilter ds f).step
        [sqlite3_bind_int 0, sqlite3_bind_int ((j : Int) + 1)] db =
        (Rc.done, [], db.mapRows ds (fun t' => t'.rows.map (fun r =>
          if some r.rowNumber = some ((j : Int) + 1) then
            r.setCell (SlotName.filter f) (SqlValue.integer 0)
          else r))) := rfl
    have htab' : (db.mapRows ds (fun t' => t'.rows.map (fun r =>
          if some r.rowNumber = some ((j : Int) + 1) then
            r.setCell (SlotName.filter f) (SqlValue.integer 0)
          else r))).table ds
        = some { t with rows := maskCleared t f (j + 1) } := by
      rw [table_mapRows db ds _ _ htab]
      simp only [maskCleared_succ]
    obtain ⟨s', db', hloop, ht', hf', hw', hr'⟩ := ih fuel (j + 1) _ Rc.done
      [sqlite3_bind_int 0, sqlite3_bind_int ((j : Int) + 1)] j (by omega) (by omega) (Or.inr rfl)
      htab'
    refine ⟨s', db', ?_, ht', hf', hw', hr'⟩
    rw [repeatedLoop]
    simp only [hret, if_true, M.bind_run, pure, M.pure, List.length_replicate, hlt, decide_True,
      M.get, getD_replicate_false, Bool.false_eq_true, if_false, hstep, M.modify, reduceCtorEq,
      List.length_nil, Nat.add_zero, M.ite_run]
    simp only [pure, M.pure, List.length_replicate, getD_replicate_false, Bool.false_eq_true,
      if_false] at hloop
    exact hloop

/-- `filterWrite` for a mask of `n` entries that are all false. -/
theorem filterWrite_clear_ok (cv : SqliteConv) (db : Db) (f : Int) (frow : FiltersRow)
    (t : PhysTable) (n : Nat)
    (hread : db.transactionReadDepth = 0)
    (hkey : (db.filters.map (fun r => r.id)).Nodup)
    (hfind : db.filters.find? (fun r => decide (r.id = f)) = some frow)
    (hds : inInt32 frow.dataSet)
    (ht : db.table frow.dataSet = some t) (hslot : SlotName.filter f ∈ t.slots) :
    ∃ db', filterWrite cv f (List.replicate n false) db = (.ok (), db') ∧
      db'.table frow.dataSet = some { t with rows := maskCleared t f n } ∧
      db'.filters = db.filters.map (fun x =>
        if x.id = f then { x with revision := x.revision + 1 } else x) ∧
      db'.transactionWriteDepth = db.transactionWriteDepth ∧
      db'.transactionReadDepth = 0 := by
  have hrev : db.filterRevision f = some frow.revision := by
    unfold Db.filterRevision
    rw [hfind]
    rfl
  unfold filterWrite
  simp only [M.bind_run]
  rw [transactionWriteBegin_run db hread]
  simp only []
  rw [filterGetDataSetId_run cv _ f frow ?_ ?_]
  rotate_left
  · exact hkey
  · exact hfind
  simp only [toInt32_of_inInt32 _ hds]
  rw [runStatementsRepeatedly_run]
  have hprep : (Stmt.updateFilter frow.dataSet f).prepare
      { ({ ({ db with
          transactionWriteDepth := db.transactionWriteDepth + 1
          log := db.log ++ (if db.transactionWriteDepth = 0 then [Stmt.beginExclusive] else []) }
          : Db) with
          log := (db.log ++ (if db.transactionWriteDepth = 0 then [Stmt.beginExclusive] else []))
            ++ [Stmt.selectFilterDataSet f] } : Db) with
        log := ((db.log ++ (if db.transactionWriteDepth = 0 then [Stmt.beginExclusive] else []))
            ++ [Stmt.selectFilterDataSet f]) ++ [Stmt.updateFilter frow.dataSet f] } = true := by
    show (match db.table frow.dataSet with
      | some t => decide (SlotName.filter f ∈ t.slots)
      | none => false) = true
    rw [ht]
    simpa using hslot
  obtain ⟨s', dbL, hloop, htL, hfL, hwL, hrL⟩ := filterWrite_loop frow.dataSet f t n n
    ((List.replicate n false).length + 1) 0
    { ({ ({ db with
          transactionWriteDepth := db.transactionWriteDepth + 1
          log := db.log ++ (if db.transactionWriteDepth = 0 then [Stmt.beginExclusive] else []) }
          : Db) with
          log := (db.log ++ (if db.transactionWriteDepth = 0 then [Stmt.beginExclusive] else []))
            ++ [Stmt.selectFilterDataSet f] } : Db) with
        log := ((db.log ++ (if db.transactionWriteDepth = 0 then [Stmt.beginExclusive] else []))
            ++ [Stmt.selectFilterDataSet f]) ++ [Stmt.updateFilter frow.dataSet f] }
    Rc.ok [] 0 (by simp) (by omega) (Or.inl rfl)
    (by
      show db.table frow.dataSet = _
      rw [ht, maskCleared_zero])
  simp only [] at hprep
  rw [if_pos hprep]
  simp only [] at hloop
  rw [hloop]
  simp only []
  have hrevL : dbL.filterRevision f = some frow.revision := by
    unfold Db.filterRevision at hrev ⊢
    rw [hfL]
    exact hrev
  rw [filterIncRevision_run cv dbL f frow.revision (by rw [hrL]; exact hread)
    (by rw [hfL]; exact hkey) hrevL]
  simp only []
  rw [transactionWriteEnd_run _ (by show 0 < dbL.transactionWriteDepth; rw [hwL]; show 0 < db.transactionWriteDepth + 1; omega)]
  refine ⟨_, rfl, ?_, ?_, ?_, ?_⟩
  · exact htL
  · show List.map _ dbL.filters = _
    rw [hfL]
  · show dbL.transactionWriteDepth - 1 = _
    rw [hwL]
    show db.transactionWriteDepth + 1 - 1 = _
    omega
  · show dbL.transactionReadDepth = 0
    rw [hrL]
    exact hread

theorem find_of_mem_nodup (fs : List FiltersRow) (hnd : (fs.map (fun r => r.id)).Nodup)
    (x : FiltersRow) (hx : x ∈ fs) :
    fs.find? (fun r => decide (r.id = x.id)) = some x := by
  induction fs with
  | nil => simp at hx
  | cons a rest ih =>
    simp only [List.map_cons, List.nodup_cons] at hnd
    rcases List.mem_cons.mp hx with h | h
    · subst h
      simp [List.find?]
    · have hne : a.id ≠ x.id := by
        intro heq
        apply hnd.1
        rw [heq]
        exact List.mem_map_of_mem _ h
      simp only [List.find?, hne, decide_False]
      exact ih hnd.2 h

/-- C16: when the collaborator fails the filter of a filter-by-name request with a
filter error, `runFilterByName` (engine holding an up-to-date mirror that is not in
batched-write mode, one stored filter of that name, its slot declared in the
physical table of its dataset, called outside any transaction) returns and does not
leave the stored mask as it was: every row numbered `1..rowCount` holds 0 (false) in
the slot of the filter afterwards; the stored error message of the filter is the
message of the collaborator, or a fallback text when that is empty, after the prefix
naming the filter; the stored revision of the filter has gone up, by two; nothing
else in the `Filters` registry changes; one response is sent with the name and the
error text; and the engine state is idle. -/
theorem runFilterByName_error_clears (cv : SqliteConv) (R : RBridge) (e : Engine)
    (data : DataSet) (db : Db) (name what : String) (frow : FiltersRow) (t : PhysTable)
    (hdata : e._dataSet = some data)
    (hup : UpToDate db data)
    (hbatch : data._writeBatchedToDB = false)
    (hfail : ∀ s, R.rbridge_applyFilter s "" = .error what)
    (hw : db.transactionWriteDepth = 0) (hr : db.transactionReadDepth = 0)
    (hname : db.filters.filter (fun r => decide (r.name = name)) = [frow])
    (hid : inInt32 frow.id) (hne1 : frow.id ≠ -1)
    (hds : inInt32 frow.dataSet) (hne : frow.dataSet ≠ -1)
    (ht : db.table frow.dataSet = some t) (hslot : SlotName.filter frow.id ∈ t.slots)
    (hN : inInt32 (t.rows.length : Int)) :
    ∃ e' db' error,
      Engine.runFilterByName cv R e name db = (.ok e', db') ∧
      error = "There was a problem running filter '" ++ name ++ "':\n"
        ++ (if what.length > 0 then what else "but it is unclear what the problem was...") ∧
      db'.table frow.dataSet = some { t with rows := maskCleared t frow.id data._rowCount } ∧
      db'.filters = db.filters.map (fun x => if x.id = frow.id then
        { x with errorMsg := error, revision := x.revision + 2 } else x) ∧
      db'.filterRevision frow.id = some (frow.revision + 2) ∧
      e'.sent = e.sent ++ [Sent.object
        [("typeRequest", .string "filterByName"), ("name", .string name),
         ("errorMessage", .string error)]] ∧
      e'._engineState = engineState.idle ∧
      e'._dataSet = e._dataSet := by
  have hmem : frow ∈ db.filters := by
    have : frow ∈ db.filters.filter (fun r => decide (r.name = name)) := by
      rw [hname]
      exact List.mem_singleton_self _
    exact (List.mem_filter.mp this).1
  have hfind := find_of_mem_nodup db.filters hup.filterKeys frow hmem
  obtain ⟨db1, hprov, hs1⟩ := provideAndUpdateDataSet_upToDate cv e db data hdata hup
  obtain ⟨flt, db2, hnamed, hfid, hs2⟩ := Filter_named_ok cv db db1 hs1 data._dataSetID name frow t
    hname hid hne1 hup.filterKeys hfind hds hne ht hslot hN hw hr
  obtain ⟨h21, h22, h23, h24, h25, h26⟩ := hs2
  -- the state after the outer `transactionWriteBegin`
  have hbegin := transactionWriteBegin_run db2 (by rw [h26]; exact hr)
  obtain ⟨db4, hwrite, ht4, hf4, hw4, hr4⟩ := filterWrite_clear_ok cv
    { db2 with
      transactionWriteDepth := db2.transactionWriteDepth + 1
      log := db2.log ++ (if db2.transactionWriteDepth = 0 then [Stmt.beginExclusive] else []) }
    frow.id frow t data._rowCount (by show db2.transactionReadDepth = 0; rw [h26]; exact hr)
    (by show (db2.filters.map _).Nodup; rw [h23]; exact hup.filterKeys)
    (by show db2.filters.find? _ = _; rw [h23]; exact hfind)
    hds
    (by show db2.table frow.dataSet = _; unfold Db.table at ht ⊢; rw [h24]; exact ht)
    hslot
  have hidk : ∀ (m : String) (x : FiltersRow),
      (if x.id = frow.id then { x with errorMsg := m } else x).id = x.id := by
    intro m x; split <;> rfl
  have hrevk : ∀ (m : String) (x : FiltersRow),
      (if x.id = frow.id then { x with errorMsg := m } else x).revision = x.revision := by
    intro m x; split <;> rfl
  have hidr : ∀ (x : FiltersRow),
      (if x.id = frow.id then { x with revision := x.revision + 1 } else x).id = x.id := by
    intro x; split <;> rfl
  have hrun : ∃ e' db', Engine.runFilterByName cv R e name db = (.ok e', db') ∧
      db'.tables = db4.tables ∧
      db'.filters = ((db4.filters.map (fun x => if x.id = frow.id then
          { x with errorMsg := "There was a problem running filter '" ++ name ++ "':\n"
            ++ (if what.length > 0 then what
              else "but it is unclear what the problem was...") } else x)).map
        (fun x => if x.id = frow.id then { x with revision := x.revision + 1 } else x)) ∧
      e'.sent = e.sent ++ [Sent.object
        [("typeRequest", .string "filterByName"), ("name", .string name),
         ("errorMessage", .string ("There was a problem running filter '" ++ name ++ "':\n"
            ++ (if what.length > 0 then what
              else "but it is unclear what the problem was...")))]] ∧
      e'._engineState = engineState.idle ∧
      e'._dataSet = e._dataSet := by
    unfold Engine.runFilterByName
    simp only [M.bind_run, hprov, hdata, hnamed, hfail, Engine.evaluate, hbegin,
      Filter.setFilterVector, hfid, hwrite, Filter.setErrorMsg, filterUpdateErrorMsg_run, pure,
      M.pure, Filter.incRevision, hbatch, Bool.not_false, if_true]
    rw [filterIncRevision_run cv _ frow.id (frow.revision + 1) ?_ ?_ ?_]
    rotate_left
    · exact hr4
    · show ((db4.filters.map _).map (fun (x : FiltersRow) => x.id)).Nodup
      rw [filters_ids_map _ _ (hidk _), hf4, filters_ids_map _ _ hidr]
      show (db2.filters.map _).Nodup
      rw [h23]
      exact hup.filterKeys
    · show ((db4.filters.map _).find? _).map _ = _
      rw [filterRevision_map _ _ (hidk _) (hrevk _), hf4]
      show ((db2.filters.map _).find? _).map _ = _
      rw [h23, find_map_unique db.filters (fun x => x.id) frow.id _ hidr, hfind]
      simp
    simp only []
    rw [transactionWriteEnd_run _ ?_]
    rotate_left
    · show 0 < db4.transactionWriteDepth
      rw [hw4]
      show 0 < db2.transactionWriteDepth + 1
      omega
    exact ⟨_, _, rfl, rfl, rfl, rfl, rfl, hdata.symm ▸ rfl⟩
  obtain ⟨e', db', hrun, htab, hfil, hsent, hidle, hds'⟩ := hrun
  have hfilters : db'.filters = db.filters.map (fun x => if x.id = frow.id then
      { x with
        errorMsg := "There was a problem running filter '" ++ name ++ "':\n"
          ++ (if what.length > 0 then what else "but it is unclear what the problem was...")
        revision := x.revision + 2 } else x) := by
    rw [hfil, hf4]
    show List.map _ (List.map _ (List.map _ db2.filters)) = _
    rw [h23, List.map_map, List.map_map]
    apply List.map_congr_left
    intro x _
    by_cases hx : x.id = frow.id
    · simp only [Function.comp, hx, if_true]
      have : x.revision + 1 + 1 = x.revision + 2 := by omega
      rw [this]
    · simp only [Function.comp, hx, if_false]
  refine ⟨e', db', _, hrun, rfl, ?_, hfilters, ?_, hsent, hidle, hds'⟩
  · unfold Db.table at ht4 ⊢
    rw [htab]
    exact ht4
  · unfold Db.filterRevision
    rw [hfilters, find_map_unique db.filters (fun x => x.id) frow.id _
      (by intro x; dsimp only; split <;> rfl), hfind]
    simp

theorem sampleData_upToDate : UpToDate sampleStoreNamed sampleData where
  loaded := by decide
  dataSetKeys := by decide
  columnKeys := by decide
  filterKeys := by decide
  revision := by decide
  revisionRange := by decide
  filterRevision := fun _ => ⟨by decide, by decide⟩
  columnRevision := by
    intro col hcol _
    simp only [sampleData, List.mem_singleton] at hcol
    subst hcol
    exact ⟨by decide, by decide⟩

theorem runFilterByName_error_clears_witness :
    ∃ e' db' error,
      Engine.runFilterByName sampleConv sampleBridge sampleEngine "big" sampleStoreNamed
        = (.ok e', db') ∧
      error = "There was a problem running filter '" ++ "big" ++ "':\n"
        ++ (if "object 'x' not found".length > 0 then "object 'x' not found"
          else "but it is unclear what the problem was...") ∧
      db'.table sampleFilterBig.dataSet = some { sampleTableNamed with
        rows := maskCleared sampleTableNamed sampleFilterBig.id sampleData._rowCount } ∧
      db'.filters = sampleStoreNamed.filters.map (fun x =>
        if x.id = sampleFilterBig.id then
          { x with errorMsg := error, revision := x.revision + 2 } else x) ∧
      db'.filterRevision sampleFilterBig.id = some (sampleFilterBig.revision + 2) ∧
      e'.sent = sampleEngine.sent ++ [Sent.object
        [("typeRequest", .string "filterByName"), ("name", .string "big"),
         ("errorMessage", .string error)]] ∧
      e'._engineState = engineState.idle ∧
      e'._dataSet = sampleEngine._dataSet :=
  runFilterByName_error_clears sampleConv sampleBridge sampleEngine sampleData sampleStoreNamed
    "big" "object 'x' not found" sampleFilterBig sampleTableNamed
    rfl sampleData_upToDate rfl (fun _ => rfl) rfl rfl (by decide) (by decide) (by decide)
    (by decide) (by decide) (by decide) (by decide) (by decide)

/-! ## Error texts -/

/-- C20: the text `_runStatements` raises when a step fails carries the engine's
message and the whole statement text, of whatever length, whereas the text it raises
when preparing fails carries the first 200 characters of a longer statement text;
so for a text of more than 200 characters
whose step fails the error is not cut to its first 200 characters. -/
theorem runStatements_step_error_uncut (statements errmsg : String) (fuel stepFuel : Nat) :
    Text._runStatements (Text.failsAtStep statements errmsg) statements (fuel + 1) (stepFuel + 1)
      = .error (Text.Raised.runtime_error
          ("Running ```\n" ++ statements ++ "\n``` failed because of: `" ++ errmsg))
    ∧ Text._runStatements (Text.failsAtPrepare errmsg) statements (fuel + 1) (stepFuel + 1)
      = .error (Text.Raised.runtime_error
          ("Running ```\n"
            ++ (if statements.length ≤ 200 then statements else ⟨statements.data.take 200⟩)
            ++ "\n``` failed because of: `" ++ errmsg)) := by
  constructor
  · simp [Text._runStatements, Text.statementLoop, Text.stepLoop, Text.failsAtStep, Text.substr,
      bind, Except.bind]
  · simp [Text._runStatements, Text.statementLoop, Text.failsAtPrepare, Text.substrLen,
      Text.maxLenStatementError, bind, Except.bind, pure, Except.pure]

/-! ## The request state machine -/

/-- C22: in engine state idle or analysis, `receiveAnalysisMessage` returns; when
the id of the request is the current analysis id and the analysis status is running,
the id stays and the status becomes changed for `perform = run` and aborted for
every other `perform`; in every other case the analysis id becomes the id of the
request and the status is decided by `perform` alone (run: toRun, abort: aborted,
saveImg, editImg, rewriteImgs: the status of that name, anything else: error). -/
theorem receiveAnalysisMessage_status (e : Engine) (jsonRequest : Request) (db : Db)
    (hs : e._engineState = engineState.idle ∨ e._engineState = engineState.analysis) :
    ∃ e', Engine.receiveAnalysisMessage e jsonRequest db = (.ok e', db) ∧
      (jsonRequest.id = e._analysisId ∧ e._analysisStatus = Status.running →
        e'._analysisId = e._analysisId ∧
        e'._analysisStatus =
          (if jsonRequest.perform = performType.run then Status.changed else Status.aborted)) ∧
      (¬ (jsonRequest.id = e._analysisId ∧ e._analysisStatus = Status.running) →
        e'._analysisId = jsonRequest.id ∧
        e'._analysisStatus =
          (match jsonRequest.perform with
            | .run => Status.toRun
            | .abort => Status.aborted
            | .saveImg => Status.saveImg
            | .editImg => Status.editImg
            | .rewriteImgs => Status.rewriteImgs
            | .other => Status.error)) := by
  have hne : ¬ ((e.enter "receiveAnalysisMessage")._engineState ≠ engineState.idle
      ∧ (e.enter "receiveAnalysisMessage")._engineState ≠ engineState.analysis) := by
    simp only [Engine.enter]
    rcases hs with h | h <;> simp [h]
  unfold Engine.receiveAnalysisMessage
  simp only [hne, if_false]
  by_cases hsame : jsonRequest.id = e._analysisId ∧ e._analysisStatus = Status.running
  · have hsame' : jsonRequest.id = (e.enter "receiveAnalysisMessage")._analysisId
        ∧ (e.enter "receiveAnalysisMessage")._analysisStatus = Status.running := hsame
    simp only [if_pos hsame']
    by_cases hp : jsonRequest.perform = performType.run
    · simp only [hp, if_true]
      exact ⟨_, rfl, fun _ => ⟨rfl, rfl⟩, fun h => absurd hsame h⟩
    · simp only [hp, if_false]
      exact ⟨_, rfl, fun _ => ⟨rfl, rfl⟩, fun h => absurd hsame h⟩
  · have hsame' : ¬ (jsonRequest.id = (e.enter "receiveAnalysisMessage")._analysisId
        ∧ (e.enter "receiveAnalysisMessage")._analysisStatus = Status.running) := hsame
    simp only [if_neg hsame']
    cases hp : jsonRequest.perform <;>
      exact ⟨_, rfl, fun h => absurd h hsame, fun _ => ⟨rfl, by simp [hp]⟩⟩

theorem receiveAnalysisMessage_status_witness :
    ∃ e', Engine.receiveAnalysisMessage sampleEngine { sampleRequest with id := 7 } sampleDb
        = (.ok e', sampleDb) ∧
      (({ sampleRequest with id := 7 } : Request).id = sampleEngine._analysisId
          ∧ sampleEngine._analysisStatus = Status.running →
        e'._analysisId = sampleEngine._analysisId ∧
        e'._analysisStatus =
          (if ({ sampleRequest with id := 7 } : Request).perform = performType.run
            then Status.changed else Status.aborted)) ∧
      (¬ (({ sampleRequest with id := 7 } : Request).id = sampleEngine._analysisId
          ∧ sampleEngine._analysisStatus = Status.running) →
        e'._analysisId = ({ sampleRequest with id := 7 } : Request).id ∧
        e'._analysisStatus =
          (match ({ sampleRequest with id := 7 } : Request).perform with
            | .run => Status.toRun
            | .abort => Status.aborted
            | .saveImg => Status.saveImg
            | .editImg => Status.editImg
            | .rewriteImgs => Status.rewriteImgs
            | .other => Status.error)) :=
  receiveAnalysisMessage_status sampleEngine { sampleRequest with id := 7 } sampleDb
    (Or.inl rfl)

/-- C25: while the engine state is initializing, a request whose type is not the
resume request makes `receiveMessages` return false without entering a handler or
calling the collaborator, and leaves the engine state, the analysis id, the analysis
status and the dataset as they were; a resume request enters `resumeEngine` and
leaves the engine idle.  The store is not touched in either case. -/
theorem receiveMessages_initializing (cv : SqliteConv) (R : RBridge) (e : Engine)
    (jsonRequest : Request) (db : Db) (hi : e._engineState = engineState.initializing) :
    (jsonRequest.typeRequest ≠ engineState.resuming →
      ∃ e', Engine.receiveMessages cv R e (.request jsonRequest) db = (.ok (false, e'), db) ∧
        e'.handled = e.handled ∧ e'.evaluated = e.evaluated ∧
        e'._engineState = engineState.initializing ∧ e'._analysisId = e._analysisId ∧
        e'._analysisStatus = e._analysisStatus ∧ e'._dataSet = e._dataSet) ∧
    (jsonRequest.typeRequest = engineState.resuming →
      ∃ e', Engine.receiveMessages cv R e (.request jsonRequest) db = (.ok (false, e'), db) ∧
        e'.handled = e.handled ++ ["resumeEngine"] ∧
        e'._engineState = engineState.idle ∧ e'._analysisId = e._analysisId ∧
        e'._analysisStatus = e._analysisStatus) := by
  constructor
  · intro hne
    refine ⟨{ (e.sendString Sent.empty) with _lastRequest := jsonRequest.typeRequest }, ?_,
      rfl, rfl, hi, rfl, rfl, rfl⟩
    simp only [Engine.receiveMessages, Engine.sendString, hi, if_true, hne, if_false]
    rfl
  · intro heq
    refine ⟨Engine.resumeEngine
      { (e.sendString Sent.empty) with _lastRequest := jsonRequest.typeRequest }, ?_,
      rfl, rfl, rfl, rfl⟩
    simp only [Engine.receiveMessages, Engine.sendString, hi, if_true, heq]
    rfl

theorem receiveMessages_initializing_witness :
    (sampleRequest.typeRequest ≠ engineState.resuming →
      ∃ e', Engine.receiveMessages sampleConv sampleBridge
          { sampleEngine with _engineState := engineState.initializing }
          (.request sampleRequest) sampleDb = (.ok (false, e'), sampleDb) ∧
        e'.handled = ({ sampleEngine with _engineState := engineState.initializing } : Engine).handled ∧
        e'.evaluated
          = ({ sampleEngine with _engineState := engineState.initializing } : Engine).evaluated ∧
        e'._engineState = engineState.initializing ∧
        e'._analysisId
          = ({ sampleEngine with _engineState := engineState.initializing } : Engine)._analysisId ∧
        e'._analysisStatus
          = ({ sampleEngine with _engineState := engineState.initializing } : Engine)._analysisStatus ∧
        e'._dataSet
          = ({ sampleEngine with _engineState := engineState.initializing } : Engine)._dataSet) ∧
    (sampleRequest.typeRequest = engineState.resuming →
      ∃ e', Engine.receiveMessages sampleConv sampleBridge
          { sampleEngine with _engineState := engineState.initializing }
          (.request sampleRequest) sampleDb = (.ok (false, e'), sampleDb) ∧
        e'.handled = ({ sampleEngine with _engineState := engineState.initializing } : Engine).handled
          ++ ["resumeEngine"] ∧
        e'._engineState = engineState.idle ∧
        e'._analysisId
          = ({ sampleEngine with _engineState := engineState.initializing } : Engine)._analysisId ∧
        e'._analysisStatus
          = ({ sampleEngine with _engineState := engineState.initializing } : Engine)._analysisStatus) :=
  receiveMessages_initializing sampleConv sampleBridge
    { sampleEngine with _engineState := engineState.initializing } sampleRequest sampleDb rfl

/-- C24 as stated fails: `receiveMessages` raises for a request with a recognised
type in a state other than initializing.  An analysis request while the engine is
paused raises from `receiveAnalysisMessage`, a pause request while the engine state
is filter raises from `pauseEngine`, and a request of type idle to an idle engine
raises from `receiveMessages` itself. -/
theorem receiveMessages_raises_out_of_state :
    (Engine.receiveMessages sampleConv sampleBridge
        { sampleEngine with _engineState := engineState.paused }
        (.request sampleRequest) sampleStore).1
      = .error (Err.runtimeError
          "Unexpected analysis message, current state is not idle or analysis (paused)") ∧
    (Engine.receiveMessages sampleConv sampleBridge
        { sampleEngine with _engineState := engineState.filter }
        (.request { sampleRequest with typeRequest := engineState.pauseRequested }) sampleStore).1
      = .error (Err.runtimeError
          "Unexpected data synch during filter somehow, you should not expect to see this exception ever.") ∧
    (Engine.receiveMessages sampleConv sampleBridge sampleEngine
        (.request { sampleRequest with typeRequest := engineState.idle }) sampleStore).1
      = .error (Err.runtimeError
          "Engine::receiveMessages begs you to add your new engineState idle to it!") := by
  refine ⟨rfl, rfl, rfl⟩

theorem ite_pure_run {α : Type} (c : Prop) [Decidable c] (a b : α) (db : Db) :
    (if c then (pure a : M α) else pure b) db = (.ok (if c then a else b), db) := by
  split <;> rfl

theorem bind_of_run_ok {α β : Type} (x : M α) (f : α → M β) (db db' : Db) (a : α)
    (h : x db = (.ok a, db')) : M.bind x f db = f a db' := by
  unfold M.bind
  rw [h]

theorem receiveAnalysisMessage_returns (e : Engine) (jsonRequest : Request) (db : Db)
    (hs : e._engineState = engineState.idle ∨ e._engineState = engineState.analysis) :
    ∃ e', Engine.receiveAnalysisMessage e jsonRequest db = (.ok e', db) := by
  have hne : ¬ ((e.enter "receiveAnalysisMessage")._engineState ≠ engineState.idle
      ∧ (e.enter "receiveAnalysisMessage")._engineState ≠ engineState.analysis) := by
    simp only [Engine.enter]
    rcases hs with h | h <;> simp [h]
  unfold Engine.receiveAnalysisMessage
  simp only [hne, if_false]
  exact ⟨_, ite_pure_run _ _ _ db⟩

/-- C24, amended: in every engine state other than initializing, `receiveMessages`
raises for an analysis request exactly when the state is neither idle nor analysis;
for a pause or stop request exactly when the state is filter, filterByName or
computeColumn, and for a request to reload the data in these three states; and for
every request whose type the `switch` does not list (initializing, idle, paused,
stopped).  A request for a filter, a filter by name, R code, a computed column, to
resume, for a module, the log configuration or the settings is handled as if the
engine were idle, and so is a pause, stop or reload request in a state other than
analysis, filter, filterByName and computeColumn. -/
theorem receiveMessages_out_of_state (cv : SqliteConv) (R : RBridge) (e : Engine)
    (jsonRequest : Request) (db : Db) (h : e._engineState ≠ engineState.initializing) :
    (jsonRequest.typeRequest = engineState.analysis →
      (e._engineState ≠ engineState.idle ∧ e._engineState ≠ engineState.analysis →
        (Engine.receiveMessages cv R e (.request jsonRequest) db).1
          = .error (Err.runtimeError
              ("Unexpected analysis message, current state is not idle or analysis ("
                ++ engineStateToString e._engineState ++ ")"))) ∧
      (e._engineState = engineState.idle ∨ e._engineState = engineState.analysis →
        ∃ e', Engine.receiveMessages cv R e (.request jsonRequest) db = (.ok (true, e'), db))) ∧
    (jsonRequest.typeRequest = engineState.pauseRequested
        ∨ jsonRequest.typeRequest = engineState.stopRequested →
      (e._engineState = engineState.filter ∨ e._engineState = engineState.filterByName
          ∨ e._engineState = engineState.computeColumn →
        (Engine.receiveMessages cv R e (.request jsonRequest) db).1
          = .error (Err.runtimeError ("Unexpected data synch during "
              ++ engineStateToString e._engineState
              ++ " somehow, you should not expect to see this exception ever."))) ∧
      (e._engineState ≠ engineState.filter ∧ e._engineState ≠ engineState.filterByName
          ∧ e._engineState ≠ engineState.computeColumn →
        ∃ e', Engine.receiveMessages cv R e (.request jsonRequest) db
          = (.ok (false, e'), db))) ∧
    (jsonRequest.typeRequest = engineState.reloadData →
      e._engineState = engineState.filter ∨ e._engineState = engineState.filterByName
          ∨ e._engineState = engineState.computeColumn →
        (Engine.receiveMessages cv R e (.request jsonRequest) db).1
          = .error (Err.runtimeError ("Unexpected data synch during "
              ++ engineStateToString e._engineState
              ++ " somehow, you should not expect to see this exception ever."))) ∧
    (jsonRequest.typeRequest = engineState.initializing
        ∨ jsonRequest.typeRequest = engineState.idle
        ∨ jsonRequest.typeRequest = engineState.paused
        ∨ jsonRequest.typeRequest = engineState.stopped →
      (Engine.receiveMessages cv R e (.request jsonRequest) db).1
        = .error (Err.runtimeError
            ("Engine::receiveMessages begs you to add your new engineState "
              ++ engineStateToString jsonRequest.typeRequest ++ " to it!"))) ∧
    (jsonRequest.typeRequest = engineState.filter
        ∨ jsonRequest.typeRequest = engineState.filterByName
        ∨ jsonRequest.typeRequest = engineState.rCode
        ∨ jsonRequest.typeRequest = engineState.computeColumn
        ∨ jsonRequest.typeRequest = engineState.resuming
        ∨ jsonRequest.typeRequest = engineState.moduleInstallRequest
        ∨ jsonRequest.typeRequest = engineState.moduleLoadRequest
        ∨ jsonRequest.typeRequest = engineState.logCfg
        ∨ jsonRequest.typeRequest = engineState.settings →
      Engine.receiveMessages cv R e (.request jsonRequest) db
        = Engine.receiveMessages cv R { e with _engineState := engineState.idle }
            (.request jsonRequest) db) ∧
    (jsonRequest.typeRequest = engineState.pauseRequested
        ∨ jsonRequest.typeRequest = engineState.stopRequested
        ∨ jsonRequest.typeRequest = engineState.reloadData →
      e._engineState ≠ engineState.analysis ∧ e._engineState ≠ engineState.filter
        ∧ e._engineState ≠ engineState.filterByName
        ∧ e._engineState ≠ engineState.computeColumn →
      Engine.receiveMessages cv R e (.request jsonRequest) db
        = Engine.receiveMessages cv R { e with _engineState := engineState.idle }
            (.request jsonRequest) db) := by
  obtain ⟨st, lr, aid, ast, ds, sent, handled, evald⟩ := e
  obtain ⟨ty, f1, f2, f3, f4, f5, f6, f7, f8, f9, f10, f11, f12, f13, f14, f15, f16, f17⟩ :=
    jsonRequest
  simp only at h ⊢
  refine ⟨?_, ?_, ?_, ?_, ?_, ?_⟩
  · intro ht
    subst ht
    constructor
    · intro hs
      cases st <;> first | rfl | exact absurd rfl h | exact absurd rfl hs.1 | exact absurd rfl hs.2
    · intro hs
      obtain ⟨e', he'⟩ := receiveAnalysisMessage_returns
        { _engineState := st, _lastRequest := engineState.analysis, _analysisId := aid,
          _analysisStatus := ast, _dataSet := ds, sent := sent ++ [Sent.empty],
          handled := handled, evaluated := evald }
        { typeRequest := engineState.analysis, id := f1, perform := f2, filter := f3,
          generatedFilter := f4, requestId := f5, name := f6, columnName := f7,
          computeCode := f8, columnType := f9, rCode := f10, whiteListed := f11,
          returnLog := f12, unloadData := f13, moduleRequest := f14, moduleCode := f15,
          moduleName := f16, moduleLibPaths := f17 } db hs
      refine ⟨e', ?_⟩
      rcases hs with hs | hs <;> subst hs <;>
        exact bind_of_run_ok _ (fun e => pure (true, e)) db db e' he'
  · intro ht
    constructor
    · intro hs
      rcases ht with ht | ht <;> subst ht <;> rcases hs with hs | hs | hs <;> subst hs <;> rfl
    · intro hs
      rcases ht with ht | ht <;> subst ht <;> cases st <;>
        first
        | exact ⟨_, rfl⟩
        | exact absurd rfl h
        | exact absurd rfl hs.1
        | exact absurd rfl hs.2.1
        | exact absurd rfl hs.2.2
  · intro ht hs
    subst ht
    rcases hs with hs | hs | hs <;> subst hs <;> rfl
  · intro ht
    rcases ht with ht | ht | ht | ht <;> subst ht <;> cases st <;>
      first | rfl | exact absurd rfl h
  · intro ht
    rcases ht with ht | ht | ht | ht | ht | ht | ht | ht | ht <;> subst ht <;> cases st <;>
      first | rfl | exact absurd rfl h
  · intro ht hs
    rcases ht with ht | ht | ht <;> subst ht <;> cases st <;>
      first
      | rfl
      | exact absurd rfl h
      | exact absurd rfl hs.1
      | exact absurd rfl hs.2.1
      | exact absurd rfl hs.2.2.1
      | exact absurd rfl hs.2.2.2

/-- C24, amended, at an engine whose state is rCode: a request for a filter by name
is handled as if the engine were idle, a pause request is carried out, and a stop
request while the state is computeColumn raises. -/
theorem receiveMessages_out_of_state_witness :
    Engine.receiveMessages sampleConv sampleBridge
        { sampleEngine with _engineState := engineState.rCode }
        (.request { sampleRequest with typeRequest := engineState.filterByName }) sampleStore
      = Engine.receiveMessages sampleConv sampleBridge sampleEngine
          (.request { sampleRequest with typeRequest := engineState.filterByName }) sampleStore ∧
    (∃ e', Engine.receiveMessages sampleConv sampleBridge
        { sampleEngine with _engineState := engineState.rCode }
        (.request { sampleRequest with typeRequest := engineState.pauseRequested }) sampleStore
      = (.ok (false, e'), sampleStore)) ∧
    (Engine.receiveMessages sampleConv sampleBridge
        { sampleEngine with _engineState := engineState.computeColumn }
        (.request { sampleRequest with typeRequest := engineState.stopRequested }) sampleStore).1
      = .error (Err.runtimeError
          "Unexpected data synch during computeColumn somehow, you should not expect to see this exception ever.") :=
  ⟨(receiveMessages_out_of_state sampleConv sampleBridge
      { sampleEngine with _engineState := engineState.rCode }
      { sampleRequest with typeRequest := engineState.filterByName } sampleStore
      (by decide)).2.2.2.2.1 (by decide),
    ((receiveMessages_out_of_state sampleConv sampleBridge
      { sampleEngine with _engineState := engineState.rCode }
      { sampleRequest with typeRequest := engineState.pauseRequested } sampleStore
      (by decide)).2.1 (by decide)).2 (by decide),
    ((receiveMessages_out_of_state sampleConv sampleBridge
      { sampleEngine with _engineState := engineState.computeColumn }
      { sampleRequest with typeRequest := engineState.stopRequested } sampleStore
      (by decide)).2.1 (by decide)).1 (by decide)⟩

/-- C23: `runComputeColumn` for the column type unknown, with a dataset loaded,
raises: the lookup of the type in `setColumnFunction` fails and the `catch` clause
rethrows, so no response is sent and the engine state is not set to idle. -/
theorem runComputeColumn_unknown_type_raises :
    (Engine.runComputeColumn sampleConv sampleBridge
        { sampleEngine with _engineState := engineState.computeColumn } "a" "1 + 1"
        columnType.unknown sampleStore).1
      = .error (Err.runtimeError "map::at") ∧
    ((Engine.runComputeColumn sampleConv sampleBridge
        { sampleEngine with _engineState := engineState.computeColumn } "a" "1 + 1"
        columnType.scale sampleStore).1.toOption.map
          (fun e => (e._engineState, e.sent, e.evaluated)))
      = some (engineState.idle,
          [Sent.object [("typeRequest", .string "computeColumn"), ("columnName", .string "a"),
            ("result", .string "ok"), ("error", .string "")]],
          ["1 + 1"]) := by
  decide!

/-! ## Migration, value vectors, progress and terms -/

/-- C21: `upgradeDBFromVersion(0.18.1)` applied to the registry tables of that
version returns and yields the migrated tables; applied again to its own result,
in which the column it adds first is present, it raises the engine's error for a
duplicate column, and so does not leave the schema unchanged without an error. -/
theorem upgrade_twice_raises :
    (Upgrade.upgradeDBFromVersion ⟨0, 18, 1, 0⟩ Upgrade.sampleStore).toOption.map
        (fun s => s.schema) = some Upgrade.sampleMigrated ∧
    Upgrade.upgradeDBFromVersion ⟨0, 18, 1, 0⟩
        { Upgrade.sampleStore with schema := Upgrade.sampleMigrated }
      = .error (Upgrade.Raised.runtime_error "duplicate column name: description") ∧
    ((Upgrade.upgradeDBFromVersion ⟨0, 19, 0, 0⟩
        { Upgrade.sampleStore with schema := Upgrade.sampleMigrated }).toOption.map
        (fun s => s.schema)) = some Upgrade.sampleMigrated := by
  decide

/-- C26: `columnGetValues` for column 7 of a dataset with two rows, called with an
empty `dbls` vector, writes outside `dbls` (the model ends in the out-of-range
error); called with a `dbls` vector of two entries it returns two integers and two
doubles. -/
theorem columnGetValues_short_dbls :
    (columnGetValues sampleConv 7 [] [] sampleStore).1 = .error Err.outOfRange ∧
    (columnGetValues sampleConv 7 [] [Dbl.zero, Dbl.zero] sampleStore).1.toOption.map
      (fun p => (p.1, p.2.length)) = some ([5, 6], 2) := by
  decide!

/-- C27: a call of `dataSetBatchedValuesUpdate` for three rows reports the rows 1
and 2 and then 1; a following call for two rows reports nothing but the final 1,
because the function-static `prevUpdate` still holds the row 2 of the earlier call;
the same call made first reports row 1 and then 1. -/
theorem batchedUpdate_progress_stale :
    (dataSetBatchedValuesUpdate sampleDataThreeRows sampleDataThreeRows._columns
        sampleStore).2.progress
      = [ProgressCall.writeRow 1 3, ProgressCall.writeRow 2 3, ProgressCall.one] ∧
    (dataSetBatchedValuesUpdate sampleData sampleData._columns
        { (dataSetBatchedValuesUpdate sampleDataThreeRows sampleDataThreeRows._columns
            sampleStore).2 with progress := [] }).2.progress
      = [ProgressCall.one] ∧
    (dataSetBatchedValuesUpdate sampleData sampleData._columns sampleStore).2.progress
      = [ProgressCall.writeRow 1 2, ProgressCall.one] := by
  decide!

/-- C29: `setColumnCount(0)` on a dataset with one column removes the column at
position 0 and then, the loop index having wrapped around, asks for the removal at
position 2^64 - 1, which is outside the columns (the model ends in the out-of-range
error); `setColumnCount(1)` on a dataset with three columns returns with the first
column. -/
theorem setColumnCount_zero_out_of_range :
    (DataSet.setColumnCount sampleConv sampleMirror 0 sampleStore).1
      = .error Err.outOfRange ∧
    (DataSet.setColumnCount sampleConv sampleMirror 0 sampleStore).2.columns = [] ∧
    (DataSet.setColumnCount sampleConv sampleMirrorThree 1 sampleStoreThree).1.toOption.map
      (fun d => d._columns.map (fun c => c._id)) = some [7] := by
  decide!

/-- C30: for the terms `x, x` and `x, y` equality holds in one direction only, and
the terms `x, y` and `y, x` are equal while the first is below the second. -/
theorem term_eq_not_symmetric :
    (Term.initFrom ["x", "y"]).eq (Term.initFrom ["x", "x"]) = true ∧
    (Term.initFrom ["x", "x"]).eq (Term.initFrom ["x", "y"]) = false ∧
    (Term.initFrom ["x", "y"]).eq (Term.initFrom ["y", "x"]) = true ∧
    (Term.initFrom ["x", "y"]).lt (Term.initFrom ["y", "x"]) = true := by
  decide

/-! ## Batched writes of a subset of the columns -/

theorem writtenCells_lookup_other (data : DataSet) (cols : List Column) (k : Nat) (c : Int)
    (hc : ∀ col ∈ cols, col._id ≠ c) :
    (writtenCells data cols k).lookup (SlotName.colInt c) = none ∧
    (writtenCells data cols k).lookup (SlotName.colDbl c) = none := by
  induction cols with
  | nil =>
    simp only [writtenCells, List.flatMap_nil, List.nil_append]
    constructor <;> rw [lookup_cons_of_ne _ _ _ _ (by simp)] <;> rfl
  | cons col rest ih =>
    have hne : col._id ≠ c := hc col (List.mem_cons_self _ _)
    have hne' : c ≠ col._id := fun h => hne h.symm
    obtain ⟨h1, h2⟩ := ih (fun x hx => hc x (List.mem_cons_of_mem _ hx))
    rw [writtenCells_cons]
    constructor
    · rw [lookup_cons_of_ne _ _ _ _ (by simp), lookup_cons_of_ne _ _ _ _ (by simpa using hne')]
      exact h1
    · rw [lookup_cons_of_ne _ _ _ _ (by simpa using hne'), lookup_cons_of_ne _ _ _ _ (by simp)]
      exact h2

/-- C28, amended: `endBatchedToDB` with a non-empty list `S` of columns (dataset in
batched-write mode, values and mask of length `rowCount`, slots declared, called
outside a read transaction) returns and replaces the rows of the physical table by
`rowCount` new rows numbered `1..rowCount`; the row with index `i` holds the mask
entry `i` in the slot of the filter and, for every column of `S` (ids distinct), its
integer `i` and what its double `i` is stored as; and in every row both slots of
every column outside `S` hold NULL, whatever they held before. -/
theorem endBatchedToDB_clears_others (cv : SqliteConv) (data : DataSet) (S : List Column)
    (t : PhysTable) (db : Db) (rev c : Int)
    (hb : data._writeBatchedToDB = true) (hS : S ≠ [])
    (hid : 0 < data._dataSetID)
    (hread : db.transactionReadDepth = 0)
    (hkey : (db.dataSets.map (fun x => x.id)).Nodup)
    (hrev : db.dataSetRevision data._dataSetID = some rev)
    (ht : db.table data._dataSetID = some t)
    (hslots : ∀ col ∈ S, SlotName.colDbl col._id ∈ t.slots ∧ SlotName.colInt col._id ∈ t.slots)
    (hfslot : SlotName.filter data._filter._id ∈ t.slots)
    (hf : data._filter._filtered.length = data._rowCount)
    (hc : ∀ col ∈ S, col._dbls.length = data._rowCount ∧ col._ints.length = data._rowCount)
    (hout : ∀ col ∈ S, col._id ≠ c)
    (hcInt : SlotName.colInt c ∈ t.slots) (hcDbl : SlotName.colDbl c ∈ t.slots) :
    ∃ out db' t', DataSet.endBatchedToDB cv data S db = (.ok out, db') ∧
      db'.table data._dataSetID = some t' ∧
      t'.rows.length = data._rowCount ∧
      (∀ r ∈ t'.rows, r.cell (SlotName.colInt c) = SqlValue.null ∧
        r.cell (SlotName.colDbl c) = SqlValue.null) ∧
      t'.slots = t.slots ∧
      t'.rows.map (fun r => r.rowNumber)
        = (List.range data._rowCount).map (fun (i : Nat) => (i : Int) + 1) ∧
      (∀ i r, t'.rows[i]? = some r →
        r.cell (SlotName.filter data._filter._id)
          = SqlValue.integer (if data._filter._filtered.getD i false then 1 else 0) ∧
        ((S.map (fun col => col._id)).Nodup → ∀ col ∈ S,
          r.cell (SlotName.colInt col._id) = SqlValue.integer (col._ints.getD i 0) ∧
          r.cell (SlotName.colDbl col._id)
            = (SlotName.colDbl col._id).stored
                (_doubleTroubleBinder (col._dbls.getD i Dbl.zero)))) := by
  have hlen : (S.length == 0) = false := by
    cases S with
    | nil => exact absurd rfl hS
    | cons a rest => rfl
  obtain ⟨db1, hupd, ht1, _, hr1, hds1, _, _⟩ :=
    batchedUpdate_run { data with _writeBatchedToDB := false } S t db hread ht hslots hfslot hf hc
  obtain ⟨db2, hinc, _, htab2, _, _, _⟩ :=
    DataSet_incRevision_frame cv { data with _writeBatchedToDB := false } db1 rev rfl hid hr1
      (by rw [hds1]; exact hkey)
      (by unfold Db.dataSetRevision at hrev ⊢; rw [hds1]; exact hrev)
  refine ⟨{ data with _writeBatchedToDB := false, _revision := toInt32 (rev + 1) }, db2,
    { slots := t.slots, rows := writtenRows t data S data._rowCount }, ?_, ?_, ?_, ?_, rfl,
    ?_, ?_⟩
  · unfold DataSet.endBatchedToDB
    simp only [hb, cAssert, if_true, M.bind_run, pure, M.pure, hlen, Bool.false_eq_true, if_false]
    rw [hupd]
    simp only []
    exact hinc
  · unfold Db.table at ht1 ⊢
    rw [htab2]
    exact ht1
  · simp [writtenRows]
  · intro r hr
    simp only [writtenRows, List.mem_map, List.mem_range] at hr
    obtain ⟨i, _, rfl⟩ := hr
    obtain ⟨h1, h2⟩ := writtenCells_lookup_other data S i c hout
    constructor
    · rw [newRow_cell _ _ _ _ hcInt, h1]
      rfl
    · rw [newRow_cell _ _ _ _ hcDbl, h2]
      rfl
  · exact writtenRows_rowNumber t data S data._rowCount
  · intro i r hr
    have hr' : i < data._rowCount
        ∧ newRow t ((i : Int) + 1) (writtenCells data S i) = r := by
      simp only [writtenRows, List.getElem?_map, Option.map_eq_some'] at hr
      obtain ⟨j, hj, hrj⟩ := hr
      by_cases hi : i < data._rowCount
      · rw [List.getElem?_range hi, Option.some.injEq] at hj
        subst hj
        exact ⟨hi, hrj⟩
      · rw [List.getElem?_eq_none (by rw [List.length_range]; omega)] at hj
        exact absurd hj (by simp)
    obtain ⟨_, rfl⟩ := hr'
    refine ⟨written_cell_filter data t S i hfslot, ?_⟩
    intro hnd col hcol
    exact written_cell_col data t S i hnd col hcol (hslots col hcol)

/-- C28, amended, at column 7 of `sampleDataTwo` written alone to `sampleStoreTwo`:
the two new rows hold the values of column 7 and the mask, and NULL in both slots of
column 8. -/
theorem endBatchedToDB_clears_others_witness :
    ∃ out db' t', DataSet.endBatchedToDB sampleConv sampleDataTwo
        [⟨7, "a", 2, [3, -1], [Dbl.one, Dbl.zero]⟩] sampleStoreTwo = (.ok out, db') ∧
      db'.table sampleDataTwo._dataSetID = some t' ∧
      t'.rows.length = sampleDataTwo._rowCount ∧
      (∀ r ∈ t'.rows, r.cell (SlotName.colInt 8) = SqlValue.null ∧
        r.cell (SlotName.colDbl 8) = SqlValue.null) ∧
      t'.slots = sampleTableTwo.slots ∧
      t'.rows.map (fun r => r.rowNumber) = [1, 2] ∧
      (∀ i r, t'.rows[i]? = some r →
        r.cell (SlotName.filter sampleDataTwo._filter._id)
          = SqlValue.integer (if sampleDataTwo._filter._filtered.getD i false then 1 else 0) ∧
        r.cell (SlotName.colInt 7) = SqlValue.integer (([3, -1] : List Int).getD i 0) ∧
        r.cell (SlotName.colDbl 7)
          = (SlotName.colDbl 7).stored
              (_doubleTroubleBinder (([Dbl.one, Dbl.zero] : List Dbl).getD i Dbl.zero))) :=
  have h := endBatchedToDB_clears_others sampleConv sampleDataTwo
    [⟨7, "a", 2, [3, -1], [Dbl.one, Dbl.zero]⟩] sampleTableTwo sampleStoreTwo 4 8
    rfl (by simp) (by decide) rfl (by decide) (by decide) rfl (by decide) (by decide) rfl
    (by decide) (by decide) (by decide) (by decide)
  match h with
  | ⟨out, db', t', h1, h2, h3, h4, h5, h6, h7⟩ =>
    ⟨out, db', t', h1, h2, h3, h4, h5, h6, fun i r hr =>
      ⟨(h7 i r hr).1,
        ((h7 i r hr).2 (by decide) ⟨7, "a", 2, [3, -1], [Dbl.one, Dbl.zero]⟩
          (List.mem_singleton.mpr rfl)).1,
        ((h7 i r hr).2 (by decide) ⟨7, "a", 2, [3, -1], [Dbl.one, Dbl.zero]⟩
          (List.mem_singleton.mpr rfl)).2⟩⟩

/-- C28 as stated fails: the values of column 8 stored before and after
`endBatchedToDB` is called with column 7 alone: the integers 15 and 16 and their doubles before, NULL in both rows
afterwards. -/
theorem endBatchedToDB_subset_loses_rest :
    (sampleStoreTwo.table 1).map (fun t => t.rows.map (fun r =>
        (r.cell (SlotName.colInt 8), r.cell (SlotName.colDbl 8))))
      = some [(.integer 15, .real Dbl.one), (.integer 16, .real Dbl.zero)] ∧
    (DataSet.endBatchedToDB sampleConv sampleDataTwo
        [⟨7, "a", 2, [3, -1], [Dbl.one, Dbl.zero]⟩] sampleStoreTwo).1.toBool = true ∧
    ((DataSet.endBatchedToDB sampleConv sampleDataTwo
        [⟨7, "a", 2, [3, -1], [Dbl.one, Dbl.zero]⟩] sampleStoreTwo).2.table 1).map
        (fun t => t.rows.map (fun r =>
          (r.cell (SlotName.colInt 8), r.cell (SlotName.colDbl 8))))
      = some [(.null, .null), (.null, .null)] := by
  decide!
/-! ## Mutual exclusion of read and write transactions: the operations -/

theorem safe_pure {α : Type} {P : Db → Prop} {Q : α → Db → Prop} (a : α)
    (h : ∀ db, P db → Q a db) : M.Safe P (pure a : M α) Q := by
  intro db hP
  refine ⟨?_, ?_⟩
  · show (Except.ok a : Except Err α) ≠ _
    simp
  · intro b hb
    have hab : a = b := by
      have : (Except.ok a : Except Err α) = Except.ok b := hb
      simpa using this
    subst hab
    exact h db hP

theorem safe_raise {α : Type} {P : Db → Prop} {Q : α → Db → Prop} (e : Err)
    (h : e ≠ Err.assertion) : M.Safe P (M.raise e : M α) Q := by
  intro db _
  refine ⟨?_, ?_⟩
  · show (Except.error e : Except Err α) ≠ _
    simpa using h
  · intro b hb
    have : (Except.error e : Except Err α) = Except.ok b := hb
    simp at this

theorem safe_bind {α β : Type} {P : Db → Prop} {R : α → Db → Prop} {Q : β → Db → Prop}
    {x : M α} {f : α → M β} (hx : M.Safe P x R) (hf : ∀ a, M.Safe (R a) (f a) Q) :
    M.Safe P (x >>= f) Q := by
  intro db hP
  rw [M.bind_run]
  obtain ⟨h1, h2⟩ := hx db hP
  rcases hxe : x db with ⟨res, db'⟩
  rw [hxe] at h1 h2
  cases res with
  | ok a => exact hf a db' (h2 a rfl)
  | error e =>
    simp only []
    refine ⟨fun h => h1 (by simp only [Except.error.injEq] at h ⊢; exact h), ?_⟩
    intro b hb
    simp at hb

theorem safe_ite {α : Type} {P : Db → Prop} {Q : α → Db → Prop} (c : Prop) [Decidable c]
    {x y : M α} (hx : M.Safe P x Q) (hy : M.Safe P y Q) : M.Safe P (if c then x else y) Q := by
  split
  · exact hx
  · exact hy

theorem safe_weaken {α : Type} {P P' : Db → Prop} {Q Q' : α → Db → Prop} {x : M α}
    (hx : M.Safe P x Q) (hP : ∀ db, P' db → P db) (hQ : ∀ a db, Q a db → Q' a db) :
    M.Safe P' x Q' := by
  intro db h
  obtain ⟨h1, h2⟩ := hx db (hP db h)
  exact ⟨h1, fun a ha => hQ a _ (h2 a ha)⟩

theorem safe_of_fact {α : Type} {P : Db → Prop} {Q : α → Db → Prop} {x : M α} (C : Prop)
    (hC : ∀ db, P db → C) (hx : C → M.Safe P x Q) : M.Safe P x Q :=
  fun db h => hx (hC db h) db h

theorem safe_get {P : Db → Prop} : M.Safe P M.get (fun a db => a = db ∧ P db) := by
  intro db hP
  refine ⟨?_, ?_⟩
  · show (Except.ok db : Except Err Db) ≠ _
    simp
  · intro a ha
    have : (Except.ok db : Except Err Db) = Except.ok a := ha
    have hab : db = a := by simpa using this
    exact ⟨hab.symm, hP⟩

theorem safe_cAssert {P : Db → Prop} (c : Bool) (h : c = true) :
    M.Safe P (cAssert c) (fun _ => P) := by
  subst h
  exact safe_pure () (fun _ h => h)

theorem safe_modify {P Q : Db → Prop} (f : Db → Db) (h : ∀ db, P db → Q (f db)) :
    M.Safe P (M.modify f) (fun _ => Q) := by
  intro db hP
  refine ⟨?_, fun _ _ => h db hP⟩
  show (Except.ok () : Except Err Unit) ≠ _
  simp

theorem safe_logStmt (w r : Nat) (s : Stmt) :
    M.Safe (AtDepths w r) (logStmt s) (fun _ => AtDepths w r) :=
  safe_modify _ (fun _ h => h)

theorem safe_progressCallback (w r : Nat) (p : ProgressCall) :
    M.Safe (AtDepths w r) (progressCallback p) (fun _ => AtDepths w r) :=
  safe_modify _ (fun _ h => h)

/-- No statement changes a depth counter. -/
theorem step_depths (stmt : Stmt) (params : List SqlValue) (db : Db) :
    (stmt.step params db).2.2.transactionWriteDepth = db.transactionWriteDepth ∧
    (stmt.step params db).2.2.transactionReadDepth = db.transactionReadDepth := by
  cases stmt with
  | incRevision t => cases t <;> exact ⟨rfl, rfl⟩
  | selectRevision t => cases t <;> exact ⟨rfl, rfl⟩
  | _ =>
    simp only [Stmt.step, Db.mapRows, Db.setTable]
    repeat' split
    all_goals first
      | exact ⟨rfl, rfl⟩
      | exact ⟨trivial, trivial⟩

theorem step_atDepths (w r : Nat) (stmt : Stmt) (params : List SqlValue) (db : Db)
    (h : AtDepths w r db) : AtDepths w r (stmt.step params db).2.2 := by
  obtain ⟨h1, h2⟩ := step_depths stmt params db
  exact ⟨h1.trans h.1, h2.trans h.2⟩

theorem safe_processRows {σ : Type} (w r : Nat) (J : σ → Prop) (shape : List SqlValue → Prop)
    (processRow : Nat → List SqlValue → σ → M σ)
    (hp : ∀ i row s, shape row → J s →
      M.Safe (AtDepths w r) (processRow i row s) (fun s' db => AtDepths w r db ∧ J s')) :
    ∀ (rows : List (List SqlValue)) (i : Nat) (s : σ), (∀ row ∈ rows, shape row) → J s →
      M.Safe (AtDepths w r) (processRows processRow i rows s)
        (fun s' db => AtDepths w r db ∧ J s') := by
  intro rows
  induction rows with
  | nil =>
    intro i s _ hJ
    exact safe_pure s (fun _ h => ⟨h, hJ⟩)
  | cons row rest ih =>
    intro i s hrows hJ
    rw [processRows]
    refine safe_bind (hp i row s (hrows row (List.mem_cons_self _ _)) hJ) (fun s' => ?_)
    refine safe_of_fact (J s') (fun _ h => h.2) (fun hJ' => ?_)
    exact safe_weaken (ih (i + 1) s' (fun x hx => hrows x (List.mem_cons_of_mem _ hx)) hJ')
      (fun _ h => h.1) (fun _ _ h => h)

theorem safe_runStatementsGen {σ : Type} (w r : Nat) (J : σ → Prop)
    (shape : List SqlValue → Prop) (stmt : Stmt) (params : List SqlValue)
    (processRow : Nat → List SqlValue → σ → M σ) (init : σ)
    (hshape : ∀ db, ∀ row ∈ (stmt.step params db).2.1, shape row)
    (hinit : J init)
    (hp : ∀ i row s, shape row → J s →
      M.Safe (AtDepths w r) (processRow i row s) (fun s' db => AtDepths w r db ∧ J s')) :
    M.Safe (AtDepths w r) (_runStatements stmt params processRow init)
      (fun s' db => AtDepths w r db ∧ J s') := by
  unfold _runStatements
  refine safe_bind (safe_logStmt w r stmt) (fun _ => ?_)
  refine safe_bind safe_get (fun db0 => ?_)
  refine safe_ite _ ?_ (safe_raise _ (by simp))
  rcases hst : stmt.step params db0 with ⟨ret, rows, db'⟩
  simp only []
  have hrows : ∀ row ∈ rows, shape row := by
    have := hshape db0
    rw [hst] at this
    exact this
  refine safe_of_fact (AtDepths w r db') (fun db h => ?_) (fun hd => ?_)
  · have := step_atDepths w r stmt params db0 (h.1 ▸ h.2)
    rw [hst] at this
    exact this
  refine safe_bind (safe_modify (Q := AtDepths w r) _ (fun _ _ => hd)) (fun _ => ?_)
  refine safe_bind (safe_processRows w r J shape processRow hp rows 0 init hrows hinit)
    (fun out => ?_)
  refine safe_ite _ (safe_raise _ (by simp)) (safe_pure out (fun _ h => h))

theorem safe_runStatements (w r : Nat) (stmt : Stmt) (params : List SqlValue) :
    M.Safe (AtDepths w r) (runStatements stmt params) (fun _ => AtDepths w r) := by
  unfold runStatements
  refine safe_weaken (safe_runStatementsGen w r (fun _ => True) (fun _ => True) stmt params _ ()
    (fun _ _ _ => trivial) trivial (fun _ _ s _ _ => safe_pure s (fun _ h => ⟨h, trivial⟩)))
    (fun _ h => h) (fun _ _ h => h.1)

theorem safe_runStatementsId (cv : SqliteConv) (w r : Nat) (stmt : Stmt)
    (params : List SqlValue) :
    M.Safe (AtDepths w r) (runStatementsId cv stmt params) (fun _ => AtDepths w r) := by
  unfold runStatementsId
  refine safe_weaken (safe_runStatementsGen w r (fun _ => True) (fun _ => True) stmt params _ (-1)
    (fun _ _ _ => trivial) trivial (fun _ _ _ _ _ => safe_pure _ (fun _ h => ⟨h, trivial⟩)))
    (fun _ h => h) (fun _ _ h => h.1)

theorem safe_stepThen {α : Type} (w r : Nat) (stmt : Stmt) (params : List SqlValue)
    (body : Db → M α) (Q : α → Db → Prop)
    (hbody : ∀ db0, M.Safe (AtDepths w r) (body db0) Q) :
    M.Safe (AtDepths w r)
      (do
        let db ← M.get
        M.modify (fun _ => (stmt.step params db).2.2)
        body db) Q := by
  refine safe_bind safe_get (fun db0 => ?_)
  refine safe_of_fact (AtDepths w r (stmt.step params db0).2.2) (fun db h => ?_) (fun hd => ?_)
  · exact step_atDepths w r stmt params db0 (h.1 ▸ h.2)
  exact safe_bind (safe_modify (Q := AtDepths w r) _ (fun _ _ => hd)) (fun _ => hbody db0)

theorem safe_repeatedLoop {σ : Type} (w r : Nat) (J : σ → Prop) (stmt : Stmt)
    (factory : Nat → σ → M (Bool × Option (List SqlValue) × σ))
    (hf : ∀ row s, J s →
      M.Safe (AtDepths w r) (factory row s) (fun out db => AtDepths w r db ∧ J out.2.2)) :
    ∀ (fuel : Nat) (ret : Rc) (row : Nat) (bound : List SqlValue) (s : σ), J s →
      M.Safe (AtDepths w r) (repeatedLoop stmt factory fuel ret row bound s)
        (fun _ => AtDepths w r) := by
  intro fuel
  induction fuel with
  | zero =>
    intro ret row bound s _
    exact safe_raise _ (by simp)
  | succ fuel ih =>
    intro ret row bound s hJ
    rw [repeatedLoop]
    refine safe_ite _ ?_ (safe_pure s (fun _ h => h))
    refine safe_bind (hf row s hJ) ?_
    rintro ⟨more, binder, s'⟩
    refine safe_of_fact (J s') (fun _ h => h.2) (fun hJ' => ?_)
    refine safe_weaken ?_ (fun _ h => h.1) (fun _ _ h => h)
    cases more with
    | false => exact safe_pure s' (fun _ h => h)
    | true =>
      cases binder with
      | none =>
        dsimp only
        rw [if_pos rfl]
        refine safe_stepThen w r stmt bound _ _ ?_
        intro db0
        exact safe_ite _ (safe_raise _ (by simp)) (ih _ _ _ s' hJ')
      | some p =>
        dsimp only
        rw [if_pos rfl]
        refine safe_stepThen w r stmt p _ _ ?_
        intro db0
        exact safe_ite _ (safe_raise _ (by simp)) (ih _ _ _ s' hJ')

theorem safe_runStatementsRepeatedly {σ : Type} (w r : Nat) (J : σ → Prop) (fuel : Nat)
    (stmt : Stmt) (factory : Nat → σ → M (Bool × Option (List SqlValue) × σ)) (init : σ)
    (hinit : J init)
    (hf : ∀ row s, J s →
      M.Safe (AtDepths w r) (factory row s) (fun out db => AtDepths w r db ∧ J out.2.2)) :
    M.Safe (AtDepths w r) (_runStatementsRepeatedly fuel stmt factory init)
      (fun _ => AtDepths w r) := by
  unfold _runStatementsRepeatedly
  refine safe_bind (safe_logStmt w r stmt) (fun _ => ?_)
  refine safe_bind safe_get (fun db0 => ?_)
  refine safe_ite _ ?_ (safe_raise _ (by simp))
  exact safe_weaken (safe_repeatedLoop w r J stmt factory hf fuel Rc.ok 0 [] init hinit)
    (fun _ h => h.2) (fun _ _ h => h)

theorem safe_repeatedLoopRows {σ : Type} (w r : Nat) (J : σ → Prop)
    (shape : List SqlValue → Prop) (stmt : Stmt)
    (factory : Nat → σ → M (Bool × Option (List SqlValue) × σ))
    (processRow : Nat → Nat → List SqlValue → σ → M σ)
    (hshape : ∀ params db, ∀ row ∈ (stmt.step params db).2.1, shape row)
    (hf : ∀ row s, J s →
      M.Safe (AtDepths w r) (factory row s) (fun out db => AtDepths w r db ∧ J out.2.2))
    (hp : ∀ i rep row s, shape row → J s →
      M.Safe (AtDepths w r) (processRow i rep row s) (fun s' db => AtDepths w r db ∧ J s')) :
    ∀ (fuel : Nat) (ret : Rc) (row rep : Nat) (bound : List SqlValue) (s : σ), J s →
      M.Safe (AtDepths w r) (repeatedLoopRows stmt factory processRow fuel ret row rep bound s)
        (fun s' db => AtDepths w r db ∧ J s') := by
  intro fuel
  induction fuel with
  | zero =>
    intro ret row rep bound s _
    exact safe_raise _ (by simp)
  | succ fuel ih =>
    intro ret row rep bound s hJ
    rw [repeatedLoopRows]
    refine safe_ite _ ?_ (safe_pure s (fun _ h => ⟨h, hJ⟩))
    refine safe_bind (hf row s hJ) ?_
    rintro ⟨more, binder, s'⟩
    refine safe_of_fact (J s') (fun _ h => h.2) (fun hJ' => ?_)
    refine safe_weaken ?_ (fun _ h => h.1) (fun _ _ h => h)
    cases more with
    | false => exact safe_pure s' (fun _ h => ⟨h, hJ'⟩)
    | true =>
      have hrest : ∀ (ret' : Rc) (rows : List (List SqlValue)) (b : List SqlValue),
          (∀ x ∈ rows, shape x) →
          M.Safe (AtDepths w r)
            (do
              let s'' ← processRows (fun i x t => processRow i rep x t) row rows s'
              if ret' = Rc.error then M.raise Err.sqlError
              else
                repeatedLoopRows stmt factory processRow fuel ret' (row + rows.length + 1)
                  (rep + 1) b s'')
            (fun s' db => AtDepths w r db ∧ J s') := by
        intro ret' rows b hrows
        refine safe_bind (safe_processRows w r J shape _ (fun i x t => hp i rep x t) rows row s'
          hrows hJ') (fun s'' => ?_)
        refine safe_of_fact (J s'') (fun _ h => h.2) (fun hJ'' => ?_)
        refine safe_weaken ?_ (fun _ h => h.1) (fun _ _ h => h)
        exact safe_ite _ (safe_raise _ (by simp)) (ih ret' _ _ _ s'' hJ'')
      cases binder with
      | none =>
        dsimp only
        rw [if_pos rfl]
        refine safe_stepThen w r stmt bound _ _ ?_
        intro db0
        exact hrest _ _ bound (hshape bound db0)
      | some p =>
        dsimp only
        rw [if_pos rfl]
        refine safe_stepThen w r stmt p _ _ ?_
        intro db0
        exact hrest _ _ p (hshape p db0)

theorem safe_runStatementsRepeatedlyRows {σ : Type} (w r : Nat) (J : σ → Prop)
    (shape : List SqlValue → Prop) (fuel : Nat) (stmt : Stmt)
    (factory : Nat → σ → M (Bool × Option (List SqlValue) × σ))
    (processRow : Nat → Nat → List SqlValue → σ → M σ) (init : σ)
    (hshape : ∀ params db, ∀ row ∈ (stmt.step params db).2.1, shape row)
    (hinit : J init)
    (hf : ∀ row s, J s →
      M.Safe (AtDepths w r) (factory row s) (fun out db => AtDepths w r db ∧ J out.2.2))
    (hp : ∀ i rep row s, shape row → J s →
      M.Safe (AtDepths w r) (processRow i rep row s) (fun s' db => AtDepths w r db ∧ J s')) :
    M.Safe (AtDepths w r) (_runStatementsRepeatedlyRows fuel stmt factory processRow init)
      (fun _ => AtDepths w r) := by
  unfold _runStatementsRepeatedlyRows
  refine safe_bind (safe_logStmt w r stmt) (fun _ => ?_)
  refine safe_bind safe_get (fun db0 => ?_)
  refine safe_ite _ ?_ (safe_raise _ (by simp))
  exact safe_weaken
    (safe_repeatedLoopRows w r J shape stmt factory processRow hshape hf hp fuel Rc.ok 0 0 []
      init hinit)
    (fun _ h => h.2) (fun _ _ h => h.1)

theorem safe_transactionWriteBegin (w : Nat) :
    M.Safe (AtDepths w 0) transactionWriteBegin (fun _ => AtDepths (w + 1) 0) := by
  intro db h
  rw [transactionWriteBegin_run db h.2]
  refine ⟨by simp, fun _ _ => ⟨?_, h.2⟩⟩
  show db.transactionWriteDepth + 1 = w + 1
  rw [h.1]

theorem safe_transactionWriteEnd (w r : Nat) :
    M.Safe (AtDepths (w + 1) r) (transactionWriteEnd false) (fun _ => AtDepths w r) := by
  intro db h
  rw [transactionWriteEnd_run db (by rw [h.1]; omega)]
  refine ⟨by simp, fun _ _ => ⟨?_, h.2⟩⟩
  show db.transactionWriteDepth - 1 = w
  rw [h.1]
  rfl

theorem safe_transactionReadBegin (r : Nat) :
    M.Safe (AtDepths 0 r) transactionReadBegin (fun _ => AtDepths 0 (r + 1)) := by
  intro db h
  rw [transactionReadBegin_run db h.1]
  refine ⟨by simp, fun _ _ => ⟨h.1, ?_⟩⟩
  show db.transactionReadDepth + 1 = r + 1
  rw [h.2]

theorem safe_transactionReadEnd (w r : Nat) :
    M.Safe (AtDepths w (r + 1)) transactionReadEnd (fun _ => AtDepths w r) := by
  intro db h
  rw [transactionReadEnd_run db (by rw [h.2]; omega)]
  refine ⟨by simp, fun _ _ => ⟨h.1, ?_⟩⟩
  show db.transactionReadDepth - 1 = r
  rw [h.2]
  rfl

theorem safe_done {α : Type} {w r : Nat} (a : α) :
    M.Safe (AtDepths w r) (pure a : M α) (fun _ => AtDepths w r) :=
  safe_pure a (fun _ h => h)

section SafeOps

variable (cv : SqliteConv)

theorem safe_columnIdForIndex (dataSetId index : Int) (w r : Nat) :
    M.Safe (AtDepths w r) (columnIdForIndex cv dataSetId index) (fun _ => AtDepths w r) :=
  safe_runStatementsId cv w r _ _

theorem safe_columnGetDataSetId (columnId : Int) (w r : Nat) :
    M.Safe (AtDepths w r) (columnGetDataSetId cv columnId) (fun _ => AtDepths w r) :=
  safe_runStatementsId cv w r _ _

theorem safe_columnIndexForId (columnId : Int) (w r : Nat) :
    M.Safe (AtDepths w r) (columnIndexForId cv columnId) (fun _ => AtDepths w r) :=
  safe_runStatementsId cv w r _ _

theorem safe_dataSetRowCount (dataSetId : Int) (w r : Nat) :
    M.Safe (AtDepths w r) (dataSetRowCount cv dataSetId) (fun _ => AtDepths w r) :=
  safe_runStatementsId cv w r _ _

theorem safe_filterGetDataSetId (filterIndex : Int) (w r : Nat) :
    M.Safe (AtDepths w r) (filterGetDataSetId cv filterIndex) (fun _ => AtDepths w r) :=
  safe_runStatementsId cv w r _ _

theorem safe_dataSetGetFilter (dataSetId : Int) (w r : Nat) :
    M.Safe (AtDepths w r) (dataSetGetFilter cv dataSetId) (fun _ => AtDepths w r) :=
  safe_runStatementsId cv w r _ _

theorem safe_columnLastFreeIndex (dataSetId : Int) (w r : Nat) :
    M.Safe (AtDepths w r) (columnLastFreeIndex cv dataSetId) (fun _ => AtDepths w r) := by
  unfold columnLastFreeIndex
  exact safe_bind (safe_runStatementsId cv w r _ _) (fun _ => safe_done _)

theorem safe_columnIndexIncrements (dataSetId index : Int) (w r : Nat) :
    M.Safe (AtDepths w r) (columnIndexIncrements cv dataSetId index) (fun _ => AtDepths w r) := by
  unfold columnIndexIncrements
  refine safe_bind (safe_columnIdForIndex cv _ _ w r) (fun _ => ?_)
  exact safe_ite _ (safe_runStatements w r _ _) (safe_done _)

theorem safe_columnIndexDecrements (dataSetId index : Int) (w r : Nat) :
    M.Safe (AtDepths w r) (columnIndexDecrements cv dataSetId index) (fun _ => AtDepths w r) := by
  unfold columnIndexDecrements
  refine safe_bind (safe_columnIdForIndex cv _ _ w r) (fun _ => ?_)
  exact safe_ite _ (safe_runStatements w r _ _) (safe_done _)

theorem safe_dataSetIncRevision (dataSetId : Int) (w : Nat) :
    M.Safe (AtDepths w 0) (dataSetIncRevision cv dataSetId) (fun _ => AtDepths w 0) := by
  unfold dataSetIncRevision
  refine safe_bind (safe_transactionWriteBegin w) (fun _ => ?_)
  repeat (first
    | exact safe_done _
    | exact safe_transactionWriteEnd _ _
    | exact safe_runStatements _ _ _ _
    | exact safe_runStatementsId cv _ _ _ _
    | refine safe_bind (safe_transactionWriteEnd w 0) (fun _ => ?_)
    | refine safe_bind (R := fun _ => AtDepths (w + 1) 0) ?_ (fun _ => ?_)
    | refine safe_ite _ ?_ ?_)

theorem safe_filterIncRevision (filterIndex : Int) (w : Nat) :
    M.Safe (AtDepths w 0) (filterIncRevision cv filterIndex) (fun _ => AtDepths w 0) := by
  unfold filterIncRevision
  refine safe_bind (safe_transactionWriteBegin w) (fun _ => ?_)
  repeat (first
    | exact safe_done _
    | exact safe_transactionWriteEnd _ _
    | exact safe_runStatements _ _ _ _
    | exact safe_runStatementsId cv _ _ _ _
    | refine safe_bind (safe_transactionWriteEnd w 0) (fun _ => ?_)
    | refine safe_bind (R := fun _ => AtDepths (w + 1) 0) ?_ (fun _ => ?_)
    | refine safe_ite _ ?_ ?_)

theorem safe_columnIncRevision (columnId : Int) (w : Nat) :
    M.Safe (AtDepths w 0) (columnIncRevision cv columnId) (fun _ => AtDepths w 0) := by
  unfold columnIncRevision
  refine safe_bind (safe_transactionWriteBegin w) (fun _ => ?_)
  repeat (first
    | exact safe_done _
    | exact safe_transactionWriteEnd _ _
    | exact safe_runStatements _ _ _ _
    | exact safe_runStatementsId cv _ _ _ _
    | refine safe_bind (safe_transactionWriteEnd w 0) (fun _ => ?_)
    | refine safe_bind (R := fun _ => AtDepths (w + 1) 0) ?_ (fun _ => ?_)
    | refine safe_ite _ ?_ ?_)

theorem safe_dataSetSetRowCount (dataSetId : Int) (rowCount : Nat) (w : Nat) :
    M.Safe (AtDepths w 0) (dataSetSetRowCount cv dataSetId rowCount) (fun _ => AtDepths w 0) := by
  unfold dataSetSetRowCount
  refine safe_bind (safe_transactionWriteBegin w) (fun _ => ?_)
  refine safe_bind (safe_dataSetRowCount cv _ _ _) (fun curCount => ?_)
  refine safe_ite _ ?_ ?_
  · refine safe_bind ?_ (fun _ => safe_transactionWriteEnd w 0)
    exact safe_runStatementsRepeatedly (w + 1) 0 (fun _ => True) _ _ _ () trivial
      (fun _ _ _ => safe_pure _ (fun _ h => ⟨h, trivial⟩))
  · exact safe_bind (safe_runStatements _ _ _ _) (fun _ => safe_transactionWriteEnd w 0)

theorem safe_filterWrite (filterIndex : Int) (values : List Bool) (w : Nat) :
    M.Safe (AtDepths w 0) (filterWrite cv filterIndex values) (fun _ => AtDepths w 0) := by
  unfold filterWrite
  refine safe_bind (safe_transactionWriteBegin w) (fun _ => ?_)
  refine safe_bind (safe_filterGetDataSetId cv _ _ _) (fun dataSet => ?_)
  refine safe_bind (safe_runStatementsRepeatedly (w + 1) 0 (fun _ => True) _ _ _ 0 trivial
    (fun _ _ _ => safe_pure _ (fun _ h => ⟨h, trivial⟩))) (fun _ => ?_)
  refine safe_bind (safe_filterIncRevision cv filterIndex (w + 1)) (fun _ => ?_)
  exact safe_transactionWriteEnd w 0

theorem safe_columnInsert (dataSetId index : Int) (name colType : String) (alterTable : Bool)
    (w : Nat) :
    M.Safe (AtDepths w 0) (columnInsert cv dataSetId index name colType alterTable)
      (fun _ => AtDepths w 0) := by
  unfold columnInsert
  refine safe_bind (safe_transactionWriteBegin w) (fun _ => ?_)
  cases alterTable with
  | false =>
    simp only [Bool.false_eq_true, if_false]
    refine safe_ite _ ?_ ?_
    · refine safe_bind (safe_columnLastFreeIndex cv _ _ _) (fun _ => ?_)
      refine safe_bind (safe_runStatementsId cv _ _ _ _) (fun _ => ?_)
      refine safe_bind (safe_done _) (fun _ => ?_)
      exact safe_bind (safe_transactionWriteEnd w 0) (fun _ => safe_done _)
    · refine safe_bind (safe_columnIndexIncrements cv _ _ _ _) (fun _ => ?_)
      refine safe_bind (safe_done _) (fun _ => ?_)
      refine safe_bind (safe_runStatementsId cv _ _ _ _) (fun _ => ?_)
      refine safe_bind (safe_done _) (fun _ => ?_)
      exact safe_bind (safe_transactionWriteEnd w 0) (fun _ => safe_done _)
  | true =>
    simp only [if_true]
    refine safe_ite _ ?_ ?_
    · refine safe_bind (safe_columnLastFreeIndex cv _ _ _) (fun _ => ?_)
      refine safe_bind (safe_runStatementsId cv _ _ _ _) (fun _ => ?_)
      refine safe_bind (safe_runStatements _ _ _ _) (fun _ => ?_)
      refine safe_bind (safe_runStatements _ _ _ _) (fun _ => ?_)
      exact safe_bind (safe_transactionWriteEnd w 0) (fun _ => safe_done _)
    · refine safe_bind (safe_columnIndexIncrements cv _ _ _ _) (fun _ => ?_)
      refine safe_bind (safe_done _) (fun _ => ?_)
      refine safe_bind (safe_runStatementsId cv _ _ _ _) (fun _ => ?_)
      refine safe_bind (safe_runStatements _ _ _ _) (fun _ => ?_)
      refine safe_bind (safe_runStatements _ _ _ _) (fun _ => ?_)
      exact safe_bind (safe_transactionWriteEnd w 0) (fun _ => safe_done _)

theorem safe_columnDelete (columnId : Int) (cleanUpRest : Bool) (w : Nat) :
    M.Safe (AtDepths w 0) (columnDelete cv columnId cleanUpRest) (fun _ => AtDepths w 0) := by
  unfold columnDelete
  refine safe_bind (safe_transactionWriteBegin w) (fun _ => ?_)
  refine safe_bind (safe_columnGetDataSetId cv _ _ _) (fun dataSetId => ?_)
  refine safe_bind (safe_columnIndexForId cv _ _ _) (fun columnIndex => ?_)
  cases cleanUpRest with
  | false =>
    simp only [Bool.false_eq_true, if_false]
    refine safe_bind (safe_done _) (fun _ => ?_)
    refine safe_bind (safe_runStatements _ _ _ _) (fun _ => ?_)
    refine safe_bind (safe_done _) (fun _ => ?_)
    exact safe_transactionWriteEnd w 0
  | true =>
    simp only [if_true]
    refine safe_bind (safe_runStatements _ _ _ _) (fun _ => ?_)
    refine safe_bind (safe_runStatements _ _ _ _) (fun _ => ?_)
    refine safe_bind (safe_runStatements _ _ _ _) (fun _ => ?_)
    refine safe_bind (safe_columnIndexDecrements cv _ _ _ _) (fun _ => ?_)
    exact safe_transactionWriteEnd w 0

theorem safe_columnSetValues (columnId : Int) (ints : List Int) (dbls : List Dbl) (w : Nat) :
    M.Safe (AtDepths w 0) (columnSetValues cv columnId ints dbls) (fun _ => AtDepths w 0) := by
  unfold columnSetValues
  refine safe_bind (safe_transactionWriteBegin w) (fun _ => ?_)
  refine safe_bind (safe_columnGetDataSetId cv _ _ _) (fun dataSetId => ?_)
  refine safe_bind (safe_runStatementsRepeatedly (w + 1) 0 (fun _ => True) _ _ _ 0 trivial ?_)
    (fun _ => safe_transactionWriteEnd w 0)
  intro row s _
  refine safe_ite _ (safe_pure _ (fun _ h => ⟨h, trivial⟩)) ?_
  split
  · exact safe_pure _ (fun _ h => ⟨h, trivial⟩)
  · exact safe_raise _ (by simp)

theorem safe_batchedBindFactory (data : DataSet) (columns : List Column) (updateInterval : Nat)
    (row s : Nat) (w r : Nat) :
    M.Safe (AtDepths w r) (batchedBindFactory data columns updateInterval row s)
      (fun _ db => AtDepths w r db ∧ True) := by
  have hlast : M.Safe (AtDepths w r)
      (match bindParamStore data columns row with
        | some params => (pure (true, some params, row) : M (Bool × Option (List SqlValue) × Nat))
        | none => M.raise Err.outOfRange)
      (fun _ db => AtDepths w r db ∧ True) := by
    split
    · exact safe_pure _ (fun _ h => ⟨h, trivial⟩)
    · exact safe_raise _ (by simp)
  unfold batchedBindFactory
  refine safe_ite _ ?_ ?_
  · exact safe_bind (safe_progressCallback w r _)
      (fun _ => safe_pure _ (fun _ h => ⟨h, trivial⟩))
  · refine safe_bind safe_get (fun db0 => ?_)
    refine safe_weaken ?_ (fun _ h => h.2) (fun _ _ h => h)
    refine safe_ite _ ?_ ?_
    · refine safe_bind (safe_progressCallback w r _) (fun _ => ?_)
      exact safe_bind (safe_modify (Q := AtDepths w r) _ (fun _ h => h)) (fun _ => hlast)
    · exact safe_bind (safe_done _) (fun _ => hlast)

theorem safe_dataSetBatchedValuesUpdate (data : DataSet) (columns : List Column) (w : Nat) :
    M.Safe (AtDepths w 0) (dataSetBatchedValuesUpdate data columns) (fun _ => AtDepths w 0) := by
  unfold dataSetBatchedValuesUpdate
  refine safe_bind (safe_transactionWriteBegin w) (fun _ => ?_)
  refine safe_bind (safe_runStatements _ _ _ _) (fun _ => ?_)
  exact safe_bind (safe_runStatementsRepeatedly (w + 1) 0 (fun _ => True) _ _ _ 0 trivial
    (fun row s _ => safe_batchedBindFactory data columns _ row s (w + 1) 0))
    (fun _ => safe_transactionWriteEnd w 0)

theorem safe_dataSetInsert (dataFilePath : String) (dataFileTimestamp : Int)
    (description databaseJson emptyValuesJson : String) (dataSynch : Bool) (w : Nat) :
    M.Safe (AtDepths w 0)
      (dataSetInsert cv dataFilePath dataFileTimestamp description databaseJson emptyValuesJson
        dataSynch) (fun _ => AtDepths w 0) := by
  unfold dataSetInsert
  refine safe_bind (safe_transactionWriteBegin w) (fun _ => ?_)
  repeat (first
    | exact safe_done _
    | exact safe_transactionWriteEnd _ _
    | exact safe_runStatements _ _ _ _
    | exact safe_runStatementsId cv _ _ _ _
    | refine safe_bind (safe_transactionWriteEnd w 0) (fun _ => ?_)
    | refine safe_bind (R := fun _ => AtDepths (w + 1) 0) ?_ (fun _ => ?_)
    | refine safe_ite _ ?_ ?_)

theorem safe_dataSetDelete (dataSetId : Int) (w : Nat) :
    M.Safe (AtDepths w 0) (dataSetDelete dataSetId) (fun _ => AtDepths w 0) := by
  unfold dataSetDelete
  refine safe_bind (safe_transactionWriteBegin w) (fun _ => ?_)
  repeat (first
    | exact safe_done _
    | exact safe_transactionWriteEnd _ _
    | exact safe_runStatements _ _ _ _
    | exact safe_runStatementsId cv _ _ _ _
    | refine safe_bind (safe_transactionWriteEnd w 0) (fun _ => ?_)
    | refine safe_bind (R := fun _ => AtDepths (w + 1) 0) ?_ (fun _ => ?_)
    | refine safe_ite _ ?_ ?_)

theorem safe_filterDelete (filterIndex : Int) (w : Nat) :
    M.Safe (AtDepths w 0) (filterDelete cv filterIndex) (fun _ => AtDepths w 0) := by
  unfold filterDelete
  refine safe_bind (safe_transactionWriteBegin w) (fun _ => ?_)
  refine safe_bind (safe_filterGetDataSetId cv _ _ _) (fun dataSetId => ?_)
  refine safe_ite _ ?_ ?_
  · refine safe_bind (safe_runStatements _ _ _ _) (fun _ => ?_)
    exact safe_bind (safe_runStatements _ _ _ _) (fun _ => safe_transactionWriteEnd w 0)
  · refine safe_bind (safe_done _) (fun _ => ?_)
    exact safe_bind (safe_runStatements _ _ _ _) (fun _ => safe_transactionWriteEnd w 0)

theorem safe_filterInsert (dataSetId : Int) (rFilter generatedFilter constructorJson
    constructorR name : String) (w : Nat) :
    M.Safe (AtDepths w 0)
      (filterInsert cv dataSetId rFilter generatedFilter constructorJson constructorR name)
      (fun _ => AtDepths w 0) := by
  unfold filterInsert
  refine safe_bind (safe_transactionWriteBegin w) (fun _ => ?_)
  repeat (first
    | exact safe_done _
    | exact safe_transactionWriteEnd _ _
    | exact safe_runStatements _ _ _ _
    | exact safe_runStatementsId cv _ _ _ _
    | refine safe_bind (safe_transactionWriteEnd w 0) (fun _ => ?_)
    | refine safe_bind (R := fun _ => AtDepths (w + 1) 0) ?_ (fun _ => ?_)
    | refine safe_ite _ ?_ ?_)

theorem safe_labelSetOrder (id order : Int) (w : Nat) :
    M.Safe (AtDepths w 0) (labelSetOrder id order) (fun _ => AtDepths w 0) := by
  unfold labelSetOrder
  refine safe_bind (safe_transactionWriteBegin w) (fun _ => ?_)
  repeat (first
    | exact safe_done _
    | exact safe_transactionWriteEnd _ _
    | exact safe_runStatements _ _ _ _
    | exact safe_runStatementsId cv _ _ _ _
    | refine safe_bind (safe_transactionWriteEnd w 0) (fun _ => ?_)
    | refine safe_bind (R := fun _ => AtDepths (w + 1) 0) ?_ (fun _ => ?_)
    | refine safe_ite _ ?_ ?_)

theorem safe_labelsSetOrder (orderPerDbId : List (Int × Int)) (w : Nat) :
    M.Safe (AtDepths w 0) (labelsSetOrder orderPerDbId) (fun _ => AtDepths w 0) := by
  unfold labelsSetOrder
  refine safe_ite _ (safe_pure _ (fun _ h => h)) ?_
  refine safe_bind (safe_transactionWriteBegin w) (fun _ => ?_)
  refine safe_bind (safe_runStatementsRepeatedly (w + 1) 0 (fun _ => True) _ _ _ _ trivial ?_)
    (fun _ => safe_transactionWriteEnd w 0)
  intro row s _
  cases s with
  | nil => exact safe_pure _ (fun _ h => ⟨h, trivial⟩)
  | cons entry rest => exact safe_pure _ (fun _ h => ⟨h, trivial⟩)

theorem step_insertLabel_rows (params : List SqlValue) (db : Db) :
    ∀ row ∈ (Stmt.insertLabel.step params db).2.1, row.length = 1 := by
  intro row hrow
  simp only [Stmt.step, List.mem_singleton] at hrow
  rw [hrow]
  rfl

theorem safe_labelsWrite (columnId : Int) (labels : List Label) (w : Nat) :
    M.Safe (AtDepths w 0) (labelsWrite cv columnId labels) (fun _ => AtDepths w 0) := by
  unfold labelsWrite
  refine safe_bind (safe_transactionWriteBegin w) (fun _ => ?_)
  refine safe_bind (safe_runStatements _ _ _ _) (fun _ => ?_)
  have hend : ∀ out : List Label, M.Safe (AtDepths (w + 1) 0)
      (do
        transactionWriteEnd false
        pure out)
      (fun _ => AtDepths w 0) :=
    fun out => safe_bind (safe_transactionWriteEnd w 0) (fun _ => safe_done _)
  refine safe_ite _ (safe_bind (safe_done _) (fun out => hend out)) ?_
  refine safe_bind (safe_runStatementsRepeatedlyRows (w + 1) 0 (fun _ => True)
    (fun row => row.length = 1) _ _ _ _ _ step_insertLabel_rows trivial ?_ ?_)
    (fun out => safe_bind (safe_done _) (fun out' => hend out'))
  · intro row s _
    split
    · exact safe_pure _ (fun _ h => ⟨h, trivial⟩)
    · exact safe_pure _ (fun _ h => ⟨h, trivial⟩)
  · intro i rep row s hrow _
    refine safe_bind (safe_cAssert _ (by simp [hrow])) (fun _ => ?_)
    split
    · exact safe_raise _ (by simp)
    · exact safe_pure _ (fun _ h => ⟨h, trivial⟩)

theorem safe_create (opened : Bool) (w : Nat) :
    M.Safe (AtDepths w 0) (create false opened) (fun _ => AtDepths w 0) := by
  unfold create
  refine safe_bind (safe_cAssert _ rfl) (fun _ => ?_)
  refine safe_ite _ ?_ (safe_raise _ (by simp))
  refine safe_bind (safe_transactionWriteBegin w) (fun _ => ?_)
  repeat (first
    | exact safe_done _
    | exact safe_transactionWriteEnd _ _
    | exact safe_runStatements _ _ _ _
    | exact safe_runStatementsId cv _ _ _ _
    | refine safe_bind (safe_transactionWriteEnd w 0) (fun _ => ?_)
    | refine safe_bind (R := fun _ => AtDepths (w + 1) 0) ?_ (fun _ => ?_)
    | refine safe_ite _ ?_ ?_)

end SafeOps

section SafeReads

variable (cv : SqliteConv)

theorem step_selectSlots_rows (ds : Int) (slots : List SlotName) (params : List SqlValue)
    (db : Db) :
    ∀ row ∈ ((Stmt.selectSlots ds slots).step params db).2.1, row.length = slots.length := by
  intro row hrow
  simp only [Stmt.step] at hrow
  split at hrow
  · simp only [List.mem_map] at hrow
    obtain ⟨_, _, rfl⟩ := hrow
    simp
  · simp at hrow

theorem step_selectLabelCount_rows (params : List SqlValue) (db : Db) :
    ∀ row ∈ (Stmt.selectLabelCount.step params db).2.1, row.length = 1 := by
  intro row hrow
  simp only [Stmt.step, List.mem_singleton] at hrow
  rw [hrow]
  rfl

theorem step_selectLabels_rows (params : List SqlValue) (db : Db) :
    ∀ row ∈ (Stmt.selectLabels.step params db).2.1, row.length = 7 := by
  intro row hrow
  simp only [Stmt.step, List.mem_map] at hrow
  obtain ⟨_, _, rfl⟩ := hrow
  rfl

theorem loadRowIntoColumns_length (row : Nat) (r : List SqlValue) :
    ∀ (cols : List Column) (colI : Nat),
      (loadRowIntoColumns cv row r colI cols).length = cols.length := by
  intro cols
  induction cols with
  | nil => intro colI; rfl
  | cons col rest ih =>
    intro colI
    rw [loadRowIntoColumns, List.length_cons, List.length_cons, ih]

theorem safe_columnGetValues (columnId : Int) (ints : List Int) (dbls : List Dbl) (r : Nat) :
    M.Safe (AtDepths 0 r) (columnGetValues cv columnId ints dbls) (fun _ => AtDepths 0 r) := by
  unfold columnGetValues
  refine safe_bind (safe_transactionReadBegin r) (fun _ => ?_)
  refine safe_bind (safe_columnGetDataSetId cv _ _ _) (fun dataSet => ?_)
  refine safe_bind (safe_dataSetRowCount cv _ _ _) (fun rowCount => ?_)
  refine safe_bind (safe_weaken (safe_runStatementsGen 0 (r + 1) (fun _ => True)
    (fun row => row.length = 2) _ _ _ _ (fun db => step_selectSlots_rows _ _ _ db) trivial ?_)
    (fun _ h => h) (fun _ _ h => h.1)) (fun out => ?_)
  · intro i row s hrow _
    refine safe_bind (safe_cAssert _ (by simp [hrow])) (fun _ => ?_)
    exact safe_ite _ (safe_pure _ (fun _ h => ⟨h, trivial⟩)) (safe_raise _ (by simp))
  · exact safe_bind (safe_transactionReadEnd 0 r) (fun _ => safe_done _)

theorem safe_filterSelect (filterIndex : Int) (bools : List Bool) (r : Nat) :
    M.Safe (AtDepths 0 r) (filterSelect cv filterIndex bools) (fun _ => AtDepths 0 r) := by
  unfold filterSelect
  refine safe_bind (safe_transactionReadBegin r) (fun _ => ?_)
  refine safe_bind (safe_filterGetDataSetId cv _ _ _) (fun dataSet => ?_)
  have hend : ∀ out : Bool × List Bool, M.Safe (AtDepths 0 (r + 1))
      (do
        transactionReadEnd
        pure out)
      (fun _ => AtDepths 0 r) :=
    fun out => safe_bind (safe_transactionReadEnd 0 r) (fun _ => safe_done _)
  refine safe_ite _ ?_ (safe_bind (safe_done _) (fun out => hend out))
  refine safe_bind (safe_dataSetRowCount cv _ _ _) (fun rows => ?_)
  refine safe_bind (safe_weaken (safe_runStatementsGen 0 (r + 1) (fun _ => True) (fun _ => True)
    _ _ _ _ (fun _ _ _ => trivial) trivial ?_) (fun _ h => h) (fun _ _ h => h.1))
    (fun out => hend out)
  intro i row s _ _
  split
  · exact safe_pure _ (fun _ h => ⟨h, trivial⟩)
  · exact safe_raise _ (by simp)

theorem safe_loadProcessRow (rowCount rowPercent n : Nat) (i : Nat) (row : List SqlValue)
    (data : DataSet) (w r : Nat) (hrow : row.length = 2 * n + 1)
    (hdata : data._columns.length = n) :
    M.Safe (AtDepths w r) (loadProcessRow cv rowCount rowPercent i row data)
      (fun s' db => AtDepths w r db ∧ s'._columns.length = n) := by
  unfold loadProcessRow
  refine safe_ite _ (safe_bind (safe_progressCallback w r _) (fun _ => ?_))
    (safe_bind (safe_done _) (fun _ => ?_))
  all_goals
    refine safe_bind (safe_cAssert _ ?_) (fun _ => ?_)
    · rw [hrow, hdata]
      simp
      omega
    · refine safe_pure _ (fun _ h => ⟨h, ?_⟩)
      show (loadRowIntoColumns cv i row 0 data._columns).length = n
      rw [loadRowIntoColumns_length, hdata]

theorem safe_dataSetBatchedValuesLoad (data : DataSet) (r : Nat) :
    M.Safe (AtDepths 0 r) (dataSetBatchedValuesLoad cv data) (fun _ => AtDepths 0 r) := by
  unfold dataSetBatchedValuesLoad
  refine safe_ite _
    (safe_bind (safe_dataSetGetFilter cv _ _ _)
      (fun _ => safe_bind (safe_done _) (fun data1 => ?_)))
    (safe_bind (safe_done _) (fun data1 => ?_))
  all_goals
    refine safe_ite _ (safe_done _) ?_
    refine safe_bind (safe_transactionReadBegin r) (fun _ => ?_)
    refine safe_bind (safe_dataSetRowCount cv _ _ _) (fun rowCount => ?_)
    refine safe_bind (safe_weaken (safe_runStatementsGen 0 (r + 1)
      (fun s => s._columns.length = data1._columns.length)
      (fun row => row.length = 2 * data1._columns.length + 1) _ _ _ _
      (fun db row hrow => ?_) ?_ ?_)
      (fun _ h => h) (fun _ _ h => h.1)) (fun out => ?_)
    · show row.length = 2 * data1._columns.length + 1
      rw [step_selectSlots_rows _ _ _ db row hrow, List.length_append, length_flatMap_pair]
      rfl
    · simp
    · intro i row s hrow hs
      exact safe_loadProcessRow cv _ _ _ i row s 0 (r + 1) hrow hs
    · exact safe_bind (safe_transactionReadEnd 0 r) (fun _ => safe_done _)

theorem safe_columnGetLabelCount (columnId : Int) (w r : Nat) :
    M.Safe (AtDepths w r) (columnGetLabelCount cv columnId) (fun _ => AtDepths w r) := by
  unfold columnGetLabelCount
  refine safe_weaken (safe_runStatementsGen w r (fun _ => True) (fun row => row.length = 1)
    _ _ _ _ (fun db => step_selectLabelCount_rows _ db) trivial ?_)
    (fun _ h => h) (fun _ _ h => h.1)
  intro i row s hrow _
  exact safe_bind (safe_cAssert _ (by simp [hrow]))
    (fun _ => safe_pure _ (fun _ h => ⟨h, trivial⟩))

theorem safe_labelsLoad (columnId : Int) (labels : List Label) (r : Nat) :
    M.Safe (AtDepths 0 r) (labelsLoad cv columnId labels) (fun _ => AtDepths 0 r) := by
  unfold labelsLoad
  refine safe_bind (safe_transactionReadBegin r) (fun _ => ?_)
  refine safe_bind (safe_columnGetLabelCount cv _ _ _) (fun labelsSize => ?_)
  refine safe_bind (safe_weaken (safe_runStatementsGen 0 (r + 1) (fun _ => True)
    (fun row => row.length = 7) _ _ _ _ (fun db => step_selectLabels_rows _ db) trivial ?_)
    (fun _ h => h) (fun _ _ h => h.1)) (fun out => ?_)
  · intro i row s hrow _
    exact safe_bind (safe_cAssert _ (by simp [hrow]))
      (fun _ => safe_pure _ (fun _ h => ⟨h, trivial⟩))
  · exact safe_bind (safe_transactionReadEnd 0 r) (fun _ => safe_done _)

end SafeReads

theorem Upgrade.runStatements_depths (sql : Upgrade.Sql) (s s' : Upgrade.Store)
    (h : Upgrade.runStatements sql s = .ok s') :
    s'.transactionWriteDepth = s.transactionWriteDepth
      ∧ s'.transactionReadDepth = s.transactionReadDepth := by
  unfold Upgrade.runStatements at h
  cases sql with
  | beginExclusive =>
    simp only [Except.ok.injEq] at h
    subst h
    exact ⟨rfl, rfl⟩
  | commit =>
    simp only [Except.ok.injEq] at h
    subst h
    exact ⟨rfl, rfl⟩
  | addColumn table column =>
    simp only at h
    split at h
    · simp at h
    · split at h
      · simp at h
      · simp only [Except.ok.injEq] at h
        subst h
        exact ⟨rfl, rfl⟩
  | dropColumn table column =>
    simp only at h
    split at h
    · simp at h
    · split at h
      · simp only [Except.ok.injEq] at h
        subst h
        exact ⟨rfl, rfl⟩
      · simp at h

theorem Upgrade.runStatements_no_assertion (sql : Upgrade.Sql) (s : Upgrade.Store) :
    Upgrade.runStatements sql s ≠ .error Upgrade.Raised.assertion := by
  unfold Upgrade.runStatements
  cases sql with
  | beginExclusive => simp
  | commit => simp
  | addColumn table column =>
    simp only
    split
    · simp
    · split <;> simp
  | dropColumn table column =>
    simp only
    split
    · simp
    · split <;> simp

theorem Upgrade.runStatements_inside (sql : Upgrade.Sql) :
    Upgrade.Inside (Upgrade.runStatements sql) :=
  fun s => ⟨Upgrade.runStatements_no_assertion sql s,
    fun s' h => (Upgrade.runStatements_depths sql s s' h).1⟩

theorem Upgrade.when_inside (c : Bool) (step : Upgrade.Store → Except Upgrade.Raised Upgrade.Store)
    (h : Upgrade.Inside step) : Upgrade.Inside (Upgrade.when_ c step) := by
  intro s
  unfold Upgrade.when_
  cases c with
  | true => exact h s
  | false =>
    refine ⟨by simp, fun s' h' => ?_⟩
    simp only [Bool.false_eq_true, if_false, Except.ok.injEq] at h'
    rw [← h']

theorem Upgrade.inside_at (step : Upgrade.Store → Except Upgrade.Raised Upgrade.Store)
    (h : Upgrade.Inside step) (s : Upgrade.Store) (d : Nat) (hd : s.transactionWriteDepth = d) :
    step s ≠ .error Upgrade.Raised.assertion ∧
      ∀ s', step s = .ok s' → s'.transactionWriteDepth = d :=
  ⟨(h s).1, fun s' h' => ((h s).2 s' h').trans hd⟩

theorem Upgrade.bind_inside (x : Except Upgrade.Raised Upgrade.Store)
    (k : Upgrade.Store → Except Upgrade.Raised Upgrade.Store) (d e : Nat)
    (hx : x ≠ .error Upgrade.Raised.assertion ∧ ∀ s', x = .ok s' → s'.transactionWriteDepth = d)
    (hk : ∀ s, s.transactionWriteDepth = d →
      k s ≠ .error Upgrade.Raised.assertion ∧ ∀ s', k s = .ok s' → s'.transactionWriteDepth = e) :
    (x >>= k) ≠ .error Upgrade.Raised.assertion ∧
      ∀ s', (x >>= k) = .ok s' → s'.transactionWriteDepth = e := by
  cases x with
  | error err =>
    refine ⟨fun h => hx.1 h, fun s' h => ?_⟩
    cases h
  | ok s => exact hk s (hx.2 s rfl)

theorem Upgrade.transactionWriteBegin_safe (s : Upgrade.Store)
    (hr : s.transactionReadDepth = 0) :
    Upgrade.transactionWriteBegin s ≠ .error Upgrade.Raised.assertion ∧
      ∀ s', Upgrade.transactionWriteBegin s = .ok s' →
        s'.transactionWriteDepth = s.transactionWriteDepth + 1 := by
  unfold Upgrade.transactionWriteBegin
  rw [if_neg (by simp [hr])]
  simp only
  split
  · exact Upgrade.inside_at _ (Upgrade.runStatements_inside _) _ _ rfl
  · refine ⟨by simp, fun s' h => ?_⟩
    simp only [Except.ok.injEq] at h
    rw [← h]

theorem Upgrade.transactionWriteEnd_safe (s : Upgrade.Store) (d : Nat)
    (hd : s.transactionWriteDepth = d + 1) :
    Upgrade.transactionWriteEnd s ≠ .error Upgrade.Raised.assertion ∧
      ∀ s', Upgrade.transactionWriteEnd s = .ok s' → s'.transactionWriteDepth = d := by
  unfold Upgrade.transactionWriteEnd
  rw [if_neg (by simp [hd])]
  simp only
  split
  · exact Upgrade.inside_at _ (Upgrade.runStatements_inside _) _ _ (by simp [hd])
  · refine ⟨by simp, fun s' h => ?_⟩
    simp only [Except.ok.injEq] at h
    rw [← h]
    simp [hd]

/-- From read depth 0, `upgradeDBFromVersion` fails no assertion, and when it
returns the write depth is what it was. -/
theorem Upgrade.upgradeDBFromVersion_safe (originalVersion : Upgrade.Version)
    (s : Upgrade.Store) (hr : s.transactionReadDepth = 0) :
    Upgrade.upgradeDBFromVersion originalVersion s ≠ .error Upgrade.Raised.assertion ∧
    ∀ s', Upgrade.upgradeDBFromVersion originalVersion s = .ok s' →
      s'.transactionWriteDepth = s.transactionWriteDepth := by
  have hrun := Upgrade.runStatements_inside
  have hwhen := Upgrade.when_inside
  unfold Upgrade.upgradeDBFromVersion
  refine Upgrade.bind_inside _ _ (s.transactionWriteDepth + 1) _
    (Upgrade.transactionWriteBegin_safe s hr) (fun s1 h1 => ?_)
  refine Upgrade.bind_inside _ _ (s.transactionWriteDepth + 1) _
    (Upgrade.inside_at _ (hwhen _ _ (hrun _)) s1 _ h1) (fun s2 h2 => ?_)
  refine Upgrade.bind_inside _ _ (s.transactionWriteDepth + 1) _
    (Upgrade.inside_at _ (hwhen _ _ (hrun _)) s2 _ h2) (fun s3 h3 => ?_)
  refine Upgrade.bind_inside _ _ (s.transactionWriteDepth + 1) _
    (Upgrade.inside_at _ (hwhen _ _ ?_) s3 _ h3) (fun s4 h4 => ?_)
  · intro t
    refine Upgrade.bind_inside _ _ t.transactionWriteDepth _
      (Upgrade.inside_at _ (hwhen _ _ (hrun _)) t _ rfl) (fun t1 g1 => ?_)
    refine Upgrade.bind_inside _ _ t.transactionWriteDepth _
      (Upgrade.inside_at _ (hwhen _ _ (hrun _)) t1 _ g1) (fun t2 g2 => ?_)
    refine Upgrade.bind_inside _ _ t.transactionWriteDepth _
      (Upgrade.inside_at _ (hwhen _ _ (hrun _)) t2 _ g2) (fun t3 g3 => ?_)
    exact Upgrade.inside_at _ (hwhen _ _ (hrun _)) t3 _ g3
  refine Upgrade.bind_inside _ _ (s.transactionWriteDepth + 1) _
    (Upgrade.inside_at _ (hwhen _ _ ?_) s4 _ h4) (fun s5 h5 => ?_)
  · intro t
    exact Upgrade.inside_at _ (hwhen _ _ (hrun _)) t _ rfl
  refine Upgrade.bind_inside _ _ (s.transactionWriteDepth + 1) _
    (Upgrade.inside_at _ (hwhen _ _ (hrun _)) s5 _ h5) (fun s6 h6 => ?_)
  exact Upgrade.transactionWriteEnd_safe s6 _ h6

/-- C18: from a state in which the write depth and the read depth are not both
positive (as from depths 0 and 0), every sequence of transaction begin and end
calls, run until it ends or a call raises, reaches a state in which they are not
both positive.  A call of `transactionWriteBegin` while a read transaction is open
fails its assertion, and so does a call of `transactionReadBegin` while a write
transaction is open.  Every operation that opens a read transaction (`filterSelect`,
`columnGetValues`, `dataSetBatchedValuesLoad`, `labelsLoad`), run from write depth 0
at any read depth, fails no assertion and, when it returns, has left both depths as
they were: it closes its read transaction and calls no `transactionWriteBegin` in
between.  Every operation that opens a write transaction (`dataSetSetRowCount`,
`dataSetIncRevision`, `filterIncRevision`, `columnIncRevision`, `filterWrite`,
`columnInsert`, `columnDelete`, `columnSetValues`, `dataSetBatchedValuesUpdate`,
`dataSetInsert`, `dataSetDelete`, `filterDelete`, `filterInsert`, `labelsSetOrder`,
`labelSetOrder`, `labelsWrite`, `create` and `upgradeDBFromVersion`), run from read
depth 0 at any write depth, fails no assertion and, when it returns, has left both
depths as they were: it closes its write transaction and calls no
`transactionReadBegin` in between. -/
theorem transactions_mutually_exclusive (cs : List TransactionCall) (db : Db)
    (h : Exclusive db) :
    Exclusive (runCalls cs db).2
    ∧ (∀ db' : Db, 0 < db'.transactionReadDepth →
        transactionWriteBegin db' = (.error Err.assertion, db'))
    ∧ (∀ db' : Db, 0 < db'.transactionWriteDepth →
        transactionReadBegin db' = (.error Err.assertion, db'))
    ∧ (∀ (cv : SqliteConv) (r : Nat),
        (∀ filterIndex bools,
          M.Safe (AtDepths 0 r) (filterSelect cv filterIndex bools) (fun _ => AtDepths 0 r))
        ∧ (∀ columnId ints dbls,
          M.Safe (AtDepths 0 r) (columnGetValues cv columnId ints dbls) (fun _ => AtDepths 0 r))
        ∧ (∀ data,
          M.Safe (AtDepths 0 r) (dataSetBatchedValuesLoad cv data) (fun _ => AtDepths 0 r))
        ∧ (∀ columnId labels,
          M.Safe (AtDepths 0 r) (labelsLoad cv columnId labels) (fun _ => AtDepths 0 r)))
    ∧ (∀ (cv : SqliteConv) (w : Nat),
        (∀ dataSetId rowCount,
          M.Safe (AtDepths w 0) (dataSetSetRowCount cv dataSetId rowCount)
            (fun _ => AtDepths w 0))
        ∧ (∀ dataSetId,
          M.Safe (AtDepths w 0) (dataSetIncRevision cv dataSetId) (fun _ => AtDepths w 0))
        ∧ (∀ filterIndex,
          M.Safe (AtDepths w 0) (filterIncRevision cv filterIndex) (fun _ => AtDepths w 0))
        ∧ (∀ columnId,
          M.Safe (AtDepths w 0) (columnIncRevision cv columnId) (fun _ => AtDepths w 0))
        ∧ (∀ filterIndex values,
          M.Safe (AtDepths w 0) (filterWrite cv filterIndex values) (fun _ => AtDepths w 0))
        ∧ (∀ dataSetId index name colType alterTable,
          M.Safe (AtDepths w 0) (columnInsert cv dataSetId index name colType alterTable)
            (fun _ => AtDepths w 0))
        ∧ (∀ columnId cleanUpRest,
          M.Safe (AtDepths w 0) (columnDelete cv columnId cleanUpRest) (fun _ => AtDepths w 0))
        ∧ (∀ columnId ints dbls,
          M.Safe (AtDepths w 0) (columnSetValues cv columnId ints dbls) (fun _ => AtDepths w 0))
        ∧ (∀ data columns,
          M.Safe (AtDepths w 0) (dataSetBatchedValuesUpdate data columns)
            (fun _ => AtDepths w 0))
        ∧ (∀ dataFilePath dataFileTimestamp description databaseJson emptyValuesJson dataSynch,
          M.Safe (AtDepths w 0)
            (dataSetInsert cv dataFilePath dataFileTimestamp description databaseJson
              emptyValuesJson dataSynch) (fun _ => AtDepths w 0))
        ∧ (∀ dataSetId,
          M.Safe (AtDepths w 0) (dataSetDelete dataSetId) (fun _ => AtDepths w 0))
        ∧ (∀ filterIndex,
          M.Safe (AtDepths w 0) (filterDelete cv filterIndex) (fun _ => AtDepths w 0))
        ∧ (∀ dataSetId rFilter generatedFilter constructorJson constructorR name,
          M.Safe (AtDepths w 0)
            (filterInsert cv dataSetId rFilter generatedFilter constructorJson constructorR name)
            (fun _ => AtDepths w 0))
        ∧ (∀ orderPerDbId,
          M.Safe (AtDepths w 0) (labelsSetOrder orderPerDbId) (fun _ => AtDepths w 0))
        ∧ (∀ id order,
          M.Safe (AtDepths w 0) (labelSetOrder id order) (fun _ => AtDepths w 0))
        ∧ (∀ columnId labels,
          M.Safe (AtDepths w 0) (labelsWrite cv columnId labels) (fun _ => AtDepths w 0))
        ∧ (∀ opened,
          M.Safe (AtDepths w 0) (create false opened) (fun _ => AtDepths w 0)))
    ∧ (∀ (originalVersion : Upgrade.Version) (s : Upgrade.Store),
        s.transactionReadDepth = 0 →
        Upgrade.upgradeDBFromVersion originalVersion s ≠ .error Upgrade.Raised.assertion ∧
        ∀ s', Upgrade.upgradeDBFromVersion originalVersion s = .ok s' →
          s'.transactionWriteDepth = s.transactionWriteDepth) := by
  refine ⟨runCalls_keeps_exclusive cs db h, ?_, ?_, ?_, ?_, ?_⟩
  · intro db' hr
    have hne : db'.transactionReadDepth ≠ 0 := by omega
    simp [transactionWriteBegin, M.bind_run, M.get, cAssert, hne, M.raise]
  · intro db' hw
    have hne : db'.transactionWriteDepth ≠ 0 := by omega
    simp [transactionReadBegin, M.bind_run, M.get, cAssert, hne, M.raise]
  · intro cv r
    exact ⟨fun a b => safe_filterSelect cv a b r, fun a b c => safe_columnGetValues cv a b c r,
      fun a => safe_dataSetBatchedValuesLoad cv a r, fun a b => safe_labelsLoad cv a b r⟩
  · intro cv w
    exact ⟨fun a b => safe_dataSetSetRowCount cv a b w, fun a => safe_dataSetIncRevision cv a w,
      fun a => safe_filterIncRevision cv a w, fun a => safe_columnIncRevision cv a w,
      fun a b => safe_filterWrite cv a b w, fun a b c d e => safe_columnInsert cv a b c d e w,
      fun a b => safe_columnDelete cv a b w, fun a b c => safe_columnSetValues cv a b c w,
      fun a b => safe_dataSetBatchedValuesUpdate a b w,
      fun a b c d e f => safe_dataSetInsert cv a b c d e f w,
      fun a => safe_dataSetDelete a w, fun a => safe_filterDelete cv a w,
      fun a b c d e f => safe_filterInsert cv a b c d e f w,
      fun a => safe_labelsSetOrder a w, fun a b => safe_labelSetOrder a b w,
      fun a b => safe_labelsWrite cv a b w, fun a => safe_create a w⟩
  · intro v s hr
    exact Upgrade.upgradeDBFromVersion_safe v s hr

/-- C18 at `sampleStore`: a write begin inside a read transaction leaves the depths
exclusive; reading the values of column 7 and writing two values to it fail no
assertion and leave both depths at 0. -/
theorem transactions_mutually_exclusive_witness :
    Exclusive (runCalls [TransactionCall.readBegin, TransactionCall.writeBegin,
        TransactionCall.readEnd] sampleStore).2
    ∧ ((columnGetValues sampleConv 7 [] [Dbl.zero, Dbl.zero] sampleStore).1
          ≠ .error Err.assertion
        ∧ ∀ a, (columnGetValues sampleConv 7 [] [Dbl.zero, Dbl.zero] sampleStore).1 = .ok a →
          AtDepths 0 0 (columnGetValues sampleConv 7 [] [Dbl.zero, Dbl.zero] sampleStore).2)
    ∧ ((columnSetValues sampleConv 7 [3, -1] [Dbl.one, Dbl.zero] sampleStore).1
          ≠ .error Err.assertion
        ∧ ∀ a, (columnSetValues sampleConv 7 [3, -1] [Dbl.one, Dbl.zero] sampleStore).1 = .ok a →
          AtDepths 0 0 (columnSetValues sampleConv 7 [3, -1] [Dbl.one, Dbl.zero] sampleStore).2) :=
  have h := transactions_mutually_exclusive [TransactionCall.readBegin,
    TransactionCall.writeBegin, TransactionCall.readEnd] sampleStore (by decide)
  ⟨h.1, (h.2.2.2.1 sampleConv 0).2.1 7 [] [Dbl.zero, Dbl.zero] sampleStore ⟨rfl, rfl⟩,
    (h.2.2.2.2.1 sampleConv 0).2.2.2.2.2.2.2.1 7 [3, -1] [Dbl.one, Dbl.zero] sampleStore
      ⟨rfl, rfl⟩⟩
end Jasp
